import Mathlib

/-! # Scheduler core: window-based demand tracking, wakeup, pick-next, placement

A shallow embedding of parts of `kernel/sched/core.c`.  C objects become
structures, functions that mutate them become functions returning the new
objects, machine integers are natural numbers reduced modulo `2^32` or
`2^64` where the C type wraps, and a path that runs into `BUG()` or an
out-of-bounds access returns `none`.  Division follows C only for a non-zero
divisor (C traps on zero); the theorems assume the divisors are non-zero.
-/

namespace Sched

/-! ## Machine integers -/

/-- Reduction to an `unsigned int` / `u32`. -/
@[irreducible]
def wrap32 (x : Nat) : Nat := x % 4294967296

/-- Reduction to a `u64`. -/
@[irreducible]
def wrap64 (x : Nat) : Nat := x % 18446744073709551616

/-- The `u32` difference `a - b`, wrapping below zero. -/
@[irreducible]
def sub32 (a b : Nat) : Nat :=
  if wrap32 b ≤ wrap32 a then wrap32 a - wrap32 b
  else wrap32 a + 4294967296 - wrap32 b

/-- The `u64` difference `a - b`, wrapping below zero. -/
@[irreducible]
def sub64 (a b : Nat) : Nat :=
  if wrap64 b ≤ wrap64 a then wrap64 a - wrap64 b
  else wrap64 a + 18446744073709551616 - wrap64 b

/-- Conversion of a `u64` or `u32` value to `int` (two's complement, low 32 bits). -/
@[irreducible]
def toInt32 (x : Nat) : Int :=
  if x % 4294967296 < 2147483648 then ((x % 4294967296 : Nat) : Int)
  else ((x % 4294967296 : Nat) : Int) - 4294967296

/-- Conversion of an `int` to `u64` (sign extension). -/
@[irreducible]
def intToU64 (i : Int) : Nat := (i % 18446744073709551616).toNat

/-! ## Data model -/

/-- Events passed to the window accounting code (`enum task_event`). -/
inductive TaskEvent where
  | PUT_PREV_TASK
  | PICK_NEXT_TASK
  | TASK_WAKE
  | TASK_MIGRATE
  | TASK_UPDATE
  | IRQ_UPDATE
  deriving DecidableEq, Repr

/-- The window statistics policies compared against `sched_window_stats_policy`. -/
inductive WindowStatsPolicy where
  | WINDOW_STATS_RECENT
  | WINDOW_STATS_MAX
  | WINDOW_STATS_MAX_RECENT_AVG
  | WINDOW_STATS_AVG
  deriving DecidableEq, Repr

/-- The per-task window record, `struct ravg`. `sum_history` is the array
`u32 sum_history[RAVG_HIST_SIZE_MAX]`. -/
structure Ravg where
  mark_start : Nat := 0
  sum : Nat := 0
  demand : Nat := 0
  sum_history : List Nat := [0, 0, 0, 0, 0]
  curr_window : Nat := 0
  prev_window : Nat := 0
  active_windows : Nat := 0
  deriving DecidableEq, Repr

/-- The fields of `struct task_struct` read or written by the modelled code. -/
structure Task where
  pid : Nat := 0
  /-- Result of `is_idle_task(p)`. -/
  is_idle : Bool := false
  state : Nat := 0
  on_rq : Nat := 0
  on_cpu : Nat := 0
  cpu : Nat := 0
  wake_cpu : Nat := 0
  /-- Result of `task_has_dl_policy(p)`. -/
  has_dl_policy : Bool := false
  dl_throttled : Bool := false
  sched_contributes_to_load : Bool := false
  last_wake_ts : Nat := 0
  cpus_allowed : List Nat := []
  nr_cpus_allowed : Nat := 0
  /-- Whether `p->mm` is non-null. -/
  mm : Bool := false
  nr_migrations : Nat := 0
  /-- Whether `p->sched_class == &fair_sched_class`. -/
  fair_class : Bool := true
  ravg : Ravg := {}
  /-- The counters of voluntary and involuntary context switches. -/
  nvcsw : Nat := 0
  nivcsw : Nat := 0
  last_switch_out_ts : Nat := 0
  /-- The group `p->grp` points at, by its address; `none` for a null pointer. -/
  grp : Option Nat := none
  /-- Whether `p->flags & PF_EXITING` is set. -/
  pf_exiting : Bool := false
  deriving DecidableEq, Repr

/-- The per-queue `struct hmp_sched_stats`, written only by the class hooks. -/
structure HmpStats where
  nr_big_tasks : Int := 0
  cumulative_runnable_avg : Nat := 0
  deriving DecidableEq, Repr

/-- The fields of `struct rq` read or written by the modelled code.  `queue`
lists the pids held by the scheduling classes of this queue, `wake_list` the
pids on the remote wake list. -/
structure Rq where
  cpu : Nat := 0
  curr : Nat := 0
  window_start : Nat := 0
  curr_runnable_sum : Nat := 0
  prev_runnable_sum : Nat := 0
  nt_curr_runnable_sum : Nat := 0
  nt_prev_runnable_sum : Nat := 0
  old_busy_time : Nat := 0
  notifier_sent : Nat := 0
  ed_task : Option Nat := none
  nr_iowait : Nat := 0
  nr_uninterruptible : Int := 0
  nr_running : Nat := 0
  /-- The counter `rq->cfs.h_nr_running`. -/
  cfs_h_nr_running : Nat := 0
  hmp_stats : HmpStats := {}
  queue : List Nat := []
  wake_list : List Nat := []
  nr_switches : Nat := 0
  /-- The pids on the list `rq->cfs_tasks`, first entry first. -/
  cfs_tasks : List Nat := []
  deriving DecidableEq, Repr

/-- File-scope tunables and system-wide maxima of the window accounting code. -/
structure Globals where
  sched_ravg_window : Nat := 10000000
  sched_ravg_hist_size : Nat := 5
  sched_window_stats_policy : WindowStatsPolicy := WindowStatsPolicy.WINDOW_STATS_MAX_RECENT_AVG
  sched_account_wait_time : Nat := 1
  sched_freq_account_wait_time : Nat := 0
  sched_io_is_busy : Nat := 0
  sched_heavy_task : Nat := 0
  sysctl_sched_new_task_windows : Nat := 5
  max_possible_freq : Nat := 1
  max_possible_efficiency : Nat := 1
  sched_use_pelt : Bool := false
  sched_disable_window_stats : Bool := false
  sched_enable_hmp : Bool := false
  sched_migration_fixup : Bool := false
  /-- The value `cpu_cur_freq(cpu)` reads from the cluster of `cpu`. -/
  cpu_cur_freq : Nat → Nat := fun _ => 1
  /-- The value `cpu_efficiency(cpu)` reads from the cluster of `cpu`. -/
  cpu_efficiency : Nat → Nat := fun _ => 1
  sysctl_sched_freq_inc_notify : Int := 10485760
  sysctl_sched_freq_dec_notify : Int := 10485760
  /-- The header function `scale_load_to_cpu(load, cpu)`. -/
  scale_load_to_cpu : Nat → Nat → Nat := fun load _ => load
  /-- The header function `max_task_load()`. -/
  max_task_load : Nat := 10000000
  /-- The value `cpu_max_possible_freq(cpu)` reads from the cluster of `cpu`. -/
  cpu_max_possible_freq : Nat → Nat := fun _ => 1
  sysctl_early_detection_duration : Nat := 9500000
  /-- The value the header function `sched_boost()` returns, as a truth value. -/
  sched_boost : Bool := false

/-- The marker `EXITING_TASK_MARKER` (`0xdeaddead`). -/
def EXITING_TASK_MARKER : Nat := 3735936685

/-- The length `RAVG_HIST_SIZE_MAX` of `sum_history`. -/
def RAVG_HIST_SIZE_MAX : Nat := 5

/-- The value `TASK_ON_RQ_QUEUED` of `p->on_rq`. -/
def TASK_ON_RQ_QUEUED : Nat := 1

/-- The value `TASK_ON_RQ_MIGRATING` of `p->on_rq`. -/
def TASK_ON_RQ_MIGRATING : Nat := 2

def task_on_rq_queued (p : Task) : Bool := p.on_rq == TASK_ON_RQ_QUEUED

def exiting_task (p : Task) : Bool :=
  p.ravg.sum_history.head? == some EXITING_TASK_MARKER

def is_idle_task (p : Task) : Bool := p.is_idle

/-! ## Window accounting -/

/-- Source `scale_exec_time`: the elapsed time scaled by the frequency ratio
(rounded up) and then by the efficiency ratio in base-1024 fixed point. -/
def scale_exec_time (g : Globals) (delta : Nat) (rq : Rq) : Nat :=
  let cur_freq := if g.cpu_cur_freq rq.cpu > g.max_possible_freq then g.max_possible_freq
                  else g.cpu_cur_freq rq.cpu
  let delta := sub64 (wrap64 (delta * cur_freq + g.max_possible_freq)) 1
                 / g.max_possible_freq
  let sf := toInt32 (sub32 (wrap32 (g.cpu_efficiency rq.cpu * 1024 + g.max_possible_efficiency)) 1
                 / g.max_possible_efficiency)
  let delta := wrap64 (delta * intToU64 sf)
  delta / 1024

def account_busy_for_task_demand (g : Globals) (p : Task) (event : TaskEvent) : Bool :=
  if exiting_task p || is_idle_task p then false
  else if event == TaskEvent.TASK_WAKE ||
      (g.sched_account_wait_time == 0 &&
        (event == TaskEvent.PICK_NEXT_TASK || event == TaskEvent.TASK_MIGRATE)) then false
  else true

/-- Running state of the two loops of `update_history`: the array, `sum`, `max`. -/
structure HistAcc where
  hist : List Nat
  sum : Nat
  max : Nat
  deriving DecidableEq, Repr

/-- First loop of `update_history`:
`for (; ridx >= 0; --widx, --ridx) { hist[widx] = hist[ridx]; ... }`,
with `n = ridx + 1` iterations left.  An access outside the array gives `none`. -/
def hist_shift_loop : Nat → Int → HistAcc → Option HistAcc
  | 0, _, acc => some acc
  | ridx + 1, widx, acc =>
    match acc.hist[ridx]? with
    | none => none
    | some v =>
      if 0 ≤ widx ∧ widx.toNat < acc.hist.length then
        hist_shift_loop ridx (widx - 1)
          { hist := acc.hist.set widx.toNat v
            sum := acc.sum + v
            max := if v > acc.max then v else acc.max }
      else none

/-- Second loop of `update_history`:
`for (widx = 0; widx < samples && widx < sched_ravg_hist_size; widx++)`,
run for the `n` indices from `widx` on. -/
def hist_fill_loop (runtime : Nat) : Nat → Nat → HistAcc → Option HistAcc
  | 0, _, acc => some acc
  | n + 1, widx, acc =>
    if widx < acc.hist.length then
      hist_fill_loop runtime n (widx + 1)
        { hist := acc.hist.set widx runtime
          sum := acc.sum + runtime
          max := if runtime > acc.max then runtime else acc.max }
    else none

/-- Class hook `p->sched_class->fixup_hmp_sched_stats(rq, p, demand)`; the
classes are outside this file, so the hook is a parameter of the model.  It
yields the new `rq->hmp_stats`, the only part of the queue it writes. -/
abbrev FixupHook := Rq → Task → Nat → HmpStats

/-- The two loops of `update_history` in sequence, from `widx =
sched_ravg_hist_size - 1`, `ridx = widx - samples`, `sum = 0`, `max = 0`. -/
def hist_fold (hist_size : Nat) (hist : List Nat) (runtime : Nat) (samples : Int) :
    Option HistAcc :=
  let widx : Int := toInt32 (sub32 hist_size 1)
  let ridx : Int := widx - samples
  match hist_shift_loop (ridx + 1).toNat widx { hist := hist, sum := 0, max := 0 } with
  | none => none
  | some acc1 =>
    hist_fill_loop runtime (if samples < 0 then 0 else min samples.toNat hist_size) 0 acc1

/-- The tail of `update_history` after the loops: `p->ravg.sum = 0`, the demand
selected by `sched_window_stats_policy`, the class hook, `p->ravg.demand`. -/
def update_history_commit (g : Globals) (fixup : FixupHook) (rq : Rq) (p : Task)
    (runtime : Nat) (acc : HistAcc) : Task × Rq :=
  let demand :=
    match g.sched_window_stats_policy with
    | WindowStatsPolicy.WINDOW_STATS_RECENT => runtime
    | WindowStatsPolicy.WINDOW_STATS_MAX => acc.max
    | WindowStatsPolicy.WINDOW_STATS_AVG => wrap32 (acc.sum / g.sched_ravg_hist_size)
    | WindowStatsPolicy.WINDOW_STATS_MAX_RECENT_AVG =>
        max (wrap32 (acc.sum / g.sched_ravg_hist_size)) runtime
  let rq1 :=
    if task_on_rq_queued p && (!p.has_dl_policy || !p.dl_throttled) then
      { rq with hmp_stats := fixup rq p demand }
    else rq
  ({ p with ravg := { p.ravg with sum_history := acc.hist, sum := 0, demand := demand } }, rq1)

/-- Source `update_history`. `runtime` is a `u32`, `samples` an `int`. -/
def update_history (g : Globals) (fixup : FixupHook) (rq : Rq) (p : Task)
    (runtime : Nat) (samples : Int) : Option (Task × Rq) :=
  if runtime == 0 || is_idle_task p || exiting_task p || samples == 0 then some (p, rq)
  else
    match hist_fold g.sched_ravg_hist_size p.ravg.sum_history runtime samples with
    | none => none
    | some acc => some (update_history_commit g fixup rq p runtime acc)

/-- Source `add_to_task_demand`. -/
def add_to_task_demand (g : Globals) (rq : Rq) (p : Task) (delta : Nat) : Task :=
  let delta := scale_exec_time g delta rq
  let sum := wrap32 (p.ravg.sum + delta)
  let sum := if sum > g.sched_ravg_window then g.sched_ravg_window else sum
  { p with ravg := { p.ravg with sum := sum } }

/-- Source `update_task_demand`. -/
def update_task_demand (g : Globals) (fixup : FixupHook) (p : Task) (rq : Rq)
    (event : TaskEvent) (wallclock : Nat) : Option (Task × Rq) :=
  let mark_start := p.ravg.mark_start
  let window_start := rq.window_start
  let window_size := g.sched_ravg_window
  let new_window := decide (mark_start < window_start)
  if !account_busy_for_task_demand g p event then
    if new_window then update_history g fixup rq p p.ravg.sum 1
    else some (p, rq)
  else if !new_window then
    some (add_to_task_demand g rq p (sub64 wallclock mark_start), rq)
  else
    let delta := sub64 window_start mark_start
    let nr_full_windows : Int := toInt32 (delta / window_size)
    let window_start1 := sub64 window_start (wrap64 (intToU64 nr_full_windows * window_size))
    let p1 := add_to_task_demand g rq p (sub64 window_start1 mark_start)
    match update_history g fixup rq p1 p1.ravg.sum 1 with
    | none => none
    | some (p2, rq2) =>
      let r3 :=
        if nr_full_windows != 0 then
          update_history g fixup rq2 p2 (wrap32 (scale_exec_time g window_size rq2))
            nr_full_windows
        else some (p2, rq2)
      match r3 with
      | none => none
      | some (p3, rq3) =>
        let window_start2 :=
          wrap64 (window_start1 + wrap64 (intToU64 nr_full_windows * window_size))
        let mark_start1 := window_start2
        some (add_to_task_demand g rq3 p3 (sub64 wallclock mark_start1), rq3)

/-- The limit `USHRT_MAX` of the `u16` field `active_windows`. -/
def USHRT_MAX : Nat := 65535

/-- Source `update_window_start`.  `delta` is an `s64`, `nr_windows` an `int`;
`BUG_ON(delta < 0)` gives `none`. -/
def update_window_start (g : Globals) (rq : Rq) (wallclock : Nat) : Option Rq :=
  let delta := sub64 wallclock rq.window_start
  if 9223372036854775808 ≤ delta then none
  else if delta < g.sched_ravg_window then some rq
  else
    let nr_windows : Int := toInt32 (delta / g.sched_ravg_window)
    let advance := wrap64 (intToU64 nr_windows * g.sched_ravg_window)
    some { rq with window_start := wrap64 (rq.window_start + advance) }

def cpu_is_waiting_on_io (g : Globals) (rq : Rq) : Nat :=
  if g.sched_io_is_busy == 0 then 0 else rq.nr_iowait

def account_busy_for_cpu_time (g : Globals) (rq : Rq) (p : Task) (irqtime : Nat)
    (event : TaskEvent) : Bool :=
  if is_idle_task p then
    if event == TaskEvent.PICK_NEXT_TASK then false
    else irqtime != 0 || cpu_is_waiting_on_io g rq != 0
  else if event == TaskEvent.TASK_WAKE then false
  else if event == TaskEvent.PUT_PREV_TASK || event == TaskEvent.IRQ_UPDATE ||
      event == TaskEvent.TASK_UPDATE then true
  else g.sched_freq_account_wait_time != 0

def heavy_task_wakeup (g : Globals) (p : Task) (rq : Rq) (event : TaskEvent) : Bool :=
  let task_demand := p.ravg.demand
  if g.sched_heavy_task == 0 || event != TaskEvent.TASK_WAKE ||
      decide (task_demand < g.sched_heavy_task) || exiting_task p then false
  else if p.ravg.mark_start > rq.window_start then false
  else decide (sub64 rq.window_start p.ravg.mark_start > g.sched_ravg_window)

def is_new_task (g : Globals) (p : Task) : Bool :=
  decide (p.ravg.active_windows < g.sysctl_sched_new_task_windows)

/-- The head of `update_cpu_busy_time`: on a new window the active-window
count goes up, saturating at `USHRT_MAX`. -/
def count_active_window (p : Task) (new_window : Bool) : Task :=
  if new_window && decide (p.ravg.active_windows < USHRT_MAX) then
    { p with ravg := { p.ravg with active_windows := p.ravg.active_windows + 1 } }
  else p

/-- The roll-over in `update_cpu_busy_time` of the task's `curr_window` into
`prev_window` on a new window. -/
def roll_task_windows (p : Task) (new_window : Bool) (nr_full_windows : Int) : Task :=
  if new_window && !is_idle_task p && !exiting_task p then
    let curr_window := if nr_full_windows == 0 then p.ravg.curr_window else 0
    { p with ravg := { p.ravg with prev_window := curr_window, curr_window := 0 } }
  else p

/-- The block of `update_cpu_busy_time` under
`if (!account_busy_for_cpu_time(rq, p, irqtime, event))`. -/
def busy_time_not_accounted (g : Globals) (p : Task) (rq : Rq) (event : TaskEvent)
    (new_window p_is_curr_task new_task : Bool) (nr_full_windows : Int) : Task × Rq :=
  if !new_window then (p, rq)
  else if p_is_curr_task then
    let prev_sum := if nr_full_windows == 0 then rq.curr_runnable_sum else 0
    let nt_prev_sum := if nr_full_windows == 0 then rq.nt_curr_runnable_sum else 0
    (p, { rq with prev_runnable_sum := prev_sum, curr_runnable_sum := 0,
                  nt_prev_runnable_sum := nt_prev_sum, nt_curr_runnable_sum := 0 })
  else if heavy_task_wakeup g p rq event then
    ({ p with ravg := { p.ravg with prev_window := p.ravg.demand } },
     { rq with
       prev_runnable_sum := wrap64 (rq.prev_runnable_sum + p.ravg.demand),
       nt_prev_runnable_sum :=
         if new_task then wrap64 (rq.nt_prev_runnable_sum + p.ravg.demand)
         else rq.nt_prev_runnable_sum })
  else (p, rq)

/-- The block of `update_cpu_busy_time` under `if (!new_window)`. -/
def busy_time_same_window (g : Globals) (p : Task) (rq : Rq) (wallclock irqtime : Nat)
    (mark_start : Nat) (new_task : Bool) : Task × Rq :=
  let delta :=
    if irqtime == 0 || !is_idle_task p || cpu_is_waiting_on_io g rq != 0 then
      sub64 wallclock mark_start
    else irqtime
  let delta := scale_exec_time g delta rq
  ((if !is_idle_task p && !exiting_task p then
      { p with ravg := { p.ravg with curr_window := wrap32 (p.ravg.curr_window + delta) } }
    else p),
   { rq with
     curr_runnable_sum := wrap64 (rq.curr_runnable_sum + delta),
     nt_curr_runnable_sum :=
       if new_task then wrap64 (rq.nt_curr_runnable_sum + delta)
       else rq.nt_curr_runnable_sum })

/-- The block of `update_cpu_busy_time` under `if (!p_is_curr_task)`. -/
def busy_time_not_curr (g : Globals) (p : Task) (rq : Rq) (wallclock : Nat)
    (mark_start window_start : Nat) (new_task : Bool) (nr_full_windows : Int) : Task × Rq :=
  let delta1 :=
    if nr_full_windows == 0 then scale_exec_time g (sub64 window_start mark_start) rq
    else scale_exec_time g g.sched_ravg_window rq
  let prev_window :=
    if exiting_task p then p.ravg.prev_window
    else if nr_full_windows == 0 then wrap32 (p.ravg.prev_window + delta1)
    else wrap32 delta1
  let delta2 := scale_exec_time g (sub64 wallclock window_start) rq
  ({ p with ravg := { p.ravg with
       prev_window := prev_window,
       curr_window := if exiting_task p then p.ravg.curr_window else wrap32 delta2 } },
   { rq with
     prev_runnable_sum := wrap64 (rq.prev_runnable_sum + delta1),
     nt_prev_runnable_sum :=
       if new_task then wrap64 (rq.nt_prev_runnable_sum + delta1)
       else rq.nt_prev_runnable_sum,
     curr_runnable_sum := wrap64 (rq.curr_runnable_sum + delta2),
     nt_curr_runnable_sum :=
       if new_task then wrap64 (rq.nt_curr_runnable_sum + delta2)
       else rq.nt_curr_runnable_sum })

/-- The block of `update_cpu_busy_time` for the current task under
`if (!irqtime || !is_idle_task(p) || cpu_is_waiting_on_io(rq))`. -/
def busy_time_curr (g : Globals) (p : Task) (rq : Rq) (wallclock : Nat)
    (mark_start window_start : Nat) (new_task : Bool) (nr_full_windows : Int) : Task × Rq :=
  let tracked := !is_idle_task p && !exiting_task p
  let delta1 :=
    if nr_full_windows == 0 then scale_exec_time g (sub64 window_start mark_start) rq
    else scale_exec_time g g.sched_ravg_window rq
  let prev_window :=
    if !tracked then p.ravg.prev_window
    else if nr_full_windows == 0 then wrap32 (p.ravg.prev_window + delta1)
    else wrap32 delta1
  let nt_prev :=
    if nr_full_windows == 0 then
      (if new_task then wrap64 (rq.nt_curr_runnable_sum + delta1)
       else rq.nt_curr_runnable_sum)
    else (if new_task then delta1 else 0)
  let prev_sum :=
    if nr_full_windows == 0 then wrap64 (delta1 + rq.curr_runnable_sum) else delta1
  let delta2 := scale_exec_time g (sub64 wallclock window_start) rq
  ({ p with ravg := { p.ravg with
       prev_window := prev_window,
       curr_window := if tracked then wrap32 delta2 else p.ravg.curr_window } },
   { rq with
     prev_runnable_sum := prev_sum,
     nt_prev_runnable_sum := nt_prev,
     curr_runnable_sum := delta2,
     nt_curr_runnable_sum := if new_task then delta2 else 0 })

/-- The block of `update_cpu_busy_time` under `if (irqtime)`;
`BUG_ON(!is_idle_task(p))` gives `none`. -/
def busy_time_irq (g : Globals) (p : Task) (rq : Rq) (wallclock irqtime : Nat)
    (window_start : Nat) : Option (Task × Rq) :=
  if !is_idle_task p then none
  else
    let mark_start1 := sub64 wallclock irqtime
    if mark_start1 > window_start then
      some (p, { rq with
        prev_runnable_sum := rq.curr_runnable_sum,
        nt_prev_runnable_sum := rq.nt_curr_runnable_sum,
        nt_curr_runnable_sum := 0,
        curr_runnable_sum := scale_exec_time g irqtime rq })
    else
      let delta := sub64 window_start mark_start1
      let delta := if delta > g.sched_ravg_window then g.sched_ravg_window else delta
      let delta := scale_exec_time g delta rq
      some (p, { rq with
        prev_runnable_sum := wrap64 (rq.curr_runnable_sum + delta),
        nt_prev_runnable_sum := rq.nt_curr_runnable_sum,
        nt_curr_runnable_sum := 0,
        curr_runnable_sum := scale_exec_time g (sub64 wallclock window_start) rq })

/-- Source `update_cpu_busy_time`; its blocks are the definitions above.  The
final `BUG()` gives `none`. -/
def update_cpu_busy_time (g : Globals) (p0 : Task) (rq : Rq) (event : TaskEvent)
    (wallclock irqtime : Nat) : Option (Task × Rq) :=
  let p_is_curr_task := decide (p0.pid = rq.curr)
  let mark_start := p0.ravg.mark_start
  let window_start := rq.window_start
  let new_window := decide (mark_start < window_start)
  let nr_full_windows : Int :=
    if new_window then toInt32 (sub64 window_start mark_start / g.sched_ravg_window) else 0
  let p1 := count_active_window p0 new_window
  let new_task := is_new_task g p1
  let p := roll_task_windows p1 new_window nr_full_windows
  if !account_busy_for_cpu_time g rq p irqtime event then
    some (busy_time_not_accounted g p rq event new_window p_is_curr_task new_task
      nr_full_windows)
  else if !new_window then
    some (busy_time_same_window g p rq wallclock irqtime mark_start new_task)
  else if !p_is_curr_task then
    some (busy_time_not_curr g p rq wallclock mark_start window_start new_task nr_full_windows)
  else if irqtime == 0 || !is_idle_task p || cpu_is_waiting_on_io g rq != 0 then
    some (busy_time_curr g p rq wallclock mark_start window_start new_task nr_full_windows)
  else if irqtime != 0 then busy_time_irq g p rq wallclock irqtime window_start
  else none

/-- Source `update_task_ravg`.  `update_cpu_load`, called after
`update_cpu_busy_time`, writes only the load-average fields of run-queues
(`load_history`, `load_history_index`, `load_avg`,
`load_last_update_timestamp`), which `Rq` does not carry. -/
def update_task_ravg (g : Globals) (fixup : FixupHook) (p : Task) (rq : Rq)
    (event : TaskEvent) (wallclock irqtime : Nat) : Option (Task × Rq) :=
  if g.sched_use_pelt || rq.window_start == 0 || g.sched_disable_window_stats then
    some (p, rq)
  else
    match update_window_start g rq wallclock with
    | none => none
    | some rq1 =>
      if p.ravg.mark_start == 0 then
        some ({ p with ravg := { p.ravg with mark_start := wallclock } }, rq1)
      else
        match update_task_demand g fixup p rq1 event wallclock with
        | none => none
        | some (p2, rq2) =>
          match update_cpu_busy_time g p2 rq2 event wallclock irqtime with
          | none => none
          | some (p3, rq3) =>
            some ({ p3 with ravg := { p3.ravg with mark_start := wallclock } }, rq3)

/-! ## Frequency-change notification -/

/-- Source `nearly_same_freq`: the arguments are `unsigned int`, `delta` an `int`. -/
def nearly_same_freq (e : Globals) (cur_freq freq_required : Nat) : Bool :=
  let delta : Int := toInt32 (sub32 freq_required cur_freq)
  if wrap32 freq_required > wrap32 cur_freq then decide (delta < e.sysctl_sched_freq_inc_notify)
  else
    let delta : Int := toInt32 (intToU64 (-delta))
    decide (delta < e.sysctl_sched_freq_dec_notify)

/-- Source `load_to_freq`: `load` is a `u64`, `freq` an `unsigned int`. -/
def load_to_freq (e : Globals) (rq : Rq) (load : Nat) : Nat :=
  let load := wrap64 (e.scale_load_to_cpu load rq.cpu)
  let load := wrap64 (load * 128)
  let load := load / e.max_task_load
  let freq := wrap32 (wrap64 (load * e.cpu_max_possible_freq rq.cpu))
  freq / 128

/-- Source `send_notification`: the result `rc` and the queue afterwards. -/
def send_notification (e : Globals) (rq : Rq) : Nat × Rq :=
  if !e.sched_enable_hmp then (0, rq)
  else
    let cur_freq := load_to_freq e rq rq.old_busy_time
    let freq_required := load_to_freq e rq rq.prev_runnable_sum
    if nearly_same_freq e cur_freq freq_required then (0, rq)
    else if rq.notifier_sent == 0 then (1, { rq with notifier_sent := 1 })
    else (0, rq)

/-- Source `check_for_freq_change`: the queue afterwards and whether the
`load_alert_notifier_head` chain was called. -/
def check_for_freq_change (e : Globals) (rq : Rq) : Rq × Bool :=
  let r := send_notification e rq
  if r.1 == 0 then (r.2, false) else (r.2, true)

/-- The body of the locked loop of `sched_get_cpus_busy` for one queried
processor, as far as it writes the queue: the demand update of the current
task, then `rq->old_busy_time = rq->prev_runnable_sum` and
`rq->notifier_sent = 0`.  The first component is the current task afterwards. -/
def sched_get_cpus_busy_rq (g : Globals) (fixup : FixupHook) (curr : Task) (rq : Rq)
    (wallclock : Nat) : Option (Task × Rq) :=
  match update_task_ravg g fixup curr rq TaskEvent.TASK_UPDATE wallclock 0 with
  | none => none
  | some (curr1, rq1) =>
    some (curr1, { rq1 with old_busy_time := rq1.prev_runnable_sum, notifier_sent := 0 })

/-- A run of `check_for_freq_change` calls on one queue with no query in
between: the environment sets `prev_runnable_sum` to the next value of the
list (the effect of the accounting between two calls), then the function is
called.  The result is the number of notifications and the final queue. -/
def freq_change_run (e : Globals) : Rq → List Nat → Nat × Rq
  | rq, [] => (0, rq)
  | rq, v :: vs =>
    let r := check_for_freq_change e { rq with prev_runnable_sum := v }
    let rest := freq_change_run e r.1 vs
    ((if r.2 then 1 else 0) + rest.1, rest.2)

/-- Whether the load `v` asks for a frequency within the notification band
around the frequency last reported for the queue. -/
def within_band (e : Globals) (rq : Rq) (v : Nat) : Bool :=
  nearly_same_freq e (load_to_freq e rq rq.old_busy_time) (load_to_freq e rq v)

/-! ## Cluster selection -/

/-- The fields of `struct sched_cluster` set in `init_cluster`. -/
structure Cluster where
  id : Nat := 0
  cpus : List Nat := []
  max_power_cost : Nat := 1
  min_power_cost : Nat := 1
  capacity : Nat := 1024
  max_possible_capacity : Nat := 1024
  efficiency : Nat := 1
  load_scale_factor : Nat := 1024
  cur_freq : Nat := 1
  max_freq : Nat := 1
  min_freq : Nat := 1
  max_possible_freq : Nat := 1
  deriving DecidableEq, Repr

/-- The fields of `struct related_thread_group` used here. -/
structure RelatedThreadGroup where
  id : Nat := 0
  tasks : List Nat := []
  preferred_cluster : Option Nat := none
  last_update : Nat := 0
  deriving DecidableEq, Repr

/-- The predicate `group_will_fit(cluster, grp, demand)`, declared outside this
file and a parameter of the model. -/
abbrev FitPredicate := Cluster → RelatedThreadGroup → Nat → Bool

/-- Source `best_cluster`: `for_each_sched_cluster` walks the cluster list
from its head. -/
def best_cluster (group_will_fit : FitPredicate) :
    List Cluster → RelatedThreadGroup → Nat → Option Cluster
  | [], _, _ => none
  | cluster :: rest, grp, total_demand =>
    if group_will_fit cluster grp total_demand then some cluster
    else best_cluster group_will_fit rest grp total_demand

/-- Modelled from the spec: `group_will_fit` is declared outside this file; the
spec describes it as "projected occupancy (existing+incoming demand vs.
capacity) fits a configured headroom threshold".  Here the demand fits when it
is at most `pct` percent of the cluster's capacity. -/
def group_will_fit_headroom (pct : Nat) : FitPredicate :=
  fun cluster _ demand => decide (demand * 100 ≤ cluster.capacity * pct)

/-- Cluster A of the spec's scenario, capacity 1024. -/
def cluster_A : Cluster := { id := 1, capacity := 1024, max_power_cost := 2 }

/-- Cluster B of the spec's scenario, capacity 512. -/
def cluster_B : Cluster := { id := 0, capacity := 512, max_power_cost := 1 }

/-- Globals with HMP enabled, a notification band of 100000 kHz either way and
a maximum frequency of 2000000 kHz. -/
def freq_demo_globals : Globals :=
  { sched_enable_hmp := true, sysctl_sched_freq_inc_notify := 100000,
    sysctl_sched_freq_dec_notify := 100000, max_task_load := 10000000,
    cpu_max_possible_freq := fun _ => 2000000 }

/-- A queue that last reported an idle window and has no notification pending. -/
def freq_demo_rq : Rq := { cpu := 0, old_busy_time := 0, notifier_sent := 0 }

/-! ## Picking the next task -/

/-- What a class's `pick_next_task` hook returns: NULL, `RETRY_TASK`, or a
task (by pid). -/
inductive Picked where
  | null
  | retry
  | task (pid : Nat)
  deriving DecidableEq, Repr

/-- The scheduling classes. -/
inductive SchedClass where
  | stop
  | dl
  | rt
  | fair
  | idle
  deriving DecidableEq, Repr

/-- Modelled from the spec: `for_each_class` and the `next` links of the
classes are declared outside this file; the spec fixes the order as
"stop-task > deadline > realtime > fair > idle". -/
def for_each_class : List SchedClass :=
  [SchedClass.stop, SchedClass.dl, SchedClass.rt, SchedClass.fair, SchedClass.idle]

/-- The hook `class->pick_next_task(rq, prev)`: the classes are outside this
file, so the hook is a parameter.  It yields what it picked and the queue and
`prev` as it leaves them. -/
abbrev PickHook := SchedClass → Rq → Task → Picked × Rq × Task

/-- Outcome of one pass of the `for_each_class` loop of `pick_next_task`. -/
inductive ScanResult where
  | found (pid : Nat) (rq : Rq) (prev : Task)
  | again (rq : Rq) (prev : Task)
  | fell_through
  deriving DecidableEq, Repr

/-- One pass of the loop `for_each_class(class) { p = class->pick_next_task(rq,
prev); if (p) { if (p == RETRY_TASK) goto again; return p; } }`. -/
def class_scan (pick : PickHook) : List SchedClass → Rq → Task → ScanResult
  | [], _, _ => ScanResult.fell_through
  | c :: cs, rq, prev =>
    match pick c rq prev with
    | (Picked.null, rq1, prev1) => class_scan pick cs rq1 prev1
    | (Picked.retry, rq1, prev1) => ScanResult.again rq1 prev1
    | (Picked.task pid, rq1, prev1) => ScanResult.found pid rq1 prev1

/-- How a call of `pick_next_task` ends: it returns a pointer, it reaches
`BUG()`, or (in the model) the bound on the number of passes is used up. -/
inductive PickOutcome where
  | returned (p : Picked) (rq : Rq) (prev : Task)
  | bug
  | unfinished
  deriving DecidableEq, Repr

/-- The part of `pick_next_task` from the label `again` on, for at most `n`
passes of the class loop. -/
def pick_again (pick : PickHook) : Nat → Rq → Task → PickOutcome
  | 0, _, _ => PickOutcome.unfinished
  | n + 1, rq, prev =>
    match class_scan pick for_each_class rq prev with
    | ScanResult.found pid rq1 prev1 => PickOutcome.returned (Picked.task pid) rq1 prev1
    | ScanResult.again rq1 prev1 => pick_again pick n rq1 prev1
    | ScanResult.fell_through => PickOutcome.bug

/-- Source `pick_next_task`, with at most `n` passes of the class loop. -/
def pick_next_task (pick : PickHook) (n : Nat) (rq : Rq) (prev : Task) : PickOutcome :=
  if prev.fair_class && rq.nr_running == rq.cfs_h_nr_running then
    match pick SchedClass.fair rq prev with
    | (Picked.retry, rq1, prev1) => pick_again pick n rq1 prev1
    | (Picked.null, rq1, prev1) =>
      match pick SchedClass.idle rq1 prev1 with
      | (p, rq2, prev2) => PickOutcome.returned p rq2 prev2
    | (Picked.task pid, rq1, prev1) => PickOutcome.returned (Picked.task pid) rq1 prev1
  else pick_again pick n rq prev

/-- Spec wording, "consulting scheduling classes in fixed priority order ...,
short-circuiting on the first non-null result": the first non-null answer of
the classes asked in the given order. -/
def spec_first_non_null (pick : PickHook) : List SchedClass → Rq → Task → Picked × Rq × Task
  | [], rq, prev => (Picked.null, rq, prev)
  | c :: cs, rq, prev =>
    let r := pick c rq prev
    if r.1 = Picked.null then spec_first_non_null pick cs r.2.1 r.2.2 else r

/-- Spec wording of `pick_next(prev)`: the first non-null result in the fixed
class order; a class that "may signal try again" causes "a full rescan"; a
scan that finds nothing is fatal.  At most `n` scans. -/
def spec_pick_next (pick : PickHook) : Nat → Rq → Task → PickOutcome
  | 0, _, _ => PickOutcome.unfinished
  | n + 1, rq, prev =>
    match spec_first_non_null pick for_each_class rq prev with
    | (Picked.null, _, _) => PickOutcome.bug
    | (Picked.retry, rq1, prev1) => spec_pick_next pick n rq1 prev1
    | (Picked.task pid, rq1, prev1) => PickOutcome.returned (Picked.task pid) rq1 prev1

/-- Class hooks for the examples: the stop class has task 7 runnable, the fair
class task 3, the idle class the idle task 0; no class touches the queue. -/
def c6_pick : PickHook := fun c rq prev =>
  match c with
  | SchedClass.stop => (Picked.task 7, rq, prev)
  | SchedClass.fair => (Picked.task 3, rq, prev)
  | SchedClass.idle => (Picked.task 0, rq, prev)
  | _ => (Picked.null, rq, prev)

/-- A queue whose only counted task is a fair task. -/
def c6_rq : Rq := { cpu := 0, curr := 3, nr_running := 1, cfs_h_nr_running := 1 }

/-- A fair task as `prev`. -/
def c6_prev : Task := { pid := 3, fair_class := true }

/-- Class hooks for the examples: the realtime class answers `RETRY_TASK`
while the queue's `nr_iowait` is non-zero, lowering it by one each time; then
the fair class has task 3; the idle class always has the idle task 0. -/
def c5_pick : PickHook := fun c rq prev =>
  match c with
  | SchedClass.rt =>
    if rq.nr_iowait = 0 then (Picked.null, rq, prev)
    else (Picked.retry, { rq with nr_iowait := rq.nr_iowait - 1 }, prev)
  | SchedClass.fair => (Picked.task 3, rq, prev)
  | SchedClass.idle => (Picked.task 0, rq, prev)
  | _ => (Picked.null, rq, prev)

/-- A queue on which `c5_pick` retries twice. -/
def c5_rq : Rq := { cpu := 0, curr := 5, nr_running := 2, cfs_h_nr_running := 1, nr_iowait := 2 }

/-- A realtime task as `prev`. -/
def c5_prev : Task := { pid := 5, fair_class := false }

/-! ## Processor masks and fallback placement -/

/-- The processor masks and topology tables read by the placement code.  A
mask is the list of the processors it holds.  `cpuset_cpus_allowed_fallback`
lives outside this file and is a parameter (the task as it leaves it). -/
structure CpuEnv where
  nr_cpu_ids : Nat := 4
  cpu_online_mask : List Nat := []
  cpu_active_mask : List Nat := []
  cpu_possible_mask : List Nat := []
  /-- The node `cpu_to_node(cpu)`, `-1` for none. -/
  cpu_to_node : Nat → Int := fun _ => -1
  cpumask_of_node : Int → List Nat := fun _ => []
  cpuset_cpus_allowed_fallback : Task → Task := fun p => p
  printk_ratelimit : Bool := true

def cpumask_test_cpu (cpu : Nat) (mask : List Nat) : Bool := mask.contains cpu

/-- The processors `for_each_cpu(cpu, mask)` visits: those of `mask` below
`nr_cpu_ids`, in ascending order. -/
def for_each_cpu (nr_cpu_ids : Nat) (mask : List Nat) : List Nat :=
  (List.range nr_cpu_ids).filter (fun c => cpumask_test_cpu c mask)

def cpumask_weight (nr_cpu_ids : Nat) (mask : List Nat) : Nat :=
  (for_each_cpu nr_cpu_ids mask).length

def cpu_online (e : CpuEnv) (cpu : Nat) : Bool := cpumask_test_cpu cpu e.cpu_online_mask

def cpu_active (e : CpuEnv) (cpu : Nat) : Bool := cpumask_test_cpu cpu e.cpu_active_mask

/-- Source `do_set_cpus_allowed`; the class hook `set_cpus_allowed` writes
class-private data only. -/
def do_set_cpus_allowed (e : CpuEnv) (p : Task) (new_mask : List Nat) : Task :=
  { p with cpus_allowed := new_mask, nr_cpus_allowed := cpumask_weight e.nr_cpu_ids new_mask }

/-- The first loop of `select_fallback_rq`, over the processors of the node:
the first one online, active and allowed. -/
def node_scan (e : CpuEnv) (p : Task) : List Nat → Option Nat
  | [] => none
  | dest_cpu :: rest =>
    if !cpu_online e dest_cpu then node_scan e p rest
    else if !cpu_active e dest_cpu then node_scan e p rest
    else if cpumask_test_cpu dest_cpu p.cpus_allowed then some dest_cpu
    else node_scan e p rest

/-- The loop over `tsk_cpus_allowed(p)` inside `for (;;)`: the first allowed
processor that is online and active. -/
def allowed_scan (e : CpuEnv) : List Nat → Option Nat
  | [] => none
  | dest_cpu :: rest =>
    if !cpu_online e dest_cpu then allowed_scan e rest
    else if !cpu_active e dest_cpu then allowed_scan e rest
    else some dest_cpu

/-- The local `state` of `select_fallback_rq`. -/
inductive FallbackState where
  | cpuset
  | possible
  | fail
  deriving DecidableEq, Repr

/-- What `select_fallback_rq` leaves behind: the processor returned, the task,
the final `state`, and whether the "no longer affine" record was printed. -/
structure FallbackResult where
  dest_cpu : Nat
  task : Task
  state : FallbackState
  logged : Bool
  deriving DecidableEq, Repr

/-- The label `out` of `select_fallback_rq`. -/
def fallback_out (e : CpuEnv) (dest_cpu : Nat) (p : Task) (state : FallbackState) :
    FallbackResult :=
  { dest_cpu := dest_cpu, task := p, state := state,
    logged := state != FallbackState.cpuset && (p.mm && e.printk_ratelimit) }

/-- The iteration of `for (;;)` entered with `state == fail`: `BUG()` when no
allowed processor is online and active. -/
def fallback_from_fail (e : CpuEnv) (p : Task) : Option FallbackResult :=
  match allowed_scan e (for_each_cpu e.nr_cpu_ids p.cpus_allowed) with
  | some dest_cpu => some (fallback_out e dest_cpu p FallbackState.fail)
  | none => none

/-- The iteration of `for (;;)` entered with `state == possible`. -/
def fallback_from_possible (e : CpuEnv) (p : Task) : Option FallbackResult :=
  match allowed_scan e (for_each_cpu e.nr_cpu_ids p.cpus_allowed) with
  | some dest_cpu => some (fallback_out e dest_cpu p FallbackState.possible)
  | none => fallback_from_fail e (do_set_cpus_allowed e p e.cpu_possible_mask)

/-- The iteration of `for (;;)` entered with `state == cpuset`. -/
def fallback_from_cpuset (e : CpuEnv) (p : Task) : Option FallbackResult :=
  match allowed_scan e (for_each_cpu e.nr_cpu_ids p.cpus_allowed) with
  | some dest_cpu => some (fallback_out e dest_cpu p FallbackState.cpuset)
  | none => fallback_from_possible e (e.cpuset_cpus_allowed_fallback p)

/-- Source `select_fallback_rq`; the three iterations the `for (;;)` loop can
make are written out, and `BUG()` gives `none`. -/
def select_fallback_rq (e : CpuEnv) (cpu : Nat) (p : Task) : Option FallbackResult :=
  let nid := e.cpu_to_node cpu
  let near :=
    if nid != -1 then node_scan e p (for_each_cpu e.nr_cpu_ids (e.cpumask_of_node nid))
    else none
  match near with
  | some dest_cpu =>
    some { dest_cpu := dest_cpu, task := p, state := FallbackState.cpuset, logged := false }
  | none => fallback_from_cpuset e p

/-- Four processors, all possible, processor 0 offline, no node information. -/
def c7_env : CpuEnv :=
  { nr_cpu_ids := 4, cpu_online_mask := [1, 2, 3], cpu_active_mask := [1, 2, 3],
    cpu_possible_mask := [0, 1, 2, 3] }

/-- A user task allowed only on the offline processor 0. -/
def c7_task : Task := { pid := 9, cpu := 0, cpus_allowed := [0], nr_cpus_allowed := 1, mm := true }

/-! ## Frames

A frame is stated by erasing the fields a function may write: two objects
that agree after the erasure differ at most in those fields. -/

/-- The task with `curr_window`, `prev_window` and `active_windows` erased. -/
def Task.erase_windows (p : Task) : Task :=
  { p with ravg := { p.ravg with curr_window := 0, prev_window := 0, active_windows := 0 } }

/-- The task with its whole window record erased. -/
def Task.erase_ravg (p : Task) : Task := { p with ravg := {} }

/-- The queue with its four runnable sums erased. -/
def Rq.erase_sums (rq : Rq) : Rq :=
  { rq with curr_runnable_sum := 0, prev_runnable_sum := 0,
            nt_curr_runnable_sum := 0, nt_prev_runnable_sum := 0 }

/-- The queue with the fields of the window accounting erased: `window_start`,
the four runnable sums and `hmp_stats`. -/
def Rq.erase_stats (rq : Rq) : Rq :=
  { rq with window_start := 0, curr_runnable_sum := 0, prev_runnable_sum := 0,
            nt_curr_runnable_sum := 0, nt_prev_runnable_sum := 0, hmp_stats := {} }

/-! ## The machine state -/

/-- Task state `TASK_RUNNING`. -/
def TASK_RUNNING : Nat := 0

/-- Task state `TASK_WAKING`. -/
def TASK_WAKING : Nat := 256

/-- Flag `SD_BALANCE_WAKE`, only handed on to the class hook. -/
def SD_BALANCE_WAKE : Nat := 16

/-- The tasks (by pid) and run-queues (by processor) of the machine, and the
processors for which the `load_alert_notifier_head` chain was called, latest
first. -/
structure World where
  tasks : Nat → Task
  rqs : Nat → Rq
  freq_alerts : List Nat := []

/-- The world with task `pid` replaced by `f` of it. -/
def World.map_task (w : World) (pid : Nat) (f : Task → Task) : World :=
  { w with tasks := Function.update w.tasks pid (f (w.tasks pid)) }

/-- The world with the queue of `cpu` replaced by `f` of it. -/
def World.map_rq (w : World) (cpu : Nat) (f : Rq → Rq) : World :=
  { w with rqs := Function.update w.rqs cpu (f (w.rqs cpu)) }

/-- Parameters of the wakeup path: the tunables, the processor masks, and the
hooks and header functions that live outside this file. -/
structure Env extends Globals, CpuEnv where
  fixup : FixupHook := fun rq _ _ => rq.hmp_stats
  /-- The header macro `task_contributes_to_load(p)`. -/
  task_contributes_to_load : Task → Bool := fun _ => false
  /-- The hook `p->sched_class->select_task_rq(p, cpu, sd_flags, wake_flags)`. -/
  class_select_task_rq : World → Nat → Nat → Nat → Nat → Nat := fun _ _ cpu _ _ => cpu
  /-- The scheduler feature bit `TTWU_QUEUE`. -/
  sched_feat_TTWU_QUEUE : Bool := true
  /-- The per-processor variable `sd_llc_id`. -/
  sd_llc_id : Nat → Nat := fun _ => 0
  /-- The header function `same_freq_domain(src_cpu, dst_cpu)`. -/
  same_freq_domain : Nat → Nat → Bool := fun a b => a == b
  /-- The hook `p->sched_class->enqueue_task(rq, p, flags)`, as far as it
  writes the queue. -/
  class_enqueue_task : Rq → Task → Nat → Rq := fun rq _ _ => rq
  /-- The hook `p->sched_class->dequeue_task(rq, p, flags)`, as far as it
  writes the queue. -/
  class_dequeue_task : Rq → Task → Nat → Rq := fun rq _ _ => rq
  /-- The world that the processor moving a task between two queues leaves
  when it has finished `move_queued_task`, which ends with
  `p->on_rq = TASK_ON_RQ_QUEUED`; `__task_rq_lock` waits for it. -/
  migration_done : World → Nat → World :=
    fun w pid => w.map_task pid (fun p => { p with on_rq := 1 })

/-- `update_task_ravg` on the task `pid` and the queue of `cpu` of a world. -/
def world_update_task_ravg (g : Globals) (fixup : FixupHook) (w : World) (pid cpu : Nat)
    (event : TaskEvent) (wallclock irqtime : Nat) : Option World :=
  match update_task_ravg g fixup (w.tasks pid) (w.rqs cpu) event wallclock irqtime with
  | none => none
  | some (p1, rq1) =>
    some { w with tasks := Function.update w.tasks pid p1,
                  rqs := Function.update w.rqs cpu rq1 }

/-- `check_for_freq_change(cpu_rq(cpu))` on a world; a call of the notifier
chain is recorded in `freq_alerts`. -/
def world_check_for_freq_change (g : Globals) (w : World) (cpu : Nat) : World :=
  let r := check_for_freq_change g (w.rqs cpu)
  { w with rqs := Function.update w.rqs cpu r.1,
           freq_alerts := if r.2 then cpu :: w.freq_alerts else w.freq_alerts }

/-- Source `clear_ed_task(p, rq)`. -/
def clear_ed_task (w : World) (pid cpu : Nat) : World :=
  if (w.rqs cpu).ed_task == some pid then w.map_rq cpu (fun r => { r with ed_task := none })
  else w

/-- The second world agrees with the first in every task's `state` and
`on_rq` and in every queue's `nr_running` and `wake_list`. -/
def World.keeps (w w1 : World) : Prop :=
  (∀ q, (w1.tasks q).state = (w.tasks q).state ∧ (w1.tasks q).on_rq = (w.tasks q).on_rq) ∧
  (∀ c, (w1.rqs c).nr_running = (w.rqs c).nr_running ∧
        (w1.rqs c).wake_list = (w.rqs c).wake_list)

/-! ## Migration fixup -/

/-- The three demand updates at the head of `fixup_busy_time`, at the clock
value `wallclock`: the current task of the source queue, the current task of
the destination queue, the migrating task. -/
def fixup_busy_time_updates (g : Globals) (fixup : FixupHook) (w : World) (pid new_cpu : Nat)
    (wallclock : Nat) : Option World :=
  let src_cpu := (w.tasks pid).cpu
  match world_update_task_ravg g fixup w (w.rqs src_cpu).curr src_cpu
      TaskEvent.TASK_UPDATE wallclock 0 with
  | none => none
  | some w1 =>
    match world_update_task_ravg g fixup w1 (w1.rqs new_cpu).curr new_cpu
        TaskEvent.TASK_UPDATE wallclock 0 with
    | none => none
    | some w2 =>
      world_update_task_ravg g fixup w2 pid (w2.tasks pid).cpu TaskEvent.TASK_MIGRATE wallclock 0

/-- The transfer of `fixup_busy_time`: the task's `curr_window` and
`prev_window` leave the sums of the source queue and join those of the
destination queue, and the early-detection task moves along. -/
def fixup_busy_time_move (g : Globals) (w : World) (pid new_cpu : Nat) : World :=
  let p := w.tasks pid
  let src_cpu := p.cpu
  let new_task := is_new_task g p
  let w1 :=
    if p.ravg.curr_window != 0 then
      let a := w.map_rq src_cpu (fun r =>
        { r with curr_runnable_sum := sub64 r.curr_runnable_sum p.ravg.curr_window })
      let b := a.map_rq new_cpu (fun r =>
        { r with curr_runnable_sum := wrap64 (r.curr_runnable_sum + p.ravg.curr_window) })
      if new_task then
        let c := b.map_rq src_cpu (fun r =>
          { r with nt_curr_runnable_sum := sub64 r.nt_curr_runnable_sum p.ravg.curr_window })
        c.map_rq new_cpu (fun r =>
          { r with nt_curr_runnable_sum := wrap64 (r.nt_curr_runnable_sum + p.ravg.curr_window) })
      else b
    else w
  let w2 :=
    if p.ravg.prev_window != 0 then
      let a := w1.map_rq src_cpu (fun r =>
        { r with prev_runnable_sum := sub64 r.prev_runnable_sum p.ravg.prev_window })
      let b := a.map_rq new_cpu (fun r =>
        { r with prev_runnable_sum := wrap64 (r.prev_runnable_sum + p.ravg.prev_window) })
      if new_task then
        let c := b.map_rq src_cpu (fun r =>
          { r with nt_prev_runnable_sum := sub64 r.nt_prev_runnable_sum p.ravg.prev_window })
        c.map_rq new_cpu (fun r =>
          { r with nt_prev_runnable_sum := wrap64 (r.nt_prev_runnable_sum + p.ravg.prev_window) })
      else b
    else w1
  if (w2.rqs src_cpu).ed_task == some pid then
    let a := w2.map_rq src_cpu (fun r => { r with ed_task := none })
    if (a.rqs new_cpu).ed_task == none then
      a.map_rq new_cpu (fun r => { r with ed_task := some pid })
    else a
  else w2

/-- Whether one of the four `BUG_ON((s64)src_rq->..._sum < 0)` assertions of
`fixup_busy_time` fires on the queue. -/
def fixup_busy_time_bug (src_rq : Rq) : Bool :=
  decide (9223372036854775808 ≤ src_rq.prev_runnable_sum) ||
  decide (9223372036854775808 ≤ src_rq.curr_runnable_sum) ||
  decide (9223372036854775808 ≤ src_rq.nt_prev_runnable_sum) ||
  decide (9223372036854775808 ≤ src_rq.nt_curr_runnable_sum)

/-- Source `fixup_busy_time`; `wallclock` is the value `sched_ktime_clock()`
returns in it, and a firing `BUG_ON` gives `none`. -/
def fixup_busy_time (g : Globals) (fixup : FixupHook) (w : World) (pid new_cpu : Nat)
    (wallclock : Nat) : Option World :=
  let p := w.tasks pid
  if !g.sched_enable_hmp || !g.sched_migration_fixup ||
      (p.on_rq == 0 && p.state != TASK_WAKING) then some w
  else if exiting_task p then some (clear_ed_task w pid p.cpu)
  else if g.sched_disable_window_stats then some w
  else
    match fixup_busy_time_updates g fixup w pid new_cpu wallclock with
    | none => none
    | some w3 =>
      let w4 := fixup_busy_time_move g w3 pid new_cpu
      if fixup_busy_time_bug (w4.rqs (w3.tasks pid).cpu) then none else some w4

/-! ## Wakeup -/

/-- Flag `ENQUEUE_WAKEUP`, only handed on to the class hook. -/
def ENQUEUE_WAKEUP : Nat := 1

/-- Flag `ENQUEUE_WAKING`, only handed on to the class hook. -/
def ENQUEUE_WAKING : Nat := 4

/-- Source `enqueue_task`: the class hook on the queue of `cpu`.
`update_rq_clock`, `sched_info_queued` and the trace point write only fields
outside the model. -/
def enqueue_task (env : Env) (w : World) (cpu pid flags : Nat) : World :=
  w.map_rq cpu (fun rq => env.class_enqueue_task rq (w.tasks pid) flags)

/-- Source `activate_task`. -/
def activate_task (env : Env) (w : World) (cpu pid flags : Nat) : World :=
  let w1 :=
    if env.task_contributes_to_load (w.tasks pid) then
      w.map_rq cpu (fun rq => { rq with nr_uninterruptible := rq.nr_uninterruptible - 1 })
    else w
  enqueue_task env w1 cpu pid flags

/-- Source `ttwu_activate`; the workqueue notification is outside the model. -/
def ttwu_activate (env : Env) (w : World) (cpu pid en_flags : Nat) : World :=
  (activate_task env w cpu pid en_flags).map_task pid
    (fun p => { p with on_rq := TASK_ON_RQ_QUEUED })

/-- Source `ttwu_do_wakeup`: `p->state = TASK_RUNNING`.  `check_preempt_curr`,
the class hook `task_woken` and the idle-time average write only fields
outside the model. -/
def ttwu_do_wakeup (w : World) (pid : Nat) : World :=
  w.map_task pid (fun p => { p with state := TASK_RUNNING })

/-- Source `ttwu_do_activate` on the queue of `cpu`. -/
def ttwu_do_activate (env : Env) (w : World) (cpu pid : Nat) : World :=
  let w1 :=
    if (w.tasks pid).sched_contributes_to_load then
      w.map_rq cpu (fun rq => { rq with nr_uninterruptible := rq.nr_uninterruptible - 1 })
    else w
  ttwu_do_wakeup (ttwu_activate env w1 cpu pid (ENQUEUE_WAKEUP ||| ENQUEUE_WAKING)) pid

/-- Source `ttwu_remote`, with its result.  `__task_rq_lock` waits while the
task is migrating, until the processor that moves the task has finished; the
call goes on from the world `env.migration_done w pid` that processor
leaves. -/
def ttwu_remote (env : Env) (w : World) (pid : Nat) : World × Nat :=
  let w0 :=
    if (w.tasks pid).on_rq == TASK_ON_RQ_MIGRATING then env.migration_done w pid else w
  if task_on_rq_queued (w0.tasks pid) then (ttwu_do_wakeup w0 pid, 1)
  else (w0, 0)

/-- The loop of `sched_ttwu_pending` over the entries taken off the wake list. -/
def sched_ttwu_pending_loop (env : Env) (cpu : Nat) : List Nat → World → World
  | [], w => w
  | pid :: llist, w => sched_ttwu_pending_loop env cpu llist (ttwu_do_activate env w cpu pid)

/-- Source `sched_ttwu_pending` run on processor `this_cpu`. -/
def sched_ttwu_pending (env : Env) (w : World) (this_cpu : Nat) : World :=
  let llist := (w.rqs this_cpu).wake_list
  let w1 := w.map_rq this_cpu (fun rq => { rq with wake_list := [] })
  if llist.isEmpty then w1
  else sched_ttwu_pending_loop env this_cpu llist w1

/-- Source `ttwu_queue_remote`: `llist_add` puts the task at the head of the
wake list of `cpu`; the reschedule interrupt is outside the model. -/
def ttwu_queue_remote (w : World) (pid cpu : Nat) : World :=
  w.map_rq cpu (fun rq => { rq with wake_list := pid :: rq.wake_list })

/-- Source `cpus_share_cache`. -/
def cpus_share_cache (env : Env) (this_cpu that_cpu : Nat) : Bool :=
  env.sd_llc_id this_cpu == env.sd_llc_id that_cpu

/-- Source `ttwu_queue`; `this_cpu` is `smp_processor_id()`. -/
def ttwu_queue (env : Env) (w : World) (pid cpu this_cpu : Nat) : World :=
  if env.sched_feat_TTWU_QUEUE && !cpus_share_cache env this_cpu cpu then
    ttwu_queue_remote w pid cpu
  else ttwu_do_activate env w cpu pid

/-- Source `select_task_rq`, with the processor it returns; `none` when
`select_fallback_rq` ends in `BUG()`. -/
def select_task_rq (env : Env) (w : World) (pid cpu sd_flags wake_flags : Nat) :
    Option (World × Nat) :=
  let p := w.tasks pid
  let cpu1 := env.class_select_task_rq w pid cpu sd_flags wake_flags
  if !cpumask_test_cpu cpu1 p.cpus_allowed || !cpu_online env.toCpuEnv cpu1 then
    match select_fallback_rq env.toCpuEnv p.cpu p with
    | none => none
    | some r => some ({ w with tasks := Function.update w.tasks pid r.task }, r.dest_cpu)
  else some (w, cpu1)

/-- Modelled from the spec: `__set_task_cpu` sets the task's processor. -/
def __set_task_cpu (w : World) (pid new_cpu : Nat) : World :=
  w.map_task pid (fun p => { p with cpu := new_cpu })

/-- Source `set_task_cpu`; `wallclock` is the clock value read inside
`fixup_busy_time`.  The class hook `migrate_task_rq`, the trace point and the
perf event write only fields outside the model. -/
def set_task_cpu (env : Env) (w : World) (pid new_cpu wallclock : Nat) : Option World :=
  let moved :=
    if (w.tasks pid).cpu != new_cpu then
      fixup_busy_time env.toGlobals env.fixup
        (w.map_task pid (fun p => { p with nr_migrations := wrap64 (p.nr_migrations + 1) }))
        pid new_cpu wallclock
    else some w
  match moved with
  | none => none
  | some w1 => some (__set_task_cpu w1 pid new_cpu)

/-- The `CONFIG_SMP` block of `try_to_wake_up`, from the wait for `p->on_cpu`
to `set_task_last_wake`, with the values of `src_cpu`, `cpu` and `heavy_task`
it leaves.  `wallclock` is the clock value read in the block, `migrate_clock`
the one read in `fixup_busy_time`.  The wait `while (p->on_cpu) cpu_relax();`
ends when the processor that switches the task out clears the field
(`p->on_cpu = 0` at the end of its switch); the block goes on with the field
cleared.  `none` is a `BUG()` on the way.  The preferred cluster of the task's
group and the class hook `task_waking` are outside the model. -/
def try_to_wake_up_smp (env : Env) (w : World) (pid wake_flags wallclock migrate_clock : Nat) :
    Option (World × Nat × Nat × Bool) :=
  let w0 :=
    if (w.tasks pid).on_cpu != 0 then w.map_task pid (fun p => { p with on_cpu := 0 }) else w
  let rq_cpu := (w0.tasks pid).cpu
  match world_update_task_ravg env.toGlobals env.fixup w0 (w0.rqs rq_cpu).curr rq_cpu
      TaskEvent.TASK_UPDATE wallclock 0 with
  | none => none
  | some w1 =>
    let heavy_task :=
      heavy_task_wakeup env.toGlobals (w1.tasks pid) (w1.rqs rq_cpu) TaskEvent.TASK_WAKE
    match world_update_task_ravg env.toGlobals env.fixup w1 pid rq_cpu
        TaskEvent.TASK_WAKE wallclock 0 with
    | none => none
    | some w2 =>
      let w3 := w2.map_task pid (fun p =>
        { p with sched_contributes_to_load := env.task_contributes_to_load p,
                 state := TASK_WAKING })
      match select_task_rq env w3 pid (w3.tasks pid).wake_cpu SD_BALANCE_WAKE wake_flags with
      | none => none
      | some (w4, cpu) =>
        let src_cpu := (w4.tasks pid).cpu
        match (if src_cpu != cpu then set_task_cpu env w4 pid cpu migrate_clock
               else some w4) with
        | none => none
        | some w5 =>
          some (w5.map_task pid (fun p => { p with last_wake_ts := wallclock }),
                src_cpu, cpu, heavy_task)

/-- The tail of `try_to_wake_up` after the label `out`: the frequency checks.
The migration notifier chain is outside the model. -/
def try_to_wake_up_out (env : Env) (w : World) (src_cpu cpu : Nat) (heavy_task : Bool) :
    World :=
  if !env.same_freq_domain src_cpu cpu then
    world_check_for_freq_change env.toGlobals
      (world_check_for_freq_change env.toGlobals w cpu) src_cpu
  else if heavy_task then world_check_for_freq_change env.toGlobals w cpu
  else w

/-- Source `try_to_wake_up(p, state, wake_flags)` run on processor `this_cpu`,
with the value of `success` it returns; `none` when a `BUG()` in the
`CONFIG_SMP` block stops it.  `ttwu_stat` writes statistics only. -/
def try_to_wake_up (env : Env) (w : World) (pid state wake_flags this_cpu wallclock
    migrate_clock : Nat) : Option (World × Nat) :=
  let p := w.tasks pid
  let cpu := p.cpu
  if p.state &&& state == 0 then some (try_to_wake_up_out env w cpu cpu false, 0)
  else
    let r := if p.on_rq != 0 then ttwu_remote env w pid else (w, 0)
    if r.2 != 0 then some (try_to_wake_up_out env r.1 cpu cpu false, 1)
    else
      match try_to_wake_up_smp env r.1 pid wake_flags wallclock migrate_clock with
      | none => none
      | some (w5, src_cpu, dest_cpu, heavy_task) =>
        some (try_to_wake_up_out env (ttwu_queue env w5 pid dest_cpu this_cpu)
                src_cpu dest_cpu heavy_task, 1)

/-! ## Capacity -/

/-- Source `capacity_scale_cpu_efficiency`, an `unsigned int` quotient;
`min_possible_efficiency` is the file-scope variable. -/
def capacity_scale_cpu_efficiency (min_possible_efficiency : Nat) (cluster : Cluster) : Nat :=
  wrap32 (1024 * cluster.efficiency) / min_possible_efficiency

/-- Source `capacity_scale_cpu_freq`; `min_max_freq` is the file-scope variable. -/
def capacity_scale_cpu_freq (min_max_freq : Nat) (cluster : Cluster) : Nat :=
  wrap32 (1024 * cluster.max_freq) / min_max_freq

/-- The statement pair `capacity *= scale; capacity >>= 10;` on the `int`
variable `capacity` with an `unsigned long` scale: the product is taken in 64
bits and truncated to `int`, the shift is arithmetic. -/
def capacity_scale (capacity : Int) (scale : Nat) : Int :=
  toInt32 (wrap64 (intToU64 capacity * scale)) / 1024

/-- Source `compute_capacity`. -/
def compute_capacity (min_possible_efficiency min_max_freq : Nat) (cluster : Cluster) : Int :=
  let capacity : Int := 1024
  let capacity := capacity_scale capacity
    (capacity_scale_cpu_efficiency min_possible_efficiency cluster)
  capacity_scale capacity (capacity_scale_cpu_freq min_max_freq cluster)

/-- Source `compute_max_possible_capacity`. -/
def compute_max_possible_capacity (min_possible_efficiency min_max_freq : Nat)
    (cluster : Cluster) : Int :=
  let capacity : Int := 1024
  let capacity := capacity_scale capacity
    (capacity_scale_cpu_efficiency min_possible_efficiency cluster)
  capacity_scale capacity (wrap32 (1024 * cluster.max_possible_freq) / min_max_freq)

/-- The base-1024 fixed-point product the specification gives for a capacity:
`((1024 * efficiency / min_possible_efficiency) * (1024 * freq / min_max_freq)) >> 10`
with integer division. -/
def spec_fixed_point_capacity (min_possible_efficiency min_max_freq efficiency freq : Nat) :
    Nat :=
  (1024 * efficiency / min_possible_efficiency) * (1024 * freq / min_max_freq) / 1024

/-! ## Run-queue clock -/

/-- Conversion of a `u64` value to `s64` (two's complement). -/
@[irreducible]
def toInt64 (x : Nat) : Int :=
  if x % 18446744073709551616 < 9223372036854775808 then ((x % 18446744073709551616 : Nat) : Int)
  else ((x % 18446744073709551616 : Nat) : Int) - 18446744073709551616

/-- The clock fields of `struct rq`. -/
structure RqClock where
  cpu : Nat := 0
  clock : Nat := 0
  clock_task : Nat := 0
  skip_clock_update : Int := 0
  prev_irq_time : Nat := 0
  prev_steal_time_rq : Nat := 0
  /-- The average `rq->rt_avg` kept by `sched_rt_avg_update`. -/
  rt_avg : Nat := 0
  deriving DecidableEq, Repr

/-- The configuration options, time sources and header functions read by
`update_rq_clock`. -/
structure ClockEnv where
  CONFIG_IRQ_TIME_ACCOUNTING : Bool := false
  CONFIG_PARAVIRT_TIME_ACCOUNTING : Bool := false
  /-- The static key `paravirt_steal_rq_enabled`. -/
  paravirt_steal_rq_enabled : Bool := false
  /-- The scheduler feature bit `NONTASK_CAPACITY`. -/
  sched_feat_NONTASK_CAPACITY : Bool := true
  sched_clock_cpu : Nat → Nat := fun _ => 0
  irq_time_read : Nat → Nat := fun _ => 0
  paravirt_steal_clock : Nat → Nat := fun _ => 0
  /-- The header function `sched_rt_avg_update(rq, rt_delta)`. -/
  sched_rt_avg_update : RqClock → Int → RqClock := fun rq _ => rq

/-- The `CONFIG_IRQ_TIME_ACCOUNTING` block of `update_rq_clock_task`: the
queue, the remaining `delta` and `irq_delta`. -/
def clock_task_irq (e : ClockEnv) (rq : RqClock) (delta : Int) : RqClock × Int × Int :=
  if e.CONFIG_IRQ_TIME_ACCOUNTING then
    let irq_delta := toInt64 (sub64 (e.irq_time_read rq.cpu) rq.prev_irq_time)
    let irq_delta := if irq_delta > delta then delta else irq_delta
    ({ rq with prev_irq_time := wrap64 (rq.prev_irq_time + intToU64 irq_delta) },
      toInt64 (intToU64 (delta - irq_delta)), irq_delta)
  else (rq, delta, 0)

/-- The `CONFIG_PARAVIRT_TIME_ACCOUNTING` block of `update_rq_clock_task`: the
queue, the remaining `delta` and `steal`. -/
def clock_task_steal (e : ClockEnv) (rq : RqClock) (delta : Int) : RqClock × Int × Int :=
  if e.CONFIG_PARAVIRT_TIME_ACCOUNTING && e.paravirt_steal_rq_enabled then
    let steal := toInt64 (sub64 (e.paravirt_steal_clock rq.cpu) rq.prev_steal_time_rq)
    let steal := if steal > delta then delta else steal
    ({ rq with prev_steal_time_rq := wrap64 (rq.prev_steal_time_rq + intToU64 steal) },
      toInt64 (intToU64 (delta - steal)), steal)
  else (rq, delta, 0)

/-- Source `update_rq_clock_task`. -/
def update_rq_clock_task (e : ClockEnv) (rq : RqClock) (delta : Int) : RqClock :=
  let a := clock_task_irq e rq delta
  let b := clock_task_steal e a.1 a.2.1
  let rq2 := { b.1 with clock_task := wrap64 (b.1.clock_task + intToU64 b.2.1) }
  if (e.CONFIG_IRQ_TIME_ACCOUNTING || e.CONFIG_PARAVIRT_TIME_ACCOUNTING) &&
      (toInt64 (intToU64 (a.2.2 + b.2.2)) != 0 && e.sched_feat_NONTASK_CAPACITY) then
    e.sched_rt_avg_update rq2 (toInt64 (intToU64 (a.2.2 + b.2.2)))
  else rq2

/-- Source `update_rq_clock`. -/
def update_rq_clock (e : ClockEnv) (rq : RqClock) : RqClock :=
  if rq.skip_clock_update > 0 then rq
  else
    let delta := toInt64 (sub64 (e.sched_clock_cpu rq.cpu) rq.clock)
    if delta < 0 then rq
    else update_rq_clock_task e { rq with clock := wrap64 (rq.clock + intToU64 delta) } delta

/-! ## Window length -/

/-- Lower bound `MIN_SCHED_RAVG_WINDOW` (10 ms in nanoseconds). -/
def MIN_SCHED_RAVG_WINDOW : Nat := 10000000

/-- Upper bound `MAX_SCHED_RAVG_WINDOW` (1000 ms in nanoseconds). -/
def MAX_SCHED_RAVG_WINDOW : Nat := 1000000000

/-- The error number `EINVAL`. -/
def EINVAL : Int := 22

/-- Source `set_sched_ravg_window`, the handler of the boot parameter;
`value` is the number `get_option` parsed. -/
def set_sched_ravg_window (g : Globals) (value : Nat) : Globals :=
  { g with sched_ravg_window := wrap32 value,
           sched_use_pelt := decide (wrap32 value < MIN_SCHED_RAVG_WINDOW) ||
                             decide (wrap32 value > MAX_SCHED_RAVG_WINDOW) }

/-- The `sysctl_*` shadows that `reset_all_window_stats` copies into the
file-scope tunables. -/
structure WindowSysctl where
  sysctl_sched_window_stats_policy : WindowStatsPolicy :=
    WindowStatsPolicy.WINDOW_STATS_MAX_RECENT_AVG
  sysctl_sched_account_wait_time : Nat := 1
  sysctl_sched_ravg_hist_size : Nat := 5
  sysctl_sched_migration_fixup : Bool := true
  sysctl_sched_freq_account_wait_time : Nat := 0

/-- The time values read by `sched_set_window`: the results of
`jiffy_to_ktime_ns(&now, &jiffy_ktime_ns)` and of `sched_ktime_clock()`, and
the header constant `TICK_NSEC`. -/
structure WindowClock where
  TICK_NSEC : Nat := 10000000
  cur_jiffies : Nat := 0
  now : Nat := 0
  jiffy_ktime_ns : Nat := 0
  sched_ktime_clock : Nat := 0

/-- Source `reset_task_stats`: the window record is cleared, an exiting task
keeps its marker. -/
def reset_task_stats (p : Task) : Task :=
  let sum := if exiting_task p then EXITING_TASK_MARKER else 0
  { p with ravg := { mark_start := 0, sum := 0, demand := 0, sum_history := [sum, 0, 0, 0, 0],
                     curr_window := 0, prev_window := 0, active_windows := 0 } }

/-- The body of the second `for_each_possible_cpu` loop of
`reset_all_window_stats` for one queue; `reset_cpu_hmp_stats` lives outside
this file and is a parameter, the load history is outside the model. -/
def reset_rq_window_stats (reset_cpu_hmp_stats : Rq → Rq) (window_start : Nat) (rq : Rq) : Rq :=
  let rq1 := if window_start != 0 then { rq with window_start := window_start } else rq
  reset_cpu_hmp_stats
    { rq1 with curr_runnable_sum := 0, prev_runnable_sum := 0,
               nt_curr_runnable_sum := 0, nt_prev_runnable_sum := 0 }

/-- The `if ... else if` chain of `reset_all_window_stats` that brings one
tunable in line with its `sysctl_*` shadow. -/
def sync_window_tunable (g : Globals) (s : WindowSysctl) : Globals :=
  if g.sched_window_stats_policy != s.sysctl_sched_window_stats_policy then
    { g with sched_window_stats_policy := s.sysctl_sched_window_stats_policy }
  else if g.sched_account_wait_time != s.sysctl_sched_account_wait_time then
    { g with sched_account_wait_time := s.sysctl_sched_account_wait_time }
  else if g.sched_ravg_hist_size != s.sysctl_sched_ravg_hist_size then
    { g with sched_ravg_hist_size := s.sysctl_sched_ravg_hist_size }
  else if g.sched_migration_fixup != s.sysctl_sched_migration_fixup then
    { g with sched_migration_fixup := s.sysctl_sched_migration_fixup }
  else if g.sched_freq_account_wait_time != s.sysctl_sched_freq_account_wait_time then
    { g with sched_freq_account_wait_time := s.sysctl_sched_freq_account_wait_time }
  else g

/-- Source `reset_all_window_stats(window_start, window_size)`: window
statistics are switched off, every task and every possible queue is reset, the
window length is set when `window_size` is non-zero, and the statistics are
switched on again.  `set_hmp_defaults` writes tunables outside the model. -/
def reset_all_window_stats (e : CpuEnv) (s : WindowSysctl) (reset_cpu_hmp_stats : Rq → Rq)
    (tick_nsec : Nat) (g : Globals) (w : World) (window_start window_size : Nat) :
    Globals × World :=
  let w1 : World := { w with tasks := fun pid => reset_task_stats (w.tasks pid) }
  let g1 :=
    if window_size != 0 then { g with sched_ravg_window := wrap32 (window_size * tick_nsec) }
    else g
  let g2 := { g1 with sched_disable_window_stats := false }
  let w2 := (for_each_cpu e.nr_cpu_ids e.cpu_possible_mask).foldl
    (fun a cpu => a.map_rq cpu (reset_rq_window_stats reset_cpu_hmp_stats window_start)) w1
  (sync_window_tunable g2 s, w2)

/-- The loop `while (ws > now) ws -= (window_size * TICK_NSEC);` of
`sched_set_window`; the comparison is between `u64` values.  `none` when the
fuel runs out. -/
def sched_set_window_loop (now len : Nat) : Nat → Int → Option Int
  | 0, _ => none
  | fuel + 1, ws =>
    if intToU64 ws > now then sched_set_window_loop now len fuel (toInt64 (intToU64 (ws - len)))
    else some ws

/-- Source `sched_set_window(window_start, window_size)` with its return
value; `none` when `BUG_ON(sched_ktime_clock() < ws)` fires or the fuel of the
loop runs out.  `sched_update_freq_max_load` writes tables outside the model. -/
def sched_set_window (e : CpuEnv) (s : WindowSysctl) (reset_cpu_hmp_stats : Rq → Rq)
    (c : WindowClock) (fuel : Nat) (g : Globals) (w : World) (window_start window_size : Nat) :
    Option (Int × Globals × World) :=
  if g.sched_use_pelt || decide (window_size * c.TICK_NSEC < MIN_SCHED_RAVG_WINDOW) then
    some (-EINVAL, g, w)
  else
    let ws := toInt64 (sub64 window_start c.cur_jiffies)
    let ws := toInt64 (intToU64 (ws * c.TICK_NSEC))
    let ws := toInt64 (wrap64 (intToU64 ws + c.jiffy_ktime_ns))
    match sched_set_window_loop c.now (window_size * c.TICK_NSEC) fuel ws with
    | none => none
    | some ws =>
      if c.sched_ktime_clock < intToU64 ws then none
      else
        let r := reset_all_window_stats e s reset_cpu_hmp_stats c.TICK_NSEC g w
          (intToU64 ws) window_size
        some (0, r.1, r.2)

/-! ## Scheduling policy

The policy numbers, priority limits and policy tests are header definitions
(`sched.h`, `sched/prio.h`, `sched/rt.h`, `sched/deadline.h`). -/

def SCHED_NORMAL : Int := 0
def SCHED_FIFO : Int := 1
def SCHED_RR : Int := 2
def SCHED_BATCH : Int := 3
def SCHED_IDLE : Int := 5
def SCHED_DEADLINE : Int := 6

/-- Source `#define SETPARAM_POLICY -1`. -/
def SETPARAM_POLICY : Int := -1

def SCHED_FLAG_RESET_ON_FORK : Nat := 1
def MAX_RT_PRIO : Int := 100
def MAX_USER_RT_PRIO : Int := 100
def MAX_DL_PRIO : Int := 0
def DEFAULT_PRIO : Int := 120
def DL_SCALE : Nat := 10

/-- The value `RUNTIME_INF`, `(u64)~0ULL`. -/
def RUNTIME_INF : Nat := 18446744073709551615

/-- The error number `EPERM`. -/
def EPERM : Int := 1

/-- The error number `EBUSY`. -/
def EBUSY : Int := 16

def dl_policy (policy : Int) : Bool := policy == SCHED_DEADLINE

def rt_policy (policy : Int) : Bool := policy == SCHED_FIFO || policy == SCHED_RR

def fair_policy (policy : Int) : Bool := policy == SCHED_NORMAL || policy == SCHED_BATCH

def dl_prio (prio : Int) : Bool := decide (prio < MAX_DL_PRIO)

def rt_prio (prio : Int) : Bool := decide (prio < MAX_RT_PRIO)

/-- The macro `NICE_TO_PRIO`. -/
def NICE_TO_PRIO (nice : Int) : Int := nice + DEFAULT_PRIO

/-- The user-supplied `struct sched_attr`. -/
structure SchedAttr where
  sched_policy : Int := 0
  sched_flags : Nat := 0
  sched_nice : Int := 0
  sched_priority : Nat := 0
  sched_runtime : Nat := 0
  sched_deadline : Nat := 0
  sched_period : Nat := 0
  deriving DecidableEq, Repr

/-- The deadline parameters `p->dl` (`struct sched_dl_entity`). -/
structure SchedDlEntity where
  dl_runtime : Nat := 0
  dl_deadline : Nat := 0
  dl_period : Nat := 0
  flags : Nat := 0
  dl_bw : Nat := 0
  dl_throttled : Nat := 0
  dl_new : Nat := 0
  dl_yielded : Nat := 0
  deriving DecidableEq, Repr

/-- The fields of `struct task_struct` read or written by the policy code. -/
structure PolicyTask where
  pid : Nat := 0
  policy : Int := 0
  static_prio : Int := 120
  normal_prio : Int := 120
  prio : Int := 120
  rt_priority : Nat := 0
  dl : SchedDlEntity := {}
  sched_class : SchedClass := SchedClass.fair
  sched_reset_on_fork : Bool := false
  /-- Whether `p->mm` is non-null. -/
  mm : Bool := false
  cpus_allowed : List Nat := []
  on_rq : Nat := 0
  deriving DecidableEq, Repr

/-- The deadline bandwidth of a root domain, `struct dl_bw`; `bw` is
`2^64 - 1` (that is `-1`) when the domain is unlimited. -/
structure DlBw where
  bw : Nat := 18446744073709551615
  total_bw : Nat := 0
  deriving DecidableEq, Repr

def task_has_dl_policy (p : PolicyTask) : Bool := dl_policy p.policy

def task_has_rt_policy (p : PolicyTask) : Bool := rt_policy p.policy

/-- Source `to_ratio`. -/
def to_ratio (period runtime : Nat) : Nat :=
  if runtime == RUNTIME_INF then 1048576
  else if period == 0 then 0
  else wrap64 (runtime * 1048576) / period

/-- Source `dl_bw_cpus` (`CONFIG_SMP`): the active processors of the span. -/
def dl_bw_cpus (e : CpuEnv) (span : List Nat) : Nat :=
  ((for_each_cpu e.nr_cpu_ids span).filter (fun i => cpu_active e i)).length

/-- Source `__dl_overflow`; the arithmetic is in `u64`, and `cpus` is an `int`
count that is never negative. -/
def __dl_overflow (dl_b : DlBw) (cpus : Nat) (old_bw new_bw : Nat) : Bool :=
  dl_b.bw != 18446744073709551615 &&
    decide (wrap64 (dl_b.bw * cpus) < wrap64 (sub64 dl_b.total_bw old_bw + new_bw))

/-- Source `__dl_clear`. -/
def __dl_clear (dl_b : DlBw) (tsk_bw : Nat) : DlBw :=
  { dl_b with total_bw := sub64 dl_b.total_bw tsk_bw }

/-- Source `__dl_add`. -/
def __dl_add (dl_b : DlBw) (tsk_bw : Nat) : DlBw :=
  { dl_b with total_bw := wrap64 (dl_b.total_bw + tsk_bw) }

/-- The local `period` of `dl_overflow`: `attr->sched_period ?: attr->sched_deadline`. -/
def dl_overflow_period (attr : SchedAttr) : Nat :=
  if attr.sched_period != 0 then attr.sched_period else attr.sched_deadline

/-- The local `new_bw` of `dl_overflow`. -/
def dl_overflow_new_bw (policy : Int) (attr : SchedAttr) : Nat :=
  if dl_policy policy then to_ratio (dl_overflow_period attr) attr.sched_runtime else 0

/-- Source `dl_overflow` on the domain `dl_b` of the task's processor, with
`cpus = dl_bw_cpus(task_cpu(p))`: the value returned and the domain. -/
def dl_overflow (dl_b : DlBw) (cpus : Nat) (p : PolicyTask) (policy : Int) (attr : SchedAttr) :
    Int × DlBw :=
  let new_bw := dl_overflow_new_bw policy attr
  if new_bw == p.dl.dl_bw then (0, dl_b)
  else if dl_policy policy && !task_has_dl_policy p && !__dl_overflow dl_b cpus 0 new_bw then
    (0, __dl_add dl_b new_bw)
  else if dl_policy policy && task_has_dl_policy p &&
      !__dl_overflow dl_b cpus p.dl.dl_bw new_bw then
    (0, __dl_add (__dl_clear dl_b p.dl.dl_bw) new_bw)
  else if !dl_policy policy && task_has_dl_policy p then
    (0, __dl_clear dl_b p.dl.dl_bw)
  else (-1, dl_b)

/-- The permissions, limits and functions outside this file that
`__sched_setscheduler` consults. -/
structure PolicyEnv extends CpuEnv where
  /-- Result of `in_interrupt()`. -/
  in_interrupt : Bool := false
  /-- Result of `capable(CAP_SYS_NICE)`. -/
  capable_sys_nice : Bool := true
  /-- The limit `task_rlimit(p, RLIMIT_NICE)`. -/
  task_rlimit_nice : PolicyTask → Int := fun _ => 0
  /-- The limit `task_rlimit(p, RLIMIT_RTPRIO)`. -/
  task_rlimit_rtprio : PolicyTask → Nat := fun _ => 0
  /-- Result of `check_same_owner(p)`, a comparison of credentials. -/
  check_same_owner : PolicyTask → Bool := fun _ => true
  /-- The hook `security_task_setscheduler(p)`. -/
  security_task_setscheduler : PolicyTask → Int := fun _ => 0
  /-- The function `rt_mutex_get_effective_prio(p, newprio)`. -/
  rt_mutex_get_effective_prio : PolicyTask → Int → Int := fun _ prio => prio
  /-- Under `CONFIG_RT_GROUP_SCHED`: bandwidth control is on, the task's group
  has no realtime runtime and is not an autogroup. -/
  rt_group_without_runtime : PolicyTask → Bool := fun _ => false
  /-- Result of `dl_bandwidth_enabled()`. -/
  dl_bandwidth_enabled : Bool := true
  /-- The task `rq->stop` of the task's queue, by pid. -/
  rq_stop : Option Nat := none
  /-- The span `rq->rd->span` of the root domain. -/
  rd_span : List Nat := []

/-- The macro `task_nice`. -/
def task_nice (p : PolicyTask) : Int := p.static_prio - DEFAULT_PRIO

/-- The header function `nice_to_rlimit`. -/
def nice_to_rlimit (nice : Int) : Int := 19 - nice + 1

/-- Source `can_nice`. -/
def can_nice (env : PolicyEnv) (p : PolicyTask) (nice : Int) : Bool :=
  decide (nice_to_rlimit nice ≤ env.task_rlimit_nice p) || env.capable_sys_nice

/-- The macro `cpumask_subset(a, b)` over the processors below `nr_cpu_ids`. -/
def cpumask_subset (nr_cpu_ids : Nat) (a b : List Nat) : Bool :=
  (for_each_cpu nr_cpu_ids a).all (fun c => cpumask_test_cpu c b)

/-- Source `normal_prio`. -/
def normal_prio (p : PolicyTask) : Int :=
  if task_has_dl_policy p then MAX_DL_PRIO - 1
  else if task_has_rt_policy p then MAX_RT_PRIO - 1 - p.rt_priority
  else p.static_prio

/-- Source `__checkparam_dl`. -/
def __checkparam_dl (attr : SchedAttr) : Bool :=
  if attr.sched_deadline == 0 then false
  else if attr.sched_runtime < 2 ^ DL_SCALE then false
  else if (attr.sched_deadline &&& 9223372036854775808) != 0 ||
      (attr.sched_period &&& 9223372036854775808) != 0 then false
  else if (attr.sched_period != 0 && decide (attr.sched_period < attr.sched_deadline)) ||
      decide (attr.sched_deadline < attr.sched_runtime) then false
  else true

/-- Source `__setparam_dl`; the timer is outside the model. -/
def __setparam_dl (p : PolicyTask) (attr : SchedAttr) : PolicyTask :=
  let dl_period := if attr.sched_period != 0 then attr.sched_period else attr.sched_deadline
  { p with dl :=
      { dl_runtime := attr.sched_runtime, dl_deadline := attr.sched_deadline,
        dl_period := dl_period, flags := attr.sched_flags,
        dl_bw := to_ratio dl_period attr.sched_runtime,
        dl_throttled := 0, dl_new := 1, dl_yielded := 0 } }

/-- Source `__setscheduler_params`; `set_load_weight` writes the load weight
of the scheduling entity, outside the model. -/
def __setscheduler_params (p : PolicyTask) (attr : SchedAttr) : PolicyTask :=
  let policy := if attr.sched_policy == SETPARAM_POLICY then p.policy else attr.sched_policy
  let p1 := { p with policy := policy }
  let p2 :=
    if dl_policy policy then __setparam_dl p1 attr
    else if fair_policy policy then { p1 with static_prio := NICE_TO_PRIO attr.sched_nice }
    else p1
  let p3 := { p2 with rt_priority := attr.sched_priority }
  { p3 with normal_prio := normal_prio p3 }

/-- Source `__setscheduler`. -/
def __setscheduler (env : PolicyEnv) (p : PolicyTask) (attr : SchedAttr) (keep_boost : Bool) :
    PolicyTask :=
  let p1 := __setscheduler_params p attr
  let p2 :=
    if keep_boost then { p1 with prio := env.rt_mutex_get_effective_prio p1 (normal_prio p1) }
    else { p1 with prio := normal_prio p1 }
  if dl_prio p2.prio then { p2 with sched_class := SchedClass.dl }
  else if rt_prio p2.prio then { p2 with sched_class := SchedClass.rt }
  else { p2 with sched_class := SchedClass.fair }

/-- The head of `__sched_setscheduler` after the label `recheck`: `none` is
the return of `-EINVAL` for an unknown policy, otherwise the values of
`policy`, `oldpolicy` and `reset_on_fork`. -/
def setscheduler_policy (p : PolicyTask) (attr : SchedAttr) (policy oldpolicy : Int) :
    Option (Int × Int × Bool) :=
  if policy < 0 then some (p.policy, p.policy, p.sched_reset_on_fork)
  else if policy != SCHED_DEADLINE && policy != SCHED_FIFO && policy != SCHED_RR &&
      policy != SCHED_NORMAL && policy != SCHED_BATCH && policy != SCHED_IDLE then none
  else some (policy, oldpolicy, (attr.sched_flags &&& SCHED_FLAG_RESET_ON_FORK) != 0)

/-- The three tests of `__sched_setscheduler` that return `-EINVAL` before
any permission is looked at: unknown flag bits, priority out of range, and
parameters that do not fit the policy. -/
def setscheduler_invalid (p : PolicyTask) (attr : SchedAttr) (policy : Int) : Bool :=
  (attr.sched_flags &&& 18446744073709551614) != 0 ||
  ((p.mm && decide ((attr.sched_priority : Int) > MAX_USER_RT_PRIO - 1)) ||
    (!p.mm && decide ((attr.sched_priority : Int) > MAX_RT_PRIO - 1))) ||
  ((dl_policy policy && !__checkparam_dl attr) ||
    (rt_policy policy != (attr.sched_priority != 0)))

/-- The tests of the block `if (user && !capable(CAP_SYS_NICE))` that return
`-EPERM`. -/
def setscheduler_denied (env : PolicyEnv) (p : PolicyTask) (attr : SchedAttr) (policy : Int)
    (reset_on_fork : Bool) : Bool :=
  (fair_policy policy && decide (attr.sched_nice < task_nice p) &&
    !can_nice env p attr.sched_nice) ||
  (rt_policy policy &&
    ((policy != p.policy && env.task_rlimit_rtprio p == 0) ||
      (decide (attr.sched_priority > p.rt_priority) &&
        decide (attr.sched_priority > env.task_rlimit_rtprio p)))) ||
  dl_policy policy ||
  (p.policy == SCHED_IDLE && policy != SCHED_IDLE && !can_nice env p (task_nice p)) ||
  !env.check_same_owner p ||
  (p.sched_reset_on_fork && !reset_on_fork)

/-- The test `policy == p->policy` with none of its three `goto change`. -/
def setscheduler_unchanged (p : PolicyTask) (attr : SchedAttr) (policy : Int) : Bool :=
  policy == p.policy &&
    !(fair_policy policy && attr.sched_nice != task_nice p) &&
    !(rt_policy policy && attr.sched_priority != p.rt_priority) &&
    !dl_policy policy

/-- The tests after the label `change` that return `-EPERM` for a user
request. -/
def setscheduler_change_denied (env : PolicyEnv) (p : PolicyTask) (policy : Int) (dl_b : DlBw) :
    Bool :=
  (rt_policy policy && env.rt_group_without_runtime p) ||
  (env.dl_bandwidth_enabled && dl_policy policy &&
    (!cpumask_subset env.nr_cpu_ids env.rd_span p.cpus_allowed || dl_b.bw == 0))

/-- How one pass of `__sched_setscheduler` from `recheck` ends. -/
inductive SetschedulerPass where
  | done (ret : Int) (p : PolicyTask) (dl_b : DlBw)
  | recheck
  deriving DecidableEq, Repr

/-- The admission test `(dl_policy(policy) || dl_task(p)) && dl_overflow(p,
policy, attr)` of `__sched_setscheduler`: the value tested and the domain. -/
def __sched_setscheduler_admission (env : PolicyEnv) (p : PolicyTask) (dl_b : DlBw)
    (attr : SchedAttr) (policy : Int) : Int × DlBw :=
  if dl_policy policy || dl_prio p.prio then
    dl_overflow dl_b (dl_bw_cpus env.toCpuEnv env.rd_span) p policy attr
  else (0, dl_b)

/-- The tail of `__sched_setscheduler` from the admission test on.  The class
hooks called around `__setscheduler` for a queued or running task and
`rt_mutex_adjust_pi` write class-private data, outside the model. -/
def __sched_setscheduler_commit (env : PolicyEnv) (p : PolicyTask) (dl_b : DlBw)
    (attr : SchedAttr) (policy : Int) (reset_on_fork : Bool) : SetschedulerPass :=
  let newprio : Int :=
    if dl_policy attr.sched_policy then MAX_DL_PRIO - 1
    else MAX_RT_PRIO - 1 - attr.sched_priority
  let o := __sched_setscheduler_admission env p dl_b attr policy
  if o.1 != 0 then SetschedulerPass.done (-EBUSY) p o.2
  else
    let p1 := { p with sched_reset_on_fork := reset_on_fork }
    let oldprio := p1.prio
    let new_effective_prio := env.rt_mutex_get_effective_prio p1 newprio
    if new_effective_prio == oldprio then
      SetschedulerPass.done 0 (__setscheduler_params p1 attr) o.2
    else SetschedulerPass.done 0 (__setscheduler env p1 attr true) o.2

/-- The part of `__sched_setscheduler` under the queue lock, up to the test
that sends it back to `recheck`. -/
def __sched_setscheduler_locked (env : PolicyEnv) (p : PolicyTask) (dl_b : DlBw)
    (attr : SchedAttr) (user : Bool) (policy oldpolicy : Int) (reset_on_fork : Bool) :
    SetschedulerPass :=
  if env.rq_stop == some p.pid then SetschedulerPass.done (-EINVAL) p dl_b
  else if setscheduler_unchanged p attr policy then
    SetschedulerPass.done 0 { p with sched_reset_on_fork := reset_on_fork } dl_b
  else if user && setscheduler_change_denied env p policy dl_b then
    SetschedulerPass.done (-EPERM) p dl_b
  else if oldpolicy != -1 && oldpolicy != p.policy then SetschedulerPass.recheck
  else __sched_setscheduler_commit env p dl_b attr policy reset_on_fork

/-- One pass of `__sched_setscheduler` from the label `recheck`. -/
def __sched_setscheduler_pass (env : PolicyEnv) (p : PolicyTask) (dl_b : DlBw)
    (attr : SchedAttr) (user : Bool) (policy oldpolicy : Int) : SetschedulerPass :=
  match setscheduler_policy p attr policy oldpolicy with
  | none => SetschedulerPass.done (-EINVAL) p dl_b
  | some (policy, oldpolicy, reset_on_fork) =>
    if setscheduler_invalid p attr policy then SetschedulerPass.done (-EINVAL) p dl_b
    else if user && !env.capable_sys_nice &&
        setscheduler_denied env p attr policy reset_on_fork then
      SetschedulerPass.done (-EPERM) p dl_b
    else if user && env.security_task_setscheduler p != 0 then
      SetschedulerPass.done (env.security_task_setscheduler p) p dl_b
    else __sched_setscheduler_locked env p dl_b attr user policy oldpolicy reset_on_fork

/-- The passes of `__sched_setscheduler`: `goto recheck` starts another one
with `policy = oldpolicy = -1`; `none` when the fuel runs out. -/
def __sched_setscheduler_loop (env : PolicyEnv) (p : PolicyTask) (dl_b : DlBw)
    (attr : SchedAttr) (user : Bool) : Nat → Int → Int → Option (Int × PolicyTask × DlBw)
  | 0, _, _ => none
  | fuel + 1, policy, oldpolicy =>
    match __sched_setscheduler_pass env p dl_b attr user policy oldpolicy with
    | SetschedulerPass.done ret p1 dl_b1 => some (ret, p1, dl_b1)
    | SetschedulerPass.recheck => __sched_setscheduler_loop env p dl_b attr user fuel (-1) (-1)

/-- Source `__sched_setscheduler(p, attr, user)` on the task and the deadline
bandwidth of its root domain, with the value returned; `none` for
`BUG_ON(in_interrupt())`. -/
def __sched_setscheduler (env : PolicyEnv) (p : PolicyTask) (dl_b : DlBw) (attr : SchedAttr)
    (user : Bool) (fuel : Nat) : Option (Int × PolicyTask × DlBw) :=
  if env.in_interrupt then none
  else __sched_setscheduler_loop env p dl_b attr user fuel attr.sched_policy (-1)

/-! ## Cluster order -/

/-- Source `compare_clusters`, on the two clusters that hold the list nodes. -/
def compare_clusters (cluster1 cluster2 : Cluster) : Int :=
  if cluster1.max_power_cost > cluster2.max_power_cost ||
      (cluster1.max_power_cost == cluster2.max_power_cost &&
        decide (cluster1.max_possible_capacity < cluster2.max_possible_capacity)) then 1
  else 0

/-- Modelled from the spec: `list_sort` lives in the kernel library, outside
the sources at hand; the spec has the clusters sorted with "a stable
comparator".  The element goes in front of the first element of the sorted
rest that it need not come after (`cmp(a, b) <= 0`). -/
def list_sort_insert {α : Type} (cmp : α → α → Int) (a : α) : List α → List α
  | [] => [a]
  | b :: l => if cmp a b > 0 then b :: list_sort_insert cmp a l else a :: b :: l

/-- Modelled from the spec: `list_sort(priv, head, cmp)` as a stable sort by
insertion, see `list_sort_insert`. -/
def list_sort {α : Type} (cmp : α → α → Int) : List α → List α
  | [] => []
  | a :: l => list_sort_insert cmp a (list_sort cmp l)

/-- The loop of `assign_cluster_ids` from position `pos` on: the clusters with
their ids and the array `sched_cluster`. -/
def assign_cluster_ids_loop :
    List Cluster → Nat → (Nat → Option Cluster) → List Cluster × (Nat → Option Cluster)
  | [], _, sched_cluster => ([], sched_cluster)
  | cluster :: rest, pos, sched_cluster =>
    let cluster1 := { cluster with id := pos }
    let r := assign_cluster_ids_loop rest (pos + 1)
      (Function.update sched_cluster pos (some cluster1))
    (cluster1 :: r.1, r.2)

/-- Source `assign_cluster_ids`. -/
def assign_cluster_ids (head : List Cluster) (sched_cluster : Nat → Option Cluster) :
    List Cluster × (Nat → Option Cluster) :=
  assign_cluster_ids_loop head 0 sched_cluster

/-- The macro `cluster_first_cpu`: `cpumask_first(&cluster->cpus)`, which is
`nr_cpu_ids` for an empty mask. -/
def cluster_first_cpu (nr_cpu_ids : Nat) (cluster : Cluster) : Nat :=
  (for_each_cpu nr_cpu_ids cluster.cpus).headD nr_cpu_ids

/-- The first loop of `sort_clusters`: both power costs of every cluster are
read again.  `power_cost(cpu, demand)` is declared outside this file and a
parameter of the model. -/
def sort_clusters_costs (power_cost : Nat → Nat → Nat) (nr_cpu_ids max_task_load : Nat)
    (cluster_head : List Cluster) : List Cluster :=
  cluster_head.map (fun cluster =>
    { cluster with
      max_power_cost := power_cost (cluster_first_cpu nr_cpu_ids cluster) max_task_load,
      min_power_cost := power_cost (cluster_first_cpu nr_cpu_ids cluster) 0 })

/-- Source `sort_clusters`: the cluster list and the array `sched_cluster` it
leaves.  The two `move_list` calls hand the nodes to a private head and back. -/
def sort_clusters (power_cost : Nat → Nat → Nat) (nr_cpu_ids max_task_load : Nat)
    (cluster_head : List Cluster) (sched_cluster : Nat → Option Cluster) :
    List Cluster × (Nat → Option Cluster) :=
  let new_head := sort_clusters_costs power_cost nr_cpu_ids max_task_load cluster_head
  let new_head := list_sort compare_clusters new_head
  assign_cluster_ids new_head sched_cluster

/-- The cluster with its `id` erased: what identifies it across a new
numbering. -/
def Cluster.erase_id (cluster : Cluster) : Cluster := { cluster with id := 0 }

/-- The two sort keys of a cluster. -/
def Cluster.sort_key (cluster : Cluster) : Nat × Nat :=
  (cluster.max_power_cost, cluster.max_possible_capacity)

/-- The cluster with the fields `sort_clusters` writes erased: `id` and the
two power costs. -/
def Cluster.erase_order (cluster : Cluster) : Cluster :=
  { cluster with id := 0, max_power_cost := 0, min_power_cost := 0 }

/-! ## Affinity -/

/-- The macro `cpumask_equal(a, b)` over the processors below `nr_cpu_ids`. -/
def cpumask_equal (nr_cpu_ids : Nat) (a b : List Nat) : Bool :=
  for_each_cpu nr_cpu_ids a == for_each_cpu nr_cpu_ids b

/-- The macro `cpumask_intersects(a, b)` over the processors below
`nr_cpu_ids`. -/
def cpumask_intersects (nr_cpu_ids : Nat) (a b : List Nat) : Bool :=
  (for_each_cpu nr_cpu_ids a).any (fun c => cpumask_test_cpu c b)

/-- The macro `cpumask_any_and(a, b)`: the first processor in both masks,
`nr_cpu_ids` when there is none. -/
def cpumask_any_and (nr_cpu_ids : Nat) (a b : List Nat) : Nat :=
  ((for_each_cpu nr_cpu_ids a).find? (fun c => cpumask_test_cpu c b)).getD nr_cpu_ids

/-- Flag `DEQUEUE_SLEEP`. -/
def DEQUEUE_SLEEP : Nat := 1

/-- Flag `DEQUEUE_MIGRATING`, only handed on to the class hook. -/
def DEQUEUE_MIGRATING : Nat := 2

/-- Flag `ENQUEUE_MIGRATING`, only handed on to the class hook. -/
def ENQUEUE_MIGRATING : Nat := 16

/-- Source `dequeue_task`: the class hook on the queue of `cpu`.
`update_rq_clock`, `sched_info_dequeued` and the trace point write only fields
outside the model. -/
def dequeue_task (env : Env) (w : World) (cpu pid flags : Nat) : World :=
  w.map_rq cpu (fun rq => env.class_dequeue_task rq (w.tasks pid) flags)

/-- Source `move_queued_task`; `wallclock` is the clock value read inside
`fixup_busy_time`.  `BUG_ON(task_cpu(p) != new_cpu)` gives `none`;
`check_preempt_curr` writes only fields outside the model. -/
def move_queued_task (env : Env) (w : World) (pid new_cpu wallclock : Nat) : Option World :=
  let rq_cpu := (w.tasks pid).cpu
  let w1 := dequeue_task env w rq_cpu pid DEQUEUE_MIGRATING
  let w2 := w1.map_task pid (fun p => { p with on_rq := TASK_ON_RQ_MIGRATING })
  match set_task_cpu env w2 pid new_cpu wallclock with
  | none => none
  | some w3 =>
    if (w3.tasks pid).cpu != new_cpu then none
    else
      let w4 := w3.map_task pid (fun p => { p with on_rq := TASK_ON_RQ_QUEUED })
      some (enqueue_task env w4 new_cpu pid ENQUEUE_MIGRATING)

/-- Source `__migrate_task`, with the value it returns.  The migration
notifier chain is outside the model. -/
def __migrate_task (env : Env) (w : World) (pid src_cpu dest_cpu wallclock : Nat) :
    Option (World × Int) :=
  if !cpu_active env.toCpuEnv dest_cpu then some (w, 0)
  else if (w.tasks pid).cpu != src_cpu then some (w, 1)
  else if !cpumask_test_cpu dest_cpu (w.tasks pid).cpus_allowed then some (w, 0)
  else if task_on_rq_queued (w.tasks pid) then
    match move_queued_task env w pid dest_cpu wallclock with
    | none => none
    | some w1 =>
      if !env.same_freq_domain src_cpu dest_cpu then
        some (world_check_for_freq_change env.toGlobals
          (world_check_for_freq_change env.toGlobals w1 src_cpu) dest_cpu, 1)
      else some (w1, 1)
  else some (w, 1)

/-- Source `migration_cpu_stop`, run on processor `this_cpu` for the task
`pid` and the destination `dest_cpu`. -/
def migration_cpu_stop (env : Env) (w : World) (this_cpu pid dest_cpu wallclock : Nat) :
    Option World :=
  match __migrate_task env (sched_ttwu_pending env w this_cpu) pid this_cpu dest_cpu
      wallclock with
  | none => none
  | some r => some r.1

/-- Source `set_cpus_allowed_ptr`, with the value it returns.  `task_rq_lock`
waits while the task is migrating; with no other processor running this never
ends, which is `none`, as is a `BUG_ON` on the way.  `stop_one_cpu`, declared
outside this file, has the stopper of the task's processor run
`migration_cpu_stop` and waits for it: here the function is run in place.
`wallclock` is the clock value read in `fixup_busy_time`. -/
def set_cpus_allowed_ptr (env : Env) (w : World) (pid : Nat) (new_mask : List Nat)
    (wallclock : Nat) : Option (Int × World) :=
  let p := w.tasks pid
  if p.on_rq == TASK_ON_RQ_MIGRATING then none
  else if cpumask_equal env.nr_cpu_ids p.cpus_allowed new_mask then some (0, w)
  else if !cpumask_intersects env.nr_cpu_ids new_mask env.cpu_active_mask then
    some (-EINVAL, w)
  else
    let w1 := w.map_task pid (fun p => do_set_cpus_allowed env.toCpuEnv p new_mask)
    if cpumask_test_cpu p.cpu new_mask then some (0, w1)
    else
      let dest_cpu := cpumask_any_and env.nr_cpu_ids env.cpu_active_mask new_mask
      if p.on_cpu != 0 || p.state == TASK_WAKING then
        match migration_cpu_stop env w1 p.cpu pid dest_cpu wallclock with
        | none => none
        | some w2 => some (0, w2)
      else if task_on_rq_queued p then
        match move_queued_task env w1 pid dest_cpu wallclock with
        | none => none
        | some w2 => some (0, w2)
      else some (0, w1)

/-- The second world agrees with the first in every task's `cpus_allowed` and
`nr_cpus_allowed`. -/
def World.same_affinity (w w1 : World) : Prop :=
  ∀ q, (w1.tasks q).cpus_allowed = (w.tasks q).cpus_allowed ∧
       (w1.tasks q).nr_cpus_allowed = (w.tasks q).nr_cpus_allowed

/-! ## One pass of `__schedule` -/

/-- The mask `TASK_NORMAL`. -/
def TASK_NORMAL : Nat := 3

/-- Source `deactivate_task`. -/
def deactivate_task (env : Env) (w : World) (cpu pid flags : Nat) : World :=
  let w1 :=
    if env.task_contributes_to_load (w.tasks pid) then
      w.map_rq cpu (fun rq => { rq with nr_uninterruptible := rq.nr_uninterruptible + 1 })
    else w
  let w2 := if flags &&& DEQUEUE_SLEEP != 0 then clear_ed_task w1 pid cpu else w1
  dequeue_task env w2 cpu pid flags

/-- Source `try_to_wake_up_local`, called on processor `this_cpu` while
`current` runs; `wallclock` is the clock value read in it and a `BUG()` on the
way gives `none`.  `ttwu_stat` writes only statistics outside the model. -/
def try_to_wake_up_local (env : Env) (w : World) (pid this_cpu current wallclock : Nat) :
    Option World :=
  let p := w.tasks pid
  if p.cpu != this_cpu || pid == current then some w
  else if p.state &&& TASK_NORMAL == 0 then some w
  else if !task_on_rq_queued p then
    match world_update_task_ravg env.toGlobals env.fixup w (w.rqs this_cpu).curr this_cpu
        TaskEvent.TASK_UPDATE wallclock 0 with
    | none => none
    | some w1 =>
      match world_update_task_ravg env.toGlobals env.fixup w1 pid this_cpu
          TaskEvent.TASK_WAKE wallclock 0 with
      | none => none
      | some w2 =>
        some (ttwu_do_wakeup
          ((ttwu_activate env w2 this_cpu pid ENQUEUE_WAKEUP).map_task pid
            (fun p => { p with last_wake_ts := wallclock })) pid)
  else some (ttwu_do_wakeup w pid)

/-- What `__schedule` takes from outside this file, besides the parameters of
the wakeup path. -/
structure ScheduleEnv extends Env where
  /-- The `pick_next_task` hooks of the classes. -/
  pick : PickHook := fun _ rq prev => (Picked.null, rq, prev)
  /-- The header function `signal_pending_state(state, p)`. -/
  signal_pending_state : Nat → Task → Bool := fun _ _ => false
  /-- Whether `preempt_count() & PREEMPT_ACTIVE` is non-zero. -/
  preempt_active : Bool := false
  /-- For a task with `PF_WQ_WORKER` the worker `wq_worker_sleeping(prev,
  cpu)` returns, if any; `none` for every other task. -/
  wq_to_wakeup : World → Nat → Nat → Option Nat := fun _ _ _ => none
  /-- The width of `unsigned long`, the type of `nvcsw` and `nivcsw`. -/
  BITS_PER_LONG : Nat := 64

/-- The block `if (prev->state && !(preempt_count() & PREEMPT_ACTIVE))` of
`__schedule`, apart from the choice of `switch_count`; `wake_clock` is the
clock value read in `try_to_wake_up_local`. -/
def __schedule_deactivate (env : ScheduleEnv) (w : World) (cpu prev wake_clock : Nat) :
    Option World :=
  let p := w.tasks prev
  if p.state != 0 && !env.preempt_active then
    if env.signal_pending_state p.state p then
      some (w.map_task prev (fun p => { p with state := TASK_RUNNING }))
    else
      let w1 := (deactivate_task env.toEnv w cpu prev DEQUEUE_SLEEP).map_task prev
        (fun p => { p with on_rq := 0 })
      match env.wq_to_wakeup w1 prev cpu with
      | none => some w1
      | some to_wakeup => try_to_wake_up_local env.toEnv w1 to_wakeup cpu prev wake_clock
  else some w

/-- Source `context_switch`, as far as the fields of the model go: the header
functions `prepare_lock_switch` and `finish_lock_switch` set `next->on_cpu`
and clear `prev->on_cpu`. -/
def context_switch (w : World) (prev next : Nat) : World :=
  (w.map_task next (fun p => { p with on_cpu := 1 })).map_task prev
    (fun p => { p with on_cpu := 0 })

/-- The block `if (likely(prev != next))` of `__schedule`; `voluntary` tells
that `switch_count` points to `prev->nvcsw`. -/
def __schedule_switch (env : ScheduleEnv) (w : World) (cpu prev next : Nat) (voluntary : Bool)
    (wallclock : Nat) : World :=
  let w1 := w.map_rq cpu (fun rq =>
    { rq with nr_switches := wrap64 (rq.nr_switches + 1), curr := next })
  let w2 := w1.map_task prev (fun p =>
    if voluntary then { p with nvcsw := (p.nvcsw + 1) % 2 ^ env.BITS_PER_LONG }
    else { p with nivcsw := (p.nivcsw + 1) % 2 ^ env.BITS_PER_LONG })
  let w3 := w2.map_task prev (fun p => { p with last_switch_out_ts := wallclock })
  context_switch w3 prev next

/-- One pass of `__schedule` on processor `cpu`, from the label `need_resched`
to the test of `need_resched()`, with the task picked.  `n` bounds the passes
of the class loop in `pick_next_task`; `wallclock` is the clock value read in
the pass.  A `BUG()`, a null `next` and a class loop that has not ended give
`none`.  The run-queue clock lives outside `Rq` (see `update_rq_clock`); the
class hook behind `post_schedule` writes class-private data. -/
def __schedule_pass (env : ScheduleEnv) (n : Nat) (w : World) (cpu wake_clock wallclock : Nat) :
    Option (World × Nat) :=
  let prev := (w.rqs cpu).curr
  let voluntary := (w.tasks prev).state != 0 && !env.preempt_active
  match __schedule_deactivate env w cpu prev wake_clock with
  | none => none
  | some w1 =>
    match pick_next_task env.pick n (w1.rqs cpu) (w1.tasks prev) with
    | PickOutcome.returned (Picked.task next) rq1 prev1 =>
      let w2 : World :=
        { w1 with tasks := Function.update w1.tasks prev prev1,
                  rqs := Function.update w1.rqs cpu rq1 }
      match world_update_task_ravg env.toGlobals env.fixup w2 prev cpu
          TaskEvent.PUT_PREV_TASK wallclock 0 with
      | none => none
      | some w3 =>
        match world_update_task_ravg env.toGlobals env.fixup w3 next cpu
            TaskEvent.PICK_NEXT_TASK wallclock 0 with
        | none => none
        | some w4 =>
          if (w4.tasks next).cpu != (w4.rqs cpu).cpu then none
          else if prev != next then
            some (__schedule_switch env w4 cpu prev next voluntary wallclock, next)
          else some (w4, next)
    | _ => none

/-- The fields of a task that one pass of `__schedule` is followed on. -/
def Task.switch_part (p : Task) : Nat × Nat × Nat × Nat :=
  (p.state, p.on_rq, p.nvcsw, p.nivcsw)

/-- The fields of a queue that one pass of `__schedule` is followed on. -/
def Rq.switch_part (rq : Rq) : Nat × Nat := (rq.curr, rq.nr_switches)

/-- The second world agrees with the first in the followed fields of the task
`prev` and of every queue. -/
def World.switch_frame (prev : Nat) (w w1 : World) : Prop :=
  (w1.tasks prev).switch_part = (w.tasks prev).switch_part ∧
  ∀ c, (w1.rqs c).switch_part = (w.rqs c).switch_part

/-! ## Window start of a queue -/

/-- Source `set_window_start` on the queue of `cpu`; `now` is the value
`sched_ktime_clock()` returns.  The load history of the queue is outside
`Rq`. -/
def set_window_start (g : Globals) (sync_cpu now : Nat) (w : World) (cpu : Nat) : World :=
  let rq := w.rqs cpu
  if rq.window_start != 0 || !g.sched_enable_hmp then w
  else
    let w1 :=
      if rq.cpu == sync_cpu then w.map_rq cpu (fun r => { r with window_start := now })
      else
        w.map_rq cpu (fun r =>
          { r with window_start := (w.rqs sync_cpu).window_start,
                   curr_runnable_sum := 0, prev_runnable_sum := 0,
                   nt_curr_runnable_sum := 0, nt_prev_runnable_sum := 0 })
    w1.map_task (w1.rqs cpu).curr
      (fun p => { p with ravg := { p.ravg with mark_start := (w1.rqs cpu).window_start } })

/-- The ring after a fold as the spec describes it: `runtime` in the first
`min(samples, H)` places, then the old entries moved up by `samples` places as
far as place `H - 1`, and the places from `H` on as they were. -/
def spec_history_fold (H : Nat) (hist : List Nat) (runtime samples : Nat) : List Nat :=
  List.replicate (min samples H) runtime ++ hist.take (H - min samples H) ++ hist.drop H

/-! ## Migration between queues -/

/-- Source `__migrate_swap_task`; `wallclock` is the clock value read inside
`fixup_busy_time`.  `check_preempt_curr` writes only fields outside the
model. -/
def __migrate_swap_task (env : Env) (w : World) (pid cpu wallclock : Nat) : Option World :=
  if task_on_rq_queued (w.tasks pid) then
    let src_cpu := (w.tasks pid).cpu
    let w1 := deactivate_task env w src_cpu pid 0
    let w2 := w1.map_task pid (fun p => { p with on_rq := TASK_ON_RQ_MIGRATING })
    match set_task_cpu env w2 pid cpu wallclock with
    | none => none
    | some w3 =>
      let w4 := w3.map_task pid (fun p => { p with on_rq := TASK_ON_RQ_QUEUED })
      some (activate_task env w4 cpu pid 0)
  else some (w.map_task pid (fun p => { p with wake_cpu := cpu }))

/-- The second world agrees with the first in the list of tasks of every
queue and in every task's `pid`. -/
def World.same_queues (w w1 : World) : Prop :=
  (∀ c, (w1.rqs c).queue = (w.rqs c).queue) ∧ (∀ q, (w1.tasks q).pid = (w.tasks q).pid)

/-! ## The scheduler tick -/

/-- The loop of `early_detection_notify` over `rq->cfs_tasks` with `loop_max`
entries still to look at: the first task that has waited
`sysctl_early_detection_duration` since its last wake. -/
def early_detection_scan (g : Globals) (tasks : Nat → Task) (wallclock : Nat) :
    List Nat → Nat → Option Nat
  | [], _ => none
  | pid :: rest, loop_max =>
    if loop_max == 0 then none
    else if sub64 wallclock (tasks pid).last_wake_ts ≥ g.sysctl_early_detection_duration then
      some pid
    else early_detection_scan g tasks wallclock rest (loop_max - 1)

/-- Source `early_detection_notify`, with the value it returns. -/
def early_detection_notify (g : Globals) (tasks : Nat → Task) (rq : Rq) (wallclock : Nat) :
    Rq × Bool :=
  if !g.sched_boost || rq.cfs_h_nr_running == 0 then (rq, false)
  else
    match early_detection_scan g tasks wallclock rq.cfs_tasks 10 with
    | some pid => ({ rq with ed_task := some pid }, true)
    | none => ({ rq with ed_task := none }, false)

/-- Parameters of `scheduler_tick`: those of the wakeup path, the processor
`sync_cpu`, and the class hook and the function of the fair class that live
outside this file. -/
structure TickEnv extends Env where
  sync_cpu : Nat := 0
  /-- The hook `curr->sched_class->task_tick(rq, curr, 0)` on the queue of a
  processor. -/
  class_task_tick : World → Nat → Nat → World := fun w _ _ => w
  /-- The function `check_for_migration(rq, curr)` of the fair class. -/
  check_for_migration : World → Nat → Nat → World := fun w _ _ => w

/-- Source `scheduler_tick` on processor `cpu`, with the value of
`early_notif`: whether the `load_alert_notifier_head` chain was called for
early detection, which is also recorded in `freq_alerts`.  `now` is the clock
value read in `set_window_start`, `wallclock` the value `sched_ktime_clock()`
returns.  `update_rq_clock`, `update_cpu_load_active`, `perf_event_task_tick`,
`trigger_load_balance` and `rq_last_tick_reset` write only fields outside the
model, as does the update of the preferred cluster of the task's group. -/
def scheduler_tick (env : TickEnv) (w : World) (cpu now wallclock : Nat) :
    Option (World × Bool) :=
  let curr := (w.rqs cpu).curr
  let w1 := set_window_start env.toGlobals env.sync_cpu now w cpu
  let w2 := env.class_task_tick w1 cpu curr
  match world_update_task_ravg env.toGlobals env.fixup w2 (w2.rqs cpu).curr cpu
      TaskEvent.TASK_UPDATE wallclock 0 with
  | none => none
  | some w3 =>
    let r := early_detection_notify env.toGlobals w3.tasks (w3.rqs cpu) wallclock
    let w4 : World :=
      { w3 with rqs := Function.update w3.rqs cpu r.1,
                freq_alerts := if r.2 then cpu :: w3.freq_alerts else w3.freq_alerts }
    some (if (w4.tasks curr).fair_class then env.check_for_migration w4 cpu curr else w4, r.2)

/-- A run of consecutive calls of `scheduler_tick` on processor `cpu`, one for
each pair of clock values `(now, wallclock)`, with the number of calls of the
notifier chain for early detection. -/
def scheduler_tick_run (env : TickEnv) (cpu : Nat) : World → List (Nat × Nat) →
    Option (World × Nat)
  | w, [] => some (w, 0)
  | w, t :: rest =>
    match scheduler_tick env w cpu t.1 t.2 with
    | none => none
    | some r =>
      match scheduler_tick_run env cpu r.1 rest with
      | none => none
      | some r2 => some (r2.1, (if r.2 then 1 else 0) + r2.2)

/-! ## Related thread groups -/

/-- The error number `ENOMEM`. -/
def ENOMEM : Int := 12

/-- The state of the group registry: the tasks, the group objects by address,
the list `related_thread_groups` as the addresses on it from its head, and the
counter `nr_related_thread_groups`. -/
structure GroupWorld where
  tasks : Nat → Task
  groups : Nat → RelatedThreadGroup
  related_thread_groups : List Nat := []
  nr_related_thread_groups : Int := 0

/-- Parameters of the group code: the tunables, the cluster list and the
predicate `group_will_fit`. -/
structure GroupEnv where
  sysctl_sched_enable_colocation : Bool := true
  sched_ravg_window : Nat := 10000000
  clusters : List Cluster := []
  group_will_fit : FitPredicate := fun _ _ _ => true

/-- Source `_set_preferred_cluster`; `clock` is the value `sched_ktime_clock()`
returns in it. -/
def _set_preferred_cluster (env : GroupEnv) (tasks : Nat → Task) (clock : Nat)
    (grp : RelatedThreadGroup) : RelatedThreadGroup :=
  if !env.sysctl_sched_enable_colocation then
    { grp with last_update := clock, preferred_cluster := none }
  else if sub64 clock grp.last_update < env.sched_ravg_window / 10 then grp
  else
    let combined_demand :=
      grp.tasks.foldl (fun acc pid => wrap64 (acc + (tasks pid).ravg.demand)) 0
    { grp with
      preferred_cluster :=
        (best_cluster env.group_will_fit env.clusters grp combined_demand).map (fun c => c.id),
      last_update := clock }

/-- The walk of `lookup_related_thread_group` over the list. -/
def lookup_group_in (groups : Nat → RelatedThreadGroup) (group_id : Nat) :
    List Nat → Option Nat
  | [] => none
  | a :: rest => if (groups a).id == group_id then some a
                 else lookup_group_in groups group_id rest

/-- Source `lookup_related_thread_group`. -/
def lookup_related_thread_group (w : GroupWorld) (group_id : Nat) : Option Nat :=
  lookup_group_in w.groups group_id w.related_thread_groups

/-- Source `remove_task_from_group`; a null `p->grp` gives `none`. -/
def remove_task_from_group (env : GroupEnv) (w : GroupWorld) (pid clock : Nat) :
    Option GroupWorld :=
  match (w.tasks pid).grp with
  | none => none
  | some a =>
    let grp := { w.groups a with tasks := (w.groups a).tasks.erase pid }
    let tasks := Function.update w.tasks pid { w.tasks pid with grp := none }
    if !grp.tasks.isEmpty then
      some { w with tasks := tasks,
                    groups := Function.update w.groups a
                      (_set_preferred_cluster env tasks clock grp) }
    else
      some { w with tasks := tasks,
                    groups := Function.update w.groups a grp,
                    related_thread_groups := w.related_thread_groups.erase a,
                    nr_related_thread_groups := w.nr_related_thread_groups - 1 }

/-- Source `add_task_to_group`, which returns 0. -/
def add_task_to_group (env : GroupEnv) (w : GroupWorld) (pid a clock : Nat) : GroupWorld :=
  let tasks := Function.update w.tasks pid { w.tasks pid with grp := some a }
  let grp := { w.groups a with tasks := pid :: (w.groups a).tasks }
  { w with tasks := tasks,
           groups := Function.update w.groups a (_set_preferred_cluster env tasks clock grp) }

/-- The part of a pass of `sched_set_group_id` from the call of
`lookup_related_thread_group` on, with the value of `new`: the state and the
value returned, or no value when the pass leaves for the allocation of a new
group. -/
def sched_set_group_id_attach (env : GroupEnv) (w : GroupWorld) (pid group_id clock : Nat)
    (new : Option Nat) : GroupWorld × Option Int :=
  match lookup_related_thread_group w group_id, new with
  | none, none => (w, none)
  | none, some a =>
    let w2 := { w with
      nr_related_thread_groups := w.nr_related_thread_groups + 1,
      related_thread_groups := a :: w.related_thread_groups }
    (add_task_to_group env w2 pid a clock, some 0)
  | some a, _ => (add_task_to_group env w pid a clock, some 0)

/-- One pass of `sched_set_group_id` from the label `redo` with the value of
`new`: the state and the value returned, or no value when the pass leaves for
the allocation of a new group. -/
def sched_set_group_id_pass (env : GroupEnv) (w : GroupWorld) (current pid group_id clock : Nat)
    (new : Option Nat) : Option (GroupWorld × Option Int) :=
  let p := w.tasks pid
  if (current != pid && p.pf_exiting) ||
      (p.grp.isNone && group_id == 0) ||
      (match p.grp with
       | some a => (w.groups a).id == group_id
       | none => false) then some (w, some 0)
  else if group_id == 0 then
    match remove_task_from_group env w pid clock with
    | none => none
    | some w1 => some (w1, some 0)
  else
    let removed :=
      match p.grp with
      | some a =>
        if (w.groups a).id != group_id then remove_task_from_group env w pid clock else some w
      | none => some w
    match removed with
    | none => none
    | some w1 => some (sched_set_group_id_attach env w1 pid group_id clock new)

/-- Source `sched_set_group_id`, with the value it returns.  `alloc` is the
address `kzalloc` returns in `alloc_related_thread_group`, `none` when it
fails; the pass after `goto redo` runs with the new group.  `clock` is the
value `sched_ktime_clock()` returns. -/
def sched_set_group_id (env : GroupEnv) (w : GroupWorld) (current pid group_id clock : Nat)
    (alloc : Option Nat) : Option (GroupWorld × Int) :=
  match sched_set_group_id_pass env w current pid group_id clock none with
  | none => none
  | some (w1, some rc) => some (w1, rc)
  | some (w1, none) =>
    match alloc with
    | none => some (w1, -ENOMEM)
    | some a =>
      let w2 := { w1 with groups := Function.update w1.groups a { id := group_id } }
      match sched_set_group_id_pass env w2 current pid group_id clock (some a) with
      | some (w3, some rc) => some (w3, rc)
      | _ => none

/-- Source `sched_get_group_id`. -/
def sched_get_group_id (w : GroupWorld) (pid : Nat) : Nat :=
  match (w.tasks pid).grp with
  | some a => (w.groups a).id
  | none => 0

/-- One call `sched_set_group_id(p, group_id)` in a run: the task `current`
that makes it, the task `pid` it is made for, the clock value, and the address
`kzalloc` would return. -/
structure GroupCall where
  current : Nat
  pid : Nat
  group_id : Nat
  clock : Nat := 0
  alloc : Option Nat := none

/-- A sequence of calls of `sched_set_group_id` that all return 0; `none` when
one of them does not. -/
def sched_set_group_id_run (env : GroupEnv) : GroupWorld → List GroupCall → Option GroupWorld
  | w, [] => some w
  | w, c :: rest =>
    match sched_set_group_id env w c.current c.pid c.group_id c.clock c.alloc with
    | some (w1, rc) => if rc == 0 then sched_set_group_id_run env w1 rest else none
    | none => none

/-- Whether in each call of a run the address `kzalloc` would return is not
that of a group on the list at the time of the call. -/
def allocs_fresh (env : GroupEnv) : GroupWorld → List GroupCall → Bool
  | _, [] => true
  | w, c :: rest =>
    (match c.alloc with
     | some a => !w.related_thread_groups.contains a
     | none => true) &&
    (match sched_set_group_id env w c.current c.pid c.group_id c.clock c.alloc with
     | some (w1, _) => allocs_fresh env w1 rest
     | none => true)

/-- Whether the call is one made by another task for an exiting task, which
`sched_set_group_id` leaves at once. -/
def GroupCall.skipped (exiting : Nat → Bool) (c : GroupCall) : Bool :=
  c.current != c.pid && exiting c.pid

/-- The id last assigned to task `p` by the calls of a run that were not
skipped, `start` when there is none. -/
def spec_last_assigned (exiting : Nat → Bool) (p : Nat) (start : Nat) (calls : List GroupCall) :
    Nat :=
  calls.foldl (fun id c => if c.pid = p ∧ c.skipped exiting = false then c.group_id else id)
    start

/-- The invariant of the group registry: the addresses on the list are
distinct, the ids of the groups on it are distinct and non-zero, no group on
it other than `hole` has an empty task list, the counter is the length of the
list, a task points at a group exactly when the group is on the list and has
the task on its task list, and no task list has a task twice. -/
def GroupWorld.registry_ok (w : GroupWorld) (hole : Option Nat) : Prop :=
  w.related_thread_groups.Nodup ∧
  (∀ a ∈ w.related_thread_groups, ∀ b ∈ w.related_thread_groups,
    (w.groups a).id = (w.groups b).id → a = b) ∧
  (∀ a ∈ w.related_thread_groups, some a ≠ hole → (w.groups a).tasks ≠ []) ∧
  w.nr_related_thread_groups = (w.related_thread_groups.length : Int) ∧
  (∀ pid a, (w.tasks pid).grp = some a →
    a ∈ w.related_thread_groups ∧ pid ∈ (w.groups a).tasks) ∧
  (∀ a ∈ w.related_thread_groups, ∀ pid ∈ (w.groups a).tasks, (w.tasks pid).grp = some a) ∧
  (∀ a ∈ w.related_thread_groups, (w.groups a).tasks.Nodup) ∧
  (∀ a ∈ w.related_thread_groups, (w.groups a).id ≠ 0)

/-- The second world agrees with the first in the list `cfs_tasks` and the
count `cfs.h_nr_running` of every queue, in every task's `last_wake_ts`, and
in the record of the calls of the notifier chain. -/
def World.same_waiters (w w1 : World) : Prop :=
  (∀ c, (w1.rqs c).cfs_tasks = (w.rqs c).cfs_tasks ∧
        (w1.rqs c).cfs_h_nr_running = (w.rqs c).cfs_h_nr_running) ∧
  (∀ q, (w1.tasks q).last_wake_ts = (w.tasks q).last_wake_ts) ∧
  w1.freq_alerts = w.freq_alerts

/-- The second world agrees with the first in the `window_start` of every
queue and in the length of every task's `sum_history`. -/
def World.same_windows (w w1 : World) : Prop :=
  (∀ c, (w1.rqs c).window_start = (w.rqs c).window_start) ∧
  ∀ q, (w1.tasks q).ravg.sum_history.length = (w.tasks q).ravg.sum_history.length

/-! ## Concrete inputs -/

/-- A class hook that leaves the statistics as they are. -/
def fixup_none : FixupHook := fun rq _ _ => rq.hmp_stats

/-- Window of 10 units, five history entries, policy MAX, unity scaling. -/
def demo_globals : Globals :=
  { sched_ravg_window := 10, sched_ravg_hist_size := 5,
    sched_window_stats_policy := WindowStatsPolicy.WINDOW_STATS_MAX,
    max_possible_freq := 1, max_possible_efficiency := 1,
    cpu_cur_freq := fun _ => 1, cpu_efficiency := fun _ => 1 }

/-- A task marked at 100 with a history within the window of `demo_globals`. -/
def c1w_task : Task :=
  { pid := 1, ravg := { mark_start := 100, sum := 2, demand := 7,
                        sum_history := [3, 4, 5, 6, 7] } }

/-- A queue whose window start (125) lies two and a half windows after 100. -/
def c1w_rq : Rq := { cpu := 0, curr := 1, window_start := 125 }

/-- A task marked at the window boundary 100 with an empty live sum. -/
def c8_task : Task :=
  { pid := 1, ravg := { mark_start := 100, sum := 0, demand := 4,
                        sum_history := [4, 3, 2, 1, 0] } }

/-- A queue whose window starts at 100, running `c8_task`. -/
def c8_rq : Rq := { cpu := 0, curr := 1, window_start := 100 }

/-- The settings of `demo_globals` with `sched_use_pelt` set. -/
def c8_pelt_globals : Globals := { demo_globals with sched_use_pelt := true }

/-- The settings of `demo_globals` with HMP and the migration fixup enabled. -/
def c4_globals : Globals :=
  { demo_globals with sched_enable_hmp := true, sched_migration_fixup := true }

/-- Two processors: on processor 0 task 5 runs and task 1 waits with
`curr_window = 4`; on processor 1 task 6 runs.  All were marked at 126. -/
def c4_world : World :=
  { tasks := fun pid =>
      if pid = 1 then
        { pid := 1, cpu := 0, on_rq := 1,
          ravg := { mark_start := 126, curr_window := 4, prev_window := 3, demand := 7,
                    active_windows := 9, sum_history := [7, 7, 7, 7, 7] } }
      else if pid = 5 then
        { pid := 5, cpu := 0, on_rq := 1,
          ravg := { mark_start := 126, curr_window := 5, prev_window := 7, active_windows := 9 } }
      else
        { pid := pid, cpu := 1, on_rq := 1,
          ravg := { mark_start := 126, curr_window := 2, active_windows := 9 } }
    rqs := fun cpu =>
      if cpu = 0 then
        { cpu := 0, curr := 5, window_start := 120, curr_runnable_sum := 9,
          prev_runnable_sum := 10, queue := [5, 1], nr_running := 2 }
      else
        { cpu := cpu, curr := 6, window_start := 120, curr_runnable_sum := 2,
          prev_runnable_sum := 0, queue := [6], nr_running := 1 } }

/-- The world `c4_world` after the demand updates that `fixup_busy_time`
performs first, for task 1 moving to processor 1 at time 126. -/
def c4_after_updates : World :=
  (fixup_busy_time_updates c4_globals fixup_none c4_world 1 1 126).getD c4_world

/-- A class hook that counts the task in `nr_running` and lists it in `queue`. -/
def wake_enqueue (rq : Rq) (p : Task) (_flags : Nat) : Rq :=
  { rq with nr_running := rq.nr_running + 1, queue := rq.queue ++ [p.pid] }

/-- Two processors that do not share a cache, with the settings of
`c4_globals` and the class hook `wake_enqueue`. -/
def wake_env : Env :=
  { toGlobals := c4_globals,
    toCpuEnv := { nr_cpu_ids := 2, cpu_online_mask := [0, 1], cpu_active_mask := [0, 1],
                  cpu_possible_mask := [0, 1] },
    sd_llc_id := fun c => c,
    class_enqueue_task := wake_enqueue }

/-- Task 1 sleeps uninterruptibly (state 2) off every queue, last on processor
0; tasks 5 and 6 run on processors 0 and 1. -/
def wake_world : World :=
  { tasks := fun pid =>
      if pid = 1 then
        { pid := 1, state := 2, cpu := 0, wake_cpu := 0, cpus_allowed := [0, 1],
          nr_cpus_allowed := 2,
          ravg := { mark_start := 100, demand := 7, active_windows := 9,
                    sum_history := [7, 7, 7, 7, 7] } }
      else if pid = 5 then
        { pid := 5, cpu := 0, on_rq := 1, on_cpu := 1,
          ravg := { mark_start := 126, curr_window := 5, active_windows := 9 } }
      else
        { pid := pid, cpu := 1, on_rq := 1, on_cpu := 1,
          ravg := { mark_start := 126, curr_window := 2, active_windows := 9 } }
    rqs := fun cpu =>
      if cpu = 0 then
        { cpu := 0, curr := 5, window_start := 120, curr_runnable_sum := 5,
          queue := [5], nr_running := 1 }
      else
        { cpu := cpu, curr := 6, window_start := 120, curr_runnable_sum := 2,
          queue := [6], nr_running := 1 } }

/-- What the `CONFIG_SMP` block of a wakeup of task 1 at time 130 leaves of
`wake_world`. -/
def wake_smp : World × Nat × Nat × Bool :=
  (try_to_wake_up_smp wake_env wake_world 1 0 130 130).getD (wake_world, 0, 0, false)

/-- The world `wake_world` while processor 0 is still switching task 1 out
(`on_cpu` is 1). -/
def wake_switching_world : World :=
  { wake_world with
    tasks := fun pid =>
      if pid = 1 then { wake_world.tasks 1 with on_cpu := 1 } else wake_world.tasks pid }

/-- What the `CONFIG_SMP` block of a wakeup of task 1 at time 130 leaves of
`wake_switching_world`. -/
def wake_switching_smp : World × Nat × Nat × Bool :=
  (try_to_wake_up_smp wake_env wake_switching_world 1 0 130 130).getD
    (wake_switching_world, 0, 0, false)

/-- The world `wake_world` with task 1, about to sleep (state 2), being moved
between two queues. -/
def wake_migrating_world : World :=
  { wake_world with
    tasks := fun pid =>
      if pid = 1 then { wake_world.tasks 1 with on_rq := 2 } else wake_world.tasks pid }

/-- The frequency `scale_exec_time` scales with: the current frequency of the
queue's processor, clamped to `max_possible_freq`. -/
def scale_freq (g : Globals) (rq : Rq) : Nat :=
  if g.cpu_cur_freq rq.cpu > g.max_possible_freq then g.max_possible_freq
  else g.cpu_cur_freq rq.cpu

/-- Maximum frequency 2, processor 0 running at frequency 1, unity efficiency. -/
def c16_globals : Globals :=
  { max_possible_freq := 2, max_possible_efficiency := 1,
    cpu_cur_freq := fun _ => 1, cpu_efficiency := fun _ => 1 }

/-- A cluster running at frequency 500 whose maximum frequency is 1000. -/
def c15_cluster : Cluster :=
  { efficiency := 1, cur_freq := 500, max_freq := 1000, max_possible_freq := 1000 }

/-- Interrupt time accounting is on and the interrupt time reads 20; the
clock reads 110. -/
def c18_env : ClockEnv :=
  { CONFIG_IRQ_TIME_ACCOUNTING := true, sched_clock_cpu := fun _ => 110,
    irq_time_read := fun _ => 20 }

/-- A queue at time 100 whose recorded interrupt time (50) is ahead of the
reading of `c18_env`. -/
def c18_rq : RqClock := { clock := 100, clock_task := 100, prev_irq_time := 50 }

/-- A queue at time 100 whose recorded interrupt time (15) is behind the
reading of `c18_env`. -/
def c18w_rq : RqClock := { clock := 100, clock_task := 100, prev_irq_time := 15 }

/-- A tick of 10 ms (`HZ = 100`); the clock reads `10^10` ns at jiffy 1000. -/
def c14_clock : WindowClock :=
  { TICK_NSEC := 10000000, cur_jiffies := 1000, now := 10000000000,
    jiffy_ktime_ns := 9995000000, sched_ktime_clock := 10000000000 }

/-- A request for the deadline policy with runtime 1 in every period of 2:
half a processor, `to_ratio = 524288`. -/
def c12_attr : SchedAttr :=
  { sched_policy := 6, sched_runtime := 1, sched_deadline := 2, sched_period := 2 }

/-- A task in the deadline policy that holds half a processor. -/
def c12_dl_task : PolicyTask :=
  { pid := 1, policy := 6, dl := { dl_runtime := 1, dl_deadline := 2, dl_period := 2,
                                   dl_bw := 524288 } }

/-- A task outside the deadline policy that still carries the bandwidth of an
earlier deadline episode. -/
def c12_stale_task : PolicyTask := { pid := 2, policy := 0, dl := { dl_bw := 524288 } }

/-- A task outside the deadline policy with cleared deadline parameters. -/
def c12_task : PolicyTask := { pid := 3, policy := 0 }

/-- A domain limited to a tenth of a processor whose tasks hold half of one. -/
def c12_small_domain : DlBw := { bw := 104857, total_bw := 524288 }

/-- A domain limited to 95% of a processor with nothing admitted. -/
def c12_domain : DlBw := { bw := 996147, total_bw := 0 }

/-- A normal task at nice 0 whose root domain spans processors 0 and 1. -/
def c11_task : PolicyTask := { pid := 4, policy := 0, cpus_allowed := [0, 1] }

/-- Two active processors in one root domain; the caller lacks
`CAP_SYS_NICE` and has no realtime limit. -/
def c11_env : PolicyEnv :=
  { toCpuEnv := { nr_cpu_ids := 2, cpu_online_mask := [0, 1], cpu_active_mask := [0, 1],
                  cpu_possible_mask := [0, 1] },
    capable_sys_nice := false, rd_span := [0, 1] }

/-- The environment of `c11_env` for a privileged caller. -/
def c11_root_env : PolicyEnv := { c11_env with capable_sys_nice := true }

/-- A request for `SCHED_FIFO` at priority 10. -/
def c11_fifo_attr : SchedAttr := { sched_policy := 1, sched_priority := 10 }

/-- Three clusters in the order of their discovery: two of equal cost and
capacity around a costlier one. -/
def c17_clusters : List Cluster :=
  [{ cpus := [4, 5], max_possible_capacity := 2048 },
   { cpus := [0, 1], max_possible_capacity := 1024 },
   { cpus := [2, 3], max_possible_capacity := 2048 }]

/-- A cost that depends on the processor only: 9 for processor 0, else 5. -/
def c17_power_cost : Nat → Nat → Nat := fun cpu _ => if cpu == 0 then 9 else 5

/-- The tunables of `demo_globals` with `sched_io_is_busy` set. -/
def c19_globals : Globals := { demo_globals with sched_io_is_busy := 1 }

/-- An idle task last seen at time 15. -/
def c19_task : Task := { pid := 0, is_idle := true, ravg := { mark_start := 15 } }

/-- A queue whose window started at time 20, with a task waiting on I/O and
task 7 running. -/
def c19_rq : Rq := { cpu := 0, curr := 7, window_start := 20, nr_iowait := 1 }

/-- The queue of `c19_rq` with the idle task running. -/
def c19_idle_rq : Rq := { c19_rq with curr := 0 }

/-- Two processors, both active. -/
def c13_env : Env :=
  { toGlobals := demo_globals,
    toCpuEnv := { nr_cpu_ids := 2, cpu_online_mask := [0, 1], cpu_active_mask := [0, 1],
                  cpu_possible_mask := [0, 1] } }

/-- Task 1 is allowed on processors 0 and 1 and still carries the count 4 of
a kernel built for four processors. -/
def c13_world : World :=
  { tasks := fun pid =>
      if pid = 1 then { pid := 1, cpus_allowed := [0, 1], nr_cpus_allowed := 4 }
      else { pid := pid },
    rqs := fun cpu => { cpu := cpu } }

/-- The hooks of `c6_pick` on one processor, no signal pending, not a
preemption. -/
def c20_env : ScheduleEnv :=
  { toEnv := { toGlobals := demo_globals, toCpuEnv := { nr_cpu_ids := 1 } },
    pick := c6_pick }

/-- Processor 0 runs the fair task 3, which has set its state to
`TASK_INTERRUPTIBLE`; the stop task 7 is runnable. -/
def c20_world : World :=
  { tasks := fun pid =>
      if pid = 3 then { pid := 3, state := 1, on_rq := 1, cpu := 0 }
      else if pid = 7 then { pid := 7, on_rq := 1, cpu := 0, fair_class := false }
      else { pid := pid },
    rqs := fun cpu => { cpu := cpu, curr := 3, nr_running := 2, cfs_h_nr_running := 1 } }

/-- The world and the task picked after one pass of `__schedule` on
`c20_world`. -/
def c20_after : World × Nat :=
  (__schedule_pass c20_env 1 c20_world 0 100 100).getD (c20_world, 0)

/-- A kernel thread (no address space) allowed only on the offline processor 0
of `c7_env`. -/
def c27_kthread : Task := { pid := 11, cpu := 0, cpus_allowed := [0], nr_cpus_allowed := 1 }

/-- Processor 0, the sync processor, has its window start at 1000; the queue
of processor 1 has none yet. -/
def c26_world : World :=
  { tasks := fun pid => { pid := pid },
    rqs := fun cpu => if cpu = 0 then { cpu := 0, window_start := 1000 } else { cpu := cpu } }

/-- The tunables of `demo_globals` (window 10) with HMP scheduling on. -/
def c26_globals : Globals := { demo_globals with sched_enable_hmp := true }

/-- A task off the queues with the history 5, 4, 3, 2, 1 and a live sum of 6. -/
def c23_task : Task :=
  { pid := 5, ravg := { sum := 6, demand := 5, sum_history := [5, 4, 3, 2, 1] } }

/-- The tunables of `demo_globals` with three history entries in use and the
policy `WINDOW_STATS_AVG`. -/
def c23_globals : Globals :=
  { demo_globals with sched_ravg_hist_size := 3,
                      sched_window_stats_policy := WindowStatsPolicy.WINDOW_STATS_AVG }

/-- A task marked at 13 with a live sum of 2 and the history 4, 3, 2, 1, 1. -/
def c22_task : Task :=
  { pid := 1, ravg := { mark_start := 13, sum := 2, demand := 4,
                        sum_history := [4, 3, 2, 1, 1] } }

/-- A queue whose window started at 40. -/
def c22_rq : Rq := { cpu := 0, curr := 1, window_start := 40 }

/-- A task marked at the window boundary 10 with an empty live sum. -/
def c22_boundary_task : Task :=
  { pid := 1, ravg := { mark_start := 10, sum := 0, demand := 4,
                        sum_history := [4, 3, 2, 1, 1] } }

/-- A queue whose window started at 20. -/
def c22_boundary_rq : Rq := { cpu := 0, curr := 1, window_start := 20 }

/-- The running task of `c25_rq`, marked at 33 with 7 in its current and 3 in
its previous window. -/
def c25_task : Task :=
  { pid := 1, ravg := { mark_start := 33, curr_window := 7, prev_window := 3,
                        sum_history := [4, 3, 2, 1, 1] } }

/-- A queue running task 1 whose window started at 40, with sums 9 and 5. -/
def c25_rq : Rq :=
  { cpu := 0, curr := 1, window_start := 40, curr_runnable_sum := 9, prev_runnable_sum := 5 }

/-- The world `c4_world` with only 2 left in `curr_runnable_sum` of
processor 0, less than the 4 of task 1. -/
def c24_world : World :=
  { c4_world with
    rqs := fun cpu =>
      if cpu = 0 then { c4_world.rqs 0 with curr_runnable_sum := 2 } else c4_world.rqs cpu }

/-- The world `c24_world` after the demand updates that `fixup_busy_time`
performs first, for task 1 moving to processor 1 at time 126. -/
def c24_after_updates : World :=
  (fixup_busy_time_updates c4_globals fixup_none c24_world 1 1 126).getD c24_world

/-- A class hook that takes the task off `queue` and out of `nr_running`. -/
def migrate_dequeue (rq : Rq) (p : Task) (_flags : Nat) : Rq :=
  { rq with nr_running := rq.nr_running - 1, queue := rq.queue.erase p.pid }

/-- The processors and settings of `wake_env` with the class hooks
`wake_enqueue` and `migrate_dequeue`. -/
def c21_env : Env := { wake_env with class_dequeue_task := migrate_dequeue }

/-- The settings of `c4_globals` with the boost on and an early-detection
duration of 50. -/
def c28_globals : Globals :=
  { c4_globals with sched_boost := true, sysctl_early_detection_duration := 50 }

/-- Two processors with the settings of `c28_globals`; the hooks of the tick
do nothing. -/
def c28_env : TickEnv :=
  { toEnv := { toGlobals := c28_globals, toCpuEnv := wake_env.toCpuEnv } }

/-- Processor 0 runs task 5, woken at 125; task 7 waits on its queue since its
wake at 60. -/
def c28_world : World :=
  { tasks := fun pid =>
      if pid = 5 then
        { pid := 5, cpu := 0, on_rq := 1, last_wake_ts := 125,
          ravg := { mark_start := 120, sum_history := [0, 0, 0, 0, 0] } }
      else
        { pid := pid, cpu := 0, on_rq := 1, last_wake_ts := 60,
          ravg := { mark_start := 120, sum_history := [0, 0, 0, 0, 0] } }
    rqs := fun cpu =>
      { cpu := cpu, curr := 5, window_start := 120, nr_running := 2, cfs_h_nr_running := 2,
        queue := [5, 7], cfs_tasks := [5, 7] } }

/-- Task 1 is the only member of the group with id 1, at address 100, the only
group on the list. -/
def c30_world : GroupWorld :=
  { tasks := fun pid => if pid = 1 then { pid := 1, grp := some 100 } else { pid := pid },
    groups := fun a => if a = 100 then { id := 1, tasks := [1] } else {},
    related_thread_groups := [100],
    nr_related_thread_groups := 1 }

/-- No groups; task 1 is exiting. -/
def c29_world : GroupWorld :=
  { tasks := fun pid => if pid = 1 then { pid := 1, pf_exiting := true } else { pid := pid },
    groups := fun _ => {} }

/-- Five calls on `c29_world`: tasks 3 and 4 join group 5, task 3 moves on to
group 7, task 2 asks for group 5 for the exiting task 1, task 4 leaves its
group. -/
def c29_calls : List GroupCall :=
  [{ current := 3, pid := 3, group_id := 5, alloc := some 100 },
   { current := 4, pid := 4, group_id := 5, alloc := some 101 },
   { current := 3, pid := 3, group_id := 7, alloc := some 102 },
   { current := 2, pid := 1, group_id := 5, alloc := some 103 },
   { current := 4, pid := 4, group_id := 0 }]

/-- The registry after the calls `c29_calls`. -/
def c29_after : GroupWorld :=
  (sched_set_group_id_run {} c29_world c29_calls).getD c29_world

/-- A queue with a notification pending: it last reported an idle window and
has since seen a full one. -/
def c9_pending_rq : Rq :=
  { cpu := 0, curr := 1, window_start := 100, old_busy_time := 0,
    prev_runnable_sum := 10000000, notifier_sent := 1 }

/-- The current task of `c9_pending_rq`, marked at 100. -/
def c9_curr : Task := { pid := 1, ravg := { mark_start := 100 } }

/-! # Theorems -/

/-! ## Lemmas on machine integers -/

theorem wrap32_le (x : Nat) : wrap32 x ≤ x := by
  unfold wrap32; exact Nat.mod_le _ _

theorem wrap64_le (x : Nat) : wrap64 x ≤ x := by
  unfold wrap64; exact Nat.mod_le _ _

theorem wrap64_of_lt {x : Nat} (h : x < 18446744073709551616) : wrap64 x = x := by
  unfold wrap64; exact Nat.mod_eq_of_lt h

theorem wrap32_of_lt {x : Nat} (h : x < 4294967296) : wrap32 x = x := by
  unfold wrap32; exact Nat.mod_eq_of_lt h

theorem toInt32_of_lt {x : Nat} (h : x < 2147483648) : toInt32 x = (x : Int) := by
  unfold toInt32
  have hx : x % 4294967296 = x := Nat.mod_eq_of_lt (by omega)
  rw [hx, if_pos h]

theorem intToU64_natCast {x : Nat} (h : x < 18446744073709551616) :
    intToU64 (x : Int) = x := by
  unfold intToU64
  have : ((x : Int) % 18446744073709551616) = (x : Int) :=
    Int.emod_eq_of_lt (by omega) (by omega)
  rw [this]
  exact Int.toNat_natCast x

theorem div_le_of_le_mul_add {x k y : Nat} (hk : 0 < k) (h : x ≤ y * k + (k - 1)) :
    x / k ≤ y := by
  have : x / k < y + 1 := by
    rw [Nat.div_lt_iff_lt_mul hk]
    have : (y + 1) * k = y * k + k := by ring
    omega
  omega

/-! ## Lemmas on `scale_exec_time` -/

/-- Subtracting one from a reduced positive number. -/
theorem sub32_wrap32_one (y : Nat) (h : 1 ≤ y) :
    sub32 (wrap32 y) 1 = (y - 1) % 4294967296 := by
  unfold sub32 wrap32
  split <;> omega

theorem sub64_wrap64_one (y : Nat) (h : 1 ≤ y) :
    sub64 (wrap64 y) 1 = (y - 1) % 18446744073709551616 := by
  unfold sub64 wrap64
  split <;> omega

/-- The efficiency scale factor `sf` of `scale_exec_time` is at most 1024 when
the efficiency does not exceed the system maximum. -/
theorem sf_le (e mpe : Nat) (he : 0 < mpe) (heff : e ≤ mpe) :
    sub32 (wrap32 (e * 1024 + mpe)) 1 / mpe ≤ 1024 := by
  rw [sub32_wrap32_one _ (by omega)]
  apply div_le_of_le_mul_add he
  have := Nat.mod_le (e * 1024 + mpe - 1) 4294967296
  omega

/-- Scaling never lengthens an interval. -/
theorem scale_exec_time_le (g : Globals) (delta : Nat) (rq : Rq)
    (hf : 0 < g.max_possible_freq) (he : 0 < g.max_possible_efficiency)
    (heff : g.cpu_efficiency rq.cpu ≤ g.max_possible_efficiency) :
    scale_exec_time g delta rq ≤ delta := by
  unfold scale_exec_time
  simp only []
  set cf := (if g.cpu_cur_freq rq.cpu > g.max_possible_freq then g.max_possible_freq
                  else g.cpu_cur_freq rq.cpu) with hcf
  have hcf_le : cf ≤ g.max_possible_freq := by
    rw [hcf]; split <;> omega
  set sfu := sub32 (wrap32 (g.cpu_efficiency rq.cpu * 1024 + g.max_possible_efficiency)) 1
                 / g.max_possible_efficiency with hsfu
  have hsf : sfu ≤ 1024 := sf_le _ _ he heff
  have hsf' : intToU64 (toInt32 sfu) = sfu := by
    rw [toInt32_of_lt (by omega), intToU64_natCast (by omega)]
  rw [hsf']
  set d1 := sub64 (wrap64 (delta * cf + g.max_possible_freq)) 1 / g.max_possible_freq with hd1
  have hd1_le : d1 ≤ delta := by
    rw [hd1, sub64_wrap64_one _ (by omega)]
    apply div_le_of_le_mul_add hf
    have := Nat.mod_le (delta * cf + g.max_possible_freq - 1) 18446744073709551616
    have : delta * cf ≤ delta * g.max_possible_freq := Nat.mul_le_mul_left _ hcf_le
    omega
  have h2 : wrap64 (d1 * sfu) ≤ d1 * 1024 :=
    le_trans (wrap64_le _) (Nat.mul_le_mul_left _ hsf)
  calc wrap64 (d1 * sfu) / 1024 ≤ d1 * 1024 / 1024 := Nat.div_le_div_right h2
    _ = d1 := Nat.mul_div_cancel _ (by norm_num)
    _ ≤ delta := hd1_le

/-! ## Lemmas on `update_history` -/

theorem hist_widx (H : Nat) (h1 : 1 ≤ H) (h5 : H ≤ 5) :
    toInt32 (sub32 H 1) = (H : Int) - 1 := by
  have h : sub32 H 1 = H - 1 := by
    unfold sub32 wrap32; split <;> omega
  rw [h, toInt32_of_lt (by omega)]
  omega

/-- The shift loop stays inside the array for a non-negative sample count
and keeps every entry, and `max`, below a bound that held before. -/
theorem hist_shift_loop_bound (W s : Nat) :
    ∀ (n : Nat) (widx : Int) (acc : HistAcc),
      widx + 1 = (n : Int) + s → n + s ≤ acc.hist.length →
      (∀ x ∈ acc.hist, x ≤ W) → acc.max ≤ W →
      ∃ acc', hist_shift_loop n widx acc = some acc' ∧
        acc'.hist.length = acc.hist.length ∧ (∀ x ∈ acc'.hist, x ≤ W) ∧
        acc'.max ≤ W ∧ acc'.sum ≤ acc.sum + n * W := by
  intro n
  induction n with
  | zero =>
    intro widx acc _ _ hall hmax
    exact ⟨acc, rfl, rfl, hall, hmax, by simp⟩
  | succ n ih =>
    intro widx acc hw hlen hall hmax
    have hn : n < acc.hist.length := by omega
    have hget : acc.hist[n]? = some acc.hist[n] := List.getElem?_eq_getElem hn
    have hv : acc.hist[n] ≤ W := hall _ (List.getElem_mem hn)
    have hwi : 0 ≤ widx ∧ widx.toNat < acc.hist.length := by
      constructor <;> omega
    have hstep := ih (widx - 1)
      { hist := acc.hist.set widx.toNat acc.hist[n]
        sum := acc.sum + acc.hist[n]
        max := if acc.hist[n] > acc.max then acc.hist[n] else acc.max }
      (by push_cast at hw ⊢; omega) (by simp; omega)
      (by
        intro x hx
        rcases List.mem_or_eq_of_mem_set hx with h | h
        · exact hall x h
        · exact h ▸ hv)
      (by simp only []; split <;> omega)
    obtain ⟨acc', h1, h2, h3, h4, h5⟩ := hstep
    refine ⟨acc', ?_, ?_, h3, h4, ?_⟩
    · rw [hist_shift_loop, hget]
      simp only []
      rw [if_pos hwi]
      exact h1
    · simpa using h2
    · simp only [] at h5
      have : (n + 1) * W = n * W + W := by ring
      omega

/-- The fill loop stays inside the array when it ends within it, and keeps
every entry, and `max`, below a bound that covers `runtime`. -/
theorem hist_fill_loop_bound (W runtime : Nat) (hr : runtime ≤ W) :
    ∀ (n widx : Nat) (acc : HistAcc),
      widx + n ≤ acc.hist.length →
      (∀ x ∈ acc.hist, x ≤ W) → acc.max ≤ W →
      ∃ acc', hist_fill_loop runtime n widx acc = some acc' ∧
        acc'.hist.length = acc.hist.length ∧ (∀ x ∈ acc'.hist, x ≤ W) ∧
        acc'.max ≤ W ∧ acc'.sum ≤ acc.sum + n * W := by
  intro n
  induction n with
  | zero =>
    intro widx acc _ hall hmax
    exact ⟨acc, rfl, rfl, hall, hmax, by simp⟩
  | succ n ih =>
    intro widx acc hlen hall hmax
    have hwi : widx < acc.hist.length := by omega
    have hstep := ih (widx + 1)
      { hist := acc.hist.set widx runtime
        sum := acc.sum + runtime
        max := if runtime > acc.max then runtime else acc.max }
      (by simp; omega)
      (by
        intro x hx
        rcases List.mem_or_eq_of_mem_set hx with h | h
        · exact hall x h
        · exact h ▸ hr)
      (by simp only []; split <;> omega)
    obtain ⟨acc', h1, h2, h3, h4, h5⟩ := hstep
    refine ⟨acc', ?_, ?_, h3, h4, ?_⟩
    · rw [hist_fill_loop, if_pos hwi]
      exact h1
    · simpa using h2
    · simp only [] at h5
      have : (n + 1) * W = n * W + W := by ring
      omega

/-- Both loops of `update_history` together, for a non-negative sample count. -/
theorem hist_fold_bound (W H runtime : Nat) (hist : List Nat) (s : Nat)
    (h1 : 1 ≤ H) (h5 : H ≤ 5) (hlen : hist.length = 5) (hr : runtime ≤ W)
    (hall : ∀ x ∈ hist, x ≤ W) :
    ∃ acc, hist_fold H hist runtime (s : Int) = some acc ∧
      acc.hist.length = 5 ∧ (∀ x ∈ acc.hist, x ≤ W) ∧ acc.max ≤ W ∧ acc.sum ≤ H * W := by
  unfold hist_fold
  simp only []
  rw [hist_widx H h1 h5]
  have hn : (((H : Int) - 1 - (s : Int)) + 1).toNat = H - s := by omega
  rw [hn]
  have key : ∃ acc1, hist_shift_loop (H - s) ((H : Int) - 1)
        { hist := hist, sum := 0, max := 0 } = some acc1 ∧
      acc1.hist.length = 5 ∧ (∀ x ∈ acc1.hist, x ≤ W) ∧ acc1.max ≤ W ∧
      acc1.sum ≤ (H - s) * W := by
    by_cases hs : s < H
    · obtain ⟨acc1, e1, l1, a1, m1, s1⟩ :=
        hist_shift_loop_bound W s (H - s) ((H : Int) - 1)
          { hist := hist, sum := 0, max := 0 }
          (by omega) (by simp only []; omega) hall (by simp only []; omega)
      exact ⟨acc1, e1, by simpa [hlen] using l1, a1, m1, by simpa using s1⟩
    · have h0 : H - s = 0 := by omega
      rw [h0]
      exact ⟨_, rfl, hlen, hall, by simp, by simp⟩
  obtain ⟨acc1, e1, l1, a1, m1, s1⟩ := key
  rw [e1]
  simp only []
  have hneg : ¬ ((s : Int) < 0) := by omega
  rw [if_neg hneg, Int.toNat_natCast]
  obtain ⟨acc2, e2, l2, a2, m2, s2⟩ :=
    hist_fill_loop_bound W runtime hr (min s H) 0 acc1 (by omega) a1 m1
  refine ⟨acc2, e2, by omega, a2, m2, ?_⟩
  have : (H - s) * W + min s H * W = H * W := by
    rw [← Nat.add_mul]
    congr 1
    omega
  omega

/-- The demand selected by the policy stays below a bound on the entries. -/
theorem update_history_commit_bound (g : Globals) (fixup : FixupHook) (rq : Rq) (p : Task)
    (W runtime : Nat) (acc : HistAcc) (hr : runtime ≤ W) (hmax : acc.max ≤ W)
    (hsum : acc.sum ≤ g.sched_ravg_hist_size * W) :
    (update_history_commit g fixup rq p runtime acc).1.ravg.demand ≤ W ∧
    (update_history_commit g fixup rq p runtime acc).1.ravg.sum = 0 ∧
    (update_history_commit g fixup rq p runtime acc).1.ravg.sum_history = acc.hist ∧
    (update_history_commit g fixup rq p runtime acc).1.ravg.mark_start = p.ravg.mark_start ∧
    (update_history_commit g fixup rq p runtime acc).2.cpu = rq.cpu := by
  have havg : wrap32 (acc.sum / g.sched_ravg_hist_size) ≤ W := by
    refine le_trans (wrap32_le _) ?_
    apply Nat.div_le_of_le_mul
    exact hsum
  unfold update_history_commit
  refine ⟨?_, rfl, rfl, rfl, ?_⟩
  · simp only []
    cases g.sched_window_stats_policy <;> simp only [] <;> omega
  · simp only []
    split <;> rfl

/-- A history fold with a non-negative sample count returns, and keeps demand,
live sum and history below a bound that covers the new sample. -/
theorem update_history_within (g : Globals) (fixup : FixupHook) (rq : Rq) (p : Task)
    (W runtime s : Nat)
    (h1 : 1 ≤ g.sched_ravg_hist_size) (h5 : g.sched_ravg_hist_size ≤ 5)
    (hlen : p.ravg.sum_history.length = 5) (hr : runtime ≤ W)
    (hdem : p.ravg.demand ≤ W) (hsum : p.ravg.sum ≤ W)
    (hall : ∀ x ∈ p.ravg.sum_history, x ≤ W) :
    ∃ p' rq', update_history g fixup rq p runtime (s : Int) = some (p', rq') ∧
      p'.ravg.demand ≤ W ∧ p'.ravg.sum ≤ W ∧ (∀ x ∈ p'.ravg.sum_history, x ≤ W) ∧
      p'.ravg.sum_history.length = 5 ∧ p'.ravg.mark_start = p.ravg.mark_start ∧
      rq'.cpu = rq.cpu := by
  unfold update_history
  split
  · exact ⟨p, rq, rfl, hdem, hsum, hall, hlen, rfl, rfl⟩
  · obtain ⟨acc, e, l, a, m, sm⟩ :=
      hist_fold_bound W g.sched_ravg_hist_size runtime p.ravg.sum_history s h1 h5 hlen hr hall
    rw [e]
    obtain ⟨c1, c2, c3, c4, c5⟩ := update_history_commit_bound g fixup rq p W runtime acc hr m sm
    refine ⟨(update_history_commit g fixup rq p runtime acc).1,
      (update_history_commit g fixup rq p runtime acc).2, rfl, c1, ?_, ?_, ?_, c4, c5⟩
    · rw [c2]; exact Nat.zero_le _
    · rw [c3]; exact a
    · rw [c3]; exact l

/-- After `add_to_task_demand` the live sum is at most the window. -/
theorem add_to_task_demand_sum_le (g : Globals) (rq : Rq) (p : Task) (delta : Nat) :
    (add_to_task_demand g rq p delta).ravg.sum ≤ g.sched_ravg_window := by
  unfold add_to_task_demand
  simp only []
  split <;> omega

theorem add_to_task_demand_frame (g : Globals) (rq : Rq) (p : Task) (delta : Nat) :
    (add_to_task_demand g rq p delta).ravg.demand = p.ravg.demand ∧
    (add_to_task_demand g rq p delta).ravg.sum_history = p.ravg.sum_history ∧
    (add_to_task_demand g rq p delta).ravg.mark_start = p.ravg.mark_start :=
  ⟨rfl, rfl, rfl⟩

theorem update_history_within_int (g : Globals) (fixup : FixupHook) (rq : Rq) (p : Task)
    (W runtime : Nat) (samples : Int) (hs : 0 ≤ samples)
    (h1 : 1 ≤ g.sched_ravg_hist_size) (h5 : g.sched_ravg_hist_size ≤ 5)
    (hlen : p.ravg.sum_history.length = 5) (hr : runtime ≤ W)
    (hdem : p.ravg.demand ≤ W) (hsum : p.ravg.sum ≤ W)
    (hall : ∀ x ∈ p.ravg.sum_history, x ≤ W) :
    ∃ p' rq', update_history g fixup rq p runtime samples = some (p', rq') ∧
      p'.ravg.demand ≤ W ∧ p'.ravg.sum ≤ W ∧ (∀ x ∈ p'.ravg.sum_history, x ≤ W) ∧
      p'.ravg.sum_history.length = 5 ∧ p'.ravg.mark_start = p.ravg.mark_start ∧
      rq'.cpu = rq.cpu := by
  obtain ⟨s, rfl⟩ := Int.eq_ofNat_of_zero_le hs
  exact update_history_within g fixup rq p W runtime s h1 h5 hlen hr hdem hsum hall

/-- C1: `update_task_demand` returns and keeps demand, live sum and every
history entry within `sched_ravg_window`, for every task whose demand, live
sum and history entries were within it, every event and every wallclock, every
policy and every history size 1..5, on a CPU whose efficiency does not exceed
`max_possible_efficiency`, when fewer than `2^31` windows lie between
`mark_start` and `window_start`.  The demand is within the window at entry as
it is at exit: it is written by `update_history` alone, from the history just
written. -/
theorem update_task_demand_within_window (g : Globals) (fixup : FixupHook) (p : Task) (rq : Rq)
    (event : TaskEvent) (wallclock : Nat)
    (_hW : 0 < g.sched_ravg_window)
    (hf : 0 < g.max_possible_freq) (he : 0 < g.max_possible_efficiency)
    (heff : g.cpu_efficiency rq.cpu ≤ g.max_possible_efficiency)
    (h1 : 1 ≤ g.sched_ravg_hist_size) (h5 : g.sched_ravg_hist_size ≤ 5)
    (hlen : p.ravg.sum_history.length = 5)
    (hnr : sub64 rq.window_start p.ravg.mark_start / g.sched_ravg_window < 2147483648)
    (hdem : p.ravg.demand ≤ g.sched_ravg_window)
    (hsum : p.ravg.sum ≤ g.sched_ravg_window)
    (hall : ∀ x ∈ p.ravg.sum_history, x ≤ g.sched_ravg_window) :
    ∃ p' rq', update_task_demand g fixup p rq event wallclock = some (p', rq') ∧
      p'.ravg.demand ≤ g.sched_ravg_window ∧ p'.ravg.sum ≤ g.sched_ravg_window ∧
      ∀ x ∈ p'.ravg.sum_history, x ≤ g.sched_ravg_window := by
  unfold update_task_demand
  simp only []
  split
  · split
    · obtain ⟨p', rq', e, a, b, c, _⟩ :=
        update_history_within_int g fixup rq p g.sched_ravg_window p.ravg.sum 1 (by omega)
          h1 h5 hlen hsum hdem hsum hall
      exact ⟨p', rq', e, a, b, c⟩
    · exact ⟨p, rq, rfl, hdem, hsum, hall⟩
  · split
    · exact ⟨_, _, rfl, hdem, add_to_task_demand_sum_le g rq p _, hall⟩
    · rw [toInt32_of_lt hnr]
      set nr : Int := ((sub64 rq.window_start p.ravg.mark_start / g.sched_ravg_window : Nat) : Int)
        with hnr_def
      set p1 := add_to_task_demand g rq p
        (sub64 (sub64 rq.window_start (wrap64 (intToU64 nr * g.sched_ravg_window)))
          p.ravg.mark_start) with hp1
      obtain ⟨p2, rq2, e2, a2, b2, c2, l2, _, q2⟩ :=
        update_history_within_int g fixup rq p1 g.sched_ravg_window p1.ravg.sum 1 (by omega)
          h1 h5 hlen (add_to_task_demand_sum_le g rq p _) hdem
          (add_to_task_demand_sum_le g rq p _) hall
      rw [e2]
      simp only []
      have hscale : wrap32 (scale_exec_time g g.sched_ravg_window rq2) ≤ g.sched_ravg_window :=
        le_trans (wrap32_le _) (scale_exec_time_le g _ rq2 hf he (by rw [q2]; exact heff))
      obtain ⟨p3, rq3, e3, a3, b3, c3, _⟩ :=
        update_history_within_int g fixup rq2 p2 g.sched_ravg_window
          (wrap32 (scale_exec_time g g.sched_ravg_window rq2)) nr (Int.natCast_nonneg _)
          h1 h5 l2 hscale a2 b2 c2
      by_cases hz : nr = 0
      · simp only [hz, bne_self_eq_false, Bool.false_eq_true, if_false]
        exact ⟨_, _, rfl, a2, add_to_task_demand_sum_le g rq2 p2 _, c2⟩
      · have hb : (nr != 0) = true := by simpa using hz
        rw [if_pos hb, e3]
        exact ⟨_, _, rfl, a3, add_to_task_demand_sum_le g rq3 p3 _, c3⟩

/-- C1, witness of `update_task_demand_within_window`: a task crossing two full
windows on a queue at unity scaling. -/
theorem update_task_demand_within_window_witness :
    (0 < demo_globals.sched_ravg_window ∧ 0 < demo_globals.max_possible_freq ∧
      0 < demo_globals.max_possible_efficiency ∧
      sub64 c1w_rq.window_start c1w_task.ravg.mark_start / demo_globals.sched_ravg_window
        < 2147483648) ∧
    ∃ p' rq', update_task_demand demo_globals fixup_none c1w_task c1w_rq
        TaskEvent.PUT_PREV_TASK 128 = some (p', rq') ∧
      p'.ravg.demand ≤ demo_globals.sched_ravg_window ∧
      p'.ravg.sum ≤ demo_globals.sched_ravg_window ∧
      ∀ x ∈ p'.ravg.sum_history, x ≤ demo_globals.sched_ravg_window :=
  ⟨⟨by decide, by decide, by decide, by decide!⟩,
    update_task_demand_within_window demo_globals fixup_none c1w_task c1w_rq
      TaskEvent.PUT_PREV_TASK 128 (by decide) (by decide) (by decide) (by decide) (by decide)
      (by decide) (by decide) (by decide!) (by decide) (by decide) (by decide)⟩

/-! ## `best_cluster` -/

/-- C10: `best_cluster` returns a cluster exactly when that cluster is the
first one of the list, in list order, for which `group_will_fit` holds; it
returns NULL exactly when the predicate holds for no cluster of the list; and
for the list [B (capacity 512), A (capacity 1024)] with a demand of 600 that
fits A but not B it returns A. -/
theorem best_cluster_first_fit (fit : FitPredicate) (clusters : List Cluster)
    (grp : RelatedThreadGroup) (demand : Nat) :
    (∀ c, best_cluster fit clusters grp demand = some c ↔
      ∃ pre post, clusters = pre ++ c :: post ∧ fit c grp demand = true ∧
        ∀ x ∈ pre, fit x grp demand = false) ∧
    (best_cluster fit clusters grp demand = none ↔
      ∀ c ∈ clusters, fit c grp demand = false) ∧
    (fit cluster_A grp 600 = true → fit cluster_B grp 600 = false →
      best_cluster fit [cluster_B, cluster_A] grp 600 = some cluster_A) := by
  refine ⟨?_, ?_, ?_⟩
  · induction clusters with
    | nil =>
      intro c
      simp [best_cluster]
    | cons a rest ih =>
      intro c
      unfold best_cluster
      by_cases ha : fit a grp demand = true
      · rw [if_pos ha]
        constructor
        · intro h
          have hac : a = c := Option.some.inj h
          subst hac
          exact ⟨[], rest, rfl, ha, by simp⟩
        · rintro ⟨pre, post, heq, _, hpre⟩
          cases pre with
          | nil =>
            simp only [List.nil_append, List.cons.injEq] at heq
            rw [heq.1]
          | cons b pre' =>
            simp only [List.cons_append, List.cons.injEq] at heq
            have := hpre b (List.mem_cons_self _ _)
            rw [← heq.1, ha] at this
            exact absurd this (by simp)
      · rw [if_neg ha, ih c]
        have ha' : fit a grp demand = false := by simpa using ha
        constructor
        · rintro ⟨pre, post, heq, hc, hpre⟩
          refine ⟨a :: pre, post, by rw [heq]; rfl, hc, ?_⟩
          intro x hx
          rcases List.mem_cons.mp hx with h | h
          · rw [h]; exact ha'
          · exact hpre x h
        · rintro ⟨pre, post, heq, hc, hpre⟩
          cases pre with
          | nil =>
            simp only [List.nil_append, List.cons.injEq] at heq
            rw [heq.1] at ha
            exact absurd hc ha
          | cons b pre' =>
            simp only [List.cons_append, List.cons.injEq] at heq
            exact ⟨pre', post, heq.2, hc, fun x hx => hpre x (List.mem_cons_of_mem _ hx)⟩
  · induction clusters with
    | nil => simp [best_cluster]
    | cons a rest ih =>
      unfold best_cluster
      by_cases ha : fit a grp demand = true
      · rw [if_pos ha]
        simp only [List.mem_cons, forall_eq_or_imp, ha]
        simp
      · rw [if_neg ha, ih]
        have ha' : fit a grp demand = false := by simpa using ha
        simp [ha']
  · intro hA hB
    unfold best_cluster
    rw [if_neg (by rw [hB]; simp)]
    unfold best_cluster
    rw [if_pos hA]

/-- C10, witness of `best_cluster_first_fit`: with a headroom of 90 percent a
demand of 600 fits A (1024) but not B (512), and A is selected. -/
theorem best_cluster_first_fit_witness :
    group_will_fit_headroom 90 cluster_A {} 600 = true ∧
    group_will_fit_headroom 90 cluster_B {} 600 = false ∧
    best_cluster (group_will_fit_headroom 90) [cluster_B, cluster_A] {} 600 = some cluster_A :=
  ⟨by decide, by decide,
    (best_cluster_first_fit (group_will_fit_headroom 90) [cluster_B, cluster_A] {} 600).2.2
      (by decide) (by decide)⟩

/-! ## Frequency-change notification -/

theorem load_to_freq_congr (e : Globals) (rq1 rq2 : Rq) (load : Nat) (h : rq1.cpu = rq2.cpu) :
    load_to_freq e rq1 load = load_to_freq e rq2 load := by
  unfold load_to_freq
  rw [h]

theorem within_band_congr (e : Globals) (rq1 rq2 : Rq) (v : Nat) (hc : rq1.cpu = rq2.cpu)
    (ho : rq1.old_busy_time = rq2.old_busy_time) :
    within_band e rq1 v = within_band e rq2 v := by
  unfold within_band
  rw [load_to_freq_congr e rq1 rq2 _ hc, load_to_freq_congr e rq1 rq2 v hc, ho]

/-- Inside the band, or with a notification pending, a check changes nothing
and emits nothing. -/
theorem check_for_freq_change_quiet (e : Globals) (rq : Rq)
    (h : within_band e rq rq.prev_runnable_sum = true ∨ rq.notifier_sent ≠ 0) :
    check_for_freq_change e rq = (rq, false) := by
  have hs : send_notification e rq = (0, rq) := by
    unfold send_notification
    by_cases hh : e.sched_enable_hmp = true
    · simp only [hh, Bool.not_true, Bool.false_eq_true, if_false]
      rcases h with h | h
      · unfold within_band at h
        rw [if_pos h]
      · have : (rq.notifier_sent == 0) = false := by simpa using h
        split_ifs <;> simp_all
    · simp [hh]
  unfold check_for_freq_change
  rw [hs]
  rfl

/-- Outside the band with no notification pending, a check emits one
notification and sets `notifier_sent`. -/
theorem check_for_freq_change_emits (e : Globals) (rq : Rq) (hmp : e.sched_enable_hmp = true)
    (h : within_band e rq rq.prev_runnable_sum = false) (hs : rq.notifier_sent = 0) :
    check_for_freq_change e rq = ({ rq with notifier_sent := 1 }, true) := by
  unfold check_for_freq_change send_notification
  unfold within_band at h
  simp [hmp, h, hs]

theorem send_notification_cases (e : Globals) (rq : Rq) :
    send_notification e rq = (0, rq) ∨
    send_notification e rq = (1, { rq with notifier_sent := 1 }) := by
  unfold send_notification
  split_ifs <;> simp

theorem check_for_freq_change_frame (e : Globals) (rq : Rq) :
    (check_for_freq_change e rq).1.cpu = rq.cpu ∧
    (check_for_freq_change e rq).1.old_busy_time = rq.old_busy_time ∧
    (check_for_freq_change e rq).1.prev_runnable_sum = rq.prev_runnable_sum ∧
    ((check_for_freq_change e rq).2 = true → (check_for_freq_change e rq).1.notifier_sent = 1) ∧
    ((check_for_freq_change e rq).2 = false →
      (check_for_freq_change e rq).1.notifier_sent = rq.notifier_sent) := by
  unfold check_for_freq_change
  rcases send_notification_cases e rq with h | h <;> rw [h] <;> simp

/-- With a notification pending, a run of checks emits nothing. -/
theorem freq_change_run_pending (e : Globals) :
    ∀ (vs : List Nat) (rq : Rq), rq.notifier_sent ≠ 0 →
      (freq_change_run e rq vs).1 = 0 ∧
      (freq_change_run e rq vs).2.notifier_sent = rq.notifier_sent := by
  intro vs
  induction vs with
  | nil => intro rq _; exact ⟨rfl, rfl⟩
  | cons v vs ih =>
    intro rq h
    unfold freq_change_run
    have hq := check_for_freq_change_quiet e { rq with prev_runnable_sum := v } (Or.inr h)
    simp only [hq]
    have := ih { rq with prev_runnable_sum := v } h
    simpa using this

/-- Inside the band throughout, a run of checks emits nothing. -/
theorem freq_change_run_in_band (e : Globals) :
    ∀ (vs : List Nat) (rq : Rq), (∀ v ∈ vs, within_band e rq v = true) →
      (freq_change_run e rq vs).1 = 0 ∧
      (freq_change_run e rq vs).2.notifier_sent = rq.notifier_sent ∧
      (freq_change_run e rq vs).2.cpu = rq.cpu ∧
      (freq_change_run e rq vs).2.old_busy_time = rq.old_busy_time := by
  intro vs
  induction vs with
  | nil => intro rq _; exact ⟨rfl, rfl, rfl, rfl⟩
  | cons v vs ih =>
    intro rq h
    unfold freq_change_run
    have hv : within_band e { rq with prev_runnable_sum := v } v = true := by
      rw [within_band_congr e { rq with prev_runnable_sum := v } rq v rfl rfl]
      exact h v (List.mem_cons_self _ _)
    have hq := check_for_freq_change_quiet e { rq with prev_runnable_sum := v } (Or.inl hv)
    simp only [hq]
    have := ih { rq with prev_runnable_sum := v } (fun x hx => by
      rw [within_band_congr e { rq with prev_runnable_sum := v } rq x rfl rfl]
      exact h x (List.mem_cons_of_mem _ hx))
    simpa using this

/-- A run of checks with no query in between emits at most one notification. -/
theorem freq_change_run_le_one (e : Globals) :
    ∀ (vs : List Nat) (rq : Rq), (freq_change_run e rq vs).1 ≤ 1 := by
  intro vs
  induction vs with
  | nil => intro rq; simp [freq_change_run]
  | cons v vs ih =>
    intro rq
    unfold freq_change_run
    simp only []
    obtain ⟨_, _, _, f1, _⟩ := check_for_freq_change_frame e { rq with prev_runnable_sum := v }
    by_cases hb : (check_for_freq_change e { rq with prev_runnable_sum := v }).2 = true
    · have hs := f1 hb
      have := (freq_change_run_pending e vs _ (by rw [hs]; decide)).1
      rw [this, if_pos hb]
    · rw [if_neg hb]
      have := ih (check_for_freq_change e { rq with prev_runnable_sum := v }).1
      omega

theorem freq_change_run_append (e : Globals) :
    ∀ (a b : List Nat) (rq : Rq),
      freq_change_run e rq (a ++ b) =
        ((freq_change_run e rq a).1 + (freq_change_run e (freq_change_run e rq a).2 b).1,
          (freq_change_run e (freq_change_run e rq a).2 b).2) := by
  intro a
  induction a with
  | nil => intro b rq; simp [freq_change_run]
  | cons v vs ih =>
    intro b rq
    simp only [List.cons_append, freq_change_run, List.append_eq]
    rw [ih]
    simp only [Prod.mk.injEq, and_true]
    omega

/-- On frequencies below `2^31` the test of `nearly_same_freq` is the band
test: a rise smaller than the increase threshold or a fall smaller than the
decrease threshold. -/
theorem nearly_same_freq_band (e : Globals) (cur req : Nat)
    (hc : cur < 2147483648) (hr : req < 2147483648) :
    nearly_same_freq e cur req = true ↔
      (cur < req ∧ (req : Int) - cur < e.sysctl_sched_freq_inc_notify) ∨
      (req ≤ cur ∧ (cur : Int) - req < e.sysctl_sched_freq_dec_notify) := by
  unfold nearly_same_freq
  simp only []
  rw [wrap32_of_lt (by omega : req < 4294967296), wrap32_of_lt (by omega : cur < 4294967296)]
  by_cases h : cur < req
  · have hs : sub32 req cur = req - cur := by
      unfold sub32 wrap32; split <;> omega
    rw [if_pos h, hs, toInt32_of_lt (by omega)]
    simp only [decide_eq_true_eq]
    constructor
    · intro hd; left; exact ⟨h, by omega⟩
    · rintro (⟨_, hd⟩ | ⟨hle, _⟩)
      · omega
      · omega
  · rw [if_neg (by omega)]
    have hneg : toInt32 (intToU64 (-toInt32 (sub32 req cur))) = (cur : Int) - req := by
      by_cases heq : cur = req
      · subst heq
        have hs : sub32 cur cur = 0 := by unfold sub32 wrap32; split <;> omega
        rw [hs]
        have h0 : toInt32 0 = 0 := by rw [toInt32_of_lt (by omega)]; rfl
        rw [h0]
        have h1 : intToU64 (-0) = 0 := by unfold intToU64; rfl
        rw [h1, h0]
        omega
      · have hs : sub32 req cur = req + 4294967296 - cur := by
          unfold sub32 wrap32; split <;> omega
        have ht : toInt32 (sub32 req cur) = (req : Int) - cur := by
          rw [hs]
          unfold toInt32
          have hm : (req + 4294967296 - cur) % 4294967296 = req + 4294967296 - cur := by omega
          rw [hm, if_neg (by omega)]
          omega
        rw [ht]
        have hu : intToU64 (-((req : Int) - cur)) = cur - req := by
          unfold intToU64
          omega
        rw [hu, toInt32_of_lt (by omega)]
        omega
    rw [hneg]
    simp only [decide_eq_true_eq]
    constructor
    · intro hd; right; exact ⟨by omega, hd⟩
    · rintro (⟨hlt, _⟩ | ⟨_, hd⟩)
      · omega
      · exact hd

/-! ## `pick_next_task` -/

/-- A pass over classes that include the idle class cannot fall through when
the idle class always has a task. -/
theorem class_scan_ne_fell_through (pick : PickHook)
    (hidle : ∀ rq prev, ∃ p, (pick SchedClass.idle rq prev).1 = Picked.task p) :
    ∀ (cs : List SchedClass) (rq : Rq) (prev : Task), SchedClass.idle ∈ cs →
      class_scan pick cs rq prev ≠ ScanResult.fell_through := by
  intro cs
  induction cs with
  | nil => intro rq prev h; simp at h
  | cons c cs ih =>
    intro rq prev hmem
    unfold class_scan
    rcases hpick : pick c rq prev with ⟨r, rq1, prev1⟩
    cases r with
    | null =>
      simp only []
      have hc : c ≠ SchedClass.idle := by
        intro hc
        obtain ⟨p, hp⟩ := hidle rq prev
        rw [← hc, hpick] at hp
        simp at hp
      have : SchedClass.idle ∈ cs := by
        rcases List.mem_cons.mp hmem with h | h
        · exact absurd h.symm hc
        · exact h
      exact ih rq1 prev1 this
    | retry => simp
    | task pid => simp

/-- From the label `again` on, the function either uses up the passes or
returns a task. -/
theorem pick_again_outcome (pick : PickHook)
    (hidle : ∀ rq prev, ∃ p, (pick SchedClass.idle rq prev).1 = Picked.task p) :
    ∀ (n : Nat) (rq : Rq) (prev : Task),
      pick_again pick n rq prev = PickOutcome.unfinished ∨
      ∃ p rq1 prev1, pick_again pick n rq prev = PickOutcome.returned (Picked.task p) rq1 prev1 := by
  intro n
  induction n with
  | zero => intro rq prev; left; rfl
  | succ n ih =>
    intro rq prev
    unfold pick_again
    have hne := class_scan_ne_fell_through pick hidle for_each_class rq prev (by decide)
    cases hs : class_scan pick for_each_class rq prev with
    | found pid rq1 prev1 => right; exact ⟨pid, rq1, prev1, rfl⟩
    | again rq1 prev1 => exact ih rq1 prev1
    | fell_through => exact absurd hs hne

/-- More passes do not change an outcome that was reached. -/
theorem pick_again_mono (pick : PickHook) :
    ∀ (n m : Nat) (rq : Rq) (prev : Task), n ≤ m →
      pick_again pick n rq prev ≠ PickOutcome.unfinished →
      pick_again pick m rq prev = pick_again pick n rq prev := by
  intro n
  induction n with
  | zero => intro m rq prev _ h; exact absurd rfl h
  | succ n ih =>
    intro m rq prev hle h
    obtain ⟨k, rfl⟩ : ∃ k, m = k + 1 := ⟨m - 1, by omega⟩
    unfold pick_again at h ⊢
    cases hs : class_scan pick for_each_class rq prev with
    | found pid rq1 prev1 => rfl
    | again rq1 prev1 =>
      rw [hs] at h
      exact ih k rq1 prev1 (by omega) h
    | fell_through => rfl

theorem pick_next_task_slow (pick : PickHook) (n : Nat) (rq : Rq) (prev : Task)
    (hc : ¬ (prev.fair_class && rq.nr_running == rq.cfs_h_nr_running) = true) :
    pick_next_task pick n rq prev = pick_again pick n rq prev := by
  unfold pick_next_task
  rw [if_neg hc]

theorem pick_next_task_fast (pick : PickHook) (n : Nat) (rq : Rq) (prev : Task)
    (hc : (prev.fair_class && rq.nr_running == rq.cfs_h_nr_running) = true) :
    pick_next_task pick n rq prev =
      match pick SchedClass.fair rq prev with
      | (Picked.retry, rq1, prev1) => pick_again pick n rq1 prev1
      | (Picked.null, rq1, prev1) =>
        match pick SchedClass.idle rq1 prev1 with
        | (p, rq2, prev2) => PickOutcome.returned p rq2 prev2
      | (Picked.task pid, rq1, prev1) => PickOutcome.returned (Picked.task pid) rq1 prev1 := by
  unfold pick_next_task
  rw [if_pos hc]

/-- Once some number of passes ends the part after `again`, it returns a task
with that and any larger number, and never reaches `BUG()`. -/
theorem pick_again_never_null (pick : PickHook) (rq : Rq) (prev : Task)
    (hidle : ∀ rq prev, ∃ p, (pick SchedClass.idle rq prev).1 = Picked.task p)
    (n : Nat) (hn : pick_again pick n rq prev ≠ PickOutcome.unfinished) :
    (∃ n p rq1 prev1, ∀ m, n ≤ m →
      pick_again pick m rq prev = PickOutcome.returned (Picked.task p) rq1 prev1) ∧
    (∀ m, pick_again pick m rq prev ≠ PickOutcome.bug) := by
  constructor
  · rcases pick_again_outcome pick hidle n rq prev with h | ⟨p, rq2, prev2, h⟩
    · exact absurd h hn
    · refine ⟨n, p, rq2, prev2, fun m hm => ?_⟩
      rw [pick_again_mono pick n m rq prev hm hn, h]
  · intro m
    rcases pick_again_outcome pick hidle m rq prev with h | ⟨p, rq2, prev2, h⟩ <;>
      rw [h] <;> simp

/-- C5: if the idle class's pick always yields a task and the retry signal
comes only finitely often (some number of passes of the class loop ends the
call), then `pick_next_task` returns a task, neither NULL nor `RETRY_TASK`,
with that and any larger number of passes, and never reaches `BUG()`. -/
theorem pick_next_task_never_null (pick : PickHook) (rq : Rq) (prev : Task)
    (hidle : ∀ rq prev, ∃ p, (pick SchedClass.idle rq prev).1 = Picked.task p)
    (hfin : ∃ n, pick_next_task pick n rq prev ≠ PickOutcome.unfinished) :
    (∃ n p rq1 prev1, ∀ m, n ≤ m →
      pick_next_task pick m rq prev = PickOutcome.returned (Picked.task p) rq1 prev1) ∧
    (∀ m, pick_next_task pick m rq prev ≠ PickOutcome.bug) := by
  obtain ⟨n, hn⟩ := hfin
  by_cases hc : (prev.fair_class && rq.nr_running == rq.cfs_h_nr_running) = true
  · have hE := fun m => pick_next_task_fast pick m rq prev hc
    rw [hE n] at hn
    rcases hf : pick SchedClass.fair rq prev with ⟨r, rq1, prev1⟩
    rw [hf] at hn hE
    cases r with
    | retry =>
      simp only [] at hn hE
      obtain ⟨⟨n0, p, rq2, prev2, h1⟩, h2⟩ := pick_again_never_null pick rq1 prev1 hidle n hn
      exact ⟨⟨n0, p, rq2, prev2, fun m hm => by rw [hE m]; exact h1 m hm⟩,
        fun m => by rw [hE m]; exact h2 m⟩
    | null =>
      simp only [] at hE
      obtain ⟨p, hp⟩ := hidle rq1 prev1
      rcases hi : pick SchedClass.idle rq1 prev1 with ⟨r2, rq2, prev2⟩
      rw [hi] at hp hE
      simp only [] at hp hE
      subst hp
      exact ⟨⟨0, p, rq2, prev2, fun m _ => hE m⟩, fun m => by rw [hE m]; simp⟩
    | task pid =>
      simp only [] at hE
      exact ⟨⟨0, pid, rq1, prev1, fun m _ => hE m⟩, fun m => by rw [hE m]; simp⟩
  · have hE := fun m => pick_next_task_slow pick m rq prev hc
    rw [hE n] at hn
    obtain ⟨⟨n0, p, rq2, prev2, h1⟩, h2⟩ := pick_again_never_null pick rq prev hidle n hn
    exact ⟨⟨n0, p, rq2, prev2, fun m hm => by rw [hE m]; exact h1 m hm⟩,
      fun m => by rw [hE m]; exact h2 m⟩

/-- C5, witness of `pick_next_task_never_null`: with `c5_pick` the realtime
class retries twice on `c5_rq`; three passes end the call, with task 3. -/
theorem pick_next_task_never_null_witness :
    (∀ rq prev, ∃ p, (c5_pick SchedClass.idle rq prev).1 = Picked.task p) ∧
    pick_next_task c5_pick 3 c5_rq c5_prev ≠ PickOutcome.unfinished ∧
    pick_next_task c5_pick 2 c5_rq c5_prev = PickOutcome.unfinished ∧
    ((∃ n p rq1 prev1, ∀ m, n ≤ m →
      pick_next_task c5_pick m c5_rq c5_prev
        = PickOutcome.returned (Picked.task p) rq1 prev1) ∧
    (∀ m, pick_next_task c5_pick m c5_rq c5_prev ≠ PickOutcome.bug)) :=
  ⟨fun _ _ => ⟨0, rfl⟩, by decide, by decide,
    pick_next_task_never_null c5_pick c5_rq c5_prev (fun _ _ => ⟨0, rfl⟩) ⟨3, by decide⟩⟩

/-- One pass of the class loop is the spec's first non-null answer. -/
theorem class_scan_eq_spec (pick : PickHook) :
    ∀ (cs : List SchedClass) (rq : Rq) (prev : Task),
      class_scan pick cs rq prev =
        match spec_first_non_null pick cs rq prev with
        | (Picked.null, _, _) => ScanResult.fell_through
        | (Picked.retry, rq1, prev1) => ScanResult.again rq1 prev1
        | (Picked.task pid, rq1, prev1) => ScanResult.found pid rq1 prev1 := by
  intro cs
  induction cs with
  | nil => intro rq prev; rfl
  | cons c cs ih =>
    intro rq prev
    unfold class_scan spec_first_non_null
    rcases hp : pick c rq prev with ⟨r, rq1, prev1⟩
    cases r with
    | null => simp only [if_true]; exact ih rq1 prev1
    | retry => simp
    | task pid => simp

/-- The part of `pick_next_task` after `again` is the spec's ordered scan. -/
theorem pick_again_eq_spec (pick : PickHook) :
    ∀ (n : Nat) (rq : Rq) (prev : Task),
      pick_again pick n rq prev = spec_pick_next pick n rq prev := by
  intro n
  induction n with
  | zero => intro rq prev; rfl
  | succ n ih =>
    intro rq prev
    unfold pick_again spec_pick_next
    rw [class_scan_eq_spec]
    rcases hs : spec_first_non_null pick for_each_class rq prev with ⟨r, rq1, prev1⟩
    cases r with
    | null => rfl
    | retry => exact ih rq1 prev1
    | task pid => rfl

/-- C6: outside the fast path `pick_next_task` is the spec's ordered scan
(first non-null result in the order stop, deadline, realtime, fair, idle,
restarting on the retry signal).  The fast path is taken when prev is fair and
`nr_running == cfs.h_nr_running`, that is when every runnable task of the
queue is a fair one: the stop, deadline and realtime classes, whose hooks are
outside this file, then have no task, answer NULL and leave the state as it
is, and the idle class has a task when the fair class has none.  With these
answers of the hooks the fast path returns what the ordered scan returns. -/
theorem pick_next_task_ordered_scan (pick : PickHook) (rq : Rq) (prev : Task) :
    (¬ (prev.fair_class && rq.nr_running == rq.cfs_h_nr_running) = true →
      ∀ n, pick_next_task pick n rq prev = spec_pick_next pick n rq prev) ∧
    ((prev.fair_class && rq.nr_running == rq.cfs_h_nr_running) = true →
      pick SchedClass.stop rq prev = (Picked.null, rq, prev) →
      pick SchedClass.dl rq prev = (Picked.null, rq, prev) →
      pick SchedClass.rt rq prev = (Picked.null, rq, prev) →
      (∀ rq1 prev1, pick SchedClass.fair rq prev = (Picked.null, rq1, prev1) →
        ∃ p, (pick SchedClass.idle rq1 prev1).1 = Picked.task p) →
      ∀ n, pick_next_task pick n rq prev = spec_pick_next pick (n + 1) rq prev) := by
  constructor
  · intro hc n
    rw [pick_next_task_slow pick n rq prev hc, pick_again_eq_spec]
  · intro hc hstop hdl hrt hidle n
    rw [pick_next_task_fast pick n rq prev hc]
    unfold spec_pick_next
    have hscan : spec_first_non_null pick for_each_class rq prev =
        spec_first_non_null pick [SchedClass.fair, SchedClass.idle] rq prev := by
      unfold for_each_class
      rw [spec_first_non_null, hstop]
      simp only [if_true]
      rw [spec_first_non_null, hdl]
      simp only [if_true]
      rw [spec_first_non_null, hrt]
      simp only [if_true]
    rw [hscan]
    unfold spec_first_non_null
    rcases hf : pick SchedClass.fair rq prev with ⟨r, rq1, prev1⟩
    cases r with
    | retry =>
      simp only []
      rw [if_neg (by simp)]
      exact pick_again_eq_spec pick n rq1 prev1
    | null =>
      simp only [if_true]
      obtain ⟨p, hp⟩ := hidle rq1 prev1 hf
      unfold spec_first_non_null
      rcases hi : pick SchedClass.idle rq1 prev1 with ⟨r2, rq2, prev2⟩
      rw [hi] at hp
      simp only [] at hp
      subst hp
      simp
    | task pid =>
      simp

/-- C6, witness of `pick_next_task_ordered_scan`: with `c5_pick` and a fair
`prev` on a queue holding only fair tasks, the fast path gives the ordered
scan's task. -/
theorem pick_next_task_ordered_scan_witness :
    (c6_prev.fair_class && c6_rq.nr_running == c6_rq.cfs_h_nr_running) = true ∧
    ∀ n, pick_next_task c5_pick n c6_rq c6_prev = spec_pick_next c5_pick (n + 1) c6_rq c6_prev :=
  ⟨by decide,
    (pick_next_task_ordered_scan c5_pick c6_rq c6_prev).2 (by decide) rfl rfl rfl
      (fun _ _ _ => ⟨0, rfl⟩)⟩

/-! ## `select_fallback_rq` -/

theorem mem_for_each_cpu (n : Nat) (mask : List Nat) (c : Nat) :
    c ∈ for_each_cpu n mask ↔ c < n ∧ cpumask_test_cpu c mask = true := by
  unfold for_each_cpu
  simp [List.mem_filter]

theorem allowed_scan_some (e : CpuEnv) :
    ∀ (l : List Nat) (c : Nat), allowed_scan e l = some c →
      c ∈ l ∧ cpu_online e c = true ∧ cpu_active e c = true := by
  intro l
  induction l with
  | nil => intro c h; simp [allowed_scan] at h
  | cons a l ih =>
    intro c h
    unfold allowed_scan at h
    by_cases ho : cpu_online e a = true
    · by_cases ha : cpu_active e a = true
      · simp only [ho, ha, Bool.not_true, Bool.false_eq_true, if_false, Option.some.injEq] at h
        subst h
        exact ⟨List.mem_cons_self _ _, ho, ha⟩
      · simp only [ho, ha, Bool.not_true, Bool.false_eq_true, if_false, Bool.not_false,
          if_true] at h
        obtain ⟨h1, h2⟩ := ih c h
        exact ⟨List.mem_cons_of_mem _ h1, h2⟩
    · simp only [ho, Bool.not_false, if_true] at h
      obtain ⟨h1, h2⟩ := ih c h
      exact ⟨List.mem_cons_of_mem _ h1, h2⟩

theorem allowed_scan_finds (e : CpuEnv) :
    ∀ (l : List Nat), (∃ c ∈ l, cpu_online e c = true ∧ cpu_active e c = true) →
      ∃ c, allowed_scan e l = some c := by
  intro l
  induction l with
  | nil => rintro ⟨c, hc, _⟩; simp at hc
  | cons a l ih =>
    rintro ⟨c, hc, ho, ha⟩
    unfold allowed_scan
    by_cases hoa : cpu_online e a = true
    · by_cases haa : cpu_active e a = true
      · exact ⟨a, by simp [hoa, haa]⟩
      · have hne : c ≠ a := by rintro rfl; exact haa ha
        have hcl : c ∈ l := by
          rcases List.mem_cons.mp hc with h | h
          · exact absurd h hne
          · exact h
        obtain ⟨d, hd⟩ := ih ⟨c, hcl, ho, ha⟩
        exact ⟨d, by simp [hoa, haa, hd]⟩
    · have hne : c ≠ a := by rintro rfl; exact hoa ho
      have hcl : c ∈ l := by
        rcases List.mem_cons.mp hc with h | h
        · exact absurd h hne
        · exact h
      obtain ⟨d, hd⟩ := ih ⟨c, hcl, ho, ha⟩
      exact ⟨d, by simp [hoa, hd]⟩

theorem node_scan_some (e : CpuEnv) (p : Task) :
    ∀ (l : List Nat) (c : Nat), node_scan e p l = some c →
      c ∈ l ∧ cpu_online e c = true ∧ cpu_active e c = true ∧
      cpumask_test_cpu c p.cpus_allowed = true := by
  intro l
  induction l with
  | nil => intro c h; simp [node_scan] at h
  | cons a l ih =>
    intro c h
    unfold node_scan at h
    by_cases ho : cpu_online e a = true
    · by_cases ha : cpu_active e a = true
      · by_cases ht : cpumask_test_cpu a p.cpus_allowed = true
        · simp only [ho, ha, ht, Bool.not_true, Bool.false_eq_true, if_false, if_true,
            Option.some.injEq] at h
          subst h
          exact ⟨List.mem_cons_self _ _, ho, ha, ht⟩
        · simp only [ho, ha, ht, Bool.not_true, Bool.false_eq_true, if_false] at h
          obtain ⟨h1, h2⟩ := ih c h
          exact ⟨List.mem_cons_of_mem _ h1, h2⟩
      · simp only [ho, ha, Bool.not_true, Bool.false_eq_true, if_false, Bool.not_false,
          if_true] at h
        obtain ⟨h1, h2⟩ := ih c h
        exact ⟨List.mem_cons_of_mem _ h1, h2⟩
    · simp only [ho, Bool.not_false, if_true] at h
      obtain ⟨h1, h2⟩ := ih c h
      exact ⟨List.mem_cons_of_mem _ h1, h2⟩

/-- What a successful scan of the allowed mask gives at the label `out`. -/
theorem fallback_out_ok (e : CpuEnv) (p : Task) (st : FallbackState) (c : Nat)
    (h : allowed_scan e (for_each_cpu e.nr_cpu_ids p.cpus_allowed) = some c) :
    cpu_online e (fallback_out e c p st).dest_cpu = true ∧
    cpu_active e (fallback_out e c p st).dest_cpu = true ∧
    cpumask_test_cpu (fallback_out e c p st).dest_cpu
      (fallback_out e c p st).task.cpus_allowed = true ∧
    (fallback_out e c p st).dest_cpu < e.nr_cpu_ids := by
  obtain ⟨hm, ho, ha⟩ := allowed_scan_some e _ c h
  obtain ⟨hlt, ht⟩ := (mem_for_each_cpu _ _ _).mp hm
  exact ⟨ho, ha, ht, hlt⟩

/-- C7: provided some possible processor (below `nr_cpu_ids`) is online and
active, `select_fallback_rq` returns, without reaching `BUG()`, a processor
that is online, active and in the task's allowed mask as it stands on return;
the task on return is the original one, or the one left by the cpuset
relaxation, or that one with the mask set to all possible processors; and if
an allowed processor was already online and active the task is not modified. -/
theorem select_fallback_rq_never_fails (e : CpuEnv) (cpu : Nat) (p : Task)
    (hposs : ∃ c, c < e.nr_cpu_ids ∧ cpumask_test_cpu c e.cpu_possible_mask = true ∧
      cpu_online e c = true ∧ cpu_active e c = true) :
    ∃ r, select_fallback_rq e cpu p = some r ∧
      cpu_online e r.dest_cpu = true ∧ cpu_active e r.dest_cpu = true ∧
      cpumask_test_cpu r.dest_cpu r.task.cpus_allowed = true ∧
      (r.task = p ∨ r.task = e.cpuset_cpus_allowed_fallback p ∨
        r.task = do_set_cpus_allowed e (e.cpuset_cpus_allowed_fallback p) e.cpu_possible_mask) ∧
      ((∃ c, c < e.nr_cpu_ids ∧ cpumask_test_cpu c p.cpus_allowed = true ∧
          cpu_online e c = true ∧ cpu_active e c = true) → r.task = p) := by
  unfold select_fallback_rq
  simp only []
  split
  · rename_i dest hnear
    split at hnear
    · obtain ⟨_, ho, ha, ht⟩ := node_scan_some e p _ dest hnear
      exact ⟨_, rfl, ho, ha, ht, Or.inl rfl, fun _ => rfl⟩
    · exact absurd hnear (by simp)
  · unfold fallback_from_cpuset
    cases h1 : allowed_scan e (for_each_cpu e.nr_cpu_ids p.cpus_allowed) with
    | some c =>
      obtain ⟨ho, ha, ht, _⟩ := fallback_out_ok e p FallbackState.cpuset c h1
      exact ⟨_, rfl, ho, ha, ht, Or.inl rfl, fun _ => rfl⟩
    | none =>
      have hnone : ¬ ∃ c, c < e.nr_cpu_ids ∧ cpumask_test_cpu c p.cpus_allowed = true ∧
          cpu_online e c = true ∧ cpu_active e c = true := by
        rintro ⟨c, hlt, ht, ho, ha⟩
        obtain ⟨d, hd⟩ := allowed_scan_finds e (for_each_cpu e.nr_cpu_ids p.cpus_allowed)
          ⟨c, (mem_for_each_cpu _ _ _).mpr ⟨hlt, ht⟩, ho, ha⟩
        rw [h1] at hd
        exact absurd hd (by simp)
      simp only []
      unfold fallback_from_possible
      cases h2 : allowed_scan e (for_each_cpu e.nr_cpu_ids
          (e.cpuset_cpus_allowed_fallback p).cpus_allowed) with
      | some c =>
        obtain ⟨ho, ha, ht, _⟩ :=
          fallback_out_ok e (e.cpuset_cpus_allowed_fallback p) FallbackState.possible c h2
        exact ⟨_, rfl, ho, ha, ht, Or.inr (Or.inl rfl), fun h => absurd h hnone⟩
      | none =>
        simp only []
        unfold fallback_from_fail
        obtain ⟨c0, hlt, ht, ho, ha⟩ := hposs
        obtain ⟨d, hd⟩ := allowed_scan_finds e
          (for_each_cpu e.nr_cpu_ids
            (do_set_cpus_allowed e (e.cpuset_cpus_allowed_fallback p)
              e.cpu_possible_mask).cpus_allowed)
          ⟨c0, (mem_for_each_cpu _ _ _).mpr ⟨hlt, ht⟩, ho, ha⟩
        rw [hd]
        obtain ⟨ho', ha', ht', _⟩ :=
          fallback_out_ok e (do_set_cpus_allowed e (e.cpuset_cpus_allowed_fallback p)
            e.cpu_possible_mask) FallbackState.fail d hd
        exact ⟨_, rfl, ho', ha', ht', Or.inr (Or.inr rfl), fun h => absurd h hnone⟩

/-- C7, witness of `select_fallback_rq_never_fails`: `c7_task` is allowed only
on the offline processor 0; processor 1 is possible, online and active. -/
theorem select_fallback_rq_never_fails_witness :
    (1 < c7_env.nr_cpu_ids ∧ cpumask_test_cpu 1 c7_env.cpu_possible_mask = true ∧
      cpu_online c7_env 1 = true ∧ cpu_active c7_env 1 = true) ∧
    select_fallback_rq c7_env 0 c7_task =
      some { dest_cpu := 1,
             task := { c7_task with cpus_allowed := [0, 1, 2, 3], nr_cpus_allowed := 4 },
             state := FallbackState.fail, logged := true } ∧
    ∃ r, select_fallback_rq c7_env 0 c7_task = some r ∧
      cpu_online c7_env r.dest_cpu = true ∧ cpu_active c7_env r.dest_cpu = true ∧
      cpumask_test_cpu r.dest_cpu r.task.cpus_allowed = true ∧
      (r.task = c7_task ∨ r.task = c7_env.cpuset_cpus_allowed_fallback c7_task ∨
        r.task = do_set_cpus_allowed c7_env (c7_env.cpuset_cpus_allowed_fallback c7_task)
          c7_env.cpu_possible_mask) ∧
      ((∃ c, c < c7_env.nr_cpu_ids ∧ cpumask_test_cpu c c7_task.cpus_allowed = true ∧
          cpu_online c7_env c = true ∧ cpu_active c7_env c = true) → r.task = c7_task) :=
  ⟨by decide, by decide,
    select_fallback_rq_never_fails c7_env 0 c7_task ⟨1, by decide, by decide, by decide, by decide⟩⟩

/-! ## Unity scaling -/

/-- At unity scaling (current frequency and efficiency at the system maxima)
an interval shorter than `2^32` is not changed by `scale_exec_time`. -/
theorem scale_exec_time_unity (g : Globals) (delta : Nat) (rq : Rq)
    (hf : 0 < g.max_possible_freq) (hf32 : g.max_possible_freq < 4294967296)
    (hcf : g.cpu_cur_freq rq.cpu = g.max_possible_freq)
    (he : 0 < g.max_possible_efficiency) (he32 : g.max_possible_efficiency * 1025 ≤ 4294967296)
    (heff : g.cpu_efficiency rq.cpu = g.max_possible_efficiency)
    (hd : delta < 4294967296) :
    scale_exec_time g delta rq = delta := by
  unfold scale_exec_time
  simp only []
  rw [hcf, heff, if_neg (by omega)]
  have hsf : sub32 (wrap32 (g.max_possible_efficiency * 1024 + g.max_possible_efficiency)) 1
      / g.max_possible_efficiency = 1024 := by
    rw [sub32_wrap32_one _ (by omega)]
    have hm : (g.max_possible_efficiency * 1024 + g.max_possible_efficiency - 1) % 4294967296
        = g.max_possible_efficiency * 1024 + g.max_possible_efficiency - 1 :=
      Nat.mod_eq_of_lt (by omega)
    rw [hm]
    have : g.max_possible_efficiency * 1024 + g.max_possible_efficiency - 1
        = (g.max_possible_efficiency - 1) + g.max_possible_efficiency * 1024 := by omega
    rw [this, Nat.add_mul_div_left _ _ he, Nat.div_eq_of_lt (by omega)]
  rw [hsf, toInt32_of_lt (by omega), intToU64_natCast (by omega)]
  have hprod : delta * g.max_possible_freq ≤ 4294967295 * 4294967295 :=
    Nat.mul_le_mul (by omega) (by omega)
  have hd1 : sub64 (wrap64 (delta * g.max_possible_freq + g.max_possible_freq)) 1
      / g.max_possible_freq = delta := by
    rw [sub64_wrap64_one _ (by omega)]
    have hm : (delta * g.max_possible_freq + g.max_possible_freq - 1) % 18446744073709551616
        = delta * g.max_possible_freq + g.max_possible_freq - 1 :=
      Nat.mod_eq_of_lt (by omega)
    rw [hm]
    have : delta * g.max_possible_freq + g.max_possible_freq - 1
        = (g.max_possible_freq - 1) + g.max_possible_freq * delta := by
      rw [Nat.mul_comm]; omega
    rw [this, Nat.add_mul_div_left _ _ hf, Nat.div_eq_of_lt (by omega)]
    omega
  rw [hd1, wrap64_of_lt (by omega)]
  exact Nat.mul_div_cancel _ (by norm_num)

/-! ## Exact effect of a history fold -/

/-- The fill loop writes `runtime` to the indices it visits, keeps the
entries below them, and raises `max` to at least `runtime`. -/
theorem hist_fill_loop_sets (runtime : Nat) :
    ∀ (n widx : Nat) (acc : HistAcc), widx + n ≤ acc.hist.length →
      ∃ acc', hist_fill_loop runtime n widx acc = some acc' ∧
        acc'.hist.length = acc.hist.length ∧
        (∀ i, widx ≤ i → i < widx + n → acc'.hist[i]? = some runtime) ∧
        (∀ i, i < widx → acc'.hist[i]? = acc.hist[i]?) ∧
        (1 ≤ n → runtime ≤ acc'.max) ∧ acc'.max ≤ max acc.max runtime := by
  intro n
  induction n with
  | zero =>
    intro widx acc _
    exact ⟨acc, rfl, rfl, fun i h1 h2 => by omega, fun _ _ => rfl, fun h => by omega,
      le_max_left _ _⟩
  | succ n ih =>
    intro widx acc hlen
    have hwi : widx < acc.hist.length := by omega
    obtain ⟨acc', e, hl, hset, hkeep, hge, hmax⟩ := ih (widx + 1)
      { hist := acc.hist.set widx runtime
        sum := acc.sum + runtime
        max := if runtime > acc.max then runtime else acc.max }
      (by simp; omega)
    have hmid : runtime ≤ (if runtime > acc.max then runtime else acc.max) ∧
        (if runtime > acc.max then runtime else acc.max) ≤ max acc.max runtime := by
      split <;> constructor <;> omega
    refine ⟨acc', ?_, ?_, ?_, ?_, ?_, ?_⟩
    · rw [hist_fill_loop, if_pos hwi]
      exact e
    · simpa using hl
    · intro i h1 h2
      by_cases hi : i = widx
      · subst hi
        rw [hkeep i (by omega)]
        exact List.getElem?_set_self hwi
      · exact hset i (by omega) (by omega)
    · intro i hi
      rw [hkeep i (by omega)]
      exact List.getElem?_set_ne (by omega)
    · intro _
      simp only [] at hmax
      by_cases hn : 1 ≤ n
      · exact hge hn
      · have hn0 : n = 0 := by omega
        subst hn0
        rw [hist_fill_loop] at e
        rw [← Option.some.inj e]
        exact hmid.1
    · simp only [] at hmax
      have := hmid.2
      omega

theorem le_foldr_max (l : List Nat) : ∀ x ∈ l, x ≤ l.foldr max 0 := by
  induction l with
  | nil => intro x hx; simp at hx
  | cons a l ih =>
    intro x hx
    simp only [List.foldr_cons]
    rcases List.mem_cons.mp hx with h | h
    · rw [h]; exact le_max_left _ _
    · exact le_trans (ih x h) (le_max_right _ _)

/-- The shift loop ends inside the array for a non-negative sample count and
keeps `max` below any bound on the entries. -/
theorem hist_shift_part (H : Nat) (hist : List Nat) (s : Nat) (h5 : H ≤ 5)
    (hlen : hist.length = 5) :
    ∃ acc1, hist_shift_loop (H - s) ((H : Int) - 1) { hist := hist, sum := 0, max := 0 }
        = some acc1 ∧ acc1.hist.length = 5 ∧
      ∀ W, (∀ x ∈ hist, x ≤ W) → acc1.max ≤ W := by
  by_cases hs : s < H
  · obtain ⟨acc1, e1, l1, _, _, _⟩ :=
      hist_shift_loop_bound (hist.foldr max 0) s (H - s) ((H : Int) - 1)
        { hist := hist, sum := 0, max := 0 }
        (by omega) (by simp only []; omega) (le_foldr_max hist) (by simp only []; omega)
    refine ⟨acc1, e1, by simpa [hlen] using l1, fun W hW => ?_⟩
    obtain ⟨acc2, e2, _, _, m2, _⟩ :=
      hist_shift_loop_bound W s (H - s) ((H : Int) - 1)
        { hist := hist, sum := 0, max := 0 }
        (by omega) (by simp only []; omega) hW (by simp only []; omega)
    rw [e1] at e2
    rw [Option.some.inj e2]
    exact m2
  · have h0 : H - s = 0 := by omega
    rw [h0]
    exact ⟨_, rfl, hlen, fun W _ => Nat.zero_le _⟩

/-- A fold of `s ≥ 1` samples of `runtime` leaves `runtime` in the first
`min s H` entries; when no older entry exceeds `runtime`, `max` is `runtime`. -/
theorem hist_fold_recent (H runtime : Nat) (hist : List Nat) (s : Nat)
    (h1 : 1 ≤ H) (h5 : H ≤ 5) (hlen : hist.length = 5) (hs : 1 ≤ s) :
    ∃ acc, hist_fold H hist runtime (s : Int) = some acc ∧
      acc.hist.length = 5 ∧
      (∀ i, i < min s H → acc.hist[i]? = some runtime) ∧
      ((∀ x ∈ hist, x ≤ runtime) → acc.max = runtime) := by
  unfold hist_fold
  simp only []
  rw [hist_widx H h1 h5]
  have hn : (((H : Int) - 1 - (s : Int)) + 1).toNat = H - s := by omega
  rw [hn]
  obtain ⟨acc1, e1, l1, m1⟩ := hist_shift_part H hist s h5 hlen
  rw [e1]
  simp only []
  have hneg : ¬ ((s : Int) < 0) := by omega
  rw [if_neg hneg, Int.toNat_natCast]
  obtain ⟨acc2, e2, l2, hset, _, hge, hmax⟩ :=
    hist_fill_loop_sets runtime (min s H) 0 acc1 (by omega)
  refine ⟨acc2, e2, by omega, fun i hi => hset i (Nat.zero_le _) (by omega), ?_⟩
  intro hall
  have := m1 runtime hall
  have := hge (by omega)
  have : max acc1.max runtime = runtime := max_eq_right (m1 runtime hall)
  omega

/-! ## Frame of `update_cpu_busy_time` -/

theorem count_active_window_frame (p : Task) (b : Bool) :
    (count_active_window p b).erase_windows = p.erase_windows ∧
    is_idle_task (count_active_window p b) = is_idle_task p := by
  unfold count_active_window
  split <;> exact ⟨rfl, rfl⟩

theorem roll_task_windows_frame (p : Task) (b : Bool) (n : Int) :
    (roll_task_windows p b n).erase_windows = p.erase_windows ∧
    is_idle_task (roll_task_windows p b n) = is_idle_task p := by
  unfold roll_task_windows
  split <;> exact ⟨rfl, rfl⟩

theorem busy_time_not_accounted_frame (g : Globals) (p : Task) (rq : Rq) (event : TaskEvent)
    (b1 b2 b3 : Bool) (n : Int) :
    (busy_time_not_accounted g p rq event b1 b2 b3 n).1.erase_windows = p.erase_windows ∧
    (busy_time_not_accounted g p rq event b1 b2 b3 n).2.erase_sums = rq.erase_sums := by
  unfold busy_time_not_accounted
  split_ifs <;> exact ⟨rfl, rfl⟩

theorem busy_time_same_window_frame (g : Globals) (p : Task) (rq : Rq) (wc irq ms : Nat)
    (b : Bool) :
    (busy_time_same_window g p rq wc irq ms b).1.erase_windows = p.erase_windows ∧
    (busy_time_same_window g p rq wc irq ms b).2.erase_sums = rq.erase_sums := by
  unfold busy_time_same_window
  simp only []
  constructor
  · split <;> rfl
  · rfl

theorem busy_time_not_curr_frame (g : Globals) (p : Task) (rq : Rq) (wc ms ws : Nat)
    (b : Bool) (n : Int) :
    (busy_time_not_curr g p rq wc ms ws b n).1.erase_windows = p.erase_windows ∧
    (busy_time_not_curr g p rq wc ms ws b n).2.erase_sums = rq.erase_sums :=
  ⟨rfl, rfl⟩

theorem busy_time_curr_frame (g : Globals) (p : Task) (rq : Rq) (wc ms ws : Nat)
    (b : Bool) (n : Int) :
    (busy_time_curr g p rq wc ms ws b n).1.erase_windows = p.erase_windows ∧
    (busy_time_curr g p rq wc ms ws b n).2.erase_sums = rq.erase_sums :=
  ⟨rfl, rfl⟩

theorem busy_time_irq_frame (g : Globals) (p : Task) (rq : Rq) (wc irq ws : Nat)
    (hidle : is_idle_task p = true) :
    ∃ p1 rq1, busy_time_irq g p rq wc irq ws = some (p1, rq1) ∧
      p1.erase_windows = p.erase_windows ∧ rq1.erase_sums = rq.erase_sums := by
  unfold busy_time_irq
  rw [if_neg (by simp [hidle])]
  simp only []
  split <;> exact ⟨_, _, rfl, rfl, rfl⟩

theorem some_pair_frame {f : Task × Rq} {p : Task} {rq : Rq}
    (h1 : f.1.erase_windows = p.erase_windows) (h2 : f.2.erase_sums = rq.erase_sums) :
    ∃ p1 rq1, some f = some (p1, rq1) ∧
      p1.erase_windows = p.erase_windows ∧ rq1.erase_sums = rq.erase_sums :=
  ⟨f.1, f.2, rfl, h1, h2⟩

/-- `update_cpu_busy_time` always returns; it writes only the task's
`curr_window`, `prev_window` and `active_windows` and the queue's four
runnable sums. -/
theorem update_cpu_busy_time_frame (g : Globals) (p : Task) (rq : Rq) (event : TaskEvent)
    (wallclock irqtime : Nat) :
    ∃ p1 rq1, update_cpu_busy_time g p rq event wallclock irqtime = some (p1, rq1) ∧
      p1.erase_windows = p.erase_windows ∧ rq1.erase_sums = rq.erase_sums := by
  unfold update_cpu_busy_time
  simp only []
  set q := roll_task_windows (count_active_window p (decide (p.ravg.mark_start < rq.window_start)))
    (decide (p.ravg.mark_start < rq.window_start))
    (if decide (p.ravg.mark_start < rq.window_start) = true then
      toInt32 (sub64 rq.window_start p.ravg.mark_start / g.sched_ravg_window) else 0) with hq
  have hqe : q.erase_windows = p.erase_windows := by
    rw [hq, (roll_task_windows_frame _ _ _).1, (count_active_window_frame _ _).1]
  clear_value q
  split
  · apply some_pair_frame
    · rw [(busy_time_not_accounted_frame _ _ _ _ _ _ _ _).1]; exact hqe
    · exact (busy_time_not_accounted_frame _ _ _ _ _ _ _ _).2
  · split
    · apply some_pair_frame
      · rw [(busy_time_same_window_frame _ _ _ _ _ _ _).1]; exact hqe
      · exact (busy_time_same_window_frame _ _ _ _ _ _ _).2
    · split
      · apply some_pair_frame
        · rw [(busy_time_not_curr_frame _ _ _ _ _ _ _ _).1]; exact hqe
        · exact (busy_time_not_curr_frame _ _ _ _ _ _ _ _).2
      · split
        · apply some_pair_frame
          · rw [(busy_time_curr_frame _ _ _ _ _ _ _ _).1]; exact hqe
          · exact (busy_time_curr_frame _ _ _ _ _ _ _ _).2
        · rename_i hc
          have hidle : is_idle_task q = true := by
            by_contra hni
            apply hc
            simp [hni]
          have hirq : (irqtime != 0) = true := by
            by_contra hz
            apply hc
            simp at hz
            simp [hz]
          rw [if_pos hirq]
          obtain ⟨p1, rq1, e, h1, h2⟩ := busy_time_irq_frame g q rq wallclock irqtime
            rq.window_start hidle
          exact ⟨p1, rq1, e, h1.trans hqe, h2⟩

/-! ## Continuous execution across windows -/

theorem sub64_of_le {a b : Nat} (hb : b ≤ a) (ha : a < 18446744073709551616) :
    sub64 a b = a - b := by
  unfold sub64 wrap64
  split <;> omega

/-- The window start moves forward by the whole windows that have elapsed. -/
theorem update_window_start_advance (g : Globals) (rq : Rq) (k r : Nat)
    (hW : 0 < g.sched_ravg_window) (hk : 1 ≤ k) (hk31 : k < 2147483648)
    (hr : r < g.sched_ravg_window)
    (hwc : rq.window_start + k * g.sched_ravg_window + r < 9223372036854775808) :
    update_window_start g rq (rq.window_start + k * g.sched_ravg_window + r) =
      some { rq with window_start := rq.window_start + k * g.sched_ravg_window } := by
  unfold update_window_start
  simp only []
  have hkW : g.sched_ravg_window ≤ k * g.sched_ravg_window := Nat.le_mul_of_pos_left _ hk
  have hd : sub64 (rq.window_start + k * g.sched_ravg_window + r) rq.window_start
      = k * g.sched_ravg_window + r := by
    rw [sub64_of_le (by omega) (by omega)]; omega
  rw [hd, if_neg (by omega), if_neg (by omega)]
  have hq : (k * g.sched_ravg_window + r) / g.sched_ravg_window = k := by
    rw [Nat.mul_comm, Nat.mul_add_div hW, Nat.div_eq_of_lt hr]; rfl
  rw [hq, toInt32_of_lt hk31, intToU64_natCast (by omega),
    wrap64_of_lt (show k * g.sched_ravg_window < 18446744073709551616 by omega),
    wrap64_of_lt (show rq.window_start + k * g.sched_ravg_window < 18446744073709551616
      by omega)]

/-- At unity scaling `add_to_task_demand` adds the interval itself, as long as
the sum stays within the window. -/
theorem add_to_task_demand_unity (g : Globals) (rq : Rq) (p : Task) (delta : Nat)
    (hf : 0 < g.max_possible_freq) (hf32 : g.max_possible_freq < 4294967296)
    (hcf : g.cpu_cur_freq rq.cpu = g.max_possible_freq)
    (he : 0 < g.max_possible_efficiency) (he32 : g.max_possible_efficiency * 1025 ≤ 4294967296)
    (heff : g.cpu_efficiency rq.cpu = g.max_possible_efficiency)
    (hW32 : g.sched_ravg_window < 4294967296)
    (hd : p.ravg.sum + delta ≤ g.sched_ravg_window) :
    add_to_task_demand g rq p delta =
      { p with ravg := { p.ravg with sum := p.ravg.sum + delta } } := by
  unfold add_to_task_demand
  simp only []
  rw [scale_exec_time_unity g delta rq hf hf32 hcf he he32 heff (by omega),
    wrap32_of_lt (by omega), if_neg (by omega)]

theorem account_busy_for_task_demand_true (g : Globals) (p : Task) (event : TaskEvent)
    (h : account_busy_for_task_demand g p event = true) :
    is_idle_task p = false ∧ exiting_task p = false := by
  unfold account_busy_for_task_demand at h
  by_cases hc : (exiting_task p || is_idle_task p) = true
  · rw [if_pos hc] at h
    exact absurd h (by simp)
  · simp only [Bool.or_eq_true, not_or, Bool.not_eq_true] at hc
    exact ⟨hc.2, hc.1⟩

/-- `update_task_demand` for a task with an empty live sum that ran from a
window boundary, at unity scaling, for `k` whole windows and `r` more. -/
theorem update_task_demand_continuous (g : Globals) (fixup : FixupHook) (p : Task) (rq : Rq)
    (event : TaskEvent) (k r : Nat)
    (hW : 0 < g.sched_ravg_window) (hW32 : g.sched_ravg_window < 4294967296)
    (h1 : 1 ≤ g.sched_ravg_hist_size) (h5 : g.sched_ravg_hist_size ≤ 5)
    (hlen : p.ravg.sum_history.length = 5)
    (hf : 0 < g.max_possible_freq) (hf32 : g.max_possible_freq < 4294967296)
    (hcf : g.cpu_cur_freq rq.cpu = g.max_possible_freq)
    (he : 0 < g.max_possible_efficiency) (he32 : g.max_possible_efficiency * 1025 ≤ 4294967296)
    (heff : g.cpu_efficiency rq.cpu = g.max_possible_efficiency)
    (hev : account_busy_for_task_demand g p event = true)
    (hsum : p.ravg.sum = 0)
    (hws : rq.window_start = p.ravg.mark_start + k * g.sched_ravg_window)
    (hk : 1 ≤ k) (hk31 : k < 2147483648) (hr : r < g.sched_ravg_window)
    (hwc : p.ravg.mark_start + k * g.sched_ravg_window + r < 9223372036854775808) :
    ∃ p1 rq1, update_task_demand g fixup p rq event
        (p.ravg.mark_start + k * g.sched_ravg_window + r) = some (p1, rq1) ∧
      (∀ i, i < min k g.sched_ravg_hist_size →
        p1.ravg.sum_history[i]? = some g.sched_ravg_window) ∧
      p1.ravg.sum = r ∧
      (g.sched_window_stats_policy = WindowStatsPolicy.WINDOW_STATS_MAX →
        (∀ x ∈ p.ravg.sum_history, x ≤ g.sched_ravg_window) →
        p1.ravg.demand = g.sched_ravg_window) := by
  obtain ⟨hidle, hexit⟩ := account_busy_for_task_demand_true g p event hev
  have hkW : g.sched_ravg_window ≤ k * g.sched_ravg_window := Nat.le_mul_of_pos_left _ hk
  have hnw : decide (p.ravg.mark_start < rq.window_start) = true := by
    rw [hws]; simp; omega
  have hdelta : sub64 rq.window_start p.ravg.mark_start = k * g.sched_ravg_window := by
    rw [hws, sub64_of_le (by omega) (by omega)]; omega
  have hq : k * g.sched_ravg_window / g.sched_ravg_window = k := Nat.mul_div_cancel _ hW
  have hnr : toInt32 (sub64 rq.window_start p.ravg.mark_start / g.sched_ravg_window)
      = (k : Int) := by
    rw [hdelta, hq, toInt32_of_lt hk31]
  have hadv : wrap64 (intToU64 (k : Int) * g.sched_ravg_window) = k * g.sched_ravg_window := by
    rw [intToU64_natCast (by omega), wrap64_of_lt (by omega)]
  have hws1 : sub64 rq.window_start (k * g.sched_ravg_window) = p.ravg.mark_start := by
    rw [hws, sub64_of_le (by omega) (by omega)]; omega
  have hzero : sub64 p.ravg.mark_start p.ravg.mark_start = 0 := by
    rw [sub64_of_le (le_refl _) (by omega)]; omega
  have hp1 : add_to_task_demand g rq p 0 = p := by
    rw [add_to_task_demand_unity g rq p 0 hf hf32 hcf he he32 heff hW32 (by omega)]
    simp
  have hh1 : update_history g fixup rq p p.ravg.sum 1 = some (p, rq) := by
    unfold update_history
    rw [if_pos (by simp [hsum])]
  have hscale : wrap32 (scale_exec_time g g.sched_ravg_window rq) = g.sched_ravg_window := by
    rw [scale_exec_time_unity g _ rq hf hf32 hcf he he32 heff hW32, wrap32_of_lt hW32]
  obtain ⟨acc, eacc, lacc, hrec, hmax⟩ :=
    hist_fold_recent g.sched_ravg_hist_size g.sched_ravg_window p.ravg.sum_history k h1 h5 hlen hk
  have hh2 : update_history g fixup rq p g.sched_ravg_window (k : Int) =
      some (update_history_commit g fixup rq p g.sched_ravg_window acc) := by
    unfold update_history
    rw [if_neg (by simp [hidle, hexit]; omega), eacc]
  have hws2 : wrap64 (p.ravg.mark_start + k * g.sched_ravg_window)
      = p.ravg.mark_start + k * g.sched_ravg_window := wrap64_of_lt (by omega)
  have hrem : sub64 (p.ravg.mark_start + k * g.sched_ravg_window + r)
      (p.ravg.mark_start + k * g.sched_ravg_window) = r := by
    rw [sub64_of_le (by omega) (by omega)]; omega
  have hk0 : ((k : Int) != 0) = true := by simp; omega
  unfold update_task_demand
  simp only [hev, hnw, hnr, hadv, hws1, hzero, hp1, hh1, hscale, hh2, hws2, hrem, hk0,
    Bool.not_true, Bool.false_eq_true, if_false, if_true]
  set c := update_history_commit g fixup rq p g.sched_ravg_window acc with hc
  have hc_sum : c.1.ravg.sum = 0 := rfl
  have hc_hist : c.1.ravg.sum_history = acc.hist := rfl
  have hc_cpu : c.2.cpu = rq.cpu := by
    rw [hc]; unfold update_history_commit; simp only []; split <;> rfl
  have hc_dem : g.sched_window_stats_policy = WindowStatsPolicy.WINDOW_STATS_MAX →
      c.1.ravg.demand = acc.max := by
    intro hpol
    rw [hc]; unfold update_history_commit; simp only [hpol]
  have hadd := add_to_task_demand_unity g c.2 c.1 r hf hf32 (by rw [hc_cpu]; exact hcf)
    he he32 (by rw [hc_cpu]; exact heff) hW32 (by rw [hc_sum]; omega)
  refine ⟨_, _, rfl, ?_, ?_, ?_⟩
  · intro i hi
    rw [hadd]
    exact hrec i hi
  · rw [hadd]
    show c.1.ravg.sum + r = r
    rw [hc_sum]; omega
  · intro hpol hall
    rw [hadd]
    show c.1.ravg.demand = g.sched_ravg_window
    rw [hc_dem hpol, hmax hall]

/-- C8 (amended): with window statistics in use (`sched_use_pelt` and
`sched_disable_window_stats` clear), for a task with an empty live sum whose
`mark_start` is the queue's non-zero `window_start`, at unity scaling, one
`update_task_ravg` with an accounted event at `wallclock = mark_start + k*W + r`
(`1 ≤ k < 2^31`, `r < W`) returns and leaves the first `min k hist_size`
history entries equal to `W`, the live sum equal to `r`, `mark_start` equal to
the wallclock and, under policy MAX with no older entry above `W`, demand `W`.
The event being accounted implies the task is neither idle nor exiting. -/
theorem update_task_ravg_continuous_execution (g : Globals) (fixup : FixupHook) (p : Task)
    (rq : Rq) (event : TaskEvent) (k r irqtime : Nat)
    (hpelt : g.sched_use_pelt = false) (hdis : g.sched_disable_window_stats = false)
    (hW : 0 < g.sched_ravg_window) (hW32 : g.sched_ravg_window < 4294967296)
    (h1 : 1 ≤ g.sched_ravg_hist_size) (h5 : g.sched_ravg_hist_size ≤ 5)
    (hlen : p.ravg.sum_history.length = 5)
    (hf : 0 < g.max_possible_freq) (hf32 : g.max_possible_freq < 4294967296)
    (hcf : g.cpu_cur_freq rq.cpu = g.max_possible_freq)
    (he : 0 < g.max_possible_efficiency) (he32 : g.max_possible_efficiency * 1025 ≤ 4294967296)
    (heff : g.cpu_efficiency rq.cpu = g.max_possible_efficiency)
    (hev : account_busy_for_task_demand g p event = true)
    (hsum : p.ravg.sum = 0)
    (hms : p.ravg.mark_start = rq.window_start) (hws : rq.window_start ≠ 0)
    (hk : 1 ≤ k) (hk31 : k < 2147483648) (hr : r < g.sched_ravg_window)
    (hwc : rq.window_start + k * g.sched_ravg_window + r < 9223372036854775808) :
    ∃ p1 rq1, update_task_ravg g fixup p rq event
        (rq.window_start + k * g.sched_ravg_window + r) irqtime = some (p1, rq1) ∧
      (∀ i, i < min k g.sched_ravg_hist_size →
        p1.ravg.sum_history[i]? = some g.sched_ravg_window) ∧
      p1.ravg.sum = r ∧
      p1.ravg.mark_start = rq.window_start + k * g.sched_ravg_window + r ∧
      (g.sched_window_stats_policy = WindowStatsPolicy.WINDOW_STATS_MAX →
        (∀ x ∈ p.ravg.sum_history, x ≤ g.sched_ravg_window) →
        p1.ravg.demand = g.sched_ravg_window) := by
  unfold update_task_ravg
  have hguard : (g.sched_use_pelt || rq.window_start == 0 || g.sched_disable_window_stats)
      = false := by
    simp [hpelt, hdis, hws]
  rw [if_neg (by rw [hguard]; simp), update_window_start_advance g rq k r hW hk hk31 hr hwc]
  simp only []
  rw [if_neg (by simp [hms, hws])]
  obtain ⟨p2, rq2, e2, hh, hs, hd⟩ :=
    update_task_demand_continuous g fixup p
      { rq with window_start := rq.window_start + k * g.sched_ravg_window } event k r
      hW hW32 h1 h5 hlen hf hf32 hcf he he32 heff hev hsum (by simp only []; rw [hms]) hk hk31 hr
      (by rw [hms]; exact hwc)
  rw [hms] at e2
  rw [e2]
  simp only []
  obtain ⟨p3, rq3, e3, hf3, _⟩ := update_cpu_busy_time_frame g p2 rq2 event
    (rq.window_start + k * g.sched_ravg_window + r) irqtime
  rw [e3]
  have hsame : p3.ravg.sum_history = p2.ravg.sum_history ∧ p3.ravg.sum = p2.ravg.sum ∧
      p3.ravg.demand = p2.ravg.demand :=
    ⟨congrArg (fun t => t.ravg.sum_history) hf3, congrArg (fun t => t.ravg.sum) hf3,
      congrArg (fun t => t.ravg.demand) hf3⟩
  refine ⟨_, _, rfl, ?_, ?_, rfl, ?_⟩
  · intro i hi
    show p3.ravg.sum_history[i]? = _
    rw [hsame.1]; exact hh i hi
  · show p3.ravg.sum = r
    rw [hsame.2.1]; exact hs
  · intro hpol hall
    show p3.ravg.demand = _
    rw [hsame.2.2]; exact hd hpol hall

/-- C8, witness of `update_task_ravg_continuous_execution`: the spec's
scenario, window 10, two whole windows and 5 more from the boundary 100: two
samples of 10, live sum 5, demand 10. -/
theorem update_task_ravg_continuous_execution_witness :
    update_task_ravg demo_globals fixup_none c8_task c8_rq TaskEvent.PUT_PREV_TASK 125 0
      = some ({ c8_task with ravg := { c8_task.ravg with
                  mark_start := 125, sum := 5, demand := 10,
                  sum_history := [10, 10, 4, 3, 2], prev_window := 10, curr_window := 5,
                  active_windows := 1 } },
              { c8_rq with window_start := 120, prev_runnable_sum := 10,
                           curr_runnable_sum := 5, nt_prev_runnable_sum := 10,
                           nt_curr_runnable_sum := 5 }) ∧
    ∃ p1 rq1, update_task_ravg demo_globals fixup_none c8_task c8_rq TaskEvent.PUT_PREV_TASK
        (c8_rq.window_start + 2 * demo_globals.sched_ravg_window + 5) 0 = some (p1, rq1) ∧
      (∀ i, i < min 2 demo_globals.sched_ravg_hist_size →
        p1.ravg.sum_history[i]? = some demo_globals.sched_ravg_window) ∧
      p1.ravg.sum = 5 ∧
      p1.ravg.mark_start = c8_rq.window_start + 2 * demo_globals.sched_ravg_window + 5 ∧
      (demo_globals.sched_window_stats_policy = WindowStatsPolicy.WINDOW_STATS_MAX →
        (∀ x ∈ c8_task.ravg.sum_history, x ≤ demo_globals.sched_ravg_window) →
        p1.ravg.demand = demo_globals.sched_ravg_window) :=
  ⟨by decide!,
    update_task_ravg_continuous_execution demo_globals fixup_none c8_task c8_rq
      TaskEvent.PUT_PREV_TASK 2 5 0 rfl rfl (by decide) (by decide) (by decide) (by decide)
      rfl (by decide) (by decide) rfl (by decide) (by decide) rfl (by decide) rfl rfl
      (by decide) (by decide) (by decide) (by decide) (by decide)⟩

/-- C8, counterexample to the claim as stated: with `sched_use_pelt` set the
same call (window 10, k = 2, r = 5, unity scaling, accounted event) returns at
once; the history keeps its entries, the live sum stays 0 and `mark_start`
stays 100. -/
theorem update_task_ravg_noop_under_pelt :
    is_idle_task c8_task = false ∧ exiting_task c8_task = false ∧
    c8_task.ravg.sum = 0 ∧ c8_task.ravg.mark_start = c8_rq.window_start ∧
    c8_rq.window_start ≠ 0 ∧
    c8_pelt_globals.cpu_cur_freq c8_rq.cpu = c8_pelt_globals.max_possible_freq ∧
    c8_pelt_globals.cpu_efficiency c8_rq.cpu = c8_pelt_globals.max_possible_efficiency ∧
    account_busy_for_task_demand c8_pelt_globals c8_task TaskEvent.PUT_PREV_TASK = true ∧
    update_task_ravg c8_pelt_globals fixup_none c8_task c8_rq TaskEvent.PUT_PREV_TASK
      (c8_task.ravg.mark_start + 2 * c8_pelt_globals.sched_ravg_window + 5) 0
      = some (c8_task, c8_rq) ∧
    c8_task.ravg.sum ≠ 5 ∧ c8_task.ravg.sum_history[0]? ≠ some c8_pelt_globals.sched_ravg_window := by
  refine ⟨by decide, by decide, by decide, by decide, by decide, by decide, by decide,
    by decide, by decide!, by decide, by decide⟩

/-! ## Frame of `update_task_ravg` -/

theorem erase_windows_erase_ravg {p q : Task} (h : p.erase_windows = q.erase_windows) :
    p.erase_ravg = q.erase_ravg := by
  have := congrArg Task.erase_ravg h
  exact this

theorem erase_sums_erase_stats {a b : Rq} (h : a.erase_sums = b.erase_sums) :
    a.erase_stats = b.erase_stats := by
  have := congrArg Rq.erase_stats h
  exact this

theorem update_history_frame (g : Globals) (fixup : FixupHook) (rq : Rq) (p : Task)
    (runtime : Nat) (samples : Int) (p1 : Task) (rq1 : Rq)
    (h : update_history g fixup rq p runtime samples = some (p1, rq1)) :
    p1.erase_ravg = p.erase_ravg ∧ rq1.erase_stats = rq.erase_stats := by
  unfold update_history at h
  split at h
  · simp only [Option.some.injEq, Prod.mk.injEq] at h
    rw [← h.1, ← h.2]
    exact ⟨rfl, rfl⟩
  · split at h
    · exact absurd h (by simp)
    · simp only [Option.some.injEq] at h
      have h1 := congrArg Prod.fst h
      have h2 := congrArg Prod.snd h
      simp only [] at h1 h2
      rw [← h1, ← h2]
      unfold update_history_commit
      simp only []
      constructor
      · rfl
      · split <;> rfl

theorem update_window_start_frame (g : Globals) (rq rq1 : Rq) (wallclock : Nat)
    (h : update_window_start g rq wallclock = some rq1) :
    rq1.erase_stats = rq.erase_stats := by
  unfold update_window_start at h
  simp only [] at h
  split at h
  · exact absurd h (by simp)
  · split at h
    · simp only [Option.some.injEq] at h
      rw [← h]
    · simp only [Option.some.injEq] at h
      rw [← h]
      rfl

theorem update_task_demand_frame (g : Globals) (fixup : FixupHook) (p : Task) (rq : Rq)
    (event : TaskEvent) (wallclock : Nat) (p1 : Task) (rq1 : Rq)
    (h : update_task_demand g fixup p rq event wallclock = some (p1, rq1)) :
    p1.erase_ravg = p.erase_ravg ∧ rq1.erase_stats = rq.erase_stats := by
  unfold update_task_demand at h
  simp only [] at h
  split at h
  · split at h
    · exact update_history_frame g fixup rq p _ _ p1 rq1 h
    · simp only [Option.some.injEq, Prod.mk.injEq] at h
      rw [← h.1, ← h.2]
      exact ⟨rfl, rfl⟩
  · split at h
    · simp only [Option.some.injEq, Prod.mk.injEq] at h
      rw [← h.1, ← h.2]
      exact ⟨rfl, rfl⟩
    · split at h
      · exact absurd h (by simp)
      · rename_i p2 rq2 e2
        obtain ⟨f2, g2⟩ := update_history_frame g fixup rq _ _ _ p2 rq2 e2
        split at h
        · exact absurd h (by simp)
        · rename_i p3 rq3 e3
          simp only [Option.some.injEq, Prod.mk.injEq] at h
          rw [← h.1, ← h.2]
          have h3 : p3.erase_ravg = p2.erase_ravg ∧ rq3.erase_stats = rq2.erase_stats := by
            split at e3
            · exact update_history_frame g fixup rq2 p2 _ _ p3 rq3 e3
            · simp only [Option.some.injEq, Prod.mk.injEq] at e3
              rw [← e3.1, ← e3.2]
              exact ⟨rfl, rfl⟩
          refine ⟨?_, h3.2.trans g2⟩
          show p3.erase_ravg = p.erase_ravg
          exact h3.1.trans f2

/-- `update_task_ravg` writes only the task's window record and, of the
queue, `window_start`, the four runnable sums and `hmp_stats`. -/
theorem update_task_ravg_frame (g : Globals) (fixup : FixupHook) (p : Task) (rq : Rq)
    (event : TaskEvent) (wallclock irqtime : Nat) (p1 : Task) (rq1 : Rq)
    (h : update_task_ravg g fixup p rq event wallclock irqtime = some (p1, rq1)) :
    p1.erase_ravg = p.erase_ravg ∧ rq1.erase_stats = rq.erase_stats := by
  unfold update_task_ravg at h
  split at h
  · simp only [Option.some.injEq, Prod.mk.injEq] at h
    rw [← h.1, ← h.2]
    exact ⟨rfl, rfl⟩
  · split at h
    · exact absurd h (by simp)
    · rename_i rqa ea
      have fa := update_window_start_frame g rq rqa wallclock ea
      split at h
      · simp only [Option.some.injEq, Prod.mk.injEq] at h
        rw [← h.1, ← h.2]
        exact ⟨rfl, fa⟩
      · split at h
        · exact absurd h (by simp)
        · rename_i p2 rq2 e2
          obtain ⟨f2, g2⟩ := update_task_demand_frame g fixup p rqa event wallclock p2 rq2 e2
          split at h
          · exact absurd h (by simp)
          · rename_i p3 rq3 e3
            obtain ⟨p3', rq3', e3', f3, g3⟩ :=
              update_cpu_busy_time_frame g p2 rq2 event wallclock irqtime
            rw [e3] at e3'
            simp only [Option.some.injEq, Prod.mk.injEq] at e3'
            rw [← e3'.1] at f3
            rw [← e3'.2] at g3
            simp only [Option.some.injEq, Prod.mk.injEq] at h
            rw [← h.1, ← h.2]
            refine ⟨?_, (erase_sums_erase_stats g3).trans (g2.trans fa)⟩
            show p3.erase_ravg = p.erase_ravg
            exact (erase_windows_erase_ravg f3).trans f2

/-! ## Worlds -/

theorem world_update_task_ravg_frame (g : Globals) (fixup : FixupHook) (w w1 : World)
    (pid cpu : Nat) (event : TaskEvent) (wallclock irqtime : Nat)
    (h : world_update_task_ravg g fixup w pid cpu event wallclock irqtime = some w1) :
    (∀ q, (w1.tasks q).erase_ravg = (w.tasks q).erase_ravg) ∧
    (∀ c, (w1.rqs c).erase_stats = (w.rqs c).erase_stats) ∧
    w1.freq_alerts = w.freq_alerts := by
  unfold world_update_task_ravg at h
  split at h
  · exact absurd h (by simp)
  · rename_i p1 rq1 e
    obtain ⟨f1, f2⟩ := update_task_ravg_frame g fixup _ _ event wallclock irqtime p1 rq1 e
    simp only [Option.some.injEq] at h
    rw [← h]
    refine ⟨?_, ?_, rfl⟩
    · intro q
      by_cases hq : q = pid
      · subst hq
        simp only [Function.update_same]
        exact f1
      · simp only [Function.update_noteq hq]
    · intro c
      by_cases hc : c = cpu
      · subst hc
        simp only [Function.update_same]
        exact f2
      · simp only [Function.update_noteq hc]

theorem fixup_busy_time_updates_frame (g : Globals) (fixup : FixupHook) (w w3 : World)
    (pid new_cpu wallclock : Nat)
    (h : fixup_busy_time_updates g fixup w pid new_cpu wallclock = some w3) :
    (∀ q, (w3.tasks q).erase_ravg = (w.tasks q).erase_ravg) ∧
    (∀ c, (w3.rqs c).erase_stats = (w.rqs c).erase_stats) ∧
    w3.freq_alerts = w.freq_alerts := by
  unfold fixup_busy_time_updates at h
  simp only [] at h
  split at h
  · exact absurd h (by simp)
  · rename_i w1 e1
    obtain ⟨a1, b1, c1⟩ := world_update_task_ravg_frame g fixup w w1 _ _ _ _ _ e1
    split at h
    · exact absurd h (by simp)
    · rename_i w2 e2
      obtain ⟨a2, b2, c2⟩ := world_update_task_ravg_frame g fixup w1 w2 _ _ _ _ _ e2
      obtain ⟨a3, b3, c3⟩ := world_update_task_ravg_frame g fixup w2 w3 _ _ _ _ _ h
      exact ⟨fun q => (a3 q).trans ((a2 q).trans (a1 q)),
        fun c => (b3 c).trans ((b2 c).trans (b1 c)), c3.trans (c2.trans c1)⟩

theorem map_rq_same (w : World) (c : Nat) (f : Rq → Rq) : (w.map_rq c f).rqs c = f (w.rqs c) := by
  unfold World.map_rq
  simp

theorem map_rq_other (w : World) (c d : Nat) (f : Rq → Rq) (h : d ≠ c) :
    (w.map_rq c f).rqs d = w.rqs d := by
  unfold World.map_rq
  simp [Function.update_noteq h]

theorem map_rq_tasks (w : World) (c : Nat) (f : Rq → Rq) : (w.map_rq c f).tasks = w.tasks := rfl

theorem sub64_zero {x : Nat} (h : x < 18446744073709551616) : sub64 x 0 = x := by
  unfold sub64 wrap64; split <;> omega

/-- The sums of the source and the destination queue after the transfer. -/
theorem fixup_busy_time_move_sums (g : Globals) (w : World) (pid new_cpu : Nat)
    (hne : new_cpu ≠ (w.tasks pid).cpu)
    (hsc : (w.rqs (w.tasks pid).cpu).curr_runnable_sum < 18446744073709551616)
    (hsp : (w.rqs (w.tasks pid).cpu).prev_runnable_sum < 18446744073709551616)
    (hdc : (w.rqs new_cpu).curr_runnable_sum < 18446744073709551616)
    (hdp : (w.rqs new_cpu).prev_runnable_sum < 18446744073709551616) :
    ((fixup_busy_time_move g w pid new_cpu).rqs (w.tasks pid).cpu).curr_runnable_sum =
      sub64 (w.rqs (w.tasks pid).cpu).curr_runnable_sum (w.tasks pid).ravg.curr_window ∧
    ((fixup_busy_time_move g w pid new_cpu).rqs new_cpu).curr_runnable_sum =
      wrap64 ((w.rqs new_cpu).curr_runnable_sum + (w.tasks pid).ravg.curr_window) ∧
    ((fixup_busy_time_move g w pid new_cpu).rqs (w.tasks pid).cpu).prev_runnable_sum =
      sub64 (w.rqs (w.tasks pid).cpu).prev_runnable_sum (w.tasks pid).ravg.prev_window ∧
    ((fixup_busy_time_move g w pid new_cpu).rqs new_cpu).prev_runnable_sum =
      wrap64 ((w.rqs new_cpu).prev_runnable_sum + (w.tasks pid).ravg.prev_window) ∧
    (fixup_busy_time_move g w pid new_cpu).tasks = w.tasks := by
  have hne' : (w.tasks pid).cpu ≠ new_cpu := fun h => hne h.symm
  unfold fixup_busy_time_move
  simp only []
  by_cases hcw : (w.tasks pid).ravg.curr_window = 0 <;>
  by_cases hpw : (w.tasks pid).ravg.prev_window = 0 <;>
  by_cases hnt : is_new_task g (w.tasks pid) = true <;>
  by_cases hed : ((w.rqs (w.tasks pid).cpu).ed_task == some pid) = true <;>
  by_cases hde : ((w.rqs new_cpu).ed_task == none) = true <;>
  simp [hcw, hpw, hnt, hed, hde, map_rq_same, map_rq_other, map_rq_tasks, hne, hne',
    sub64_zero, wrap64_of_lt, hsc, hsp, hdc, hdp]

/-! ## `fixup_busy_time` -/

theorem option_eq_some_getD {α : Type} (o : Option α) (d : α) (h : o.isSome = true) :
    o = some (o.getD d) := by
  cases o with
  | none => simp at h
  | some x => rfl

theorem sub64_add_wrap64 (a b c : Nat) (ha : a < 18446744073709551616) :
    wrap64 (sub64 a b + wrap64 (c + b)) = wrap64 (a + c) := by
  unfold sub64 wrap64
  split <;> omega

/-- C4: in `fixup_busy_time` with HMP, the migration fixup and window
statistics enabled, for a task that is queued or waking and not exiting and a
destination queue other than its own, measured from the world `w3` left by the
demand updates the function performs first: the source queue's
`curr_runnable_sum` goes down by the task's `curr_window` and the
destination's up by it (in 64-bit arithmetic, and exactly when nothing wraps),
likewise `prev_runnable_sum` with `prev_window`, so that source plus
destination is unchanged, and no task is modified by the transfer.  The call
returns that world unless one of its `BUG_ON` assertions fires. -/
theorem fixup_busy_time_conservative (g : Globals) (fixup : FixupHook) (w w3 : World)
    (pid new_cpu wallclock : Nat)
    (hhmp : g.sched_enable_hmp = true) (hfix : g.sched_migration_fixup = true)
    (hstats : g.sched_disable_window_stats = false)
    (hq : (w.tasks pid).on_rq ≠ 0 ∨ (w.tasks pid).state = TASK_WAKING)
    (hexit : exiting_task (w.tasks pid) = false)
    (hne : new_cpu ≠ (w.tasks pid).cpu)
    (hupd : fixup_busy_time_updates g fixup w pid new_cpu wallclock = some w3)
    (hsc : (w3.rqs (w.tasks pid).cpu).curr_runnable_sum < 18446744073709551616)
    (hsp : (w3.rqs (w.tasks pid).cpu).prev_runnable_sum < 18446744073709551616)
    (hdc : (w3.rqs new_cpu).curr_runnable_sum < 18446744073709551616)
    (hdp : (w3.rqs new_cpu).prev_runnable_sum < 18446744073709551616) :
    fixup_busy_time g fixup w pid new_cpu wallclock =
      (if fixup_busy_time_bug ((fixup_busy_time_move g w3 pid new_cpu).rqs (w.tasks pid).cpu)
        then none else some (fixup_busy_time_move g w3 pid new_cpu)) ∧
    ((fixup_busy_time_move g w3 pid new_cpu).rqs (w.tasks pid).cpu).curr_runnable_sum =
      sub64 (w3.rqs (w.tasks pid).cpu).curr_runnable_sum (w3.tasks pid).ravg.curr_window ∧
    ((fixup_busy_time_move g w3 pid new_cpu).rqs new_cpu).curr_runnable_sum =
      wrap64 ((w3.rqs new_cpu).curr_runnable_sum + (w3.tasks pid).ravg.curr_window) ∧
    ((fixup_busy_time_move g w3 pid new_cpu).rqs (w.tasks pid).cpu).prev_runnable_sum =
      sub64 (w3.rqs (w.tasks pid).cpu).prev_runnable_sum (w3.tasks pid).ravg.prev_window ∧
    ((fixup_busy_time_move g w3 pid new_cpu).rqs new_cpu).prev_runnable_sum =
      wrap64 ((w3.rqs new_cpu).prev_runnable_sum + (w3.tasks pid).ravg.prev_window) ∧
    wrap64 (((fixup_busy_time_move g w3 pid new_cpu).rqs (w.tasks pid).cpu).curr_runnable_sum +
        ((fixup_busy_time_move g w3 pid new_cpu).rqs new_cpu).curr_runnable_sum) =
      wrap64 ((w3.rqs (w.tasks pid).cpu).curr_runnable_sum +
        (w3.rqs new_cpu).curr_runnable_sum) ∧
    wrap64 (((fixup_busy_time_move g w3 pid new_cpu).rqs (w.tasks pid).cpu).prev_runnable_sum +
        ((fixup_busy_time_move g w3 pid new_cpu).rqs new_cpu).prev_runnable_sum) =
      wrap64 ((w3.rqs (w.tasks pid).cpu).prev_runnable_sum +
        (w3.rqs new_cpu).prev_runnable_sum) ∧
    ((w3.tasks pid).ravg.curr_window ≤ (w3.rqs (w.tasks pid).cpu).curr_runnable_sum →
      (w3.rqs new_cpu).curr_runnable_sum + (w3.tasks pid).ravg.curr_window
        < 18446744073709551616 →
      ((fixup_busy_time_move g w3 pid new_cpu).rqs (w.tasks pid).cpu).curr_runnable_sum
          + (w3.tasks pid).ravg.curr_window
        = (w3.rqs (w.tasks pid).cpu).curr_runnable_sum ∧
      ((fixup_busy_time_move g w3 pid new_cpu).rqs new_cpu).curr_runnable_sum
        = (w3.rqs new_cpu).curr_runnable_sum + (w3.tasks pid).ravg.curr_window) ∧
    ((w3.tasks pid).ravg.prev_window ≤ (w3.rqs (w.tasks pid).cpu).prev_runnable_sum →
      (w3.rqs new_cpu).prev_runnable_sum + (w3.tasks pid).ravg.prev_window
        < 18446744073709551616 →
      ((fixup_busy_time_move g w3 pid new_cpu).rqs (w.tasks pid).cpu).prev_runnable_sum
          + (w3.tasks pid).ravg.prev_window
        = (w3.rqs (w.tasks pid).cpu).prev_runnable_sum ∧
      ((fixup_busy_time_move g w3 pid new_cpu).rqs new_cpu).prev_runnable_sum
        = (w3.rqs new_cpu).prev_runnable_sum + (w3.tasks pid).ravg.prev_window) ∧
    (fixup_busy_time_move g w3 pid new_cpu).tasks = w3.tasks := by
  obtain ⟨ft, _, _⟩ := fixup_busy_time_updates_frame g fixup w w3 pid new_cpu wallclock hupd
  have hcpu : (w3.tasks pid).cpu = (w.tasks pid).cpu :=
    congrArg (fun t => t.cpu) (ft pid)
  have hne3 : new_cpu ≠ (w3.tasks pid).cpu := by rw [hcpu]; exact hne
  obtain ⟨m1, m2, m3, m4, m5⟩ := fixup_busy_time_move_sums g w3 pid new_cpu hne3
    (by rw [hcpu]; exact hsc) (by rw [hcpu]; exact hsp) hdc hdp
  rw [hcpu] at m1 m3
  refine ⟨?_, m1, m2, m3, m4, ?_, ?_, ?_, ?_, m5⟩
  · unfold fixup_busy_time
    simp only []
    have hguard : (!g.sched_enable_hmp || !g.sched_migration_fixup ||
        ((w.tasks pid).on_rq == 0 && (w.tasks pid).state != TASK_WAKING)) = false := by
      rcases hq with h | h
      · simp [hhmp, hfix, h]
      · simp [hhmp, hfix, h]
    rw [if_neg (by rw [hguard]; simp), if_neg (by rw [hexit]; simp),
      if_neg (by rw [hstats]; simp), hupd]
    simp only [hcpu]
  · rw [m1, m2]
    exact sub64_add_wrap64 _ _ _ hsc
  · rw [m3, m4]
    exact sub64_add_wrap64 _ _ _ hsp
  · intro h1 h2
    rw [m1, m2, sub64_of_le h1 hsc, wrap64_of_lt h2]
    omega
  · intro h1 h2
    rw [m3, m4, sub64_of_le h1 hsp, wrap64_of_lt h2]
    omega

theorem fixup_busy_time_conservative_witness :
    fixup_busy_time_updates c4_globals fixup_none c4_world 1 1 126 = some c4_after_updates ∧
    fixup_busy_time c4_globals fixup_none c4_world 1 1 126 =
      some (fixup_busy_time_move c4_globals c4_after_updates 1 1) ∧
    (c4_after_updates.tasks 1).ravg.curr_window = 4 ∧
    (c4_after_updates.tasks 1).ravg.prev_window = 3 ∧
    (c4_after_updates.rqs 0).curr_runnable_sum = 9 ∧
    (c4_after_updates.rqs 1).curr_runnable_sum = 2 ∧
    (c4_after_updates.rqs 0).prev_runnable_sum = 10 ∧
    (c4_after_updates.rqs 1).prev_runnable_sum = 0 ∧
    ((fixup_busy_time_move c4_globals c4_after_updates 1 1).rqs 0).curr_runnable_sum = 5 ∧
    ((fixup_busy_time_move c4_globals c4_after_updates 1 1).rqs 1).curr_runnable_sum = 6 ∧
    ((fixup_busy_time_move c4_globals c4_after_updates 1 1).rqs 0).prev_runnable_sum = 7 ∧
    ((fixup_busy_time_move c4_globals c4_after_updates 1 1).rqs 1).prev_runnable_sum = 3 ∧
    (fixup_busy_time_move c4_globals c4_after_updates 1 1).tasks = c4_after_updates.tasks := by
  have hupd : fixup_busy_time_updates c4_globals fixup_none c4_world 1 1 126
      = some c4_after_updates :=
    option_eq_some_getD _ _ (by decide!)
  have hb : fixup_busy_time_bug ((fixup_busy_time_move c4_globals c4_after_updates 1 1).rqs
      (c4_world.tasks 1).cpu) = false := by decide!
  have h := fixup_busy_time_conservative c4_globals fixup_none c4_world c4_after_updates
    1 1 126 (by decide) (by decide) (by decide) (Or.inl (by decide)) (by decide!) (by decide)
    hupd (by decide!) (by decide!) (by decide!) (by decide!)
  refine ⟨hupd, ?_, by decide!, by decide!, by decide!, by decide!, by decide!, by decide!,
    by decide!, by decide!, by decide!, by decide!, h.2.2.2.2.2.2.2.2.2⟩
  rw [h.1, hb]
  rfl

/-! ## What the wakeup path keeps -/

theorem keeps_refl (w : World) : w.keeps w := ⟨fun _ => ⟨rfl, rfl⟩, fun _ => ⟨rfl, rfl⟩⟩

theorem keeps_trans {a b c : World} (h1 : a.keeps b) (h2 : b.keeps c) : a.keeps c :=
  ⟨fun q => ⟨((h2.1 q).1).trans (h1.1 q).1, ((h2.1 q).2).trans (h1.1 q).2⟩,
   fun q => ⟨((h2.2 q).1).trans (h1.2 q).1, ((h2.2 q).2).trans (h1.2 q).2⟩⟩

theorem keeps_map_rq {w w1 : World} (c : Nat) (f : Rq → Rq) (h : w.keeps w1)
    (hf : ∀ r, (f r).nr_running = r.nr_running ∧ (f r).wake_list = r.wake_list) :
    w.keeps (w1.map_rq c f) := by
  refine keeps_trans h ⟨fun _ => ⟨rfl, rfl⟩, fun d => ?_⟩
  by_cases hd : d = c
  · subst hd
    rw [map_rq_same]
    exact hf _
  · rw [map_rq_other _ _ _ _ hd]
    exact ⟨rfl, rfl⟩

theorem map_task_same (w : World) (q : Nat) (f : Task → Task) :
    (w.map_task q f).tasks q = f (w.tasks q) := by
  unfold World.map_task
  simp

theorem map_task_other (w : World) (q r : Nat) (f : Task → Task) (h : r ≠ q) :
    (w.map_task q f).tasks r = w.tasks r := by
  unfold World.map_task
  simp [Function.update_noteq h]

theorem map_task_rqs (w : World) (q : Nat) (f : Task → Task) : (w.map_task q f).rqs = w.rqs :=
  rfl

theorem keeps_map_task {w w1 : World} (q : Nat) (f : Task → Task) (h : w.keeps w1)
    (hf : ∀ p, (f p).state = p.state ∧ (f p).on_rq = p.on_rq) :
    w.keeps (w1.map_task q f) := by
  refine keeps_trans h ⟨fun r => ?_, fun _ => ⟨rfl, rfl⟩⟩
  by_cases hr : r = q
  · subst hr
    rw [map_task_same]
    exact hf _
  · rw [map_task_other _ _ _ _ hr]
    exact ⟨rfl, rfl⟩

theorem keeps_of_frames {w w1 : World}
    (ht : ∀ q, (w1.tasks q).erase_ravg = (w.tasks q).erase_ravg)
    (hr : ∀ c, (w1.rqs c).erase_stats = (w.rqs c).erase_stats) : w.keeps w1 :=
  ⟨fun q => ⟨congrArg (fun t => t.state) (ht q), congrArg (fun t => t.on_rq) (ht q)⟩,
   fun c => ⟨congrArg (fun r => r.nr_running) (hr c), congrArg (fun r => r.wake_list) (hr c)⟩⟩

theorem world_update_task_ravg_keeps (g : Globals) (fixup : FixupHook) (w w1 : World)
    (pid cpu : Nat) (event : TaskEvent) (wallclock irqtime : Nat)
    (h : world_update_task_ravg g fixup w pid cpu event wallclock irqtime = some w1) :
    w.keeps w1 := by
  obtain ⟨a, b, _⟩ := world_update_task_ravg_frame g fixup w w1 pid cpu event wallclock irqtime h
  exact keeps_of_frames a b

theorem world_check_for_freq_change_keeps (g : Globals) (w : World) (cpu : Nat) :
    w.keeps (world_check_for_freq_change g w cpu) ∧
    (world_check_for_freq_change g w cpu).tasks = w.tasks := by
  refine ⟨⟨fun _ => ⟨rfl, rfl⟩, fun c => ?_⟩, rfl⟩
  unfold world_check_for_freq_change
  by_cases hc : c = cpu
  · subst hc
    simp only [Function.update_same]
    unfold check_for_freq_change
    rcases send_notification_cases g (w.rqs c) with h | h <;> rw [h] <;> simp
  · simp [Function.update_noteq hc]

theorem clear_ed_task_keeps (w : World) (pid cpu : Nat) : w.keeps (clear_ed_task w pid cpu) := by
  unfold clear_ed_task
  split
  · exact keeps_map_rq _ _ (keeps_refl w) (fun _ => ⟨rfl, rfl⟩)
  · exact keeps_refl w

theorem fixup_busy_time_move_keeps (g : Globals) (w : World) (pid new_cpu : Nat) :
    w.keeps (fixup_busy_time_move g w pid new_cpu) := by
  unfold fixup_busy_time_move
  simp only []
  split_ifs <;>
    repeat (first
      | exact keeps_refl w
      | refine keeps_map_rq _ _ ?_ (fun _ => ⟨rfl, rfl⟩))

theorem fixup_busy_time_keeps (g : Globals) (fixup : FixupHook) (w w1 : World)
    (pid new_cpu wallclock : Nat)
    (h : fixup_busy_time g fixup w pid new_cpu wallclock = some w1) : w.keeps w1 := by
  unfold fixup_busy_time at h
  simp only [] at h
  split at h
  · simp only [Option.some.injEq] at h
    rw [← h]
    exact keeps_refl w
  · split at h
    · simp only [Option.some.injEq] at h
      rw [← h]
      exact clear_ed_task_keeps w pid _
    · split at h
      · simp only [Option.some.injEq] at h
        rw [← h]
        exact keeps_refl w
      · split at h
        · exact absurd h (by simp)
        · rename_i w3 e3
          obtain ⟨a, b, _⟩ := fixup_busy_time_updates_frame g fixup w w3 pid new_cpu wallclock e3
          split at h
          · exact absurd h (by simp)
          · simp only [Option.some.injEq] at h
            rw [← h]
            exact keeps_trans (keeps_of_frames a b) (fixup_busy_time_move_keeps g w3 pid new_cpu)

theorem select_fallback_rq_keeps (e : CpuEnv) (cpu : Nat) (p : Task) (r : FallbackResult)
    (hcs : ∀ t, (e.cpuset_cpus_allowed_fallback t).state = t.state ∧
      (e.cpuset_cpus_allowed_fallback t).on_rq = t.on_rq)
    (h : select_fallback_rq e cpu p = some r) :
    r.task.state = p.state ∧ r.task.on_rq = p.on_rq := by
  have hfail : ∀ (t : Task) (r : FallbackResult), fallback_from_fail e t = some r →
      r.task = t := by
    intro t r h
    unfold fallback_from_fail at h
    split at h
    · simp only [Option.some.injEq] at h
      rw [← h]
      rfl
    · exact absurd h (by simp)
  have hposs : ∀ (t : Task) (r : FallbackResult), fallback_from_possible e t = some r →
      r.task.state = t.state ∧ r.task.on_rq = t.on_rq := by
    intro t r h
    unfold fallback_from_possible at h
    split at h
    · simp only [Option.some.injEq] at h
      rw [← h]
      exact ⟨rfl, rfl⟩
    · rw [hfail _ _ h]
      exact ⟨rfl, rfl⟩
  have hcpuset : ∀ (r : FallbackResult), fallback_from_cpuset e p = some r →
      r.task.state = p.state ∧ r.task.on_rq = p.on_rq := by
    intro r h
    unfold fallback_from_cpuset at h
    split at h
    · simp only [Option.some.injEq] at h
      rw [← h]
      exact ⟨rfl, rfl⟩
    · obtain ⟨a, b⟩ := hposs _ _ h
      exact ⟨a.trans (hcs p).1, b.trans (hcs p).2⟩
  unfold select_fallback_rq at h
  simp only [] at h
  split at h
  · simp only [Option.some.injEq] at h
    rw [← h]
    exact ⟨rfl, rfl⟩
  · exact hcpuset r h

theorem select_task_rq_keeps (env : Env) (w w1 : World) (pid cpu sd_flags wake_flags dest : Nat)
    (hcs : ∀ t, (env.cpuset_cpus_allowed_fallback t).state = t.state ∧
      (env.cpuset_cpus_allowed_fallback t).on_rq = t.on_rq)
    (h : select_task_rq env w pid cpu sd_flags wake_flags = some (w1, dest)) :
    w.keeps w1 := by
  unfold select_task_rq at h
  simp only [] at h
  split at h
  · split at h
    · exact absurd h (by simp)
    · rename_i r er
      simp only [Option.some.injEq, Prod.mk.injEq] at h
      rw [← h.1]
      have hk := select_fallback_rq_keeps env.toCpuEnv _ _ r hcs er
      refine ⟨fun q => ?_, fun _ => ⟨rfl, rfl⟩⟩
      by_cases hq : q = pid
      · subst hq
        simp only [Function.update_same]
        exact hk
      · simp [Function.update_noteq hq]
  · simp only [Option.some.injEq, Prod.mk.injEq] at h
    rw [← h.1]
    exact keeps_refl w

theorem set_task_cpu_keeps (env : Env) (w w1 : World) (pid new_cpu wallclock : Nat)
    (h : set_task_cpu env w pid new_cpu wallclock = some w1) : w.keeps w1 := by
  unfold set_task_cpu at h
  simp only [] at h
  split at h
  · exact absurd h (by simp)
  · rename_i w0 e0
    simp only [Option.some.injEq] at h
    rw [← h]
    unfold __set_task_cpu
    refine keeps_map_task _ _ ?_ (fun _ => ⟨rfl, rfl⟩)
    split at e0
    · have k0 := fixup_busy_time_keeps _ _ _ _ _ _ _ e0
      refine keeps_trans ?_ k0
      exact keeps_map_task _ _ (keeps_refl w) (fun _ => ⟨rfl, rfl⟩)
    · simp only [Option.some.injEq] at e0
      rw [← e0]
      exact keeps_refl w

theorem try_to_wake_up_out_keeps (env : Env) (w : World) (src_cpu cpu : Nat) (heavy : Bool) :
    w.keeps (try_to_wake_up_out env w src_cpu cpu heavy) ∧
    (try_to_wake_up_out env w src_cpu cpu heavy).tasks = w.tasks := by
  unfold try_to_wake_up_out
  split
  · exact ⟨keeps_trans (world_check_for_freq_change_keeps _ w cpu).1
      (world_check_for_freq_change_keeps _ _ src_cpu).1, rfl⟩
  · split
    · exact world_check_for_freq_change_keeps _ w cpu
    · exact ⟨keeps_refl w, rfl⟩

theorem try_to_wake_up_out_same (env : Env) (w : World) (cpu : Nat)
    (hrefl : ∀ c, env.same_freq_domain c c = true) :
    try_to_wake_up_out env w cpu cpu false = w := by
  unfold try_to_wake_up_out
  simp [hrefl]

theorem try_to_wake_up_no_match (env : Env) (w : World)
    (pid state wake_flags this_cpu wallclock migrate_clock : Nat)
    (hrefl : ∀ c, env.same_freq_domain c c = true)
    (h : (w.tasks pid).state &&& state = 0) :
    try_to_wake_up env w pid state wake_flags this_cpu wallclock migrate_clock = some (w, 0) := by
  unfold try_to_wake_up
  simp only [h, beq_self_eq_true, if_true, try_to_wake_up_out_same env w _ hrefl]

theorem try_to_wake_up_smp_keeps (env : Env) (w w5 : World)
    (pid wake_flags wallclock migrate_clock src_cpu dest_cpu : Nat) (heavy : Bool)
    (hcs : ∀ t, (env.cpuset_cpus_allowed_fallback t).state = t.state ∧
      (env.cpuset_cpus_allowed_fallback t).on_rq = t.on_rq)
    (h : try_to_wake_up_smp env w pid wake_flags wallclock migrate_clock
      = some (w5, src_cpu, dest_cpu, heavy)) :
    (w5.tasks pid).state = TASK_WAKING ∧ (w5.tasks pid).on_rq = (w.tasks pid).on_rq ∧
    (∀ c, (w5.rqs c).nr_running = (w.rqs c).nr_running ∧
          (w5.rqs c).wake_list = (w.rqs c).wake_list) := by
  unfold try_to_wake_up_smp at h
  simp only [] at h
  have k0 : w.keeps (if ((w.tasks pid).on_cpu != 0) = true then
      w.map_task pid (fun p => { p with on_cpu := 0 }) else w) := by
    split
    · exact keeps_map_task _ _ (keeps_refl w) (fun _ => ⟨rfl, rfl⟩)
    · exact keeps_refl w
  generalize (if ((w.tasks pid).on_cpu != 0) = true then
      w.map_task pid (fun p => { p with on_cpu := 0 }) else w) = w0 at h k0
  split at h
  · exact absurd h (by simp)
  · rename_i w1 e1
    have k1 := world_update_task_ravg_keeps _ _ _ _ _ _ _ _ _ e1
    split at h
    · exact absurd h (by simp)
    · rename_i w2 e2
      have k2 := world_update_task_ravg_keeps _ _ _ _ _ _ _ _ _ e2
      split at h
      · exact absurd h (by simp)
      · rename_i w4 cpu e4
        have k4 := select_task_rq_keeps env _ _ _ _ _ _ _ hcs e4
        split at h
        · exact absurd h (by simp)
        · rename_i w5a e5
          have k5 : w4.keeps w5a := by
            split at e5
            · exact set_task_cpu_keeps env _ _ _ _ _ e5
            · simp only [Option.some.injEq] at e5
              rw [← e5]
              exact keeps_refl w4
          simp only [Option.some.injEq, Prod.mk.injEq] at h
          rw [← h.1]
          have k45 := keeps_trans k4 k5
          have k12 := keeps_trans k0 (keeps_trans k1 k2)
          refine ⟨?_, ?_, fun c => ?_⟩
          · rw [map_task_same]
            show (w5a.tasks pid).state = TASK_WAKING
            rw [(k45.1 pid).1, map_task_same]
          · rw [map_task_same]
            show (w5a.tasks pid).on_rq = (w.tasks pid).on_rq
            rw [(k45.1 pid).2, map_task_same]
            exact (k12.1 pid).2
          · rw [map_task_rqs]
            exact ⟨((k45.2 c).1).trans (k12.2 c).1, ((k45.2 c).2).trans (k12.2 c).2⟩

theorem ttwu_do_activate_task (env : Env) (w : World) (cpu pid : Nat) :
    ((ttwu_do_activate env w cpu pid).tasks pid).on_rq = TASK_ON_RQ_QUEUED ∧
    ((ttwu_do_activate env w cpu pid).tasks pid).state = TASK_RUNNING ∧
    (∀ q, q ≠ pid → (ttwu_do_activate env w cpu pid).tasks q = w.tasks q) := by
  unfold ttwu_do_activate ttwu_do_wakeup ttwu_activate activate_task enqueue_task
  simp only []
  refine ⟨?_, ?_, fun q hq => ?_⟩
  · rw [map_task_same, map_task_same]
  · rw [map_task_same]
  · rw [map_task_other _ _ _ _ hq, map_task_other _ _ _ _ hq, map_rq_tasks]
    split_ifs <;> simp [map_rq_tasks]

theorem ttwu_do_activate_rq (env : Env) (w : World) (cpu pid : Nat)
    (henq : ∀ rq p f, (env.class_enqueue_task rq p f).nr_running = rq.nr_running + 1) :
    ((ttwu_do_activate env w cpu pid).rqs cpu).nr_running = (w.rqs cpu).nr_running + 1 ∧
    (∀ c, c ≠ cpu → (ttwu_do_activate env w cpu pid).rqs c = w.rqs c) := by
  unfold ttwu_do_activate ttwu_do_wakeup ttwu_activate activate_task enqueue_task
  simp only []
  refine ⟨?_, fun c hc => ?_⟩
  · rw [map_task_rqs, map_task_rqs, map_rq_same, henq]
    split_ifs <;> simp [map_rq_same]
  · rw [map_task_rqs, map_task_rqs, map_rq_other _ _ _ _ hc]
    split_ifs <;> simp [map_rq_other _ _ _ _ hc]

theorem sched_ttwu_pending_loop_rq (env : Env) (cpu : Nat)
    (henq : ∀ rq p f, (env.class_enqueue_task rq p f).nr_running = rq.nr_running + 1) :
    ∀ (llist : List Nat) (w : World),
      ((sched_ttwu_pending_loop env cpu llist w).rqs cpu).nr_running
        = (w.rqs cpu).nr_running + llist.length ∧
      (∀ c, c ≠ cpu → (sched_ttwu_pending_loop env cpu llist w).rqs c = w.rqs c) := by
  intro llist
  induction llist with
  | nil => intro w; exact ⟨rfl, fun _ _ => rfl⟩
  | cons a rest ih =>
    intro w
    obtain ⟨i1, i2⟩ := ih (ttwu_do_activate env w cpu a)
    obtain ⟨a1, a2⟩ := ttwu_do_activate_rq env w cpu a henq
    unfold sched_ttwu_pending_loop
    refine ⟨?_, fun c hc => ?_⟩
    · rw [i1, a1, List.length_cons]
      omega
    · rw [i2 c hc, a2 c hc]

theorem sched_ttwu_pending_loop_task (env : Env) (cpu : Nat) :
    ∀ (llist : List Nat) (w : World),
      (∀ q, q ∈ llist →
        ((sched_ttwu_pending_loop env cpu llist w).tasks q).on_rq = TASK_ON_RQ_QUEUED ∧
        ((sched_ttwu_pending_loop env cpu llist w).tasks q).state = TASK_RUNNING) ∧
      (∀ q, q ∉ llist → (sched_ttwu_pending_loop env cpu llist w).tasks q = w.tasks q) := by
  intro llist
  induction llist with
  | nil => intro w; exact ⟨fun q hq => absurd hq (List.not_mem_nil q), fun _ _ => rfl⟩
  | cons a rest ih =>
    intro w
    obtain ⟨i1, i2⟩ := ih (ttwu_do_activate env w cpu a)
    obtain ⟨a1, a2, a3⟩ := ttwu_do_activate_task env w cpu a
    unfold sched_ttwu_pending_loop
    refine ⟨fun q hq => ?_, fun q hq => ?_⟩
    · by_cases hr : q ∈ rest
      · exact i1 q hr
      · have hqa : q = a := by
          rcases List.mem_cons.mp hq with h | h
          · exact h
          · exact absurd h hr
        subst hqa
        rw [i2 q hr]
        exact ⟨a1, a2⟩
    · have hqa : q ≠ a := fun h => hq (h ▸ List.mem_cons_self _ _)
      have hr : q ∉ rest := fun h => hq (List.mem_cons_of_mem _ h)
      rw [i2 q hr, a3 q hqa]

/-! ## `try_to_wake_up` -/

theorem try_to_wake_up_queued (env : Env) (w : World)
    (pid state wake_flags this_cpu wallclock migrate_clock : Nat)
    (hrefl : ∀ c, env.same_freq_domain c c = true)
    (hm : (w.tasks pid).state &&& state ≠ 0)
    (hq : (w.tasks pid).on_rq = TASK_ON_RQ_QUEUED) :
    try_to_wake_up env w pid state wake_flags this_cpu wallclock migrate_clock
      = some (ttwu_do_wakeup w pid, 1) := by
  unfold try_to_wake_up ttwu_remote task_on_rq_queued
  simp [hm, hq, TASK_ON_RQ_QUEUED, TASK_ON_RQ_MIGRATING, try_to_wake_up_out_same env _ _ hrefl]

theorem try_to_wake_up_off_rq (env : Env) (w w5 : World)
    (pid state wake_flags this_cpu wallclock migrate_clock src_cpu dest_cpu : Nat)
    (heavy : Bool)
    (hm : (w.tasks pid).state &&& state ≠ 0)
    (hoff : (w.tasks pid).on_rq = 0)
    (hsmp : try_to_wake_up_smp env w pid wake_flags wallclock migrate_clock
      = some (w5, src_cpu, dest_cpu, heavy)) :
    try_to_wake_up env w pid state wake_flags this_cpu wallclock migrate_clock
      = some (try_to_wake_up_out env (ttwu_queue env w5 pid dest_cpu this_cpu)
          src_cpu dest_cpu heavy, 1) := by
  unfold try_to_wake_up
  simp [hm, hoff, hsmp]

theorem try_to_wake_up_result (env : Env) (w w1 : World)
    (pid state wake_flags this_cpu wallclock migrate_clock r : Nat)
    (h : try_to_wake_up env w pid state wake_flags this_cpu wallclock migrate_clock
      = some (w1, r)) :
    r = 1 ↔ (w.tasks pid).state &&& state ≠ 0 := by
  unfold try_to_wake_up at h
  simp only [] at h
  split at h
  · rename_i hz
    simp only [Option.some.injEq, Prod.mk.injEq] at h
    have hz2 : (w.tasks pid).state &&& state = 0 := by simpa using hz
    constructor
    · intro h1
      omega
    · intro h1
      exact absurd hz2 h1
  · rename_i hz
    have hz2 : (w.tasks pid).state &&& state ≠ 0 := by simpa using hz
    generalize (if ((w.tasks pid).on_rq != 0) = true then ttwu_remote env w pid
      else (w, 0)) = r0 at h
    split at h
    · simp only [Option.some.injEq, Prod.mk.injEq] at h
      exact ⟨fun _ => hz2, fun _ => h.2.symm⟩
    · split at h
      · exact absurd h (by simp)
      · simp only [Option.some.injEq, Prod.mk.injEq] at h
        exact ⟨fun _ => hz2, fun _ => h.2.symm⟩

theorem try_to_wake_up_migrating (env : Env) (w : World)
    (pid state wake_flags this_cpu wallclock migrate_clock : Nat)
    (hrefl : ∀ c, env.same_freq_domain c c = true)
    (hm : (w.tasks pid).state &&& state ≠ 0)
    (hq : (w.tasks pid).on_rq = TASK_ON_RQ_MIGRATING)
    (hdone : task_on_rq_queued ((env.migration_done w pid).tasks pid) = true) :
    try_to_wake_up env w pid state wake_flags this_cpu wallclock migrate_clock
      = some (ttwu_do_wakeup (env.migration_done w pid) pid, 1) := by
  unfold try_to_wake_up ttwu_remote
  simp [hm, hq, hdone, TASK_ON_RQ_MIGRATING, try_to_wake_up_out_same env _ _ hrefl]

theorem sched_ttwu_pending_cons (env : Env) (w : World) (cpu pid : Nat) (rest : List Nat)
    (h : (w.rqs cpu).wake_list = pid :: rest) :
    sched_ttwu_pending env w cpu =
      sched_ttwu_pending_loop env cpu (pid :: rest)
        (w.map_rq cpu (fun rq => { rq with wake_list := [] })) := by
  unfold sched_ttwu_pending
  simp [h]

/-! ## `scale_exec_time` as a product of two rounded ratios -/

theorem scale_freq_le (g : Globals) (rq : Rq) : scale_freq g rq ≤ g.max_possible_freq := by
  unfold scale_freq
  split <;> omega

/-- Without overflow `scale_exec_time` is the interval times the frequency
ratio, rounded up, times the efficiency ratio in base 1024, rounded up, shifted
down by ten bits. -/
theorem scale_exec_time_eq (g : Globals) (delta : Nat) (rq : Rq)
    (hf : 0 < g.max_possible_freq) (he : 0 < g.max_possible_efficiency)
    (heff : g.cpu_efficiency rq.cpu ≤ g.max_possible_efficiency)
    (h1 : delta * scale_freq g rq + g.max_possible_freq ≤ 18446744073709551616)
    (h2 : g.cpu_efficiency rq.cpu * 1024 + g.max_possible_efficiency ≤ 4294967296)
    (h3 : delta * 1024 < 18446744073709551616) :
    scale_exec_time g delta rq =
      (delta * scale_freq g rq + g.max_possible_freq - 1) / g.max_possible_freq *
        ((g.cpu_efficiency rq.cpu * 1024 + g.max_possible_efficiency - 1)
          / g.max_possible_efficiency) / 1024 := by
  have hcf := scale_freq_le g rq
  unfold scale_exec_time
  unfold scale_freq at h1 hcf ⊢
  simp only []
  have hsfu : sub32 (wrap32 (g.cpu_efficiency rq.cpu * 1024 + g.max_possible_efficiency)) 1
      = g.cpu_efficiency rq.cpu * 1024 + g.max_possible_efficiency - 1 := by
    rw [sub32_wrap32_one _ (by omega)]
    exact Nat.mod_eq_of_lt (by omega)
  have hsf : (g.cpu_efficiency rq.cpu * 1024 + g.max_possible_efficiency - 1)
      / g.max_possible_efficiency ≤ 1024 := by
    apply div_le_of_le_mul_add he
    omega
  have hd : sub64 (wrap64 (delta * (if g.cpu_cur_freq rq.cpu > g.max_possible_freq
        then g.max_possible_freq else g.cpu_cur_freq rq.cpu) + g.max_possible_freq)) 1
      = delta * (if g.cpu_cur_freq rq.cpu > g.max_possible_freq
        then g.max_possible_freq else g.cpu_cur_freq rq.cpu) + g.max_possible_freq - 1 := by
    rw [sub64_wrap64_one _ (by omega)]
    exact Nat.mod_eq_of_lt (by omega)
  rw [hsfu, hd, toInt32_of_lt (by omega), intToU64_natCast (by omega)]
  have hd1 : (delta * (if g.cpu_cur_freq rq.cpu > g.max_possible_freq
        then g.max_possible_freq else g.cpu_cur_freq rq.cpu) + g.max_possible_freq - 1)
      / g.max_possible_freq ≤ delta := by
    apply div_le_of_le_mul_add hf
    have := Nat.mul_le_mul_left delta hcf
    omega
  rw [wrap64_of_lt]
  calc _ ≤ delta * 1024 := Nat.mul_le_mul hd1 hsf
    _ < 18446744073709551616 := h3

theorem ceil_div_mul_ge (a k : Nat) (hk : 0 < k) : a ≤ (a + k - 1) / k * k := by
  have h := Nat.div_add_mod (a + k - 1) k
  have hm := Nat.mod_lt (a + k - 1) hk
  have : k * ((a + k - 1) / k) = (a + k - 1) / k * k := Nat.mul_comm _ _
  omega

theorem ceil_div_mono (a b k : Nat) (h : a ≤ b) : (a + k - 1) / k ≤ (b + k - 1) / k :=
  Nat.div_le_div_right (by omega)

/-- C16 (amended): without 64-bit overflow and with an efficiency of at most
`max_possible_efficiency`, the result `r` of `scale_exec_time(delta)` lies
between `floor(delta * f * e / (max_possible_freq * max_possible_efficiency))`
and `delta`, where `f = min(cur_freq, max_possible_freq)` and `e` is the
efficiency of the processor; it is monotone non-decreasing in `delta`; and
`r = delta` whenever `f = max_possible_freq` and `e = max_possible_efficiency`. -/
theorem scale_exec_time_bounds (g : Globals) (delta : Nat) (rq : Rq)
    (hf : 0 < g.max_possible_freq) (he : 0 < g.max_possible_efficiency)
    (heff : g.cpu_efficiency rq.cpu ≤ g.max_possible_efficiency)
    (h1 : delta * scale_freq g rq + g.max_possible_freq ≤ 18446744073709551616)
    (h2 : g.cpu_efficiency rq.cpu * 1024 + g.max_possible_efficiency ≤ 4294967296)
    (h3 : delta * 1024 < 18446744073709551616) :
    delta * scale_freq g rq * g.cpu_efficiency rq.cpu
        / (g.max_possible_freq * g.max_possible_efficiency) ≤ scale_exec_time g delta rq ∧
    scale_exec_time g delta rq ≤ delta ∧
    (∀ d, d ≤ delta → scale_exec_time g d rq ≤ scale_exec_time g delta rq) ∧
    (scale_freq g rq = g.max_possible_freq →
      g.cpu_efficiency rq.cpu = g.max_possible_efficiency →
      scale_exec_time g delta rq = delta) := by
  have heq := scale_exec_time_eq g delta rq hf he heff h1 h2 h3
  refine ⟨?_, scale_exec_time_le g delta rq hf he heff, fun d hd => ?_, fun hfu heu => ?_⟩
  · rw [heq, Nat.le_div_iff_mul_le (by norm_num)]
    have hD := ceil_div_mul_ge (delta * scale_freq g rq) g.max_possible_freq hf
    have hS := ceil_div_mul_ge (g.cpu_efficiency rq.cpu * 1024) g.max_possible_efficiency he
    have hq := Nat.div_mul_le_self (delta * scale_freq g rq * g.cpu_efficiency rq.cpu)
      (g.max_possible_freq * g.max_possible_efficiency)
    have hpos : 0 < g.max_possible_freq * g.max_possible_efficiency := Nat.mul_pos hf he
    apply Nat.le_of_mul_le_mul_right _ hpos
    calc delta * scale_freq g rq * g.cpu_efficiency rq.cpu
            / (g.max_possible_freq * g.max_possible_efficiency) * 1024
            * (g.max_possible_freq * g.max_possible_efficiency)
        = delta * scale_freq g rq * g.cpu_efficiency rq.cpu
            / (g.max_possible_freq * g.max_possible_efficiency)
            * (g.max_possible_freq * g.max_possible_efficiency) * 1024 := by ring
      _ ≤ delta * scale_freq g rq * g.cpu_efficiency rq.cpu * 1024 :=
          Nat.mul_le_mul_right _ hq
      _ = (delta * scale_freq g rq) * (g.cpu_efficiency rq.cpu * 1024) := by ring
      _ ≤ ((delta * scale_freq g rq + g.max_possible_freq - 1) / g.max_possible_freq
            * g.max_possible_freq)
          * ((g.cpu_efficiency rq.cpu * 1024 + g.max_possible_efficiency - 1)
            / g.max_possible_efficiency * g.max_possible_efficiency) :=
          Nat.mul_le_mul hD hS
      _ = _ := by ring
  · have hdf : d * scale_freq g rq ≤ delta * scale_freq g rq := Nat.mul_le_mul_right _ hd
    rw [heq, scale_exec_time_eq g d rq hf he heff (by omega) h2 (by omega)]
    exact Nat.div_le_div_right
      (Nat.mul_le_mul_right _ (ceil_div_mono _ _ _ hdf))
  · have hS : (g.cpu_efficiency rq.cpu * 1024 + g.max_possible_efficiency - 1)
        / g.max_possible_efficiency = 1024 := by
      rw [heu]
      have : g.max_possible_efficiency * 1024 + g.max_possible_efficiency - 1
          = g.max_possible_efficiency - 1 + 1024 * g.max_possible_efficiency := by omega
      rw [this, Nat.add_mul_div_right _ _ he, Nat.div_eq_of_lt (by omega)]
    have hD : (delta * scale_freq g rq + g.max_possible_freq - 1) / g.max_possible_freq
        = delta := by
      rw [hfu]
      have : delta * g.max_possible_freq + g.max_possible_freq - 1
          = g.max_possible_freq - 1 + delta * g.max_possible_freq := by omega
      rw [this, Nat.add_mul_div_right _ _ hf, Nat.div_eq_of_lt (by omega)]
      omega
    rw [heq, hS, hD]
    exact Nat.mul_div_cancel _ (by norm_num)

theorem scale_exec_time_bounds_witness :
    100 * scale_freq c16_globals {} * c16_globals.cpu_efficiency 0
        / (c16_globals.max_possible_freq * c16_globals.max_possible_efficiency)
      ≤ scale_exec_time c16_globals 100 {} ∧
    scale_exec_time c16_globals 100 {} ≤ 100 ∧
    scale_exec_time c16_globals 100 {} = 50 :=
  have h := scale_exec_time_bounds c16_globals 100 {} (by decide) (by decide) (by decide)
    (by decide!) (by decide) (by decide)
  ⟨h.1, h.2.1, by decide!⟩

/-- At half the maximum frequency an interval of one unit is returned
unscaled, the frequency ratio being rounded up: `r = delta` although
`f ≠ max_possible_freq`. -/
theorem scale_exec_time_equal_below_unity :
    c16_globals.cpu_efficiency 0 ≤ c16_globals.max_possible_efficiency ∧
    scale_exec_time c16_globals 1 {} = 1 ∧
    scale_freq c16_globals {} = 1 ∧ c16_globals.max_possible_freq = 2 ∧
    ¬ (scale_exec_time c16_globals 1 {} = 1 ↔
        (scale_freq c16_globals {} = c16_globals.max_possible_freq ∧
          c16_globals.cpu_efficiency 0 = c16_globals.max_possible_efficiency)) := by
  decide!

/-! ## Capacity -/

theorem capacity_scale_eq (c s : Nat) (h : c * s < 2147483648) :
    capacity_scale (c : Int) s = ((c * s / 1024 : Nat) : Int) := by
  unfold capacity_scale
  rcases Nat.eq_zero_or_pos s with hs | hs
  · subst hs
    rw [Nat.mul_zero, Nat.mul_zero, wrap64_of_lt (by norm_num), toInt32_of_lt (by norm_num)]
    simp
  · have hc1 : c < 2147483648 :=
      calc c = c * 1 := (Nat.mul_one c).symm
        _ ≤ c * s := Nat.mul_le_mul_left _ hs
        _ < 2147483648 := h
    rw [intToU64_natCast (by omega), wrap64_of_lt (by omega), toInt32_of_lt h]
    norm_cast

/-- C15 (amended): without overflow `compute_capacity(cluster)` is the
base-1024 fixed-point product
`((1024 * efficiency / min_possible_efficiency) * (1024 * max_freq / min_max_freq)) >> 10`
taken with integer division, where `max_freq` is the cluster's maximum
frequency, and `compute_max_possible_capacity(cluster)` is the same expression
with the cluster's `max_possible_freq` in place of `max_freq`. -/
theorem compute_capacity_fixed_point (min_possible_efficiency min_max_freq : Nat)
    (cluster : Cluster)
    (_he : 0 < min_possible_efficiency) (_hf : 0 < min_max_freq)
    (h1 : 1024 * cluster.efficiency < 4294967296)
    (h2 : 1024 * cluster.max_freq < 4294967296)
    (h3 : 1024 * cluster.max_possible_freq < 4294967296)
    (h4 : 1024 * (1024 * cluster.efficiency / min_possible_efficiency) < 2147483648)
    (h5 : (1024 * cluster.efficiency / min_possible_efficiency)
      * (1024 * cluster.max_freq / min_max_freq) < 2147483648)
    (h6 : (1024 * cluster.efficiency / min_possible_efficiency)
      * (1024 * cluster.max_possible_freq / min_max_freq) < 2147483648) :
    compute_capacity min_possible_efficiency min_max_freq cluster
      = ((spec_fixed_point_capacity min_possible_efficiency min_max_freq
          cluster.efficiency cluster.max_freq : Nat) : Int) ∧
    compute_max_possible_capacity min_possible_efficiency min_max_freq cluster
      = ((spec_fixed_point_capacity min_possible_efficiency min_max_freq
          cluster.efficiency cluster.max_possible_freq : Nat) : Int) := by
  have hstep : capacity_scale 1024
      (capacity_scale_cpu_efficiency min_possible_efficiency cluster)
      = ((1024 * cluster.efficiency / min_possible_efficiency : Nat) : Int) := by
    unfold capacity_scale_cpu_efficiency
    rw [wrap32_of_lt h1]
    have := capacity_scale_eq 1024 (1024 * cluster.efficiency / min_possible_efficiency) h4
    rw [Nat.mul_div_cancel_left _ (by norm_num : 0 < 1024)] at this
    exact this
  unfold compute_capacity compute_max_possible_capacity spec_fixed_point_capacity
  simp only []
  rw [hstep]
  constructor
  · unfold capacity_scale_cpu_freq
    rw [wrap32_of_lt h2]
    exact capacity_scale_eq _ _ h5
  · rw [wrap32_of_lt h3]
    exact capacity_scale_eq _ _ h6

theorem compute_capacity_fixed_point_witness :
    compute_capacity 1 1000 c15_cluster = 1024 ∧
    compute_max_possible_capacity 1 1000 c15_cluster = 1024 ∧
    spec_fixed_point_capacity 1 1000 c15_cluster.efficiency c15_cluster.max_freq = 1024 :=
  have h := compute_capacity_fixed_point 1 1000 c15_cluster (by decide) (by decide)
    (by decide) (by decide) (by decide) (by decide) (by decide) (by decide)
  ⟨h.1.trans (by decide), h.2.trans (by decide), by decide⟩

/-- For a cluster running at 500 with a maximum frequency of 1000 the capacity
is computed from the maximum frequency (1024), not from the current frequency
(which would give 512). -/
theorem compute_capacity_ignores_cur_freq :
    c15_cluster.cur_freq = 500 ∧
    compute_capacity 1 1000 c15_cluster = 1024 ∧
    spec_fixed_point_capacity 1 1000 c15_cluster.efficiency c15_cluster.cur_freq = 512 ∧
    compute_capacity 1 1000 c15_cluster
      ≠ ((spec_fixed_point_capacity 1 1000 c15_cluster.efficiency c15_cluster.cur_freq : Nat)
          : Int) := by
  decide!

/-! ## Run-queue clock -/

theorem toInt64_sub64 {a b : Nat} (ha : a < 2305843009213693952)
    (hb : b < 2305843009213693952) : toInt64 (sub64 a b) = (a : Int) - (b : Int) := by
  unfold toInt64 sub64 wrap64
  split <;> split <;> omega

theorem toInt64_intToU64 {i : Int} (h1 : -9223372036854775808 ≤ i)
    (h2 : i < 9223372036854775808) : toInt64 (intToU64 i) = i := by
  unfold toInt64 intToU64
  split <;> omega

theorem wrap64_add_intToU64 {x : Nat} {i : Int} (h1 : -9223372036854775808 ≤ i)
    (h2 : i < 9223372036854775808) (h3 : 0 ≤ (x : Int) + i)
    (h4 : (x : Int) + i < 18446744073709551616) :
    ((wrap64 (x + intToU64 i) : Nat) : Int) = (x : Int) + i := by
  unfold wrap64 intToU64
  omega

theorem clock_task_irq_facts (e : ClockEnv) (rq : RqClock) (delta : Int)
    (hd0 : 0 ≤ delta) (hd1 : delta < 2305843009213693952)
    (hp : rq.prev_irq_time < 2305843009213693952)
    (hi : e.irq_time_read rq.cpu < 2305843009213693952) :
    (clock_task_irq e rq delta).1.clock = rq.clock ∧
    (clock_task_irq e rq delta).1.clock_task = rq.clock_task ∧
    (clock_task_irq e rq delta).1.cpu = rq.cpu ∧
    (clock_task_irq e rq delta).1.prev_steal_time_rq = rq.prev_steal_time_rq ∧
    0 ≤ (clock_task_irq e rq delta).2.1 ∧
    (clock_task_irq e rq delta).2.1 < 4611686018427387904 ∧
    ((e.CONFIG_IRQ_TIME_ACCOUNTING = true → rq.prev_irq_time ≤ e.irq_time_read rq.cpu) →
      (clock_task_irq e rq delta).2.1 ≤ delta) := by
  unfold clock_task_irq
  by_cases hc : e.CONFIG_IRQ_TIME_ACCOUNTING = true
  · rw [if_pos hc]
    dsimp only
    rw [toInt64_sub64 hi hp]
    refine ⟨rfl, rfl, rfl, rfl, ?_⟩
    split
    · rw [Int.sub_self]
      rw [toInt64_intToU64 (by norm_num) (by norm_num)]
      exact ⟨le_refl _, by norm_num, fun _ => hd0⟩
    · rw [toInt64_intToU64 (by omega) (by omega)]
      refine ⟨by omega, by omega, fun h => ?_⟩
      have := h hc
      omega
  · rw [if_neg hc]
    dsimp only
    exact ⟨rfl, rfl, rfl, rfl, hd0, by omega, fun _ => le_refl _⟩

theorem clock_task_steal_facts (e : ClockEnv) (rq : RqClock) (delta : Int)
    (hd0 : 0 ≤ delta) (hd1 : delta < 4611686018427387904)
    (hp : rq.prev_steal_time_rq < 2305843009213693952)
    (hi : e.paravirt_steal_clock rq.cpu < 2305843009213693952) :
    (clock_task_steal e rq delta).1.clock = rq.clock ∧
    (clock_task_steal e rq delta).1.clock_task = rq.clock_task ∧
    0 ≤ (clock_task_steal e rq delta).2.1 ∧
    (clock_task_steal e rq delta).2.1 < 9223372036854775808 ∧
    (((e.CONFIG_PARAVIRT_TIME_ACCOUNTING && e.paravirt_steal_rq_enabled) = true →
        rq.prev_steal_time_rq ≤ e.paravirt_steal_clock rq.cpu) →
      (clock_task_steal e rq delta).2.1 ≤ delta) := by
  unfold clock_task_steal
  by_cases hc : (e.CONFIG_PARAVIRT_TIME_ACCOUNTING && e.paravirt_steal_rq_enabled) = true
  · rw [if_pos hc]
    dsimp only
    rw [toInt64_sub64 hi hp]
    refine ⟨rfl, rfl, ?_⟩
    split
    · rw [Int.sub_self]
      rw [toInt64_intToU64 (by norm_num) (by norm_num)]
      exact ⟨le_refl _, by norm_num, fun _ => hd0⟩
    · rw [toInt64_intToU64 (by omega) (by omega)]
      refine ⟨by omega, by omega, fun h => ?_⟩
      have := h hc
      omega
  · rw [if_neg hc]
    dsimp only
    exact ⟨rfl, rfl, hd0, by omega, fun _ => le_refl _⟩

theorem update_rq_clock_task_facts (e : ClockEnv) (rq : RqClock) (delta : Int)
    (hhook : ∀ r d, (e.sched_rt_avg_update r d).clock = r.clock ∧
      (e.sched_rt_avg_update r d).clock_task = r.clock_task)
    (hd0 : 0 ≤ delta) (hd1 : delta < 2305843009213693952)
    (ht : rq.clock_task < 2305843009213693952)
    (hp : rq.prev_irq_time < 2305843009213693952)
    (hi : e.irq_time_read rq.cpu < 2305843009213693952)
    (hq : rq.prev_steal_time_rq < 2305843009213693952)
    (hs : e.paravirt_steal_clock rq.cpu < 2305843009213693952) :
    (update_rq_clock_task e rq delta).clock = rq.clock ∧
    rq.clock_task ≤ (update_rq_clock_task e rq delta).clock_task ∧
    ((e.CONFIG_IRQ_TIME_ACCOUNTING = true → rq.prev_irq_time ≤ e.irq_time_read rq.cpu) →
      ((e.CONFIG_PARAVIRT_TIME_ACCOUNTING && e.paravirt_steal_rq_enabled) = true →
        rq.prev_steal_time_rq ≤ e.paravirt_steal_clock rq.cpu) →
      (((update_rq_clock_task e rq delta).clock_task : Nat) : Int)
        ≤ (rq.clock_task : Int) + delta) := by
  obtain ⟨a1, a2, a3, a4, a5, a6, a7⟩ := clock_task_irq_facts e rq delta hd0 hd1 hp hi
  obtain ⟨b1, b2, b3, b4, b5⟩ := clock_task_steal_facts e (clock_task_irq e rq delta).1
    (clock_task_irq e rq delta).2.1 a5 a6 (by rw [a4]; exact hq) (by rw [a3]; exact hs)
  have hw := wrap64_add_intToU64
    (x := (clock_task_steal e (clock_task_irq e rq delta).1 (clock_task_irq e rq delta).2.1).1.clock_task)
    (i := (clock_task_steal e (clock_task_irq e rq delta).1 (clock_task_irq e rq delta).2.1).2.1)
    (by omega) b4 (by omega) (by rw [b2, a2]; omega)
  rw [b2, a2] at hw
  have key : (update_rq_clock_task e rq delta).clock = rq.clock ∧
      (((update_rq_clock_task e rq delta).clock_task : Nat) : Int) = (rq.clock_task : Int) +
        (clock_task_steal e (clock_task_irq e rq delta).1 (clock_task_irq e rq delta).2.1).2.1 := by
    unfold update_rq_clock_task
    dsimp only
    split
    · rw [(hhook _ _).1, (hhook _ _).2]
      dsimp only
      rw [b2, a2] 
      exact ⟨b1.trans a1, hw⟩
    · dsimp only
      rw [b2, a2]
      exact ⟨b1.trans a1, hw⟩
  refine ⟨key.1, by omega, fun h1 h2 => ?_⟩
  have := a7 h1
  have := b5 (by rw [a4, a3]; exact h2)
  omega

/-- C18 (amended): with all clock values below `2^61` and a
`sched_rt_avg_update` that leaves the two clocks alone, `update_rq_clock`
leaves the queue unchanged when `skip_clock_update > 0` and when the clock
source reads earlier than `rq->clock`, never decreases `rq->clock` or
`rq->clock_task`, and advances `rq->clock_task` by no more than `rq->clock`
provided the interrupt-time and steal-time readings are not behind the values
recorded in the queue (`prev_irq_time`, `prev_steal_time_rq`). -/
theorem update_rq_clock_monotone (e : ClockEnv) (rq : RqClock)
    (hhook : ∀ r d, (e.sched_rt_avg_update r d).clock = r.clock ∧
      (e.sched_rt_avg_update r d).clock_task = r.clock_task)
    (hc : rq.clock < 2305843009213693952)
    (hr : e.sched_clock_cpu rq.cpu < 2305843009213693952)
    (ht : rq.clock_task < 2305843009213693952)
    (hp : rq.prev_irq_time < 2305843009213693952)
    (hi : e.irq_time_read rq.cpu < 2305843009213693952)
    (hq : rq.prev_steal_time_rq < 2305843009213693952)
    (hs : e.paravirt_steal_clock rq.cpu < 2305843009213693952) :
    (rq.skip_clock_update > 0 → update_rq_clock e rq = rq) ∧
    (e.sched_clock_cpu rq.cpu < rq.clock → update_rq_clock e rq = rq) ∧
    rq.clock ≤ (update_rq_clock e rq).clock ∧
    rq.clock_task ≤ (update_rq_clock e rq).clock_task ∧
    ((e.CONFIG_IRQ_TIME_ACCOUNTING = true → rq.prev_irq_time ≤ e.irq_time_read rq.cpu) →
      ((e.CONFIG_PARAVIRT_TIME_ACCOUNTING && e.paravirt_steal_rq_enabled) = true →
        rq.prev_steal_time_rq ≤ e.paravirt_steal_clock rq.cpu) →
      (update_rq_clock e rq).clock_task - rq.clock_task
        ≤ (update_rq_clock e rq).clock - rq.clock) := by
  have hdelta := toInt64_sub64 hr hc
  refine ⟨fun h => ?_, fun h => ?_, ?_⟩
  · unfold update_rq_clock
    rw [if_pos h]
  · unfold update_rq_clock
    dsimp only
    rw [hdelta]
    split
    · rfl
    · rw [if_pos (by omega)]
  · unfold update_rq_clock
    dsimp only
    rw [hdelta]
    split
    · exact ⟨le_refl _, le_refl _, fun _ _ => by omega⟩
    · split
      · exact ⟨le_refl _, le_refl _, fun _ _ => by omega⟩
      · rename_i hneg
        have hclk := wrap64_add_intToU64 (x := rq.clock)
          (i := (e.sched_clock_cpu rq.cpu : Int) - (rq.clock : Int))
          (by omega) (by omega) (by omega) (by omega)
        obtain ⟨f1, f2, f3⟩ := update_rq_clock_task_facts e
          { rq with clock := wrap64 (rq.clock + intToU64
              ((e.sched_clock_cpu rq.cpu : Int) - (rq.clock : Int))) }
          ((e.sched_clock_cpu rq.cpu : Int) - (rq.clock : Int))
          hhook (by omega) (by omega) ht hp hi hq hs
        rw [f1]
        dsimp only at f2 f3 ⊢
        refine ⟨by omega, f2, fun h1 h2 => ?_⟩
        have := f3 h1 h2
        omega

theorem update_rq_clock_monotone_witness :
    update_rq_clock c18_env c18w_rq
      = { c18w_rq with clock := 110, clock_task := 105, prev_irq_time := 20 } ∧
    c18w_rq.clock ≤ (update_rq_clock c18_env c18w_rq).clock ∧
    c18w_rq.clock_task ≤ (update_rq_clock c18_env c18w_rq).clock_task ∧
    (update_rq_clock c18_env c18w_rq).clock_task - c18w_rq.clock_task
      ≤ (update_rq_clock c18_env c18w_rq).clock - c18w_rq.clock :=
  have h := update_rq_clock_monotone c18_env c18w_rq (fun _ _ => ⟨rfl, rfl⟩)
    (by decide) (by decide) (by decide) (by decide) (by decide) (by decide) (by decide)
  ⟨by decide!, h.2.2.1, h.2.2.2.1, h.2.2.2.2 (fun _ => by decide) (fun _ => by decide)⟩

/-- With interrupt time accounting on and a recorded interrupt time (50)
ahead of the reading (20), a clock advance of 10 advances `clock_task` by 40. -/
theorem update_rq_clock_task_outruns_clock :
    (update_rq_clock c18_env c18_rq).clock = c18_rq.clock + 10 ∧
    (update_rq_clock c18_env c18_rq).clock_task = c18_rq.clock_task + 40 ∧
    ¬ ((update_rq_clock c18_env c18_rq).clock_task - c18_rq.clock_task
        ≤ (update_rq_clock c18_env c18_rq).clock - c18_rq.clock) := by
  decide!

/-! ## Window length -/

/-- A window shorter than `MIN_SCHED_RAVG_WINDOW`, or any window while PELT
is in use, is rejected with `-EINVAL` and nothing is written. -/
theorem sched_set_window_rejects (e : CpuEnv) (s : WindowSysctl) (reset_cpu_hmp_stats : Rq → Rq)
    (c : WindowClock) (fuel : Nat) (g : Globals) (w : World) (window_start window_size : Nat)
    (h : g.sched_use_pelt = true ∨ window_size * c.TICK_NSEC < MIN_SCHED_RAVG_WINDOW) :
    sched_set_window e s reset_cpu_hmp_stats c fuel g w window_start window_size
      = some (-EINVAL, g, w) := by
  unfold sched_set_window
  rw [if_pos]
  rcases h with h | h
  · simp [h]
  · simp [h]

/-- C14: evaluation at a window of 200 ticks of 10 ms, which is 2000 ms and
above `MAX_SCHED_RAVG_WINDOW`: `sched_set_window` returns 0 and sets
`sched_ravg_window` to 2000000000, while the boot-parameter path
`set_sched_ravg_window` turns window statistics off for the same length. -/
theorem sched_set_window_accepts_long_window :
    200 * c14_clock.TICK_NSEC = 2000000000 ∧
    MAX_SCHED_RAVG_WINDOW < 2000000000 ∧
    demo_globals.sched_use_pelt = false ∧
    (sched_set_window c7_env {} id c14_clock 1 demo_globals wake_world 1000 200).map
        (fun r => (r.1, r.2.1.sched_ravg_window)) = some (0, 2000000000) ∧
    (set_sched_ravg_window demo_globals 2000000000).sched_use_pelt = true := by
  decide!

/-! ## Deadline bandwidth admission -/

theorem to_ratio_eq (period runtime : Nat) (hp : period ≠ 0)
    (hr : runtime * 1048576 < 18446744073709551616) :
    to_ratio period runtime = runtime * 1048576 / period := by
  unfold to_ratio RUNTIME_INF
  have h1 : (runtime == 18446744073709551615) = false := by
    simp only [beq_eq_false_iff_ne, ne_eq]
    omega
  have h2 : (period == 0) = false := by simpa using hp
  rw [h1, h2, wrap64_of_lt hr]
  simp

theorem dl_overflow_test (dl_b : DlBw) (cpus old_bw new_bw : Nat)
    (hold : old_bw ≤ dl_b.total_bw) (htot : dl_b.total_bw < 18446744073709551616)
    (ht : dl_b.total_bw - old_bw + new_bw < 18446744073709551616)
    (hbw : dl_b.bw = 18446744073709551615 ∨ dl_b.bw * cpus < 18446744073709551616) :
    __dl_overflow dl_b cpus old_bw new_bw = false ↔
      (dl_b.bw = 18446744073709551615 ∨
        dl_b.total_bw - old_bw + new_bw ≤ dl_b.bw * cpus) := by
  unfold __dl_overflow
  rw [sub64_of_le hold htot, wrap64_of_lt ht]
  by_cases hb : dl_b.bw = 18446744073709551615
  · simp [hb]
  · have hb2 : dl_b.bw * cpus < 18446744073709551616 := by
      rcases hbw with h | h
      · exact absurd h hb
      · exact h
    rw [wrap64_of_lt hb2]
    simp [hb]

/-- C12 (amended): for a request for the deadline policy, `new_bw` is
`floor(runtime * 2^20 / period)`; when `new_bw` differs from the bandwidth
recorded in the task, `dl_overflow` returns 0 exactly if the domain is
unlimited (`bw == -1`) or `bw * cpus >= total_bw + new_bw` for a task outside
the deadline policy, and then `total_bw` grows by `new_bw`; for a task in the
deadline policy the same holds with the task's old bandwidth subtracted first;
when it returns non-zero the domain is unchanged.  When `new_bw` equals the
bandwidth of a task in the deadline policy the call returns 0 and the domain is
unchanged. -/
theorem dl_overflow_admission (dl_b : DlBw) (cpus : Nat) (p : PolicyTask) (attr : SchedAttr)
    (hper : dl_overflow_period attr ≠ 0)
    (hrun : attr.sched_runtime * 1048576 < 18446744073709551616)
    (htot : dl_b.total_bw < 18446744073709551616)
    (hbw : dl_b.bw = 18446744073709551615 ∨ dl_b.bw * cpus < 18446744073709551616) :
    dl_overflow_new_bw SCHED_DEADLINE attr
      = attr.sched_runtime * 1048576 / dl_overflow_period attr ∧
    (task_has_dl_policy p = false →
      dl_overflow_new_bw SCHED_DEADLINE attr ≠ p.dl.dl_bw →
      dl_b.total_bw + dl_overflow_new_bw SCHED_DEADLINE attr < 18446744073709551616 →
      ((dl_overflow dl_b cpus p SCHED_DEADLINE attr).1 = 0 ↔
        (dl_b.bw = 18446744073709551615 ∨
          dl_b.total_bw + dl_overflow_new_bw SCHED_DEADLINE attr ≤ dl_b.bw * cpus)) ∧
      ((dl_overflow dl_b cpus p SCHED_DEADLINE attr).1 = 0 →
        (dl_overflow dl_b cpus p SCHED_DEADLINE attr).2 =
          { dl_b with total_bw := dl_b.total_bw + dl_overflow_new_bw SCHED_DEADLINE attr }) ∧
      ((dl_overflow dl_b cpus p SCHED_DEADLINE attr).1 ≠ 0 →
        (dl_overflow dl_b cpus p SCHED_DEADLINE attr).2 = dl_b)) ∧
    (task_has_dl_policy p = true →
      dl_overflow_new_bw SCHED_DEADLINE attr ≠ p.dl.dl_bw →
      p.dl.dl_bw ≤ dl_b.total_bw →
      dl_b.total_bw - p.dl.dl_bw + dl_overflow_new_bw SCHED_DEADLINE attr
        < 18446744073709551616 →
      ((dl_overflow dl_b cpus p SCHED_DEADLINE attr).1 = 0 ↔
        (dl_b.bw = 18446744073709551615 ∨
          dl_b.total_bw - p.dl.dl_bw + dl_overflow_new_bw SCHED_DEADLINE attr
            ≤ dl_b.bw * cpus)) ∧
      ((dl_overflow dl_b cpus p SCHED_DEADLINE attr).1 = 0 →
        (dl_overflow dl_b cpus p SCHED_DEADLINE attr).2 =
          { dl_b with total_bw :=
              dl_b.total_bw - p.dl.dl_bw + dl_overflow_new_bw SCHED_DEADLINE attr }) ∧
      ((dl_overflow dl_b cpus p SCHED_DEADLINE attr).1 ≠ 0 →
        (dl_overflow dl_b cpus p SCHED_DEADLINE attr).2 = dl_b)) ∧
    (task_has_dl_policy p = true →
      dl_overflow_new_bw SCHED_DEADLINE attr = p.dl.dl_bw →
      dl_overflow dl_b cpus p SCHED_DEADLINE attr = (0, dl_b)) := by
  have hdl : dl_policy SCHED_DEADLINE = true := by decide
  refine ⟨?_, fun hnd hne hsum => ?_, fun hd hne hold hsum => ?_, fun _ heq => ?_⟩
  · unfold dl_overflow_new_bw
    rw [hdl, if_pos rfl]
    exact to_ratio_eq _ _ hper hrun
  · have ht := dl_overflow_test dl_b cpus 0 (dl_overflow_new_bw SCHED_DEADLINE attr)
      (Nat.zero_le _) htot (by omega) hbw
    rw [Nat.sub_zero] at ht
    have hne' : (dl_overflow_new_bw SCHED_DEADLINE attr == p.dl.dl_bw) = false := by
      simpa using hne
    unfold dl_overflow
    simp only [hne', hdl, hnd, Bool.false_eq_true, if_false, Bool.not_false, Bool.true_and,
      Bool.not_true, Bool.and_false, Bool.false_and]
    by_cases ho : __dl_overflow dl_b cpus 0 (dl_overflow_new_bw SCHED_DEADLINE attr) = false
    · simp only [ho, Bool.not_false, if_true]
      refine ⟨⟨fun _ => ht.mp ho, fun _ => trivial⟩, fun _ => ?_, fun h => absurd rfl h⟩
      unfold __dl_add
      rw [wrap64_of_lt hsum]
    · have ho' : __dl_overflow dl_b cpus 0 (dl_overflow_new_bw SCHED_DEADLINE attr) = true := by
        simpa using ho
      simp only [ho', Bool.not_true, Bool.false_eq_true, if_false]
      refine ⟨⟨fun h => absurd h (by decide), fun h => absurd (ht.mpr h) ho⟩,
        fun h => absurd h (by decide), fun _ => trivial⟩
  · have ht := dl_overflow_test dl_b cpus p.dl.dl_bw (dl_overflow_new_bw SCHED_DEADLINE attr)
      hold htot hsum hbw
    have hne' : (dl_overflow_new_bw SCHED_DEADLINE attr == p.dl.dl_bw) = false := by
      simpa using hne
    unfold dl_overflow
    simp only [hne', hdl, hd, Bool.false_eq_true, if_false, Bool.not_false, Bool.true_and,
      Bool.not_true, Bool.and_false, Bool.false_and]
    by_cases ho : __dl_overflow dl_b cpus p.dl.dl_bw
        (dl_overflow_new_bw SCHED_DEADLINE attr) = false
    · simp only [ho, Bool.not_false, if_true]
      refine ⟨⟨fun _ => ht.mp ho, fun _ => trivial⟩, fun _ => ?_, fun h => absurd rfl h⟩
      unfold __dl_add __dl_clear
      dsimp only
      rw [sub64_of_le hold htot, wrap64_of_lt hsum]
    · have ho' : __dl_overflow dl_b cpus p.dl.dl_bw
          (dl_overflow_new_bw SCHED_DEADLINE attr) = true := by
        simpa using ho
      simp only [ho', Bool.not_true, Bool.false_eq_true, if_false]
      refine ⟨⟨fun h => absurd h (by decide), fun h => absurd (ht.mpr h) ho⟩,
        fun h => absurd h (by decide), fun _ => trivial⟩
  · unfold dl_overflow
    simp [heq]

theorem dl_overflow_admission_witness :
    dl_overflow_new_bw SCHED_DEADLINE c12_attr = 524288 ∧
    dl_overflow c12_domain 1 c12_task SCHED_DEADLINE c12_attr
      = (0, { c12_domain with total_bw := 524288 }) ∧
    ((dl_overflow c12_small_domain 1 c12_task SCHED_DEADLINE c12_attr).1 ≠ 0 ∧
      (dl_overflow c12_small_domain 1 c12_task SCHED_DEADLINE c12_attr).2 = c12_small_domain) :=
  have h := dl_overflow_admission c12_domain 1 c12_task c12_attr (by decide) (by decide)
    (by decide) (Or.inr (by decide))
  have h2 := dl_overflow_admission c12_small_domain 1 c12_task c12_attr (by decide) (by decide)
    (by decide) (Or.inr (by decide))
  have a := h.2.1 (by decide) (by decide!) (by decide!)
  have b := h2.2.1 (by decide) (by decide!) (by decide!)
  have hz : (dl_overflow c12_domain 1 c12_task SCHED_DEADLINE c12_attr).1 = 0 :=
    a.1.mpr (Or.inr (by decide!))
  have hn : (dl_overflow c12_small_domain 1 c12_task SCHED_DEADLINE c12_attr).1 ≠ 0 :=
    fun hh => absurd (b.1.mp hh) (by decide!)
  ⟨h.1.trans (by decide), Prod.ext hz ((a.2.1 hz).trans (by decide!)), hn, b.2.2 hn⟩

/-- A task in the deadline policy that asks again for the bandwidth it holds
is let through at once, whatever the state of the domain: here the domain
allows a tenth of a processor and holds half of one. -/
theorem dl_overflow_same_bandwidth_unchecked :
    task_has_dl_policy c12_dl_task = true ∧
    dl_overflow_new_bw SCHED_DEADLINE c12_attr = 524288 ∧
    c12_dl_task.dl.dl_bw = 524288 ∧
    (dl_overflow c12_small_domain 1 c12_dl_task SCHED_DEADLINE c12_attr).1 = 0 ∧
    ¬ (c12_small_domain.bw = 18446744073709551615 ∨
        c12_small_domain.total_bw - c12_dl_task.dl.dl_bw
            + dl_overflow_new_bw SCHED_DEADLINE c12_attr
          ≤ c12_small_domain.bw * 1) := by
  decide!

/-- A task outside the deadline policy that carries the bandwidth it asks
for is let through at once and the domain's `total_bw` is not raised. -/
theorem dl_overflow_stale_bandwidth :
    task_has_dl_policy c12_stale_task = false ∧
    dl_overflow c12_domain 1 c12_stale_task SCHED_DEADLINE c12_attr = (0, c12_domain) ∧
    dl_overflow c12_small_domain 1 c12_stale_task SCHED_DEADLINE c12_attr
      = (0, c12_small_domain) := by
  decide!

/-! ## `__sched_setscheduler` -/

theorem dl_overflow_rejected (dl_b : DlBw) (cpus : Nat) (p : PolicyTask) (policy : Int)
    (attr : SchedAttr) (h : (dl_overflow dl_b cpus p policy attr).1 ≠ 0) :
    (dl_overflow dl_b cpus p policy attr).2 = dl_b := by
  unfold dl_overflow at h ⊢
  dsimp only at h ⊢
  split_ifs at h ⊢ <;> first | rfl | exact absurd rfl h

theorem setscheduler_policy_old (p : PolicyTask) (attr : SchedAttr) (policy : Int)
    (q o : Int) (r : Bool) (h : setscheduler_policy p attr policy (-1) = some (q, o, r)) :
    o = -1 ∨ o = p.policy := by
  unfold setscheduler_policy at h
  split_ifs at h
  · simp only [Option.some.injEq, Prod.mk.injEq] at h
    exact Or.inr h.2.1.symm
  · simp only [Option.some.injEq, Prod.mk.injEq] at h
    exact Or.inl h.2.1.symm

theorem __sched_setscheduler_admission_rejected (env : PolicyEnv) (p : PolicyTask) (dl_b : DlBw)
    (attr : SchedAttr) (policy : Int)
    (h : (__sched_setscheduler_admission env p dl_b attr policy).1 ≠ 0) :
    (__sched_setscheduler_admission env p dl_b attr policy).2 = dl_b := by
  unfold __sched_setscheduler_admission at h ⊢
  split at h
  · rename_i c
    rw [if_pos c]
    exact dl_overflow_rejected _ _ _ _ _ h
  · rename_i c
    rw [if_neg c]

theorem __sched_setscheduler_commit_cases (env : PolicyEnv) (p : PolicyTask) (dl_b : DlBw)
    (attr : SchedAttr) (policy : Int) (reset_on_fork : Bool) :
    __sched_setscheduler_commit env p dl_b attr policy reset_on_fork
      = SetschedulerPass.done (-EBUSY) p dl_b ∨
    ∃ p1 dl_b1, __sched_setscheduler_commit env p dl_b attr policy reset_on_fork
      = SetschedulerPass.done 0 p1 dl_b1 := by
  unfold __sched_setscheduler_commit
  dsimp only
  by_cases c : ((__sched_setscheduler_admission env p dl_b attr policy).1 != 0) = true
  · rw [if_pos c]
    left
    rw [__sched_setscheduler_admission_rejected env p dl_b attr policy (by simpa using c)]
  · rw [if_neg c]
    right
    split_ifs <;> exact ⟨_, _, rfl⟩

theorem __sched_setscheduler_commit_rejected (env : PolicyEnv) (p : PolicyTask) (dl_b : DlBw)
    (attr : SchedAttr) (policy ret : Int) (reset_on_fork : Bool) (p1 : PolicyTask)
    (dl_b1 : DlBw)
    (h : __sched_setscheduler_commit env p dl_b attr policy reset_on_fork
      = SetschedulerPass.done ret p1 dl_b1) (hret : ret ≠ 0) :
    p1 = p ∧ dl_b1 = dl_b := by
  rcases __sched_setscheduler_commit_cases env p dl_b attr policy reset_on_fork with e | ⟨q, d, e⟩
  · rw [e] at h
    injection h with h1 h2 h3
    exact ⟨h2.symm, h3.symm⟩
  · rw [e] at h
    injection h with h1 h2 h3
    exact absurd h1.symm hret

theorem __sched_setscheduler_locked_rejected (env : PolicyEnv) (p : PolicyTask) (dl_b : DlBw)
    (attr : SchedAttr) (user : Bool) (policy oldpolicy ret : Int) (reset_on_fork : Bool)
    (p1 : PolicyTask) (dl_b1 : DlBw)
    (h : __sched_setscheduler_locked env p dl_b attr user policy oldpolicy reset_on_fork
      = SetschedulerPass.done ret p1 dl_b1) (hret : ret ≠ 0) :
    p1 = p ∧ dl_b1 = dl_b := by
  unfold __sched_setscheduler_locked at h
  split at h
  · injection h with h1 h2 h3
    exact ⟨h2.symm, h3.symm⟩
  · split at h
    · injection h with h1 h2 h3
      exact absurd h1.symm hret
    · split at h
      · injection h with h1 h2 h3
        exact ⟨h2.symm, h3.symm⟩
      · split at h
        · exact SetschedulerPass.noConfusion h
        · exact __sched_setscheduler_commit_rejected env p dl_b attr policy ret reset_on_fork
            p1 dl_b1 h hret

theorem __sched_setscheduler_pass_rejected (env : PolicyEnv) (p : PolicyTask) (dl_b : DlBw)
    (attr : SchedAttr) (user : Bool) (policy oldpolicy ret : Int) (p1 : PolicyTask)
    (dl_b1 : DlBw)
    (h : __sched_setscheduler_pass env p dl_b attr user policy oldpolicy
      = SetschedulerPass.done ret p1 dl_b1) (hret : ret ≠ 0) :
    p1 = p ∧ dl_b1 = dl_b := by
  unfold __sched_setscheduler_pass at h
  split at h
  · injection h with h1 h2 h3
    exact ⟨h2.symm, h3.symm⟩
  · split at h
    · injection h with h1 h2 h3
      exact ⟨h2.symm, h3.symm⟩
    · split at h
      · injection h with h1 h2 h3
        exact ⟨h2.symm, h3.symm⟩
      · split at h
        · injection h with h1 h2 h3
          exact ⟨h2.symm, h3.symm⟩
        · exact __sched_setscheduler_locked_rejected env p dl_b attr user _ _ ret _ p1 dl_b1
            h hret

theorem __sched_setscheduler_loop_rejected (env : PolicyEnv) (p : PolicyTask) (dl_b : DlBw)
    (attr : SchedAttr) (user : Bool) :
    ∀ (fuel : Nat) (policy oldpolicy ret : Int) (p1 : PolicyTask) (dl_b1 : DlBw),
      __sched_setscheduler_loop env p dl_b attr user fuel policy oldpolicy
        = some (ret, p1, dl_b1) → ret ≠ 0 → p1 = p ∧ dl_b1 = dl_b := by
  intro fuel
  induction fuel with
  | zero =>
    intro policy oldpolicy ret p1 dl_b1 h
    exact absurd h (by simp [__sched_setscheduler_loop])
  | succ n ih =>
    intro policy oldpolicy ret p1 dl_b1 h hret
    unfold __sched_setscheduler_loop at h
    split at h
    · rename_i r q d e
      simp only [Option.some.injEq, Prod.mk.injEq] at h
      obtain ⟨h1, h2, h3⟩ := h
      subst h1 h2 h3
      exact __sched_setscheduler_pass_rejected env p dl_b attr user policy oldpolicy _ _ _ e hret
    · exact ih _ _ _ _ _ h hret

/-- In a run without interference the test that sends `__sched_setscheduler`
back to `recheck` never succeeds: the first pass ends the call. -/
theorem __sched_setscheduler_pass_done (env : PolicyEnv) (p : PolicyTask) (dl_b : DlBw)
    (attr : SchedAttr) (user : Bool) (policy : Int) :
    __sched_setscheduler_pass env p dl_b attr user policy (-1) ≠ SetschedulerPass.recheck := by
  intro h
  unfold __sched_setscheduler_pass at h
  split at h
  · exact SetschedulerPass.noConfusion h
  · rename_i q o r e
    have ho := setscheduler_policy_old p attr policy q o r e
    split at h
    · exact SetschedulerPass.noConfusion h
    · split at h
      · exact SetschedulerPass.noConfusion h
      · split at h
        · exact SetschedulerPass.noConfusion h
        · unfold __sched_setscheduler_locked at h
          split at h
          · exact SetschedulerPass.noConfusion h
          · split at h
            · exact SetschedulerPass.noConfusion h
            · split at h
              · exact SetschedulerPass.noConfusion h
              · split at h
                · rename_i c
                  rcases ho with ho | ho
                  · subst ho
                    simp at c
                  · subst ho
                    simp at c
                · rcases __sched_setscheduler_commit_cases env p dl_b attr q r with e | ⟨_, _, e⟩
                  · rw [e] at h
                    exact SetschedulerPass.noConfusion h
                  · rw [e] at h
                    exact SetschedulerPass.noConfusion h


/-- C11: a rejected scheduling-policy change mutates nothing.  A call of
`__sched_setscheduler` outside interrupt context returns after one pass, and
whenever the value returned is not zero (`-EINVAL`, `-EPERM`, `-EBUSY` or the
error of the security hook) the task (policy, the three priorities,
`rt_priority`, deadline parameters, class, reset-on-fork flag) and the
deadline bandwidth of its root domain are the ones before the call. -/
theorem __sched_setscheduler_rejected_unchanged (env : PolicyEnv) (p : PolicyTask)
    (dl_b : DlBw) (attr : SchedAttr) (user : Bool) (hi : env.in_interrupt = false) :
    (∃ r, __sched_setscheduler env p dl_b attr user 1 = some r) ∧
    ∀ (fuel : Nat) (ret : Int) (p1 : PolicyTask) (dl_b1 : DlBw),
      __sched_setscheduler env p dl_b attr user fuel = some (ret, p1, dl_b1) → ret ≠ 0 →
      p1 = p ∧ dl_b1 = dl_b := by
  constructor
  · unfold __sched_setscheduler
    rw [hi]
    simp only [Bool.false_eq_true, if_false]
    unfold __sched_setscheduler_loop
    have hd := __sched_setscheduler_pass_done env p dl_b attr user attr.sched_policy
    cases e : __sched_setscheduler_pass env p dl_b attr user attr.sched_policy (-1) with
    | done ret q d => exact ⟨_, rfl⟩
    | recheck => exact absurd e hd
  · intro fuel ret p1 dl_b1 h hret
    unfold __sched_setscheduler at h
    rw [hi] at h
    simp only [Bool.false_eq_true, if_false] at h
    exact __sched_setscheduler_loop_rejected env p dl_b attr user fuel _ _ ret p1 dl_b1 h hret

/-- A caller without `CAP_SYS_NICE` and without a realtime limit asks for
`SCHED_FIFO`: the call returns `-EPERM` and the task is as before. -/
theorem __sched_setscheduler_rejected_unchanged_witness :
    c11_env.in_interrupt = false ∧
    __sched_setscheduler c11_env c11_task {} c11_fifo_attr true 1
      = some (-EPERM, c11_task, {}) ∧
    ((∃ r, __sched_setscheduler c11_env c11_task {} c11_fifo_attr true 1 = some r) ∧
    ∀ (fuel : Nat) (ret : Int) (p1 : PolicyTask) (dl_b1 : DlBw),
      __sched_setscheduler c11_env c11_task {} c11_fifo_attr true fuel = some (ret, p1, dl_b1) →
      ret ≠ 0 → p1 = c11_task ∧ dl_b1 = {}) :=
  ⟨rfl, by decide!,
    __sched_setscheduler_rejected_unchanged c11_env c11_task {} c11_fifo_attr true rfl⟩


/-! ## Cluster order -/

theorem list_sort_insert_perm {α : Type} (cmp : α → α → Int) (a : α) :
    ∀ l : List α, (list_sort_insert cmp a l).Perm (a :: l)
  | [] => List.Perm.refl _
  | b :: l => by
    unfold list_sort_insert
    split
    · exact ((list_sort_insert_perm cmp a l).cons b).trans (List.Perm.swap a b l)
    · exact List.Perm.refl _

theorem list_sort_perm {α : Type} (cmp : α → α → Int) :
    ∀ l : List α, (list_sort cmp l).Perm l
  | [] => List.Perm.refl _
  | a :: l => by
    unfold list_sort
    exact (list_sort_insert_perm cmp a _).trans ((list_sort_perm cmp l).cons a)

theorem list_sort_insert_sorted {α : Type} (cmp : α → α → Int)
    (htotal : ∀ a b, cmp a b > 0 → ¬ cmp b a > 0)
    (htrans : ∀ a b c, ¬ cmp a b > 0 → ¬ cmp b c > 0 → ¬ cmp a c > 0) (a : α) :
    ∀ l : List α, l.Pairwise (fun x y => ¬ cmp x y > 0) →
      (list_sort_insert cmp a l).Pairwise (fun x y => ¬ cmp x y > 0)
  | [], _ => by simp [list_sort_insert]
  | b :: l, h => by
    unfold list_sort_insert
    rw [List.pairwise_cons] at h
    split
    · rename_i c
      rw [List.pairwise_cons]
      refine ⟨fun x hx => ?_, list_sort_insert_sorted cmp htotal htrans a l h.2⟩
      rcases (List.mem_cons.mp ((list_sort_insert_perm cmp a l).subset hx)) with e | e
      · rw [e]
        exact htotal a b c
      · exact h.1 x e
    · rename_i c
      rw [List.pairwise_cons, List.pairwise_cons]
      refine ⟨fun x hx => ?_, h.1, h.2⟩
      rcases List.mem_cons.mp hx with e | e
      · rw [e]
        exact c
      · exact htrans a b x c (h.1 x e)

theorem list_sort_sorted {α : Type} (cmp : α → α → Int)
    (htotal : ∀ a b, cmp a b > 0 → ¬ cmp b a > 0)
    (htrans : ∀ a b c, ¬ cmp a b > 0 → ¬ cmp b c > 0 → ¬ cmp a c > 0) :
    ∀ l : List α, (list_sort cmp l).Pairwise (fun x y => ¬ cmp x y > 0)
  | [] => List.Pairwise.nil
  | a :: l => by
    unfold list_sort
    exact list_sort_insert_sorted cmp htotal htrans a _ (list_sort_sorted cmp htotal htrans l)

theorem list_sort_insert_filter {α : Type} (cmp : α → α → Int) (P : α → Bool)
    (hP : ∀ a b, cmp a b > 0 → P a = true → P b = true → False) (a : α) :
    ∀ l : List α, (list_sort_insert cmp a l).filter P = (a :: l).filter P
  | [] => rfl
  | b :: l => by
    unfold list_sort_insert
    split
    · rename_i c
      rw [List.filter_cons, list_sort_insert_filter cmp P hP a l]
      cases ha : P a <;> cases hb : P b
      · simp [List.filter_cons, ha, hb]
      · simp [List.filter_cons, ha, hb]
      · simp [List.filter_cons, ha, hb]
      · exact absurd (hP a b c ha hb) id
    · rfl

theorem list_sort_filter {α : Type} (cmp : α → α → Int) (P : α → Bool)
    (hP : ∀ a b, cmp a b > 0 → P a = true → P b = true → False) :
    ∀ l : List α, (list_sort cmp l).filter P = l.filter P
  | [] => rfl
  | a :: l => by
    unfold list_sort
    rw [list_sort_insert_filter cmp P hP, List.filter_cons, List.filter_cons,
      list_sort_filter cmp P hP l]

theorem compare_clusters_pos (a b : Cluster) :
    compare_clusters a b > 0 ↔
      (a.max_power_cost > b.max_power_cost ∨
        (a.max_power_cost = b.max_power_cost ∧
          a.max_possible_capacity < b.max_possible_capacity)) := by
  unfold compare_clusters
  split
  · rename_i c
    simp only [Bool.or_eq_true, Bool.and_eq_true, decide_eq_true_eq, beq_iff_eq] at c
    simp [c]
  · rename_i c
    simp only [Bool.or_eq_true, Bool.and_eq_true, decide_eq_true_eq, beq_iff_eq] at c
    simp [c]

theorem compare_clusters_ne_zero (a b : Cluster) :
    compare_clusters a b ≠ 0 ↔ compare_clusters a b > 0 := by
  unfold compare_clusters
  split <;> simp


theorem assign_cluster_ids_loop_below :
    ∀ (l : List Cluster) (pos : Nat) (tbl : Nat → Option Cluster) (j : Nat), j < pos →
      (assign_cluster_ids_loop l pos tbl).2 j = tbl j
  | [], _, _, _, _ => rfl
  | c :: l, pos, tbl, j, h => by
    unfold assign_cluster_ids_loop
    dsimp only
    rw [assign_cluster_ids_loop_below l (pos + 1) _ j (by omega)]
    exact Function.update_noteq (by omega) _ _

theorem assign_cluster_ids_loop_at :
    ∀ (l : List Cluster) (pos : Nat) (tbl : Nat → Option Cluster) (i : Nat) (c : Cluster),
      (assign_cluster_ids_loop l pos tbl).1[i]? = some c →
      c.id = pos + i ∧ (assign_cluster_ids_loop l pos tbl).2 (pos + i) = some c
  | [], _, _, i, c, h => by simp [assign_cluster_ids_loop] at h
  | a :: l, pos, tbl, 0, c, h => by
    unfold assign_cluster_ids_loop at h ⊢
    dsimp only at h ⊢
    simp only [List.getElem?_cons_zero, Option.some.injEq] at h
    rw [← h]
    refine ⟨rfl, ?_⟩
    show (assign_cluster_ids_loop l (pos + 1) _).2 pos = _
    rw [assign_cluster_ids_loop_below l (pos + 1) _ pos (by omega)]
    exact Function.update_same _ _ _
  | a :: l, pos, tbl, i + 1, c, h => by
    unfold assign_cluster_ids_loop at h ⊢
    dsimp only at h ⊢
    simp only [List.getElem?_cons_succ] at h
    have ih := assign_cluster_ids_loop_at l (pos + 1) _ i c h
    have e : pos + (i + 1) = pos + 1 + i := by omega
    rw [e]
    exact ih

theorem assign_cluster_ids_loop_erase :
    ∀ (l : List Cluster) (pos : Nat) (tbl : Nat → Option Cluster),
      (assign_cluster_ids_loop l pos tbl).1.map Cluster.erase_id = l.map Cluster.erase_id
  | [], _, _ => rfl
  | a :: l, pos, tbl => by
    unfold assign_cluster_ids_loop
    dsimp only
    rw [List.map_cons, List.map_cons, assign_cluster_ids_loop_erase l (pos + 1) _]
    rfl

theorem map_erase_id_perm {l1 l2 : List Cluster} (h : l1.Perm l2) :
    (l1.map Cluster.erase_id).Perm (l2.map Cluster.erase_id) := h.map _

theorem pairwise_of_map_erase_id (R : Cluster → Cluster → Prop)
    (hR : ∀ a b, R a b ↔ R a.erase_id b.erase_id) {l1 l2 : List Cluster}
    (h : l1.map Cluster.erase_id = l2.map Cluster.erase_id) (h2 : l2.Pairwise R) :
    l1.Pairwise R := by
  have e1 : (l1.map Cluster.erase_id).Pairwise R := by
    rw [h, List.pairwise_map]
    exact h2.imp (fun {a b} hab => (hR a b).mp hab)
  rw [List.pairwise_map] at e1
  exact e1.imp (fun {a b} hab => (hR a b).mpr hab)

theorem filter_map_erase_id (P : Cluster → Bool) (hP : ∀ a, P a.erase_id = P a)
    {l1 l2 : List Cluster} (h : l1.map Cluster.erase_id = l2.map Cluster.erase_id) :
    (l1.filter P).map Cluster.erase_id = (l2.filter P).map Cluster.erase_id := by
  have e : ∀ l : List Cluster,
      (l.filter P).map Cluster.erase_id = (l.map Cluster.erase_id).filter P := by
    intro l
    induction l with
    | nil => rfl
    | cons a l ih =>
      rw [List.map_cons, List.filter_cons, List.filter_cons, hP a]
      split
      · rw [List.map_cons, ih]
      · exact ih
  rw [e l1, e l2, h]


theorem sort_clusters_costs_erase (power_cost : Nat → Nat → Nat) (nr_cpu_ids max_task_load : Nat)
    (cluster_head : List Cluster) :
    (sort_clusters_costs power_cost nr_cpu_ids max_task_load cluster_head).map
        Cluster.erase_order = cluster_head.map Cluster.erase_order := by
  unfold sort_clusters_costs
  rw [List.map_map]
  rfl

theorem map_erase_order_of_erase_id {l1 l2 : List Cluster}
    (h : (l1.map Cluster.erase_id).Perm (l2.map Cluster.erase_id)) :
    (l1.map Cluster.erase_order).Perm (l2.map Cluster.erase_order) := by
  have e : ∀ l : List Cluster,
      l.map Cluster.erase_order = (l.map Cluster.erase_id).map Cluster.erase_order := by
    intro l
    rw [List.map_map]
    rfl
  rw [e l1, e l2]
  exact h.map _

/-- C17: after `sort_clusters` (with `list_sort` a stable sort) the cluster
list is a permutation of the list before, each cluster carrying the power
costs read in the first loop; it is ordered by ascending `max_power_cost` and,
among equal costs, by descending `max_possible_capacity`; the clusters equal on
both keys are in the order they had before; every cluster's `id` is its
position and `sched_cluster[id]` is that cluster; and `compare_clusters(a, b)`
is non-zero exactly when `a` costs more than `b`, or as much with a smaller
`max_possible_capacity`. -/
theorem sort_clusters_sorted_stable (power_cost : Nat → Nat → Nat)
    (nr_cpu_ids max_task_load : Nat) (cluster_head : List Cluster)
    (sched_cluster : Nat → Option Cluster) :
    ((sort_clusters power_cost nr_cpu_ids max_task_load cluster_head sched_cluster).1.map
        Cluster.erase_order).Perm (cluster_head.map Cluster.erase_order) ∧
    ((sort_clusters power_cost nr_cpu_ids max_task_load cluster_head sched_cluster).1.map
        Cluster.erase_id).Perm
      ((sort_clusters_costs power_cost nr_cpu_ids max_task_load cluster_head).map
        Cluster.erase_id) ∧
    (sort_clusters power_cost nr_cpu_ids max_task_load cluster_head sched_cluster).1.Pairwise
      (fun a b => a.max_power_cost < b.max_power_cost ∨
        (a.max_power_cost = b.max_power_cost ∧
          b.max_possible_capacity ≤ a.max_possible_capacity)) ∧
    (∀ key : Nat × Nat,
      ((sort_clusters power_cost nr_cpu_ids max_task_load cluster_head sched_cluster).1.filter
          (fun c => c.sort_key == key)).map Cluster.erase_id =
        ((sort_clusters_costs power_cost nr_cpu_ids max_task_load cluster_head).filter
          (fun c => c.sort_key == key)).map Cluster.erase_id) ∧
    (∀ (i : Nat) (c : Cluster),
      (sort_clusters power_cost nr_cpu_ids max_task_load cluster_head sched_cluster).1[i]?
        = some c →
      c.id = i ∧
      (sort_clusters power_cost nr_cpu_ids max_task_load cluster_head sched_cluster).2 i
        = some c) ∧
    (∀ a b : Cluster, compare_clusters a b ≠ 0 ↔
      (a.max_power_cost > b.max_power_cost ∨
        (a.max_power_cost = b.max_power_cost ∧
          a.max_possible_capacity < b.max_possible_capacity))) := by
  have herase := assign_cluster_ids_loop_erase
    (list_sort compare_clusters
      (sort_clusters_costs power_cost nr_cpu_ids max_task_load cluster_head)) 0 sched_cluster
  have hperm : ((sort_clusters power_cost nr_cpu_ids max_task_load cluster_head
      sched_cluster).1.map Cluster.erase_id).Perm
      ((sort_clusters_costs power_cost nr_cpu_ids max_task_load cluster_head).map
        Cluster.erase_id) := by
    unfold sort_clusters assign_cluster_ids
    dsimp only
    rw [herase]
    exact map_erase_id_perm (list_sort_perm _ _)
  refine ⟨?_, hperm, ?_, ?_, ?_, ?_⟩
  · rw [← sort_clusters_costs_erase power_cost nr_cpu_ids max_task_load cluster_head]
    exact map_erase_order_of_erase_id hperm
  · unfold sort_clusters assign_cluster_ids
    dsimp only
    refine pairwise_of_map_erase_id
      (fun a b => a.max_power_cost < b.max_power_cost ∨
        (a.max_power_cost = b.max_power_cost ∧
          b.max_possible_capacity ≤ a.max_possible_capacity))
      (fun a b => Iff.rfl) herase ?_
    have hs := list_sort_sorted compare_clusters
      (fun a b h1 h2 => by
        rw [compare_clusters_pos] at h1 h2
        omega)
      (fun a b c h1 h2 => by
        rw [compare_clusters_pos] at h1 h2 ⊢
        omega)
      (sort_clusters_costs power_cost nr_cpu_ids max_task_load cluster_head)
    refine hs.imp (fun {a b} hab => ?_)
    rw [compare_clusters_pos] at hab
    omega
  · intro key
    unfold sort_clusters assign_cluster_ids
    dsimp only
    rw [filter_map_erase_id (fun c => c.sort_key == key) (fun a => rfl) herase]
    rw [list_sort_filter compare_clusters _ (fun a b h1 h2 h3 => by
      rw [compare_clusters_pos] at h1
      have e2 := beq_iff_eq.mp h2
      have e3 := beq_iff_eq.mp h3
      have e : a.sort_key = b.sort_key := e2.trans e3.symm
      unfold Cluster.sort_key at e
      simp only [Prod.mk.injEq] at e
      omega)]
  · intro i c h
    unfold sort_clusters assign_cluster_ids at h ⊢
    dsimp only at h ⊢
    have := assign_cluster_ids_loop_at _ 0 sched_cluster i c h
    rw [Nat.zero_add] at this
    exact this
  · intro a b
    rw [compare_clusters_ne_zero, compare_clusters_pos]

/-- The clusters of `c17_clusters` after `sort_clusters`: the costlier cluster
of processors 0 and 1 comes last, the other two keep their order. -/
theorem sort_clusters_example :
    (sort_clusters c17_power_cost 8 100 c17_clusters (fun _ => none)).1 =
      [{ id := 0, cpus := [4, 5], max_possible_capacity := 2048, max_power_cost := 5,
         min_power_cost := 5 },
       { id := 1, cpus := [2, 3], max_possible_capacity := 2048, max_power_cost := 5,
         min_power_cost := 5 },
       { id := 2, cpus := [0, 1], max_possible_capacity := 1024, max_power_cost := 9,
         min_power_cost := 9 }] := by
  decide!


/-! ## Idle and exiting tasks -/

theorem roll_count_idle_exiting (p : Task) (b : Bool) (n : Int)
    (h : is_idle_task p = true ∨ exiting_task p = true) :
    ∃ k, roll_task_windows (count_active_window p b) b n
      = { p with ravg := { p.ravg with active_windows := k } } := by
  have hroll : ∀ k, roll_task_windows { p with ravg := { p.ravg with active_windows := k } } b n
      = { p with ravg := { p.ravg with active_windows := k } } := by
    intro k
    unfold roll_task_windows
    rw [if_neg]
    intro hc
    simp only [Bool.and_eq_true, Bool.not_eq_true', decide_eq_true_eq] at hc
    rcases h with h | h
    · have : is_idle_task { p with ravg := { p.ravg with active_windows := k } } = true := h
      rw [this] at hc
      exact absurd hc.1.2 (by simp)
    · have : exiting_task { p with ravg := { p.ravg with active_windows := k } } = true := h
      rw [this] at hc
      exact absurd hc.2 (by simp)
  unfold count_active_window
  split
  · exact ⟨_, hroll _⟩
  · exact ⟨p.ravg.active_windows, hroll p.ravg.active_windows⟩

theorem busy_time_not_accounted_task (g : Globals) (p : Task) (rq : Rq) (event : TaskEvent)
    (b1 b2 b3 : Bool) (n : Int) (hh : b2 = true ∨ heavy_task_wakeup g p rq event = false) :
    (busy_time_not_accounted g p rq event b1 b2 b3 n).1 = p := by
  unfold busy_time_not_accounted
  split_ifs <;> first
    | rfl
    | (exfalso
       rcases hh with hh | hh <;> simp_all)

theorem busy_time_same_window_task (g : Globals) (p : Task) (rq : Rq) (wc irq ms : Nat)
    (b : Bool) (h : is_idle_task p = true ∨ exiting_task p = true) :
    (busy_time_same_window g p rq wc irq ms b).1 = p := by
  unfold busy_time_same_window
  dsimp only
  rw [if_neg]
  intro hc
  simp only [Bool.and_eq_true, Bool.not_eq_true'] at hc
  rcases h with h | h
  · rw [h] at hc
    exact absurd hc.1 (by simp)
  · rw [h] at hc
    exact absurd hc.2 (by simp)

theorem busy_time_not_curr_task (g : Globals) (p : Task) (rq : Rq) (wc ms ws : Nat)
    (b : Bool) (n : Int) (h : exiting_task p = true) :
    (busy_time_not_curr g p rq wc ms ws b n).1 = p := by
  unfold busy_time_not_curr
  dsimp only
  rw [if_pos h, if_pos h]

theorem busy_time_curr_task (g : Globals) (p : Task) (rq : Rq) (wc ms ws : Nat)
    (b : Bool) (n : Int) (h : is_idle_task p = true ∨ exiting_task p = true) :
    (busy_time_curr g p rq wc ms ws b n).1 = p := by
  have ht : (!is_idle_task p && !exiting_task p) = false := by
    rcases h with h | h <;> simp [h]
  unfold busy_time_curr
  dsimp only
  rw [ht]
  simp

theorem busy_time_irq_task (g : Globals) (p : Task) (rq : Rq) (wc irq ws : Nat)
    (p1 : Task) (rq1 : Rq) (h : busy_time_irq g p rq wc irq ws = some (p1, rq1)) : p1 = p := by
  unfold busy_time_irq at h
  split at h
  · exact absurd h (by simp)
  · dsimp only at h
    split at h <;>
      · simp only [Option.some.injEq, Prod.mk.injEq] at h
        exact h.1.symm

theorem heavy_task_wakeup_true (g : Globals) (p : Task) (rq : Rq) (event : TaskEvent)
    (h : heavy_task_wakeup g p rq event = true) :
    event = TaskEvent.TASK_WAKE ∧ exiting_task p = false := by
  unfold heavy_task_wakeup at h
  dsimp only at h
  split at h
  · exact absurd h (by simp)
  · rename_i c
    simp only [Bool.or_eq_true, not_or, bne_iff_ne, ne_eq, not_not, Bool.not_eq_true] at c
    exact ⟨c.1.1.2, c.2⟩


theorem update_task_demand_idle_exiting (g : Globals) (fixup : FixupHook) (p : Task) (rq : Rq)
    (event : TaskEvent) (wallclock : Nat)
    (h : is_idle_task p = true ∨ exiting_task p = true) :
    update_task_demand g fixup p rq event wallclock = some (p, rq) := by
  have ha : account_busy_for_task_demand g p event = false := by
    unfold account_busy_for_task_demand
    rw [if_pos]
    rcases h with h | h <;> simp [h]
  have hu : update_history g fixup rq p p.ravg.sum 1 = some (p, rq) := by
    unfold update_history
    rw [if_pos]
    rcases h with h | h <;> simp [h]
  unfold update_task_demand
  dsimp only
  rw [ha]
  simp only [Bool.not_false, if_true]
  split
  · exact hu
  · rfl

theorem account_busy_for_cpu_time_idle_pick (g : Globals) (rq : Rq) (p : Task) (irqtime : Nat)
    (h : is_idle_task p = true) :
    account_busy_for_cpu_time g rq p irqtime TaskEvent.PICK_NEXT_TASK = false := by
  unfold account_busy_for_cpu_time
  rw [if_pos h]
  rfl

theorem some_pair_fst {α β : Type} {x : α × β} {a : α} {b : β}
    (e : some x = some (a, b)) : x.1 = a :=
  congrArg Prod.fst (Option.some.inj e)

/-- For an idle or exiting task `update_cpu_busy_time` changes at most the
active-window count, when the task is exiting, is the current task of the
queue, or the event is `PICK_NEXT_TASK`. -/
theorem update_cpu_busy_time_idle_exiting (g : Globals) (p : Task) (rq : Rq)
    (event : TaskEvent) (wallclock irqtime : Nat) (p1 : Task) (rq1 : Rq)
    (h : is_idle_task p = true ∨ exiting_task p = true)
    (hc : exiting_task p = true ∨ p.pid = rq.curr ∨ event = TaskEvent.PICK_NEXT_TASK)
    (e : update_cpu_busy_time g p rq event wallclock irqtime = some (p1, rq1)) :
    ∃ k, p1 = { p with ravg := { p.ravg with active_windows := k } } := by
  unfold update_cpu_busy_time at e
  dsimp only at e
  obtain ⟨k, hk⟩ := roll_count_idle_exiting p (decide (p.ravg.mark_start < rq.window_start))
    (if decide (p.ravg.mark_start < rq.window_start) = true then
      toInt32 (sub64 rq.window_start p.ravg.mark_start / g.sched_ravg_window) else 0) h
  rw [hk] at e
  have hq : is_idle_task { p with ravg := { p.ravg with active_windows := k } } = true ∨
      exiting_task { p with ravg := { p.ravg with active_windows := k } } = true := h
  refine ⟨k, ?_⟩
  split at e
  · rename_i c1
    rw [← some_pair_fst e]
    apply busy_time_not_accounted_task
    by_cases hcur : p.pid = rq.curr
    · left
      exact decide_eq_true hcur
    · right
      cases hw : heavy_task_wakeup g { p with ravg := { p.ravg with active_windows := k } }
        rq event with
      | false => rfl
      | true =>
        obtain ⟨w1, w2⟩ := heavy_task_wakeup_true g _ rq event hw
        have w3 : exiting_task p = false := w2
        rcases hc with hc | hc | hc
        · rw [hc] at w3
          exact absurd w3 (by simp)
        · exact absurd hc hcur
        · rw [hc] at w1
          exact absurd w1 (by simp)
  · rename_i c1
    split at e
    · rw [← some_pair_fst e]
      exact busy_time_same_window_task g _ rq _ _ _ _ hq
    · split at e
      · rename_i c3
        rw [← some_pair_fst e]
        have hex : exiting_task p = true := by
          rcases hc with hc | hc | hc
          · exact hc
          · exact absurd (decide_eq_true hc) (by simpa using c3)
          · rcases h with h | h
            · exfalso
              apply c1
              rw [hc, account_busy_for_cpu_time_idle_pick g rq
                { p with ravg := { p.ravg with active_windows := k } } irqtime h]
              rfl
            · exact h
        exact busy_time_not_curr_task g _ rq _ _ _ _ _ hex
      · split at e
        · rw [← some_pair_fst e]
          exact busy_time_curr_task g _ rq _ _ _ _ _ hq
        · split at e
          · exact busy_time_irq_task g _ rq _ _ _ p1 rq1 e
          · exact absurd e (by simp)


theorem update_window_start_returns (g : Globals) (rq : Rq) (wallclock : Nat)
    (h : sub64 wallclock rq.window_start < 9223372036854775808) :
    ∃ rq1, update_window_start g rq wallclock = some rq1 := by
  unfold update_window_start
  dsimp only
  rw [if_neg (by omega)]
  split
  · exact ⟨_, rfl⟩
  · exact ⟨_, rfl⟩

/-- C19: an idle or exiting task in `update_task_ravg`.  The call returns
whenever `wallclock` is not before the queue's `window_start`; it leaves the
task's `sum`, `demand` and whole `sum_history` as they were and writes nothing
outside the window record; and for an exiting task, and for the idle task the
way the callers pass it (as the current task of the queue, or with the event
`PICK_NEXT_TASK` in `__schedule`), it leaves `curr_window` and `prev_window`
too, so that only `mark_start` and the active-window count may change. -/
theorem update_task_ravg_idle_exiting (g : Globals) (fixup : FixupHook) (p : Task) (rq : Rq)
    (event : TaskEvent) (wallclock irqtime : Nat)
    (h : is_idle_task p = true ∨ exiting_task p = true) :
    (sub64 wallclock rq.window_start < 9223372036854775808 →
      ∃ p1 rq1, update_task_ravg g fixup p rq event wallclock irqtime = some (p1, rq1)) ∧
    ∀ p1 rq1, update_task_ravg g fixup p rq event wallclock irqtime = some (p1, rq1) →
      p1.ravg.sum = p.ravg.sum ∧ p1.ravg.demand = p.ravg.demand ∧
      p1.ravg.sum_history = p.ravg.sum_history ∧ p1.erase_ravg = p.erase_ravg ∧
      (exiting_task p = true ∨ p.pid = rq.curr ∨ event = TaskEvent.PICK_NEXT_TASK →
        p1.ravg.curr_window = p.ravg.curr_window ∧
        p1.ravg.prev_window = p.ravg.prev_window) := by
  constructor
  · intro hw
    unfold update_task_ravg
    split
    · exact ⟨_, _, rfl⟩
    · obtain ⟨rqa, ea⟩ := update_window_start_returns g rq wallclock hw
      rw [ea]
      dsimp only
      split
      · exact ⟨_, _, rfl⟩
      · rw [update_task_demand_idle_exiting g fixup p rqa event wallclock h]
        dsimp only
        obtain ⟨p3, rq3, e3, _⟩ := update_cpu_busy_time_frame g p rqa event wallclock irqtime
        rw [e3]
        exact ⟨_, _, rfl⟩
  · intro p1 rq1 e
    have hframe := (update_task_ravg_frame g fixup p rq event wallclock irqtime p1 rq1 e).1
    unfold update_task_ravg at e
    split at e
    · simp only [Option.some.injEq, Prod.mk.injEq] at e
      rw [← e.1]
      exact ⟨rfl, rfl, rfl, rfl, fun _ => ⟨rfl, rfl⟩⟩
    · split at e
      · exact absurd e (by simp)
      · rename_i rqa ea
        have hcurr : rqa.curr = rq.curr :=
          congrArg (fun r => r.curr) (update_window_start_frame g rq rqa wallclock ea)
        split at e
        · simp only [Option.some.injEq, Prod.mk.injEq] at e
          rw [← e.1]
          exact ⟨rfl, rfl, rfl, rfl, fun _ => ⟨rfl, rfl⟩⟩
        · rw [update_task_demand_idle_exiting g fixup p rqa event wallclock h] at e
          dsimp only at e
          split at e
          · exact absurd e (by simp)
          · rename_i p3 rq3 e3
            simp only [Option.some.injEq, Prod.mk.injEq] at e
            obtain ⟨p3', rq3', e3', f3, _⟩ :=
              update_cpu_busy_time_frame g p rqa event wallclock irqtime
            rw [e3] at e3'
            simp only [Option.some.injEq, Prod.mk.injEq] at e3'
            rw [← e3'.1] at f3
            rw [← e.1]
            refine ⟨congrArg (fun t => t.ravg.sum) f3, congrArg (fun t => t.ravg.demand) f3,
              congrArg (fun t => t.ravg.sum_history) f3, ?_, fun hc => ?_⟩
            · rw [← e.1] at hframe
              exact hframe
            · rw [← hcurr] at hc
              obtain ⟨k, hk⟩ := update_cpu_busy_time_idle_exiting g p rqa event wallclock
                irqtime p3 rq3 h hc e3
              rw [hk]
              exact ⟨rfl, rfl⟩

/-- The idle task of `c19_task` while it runs, updated at time 23: the call
returns and the task differs only in `mark_start` and the window count. -/
theorem update_task_ravg_idle_exiting_witness :
    (is_idle_task c19_task = true ∨ exiting_task c19_task = true) ∧
    update_task_ravg c19_globals fixup_none c19_task c19_idle_rq TaskEvent.TASK_UPDATE 23 0
      = some ({ c19_task with ravg := { mark_start := 23, active_windows := 1 } },
              { c19_idle_rq with prev_runnable_sum := 5, curr_runnable_sum := 3,
                                 nt_prev_runnable_sum := 5, nt_curr_runnable_sum := 3 }) ∧
    ((sub64 23 c19_idle_rq.window_start < 9223372036854775808 →
      ∃ p1 rq1, update_task_ravg c19_globals fixup_none c19_task c19_idle_rq
        TaskEvent.TASK_UPDATE 23 0 = some (p1, rq1)) ∧
    ∀ p1 rq1, update_task_ravg c19_globals fixup_none c19_task c19_idle_rq
        TaskEvent.TASK_UPDATE 23 0 = some (p1, rq1) →
      p1.ravg.sum = c19_task.ravg.sum ∧ p1.ravg.demand = c19_task.ravg.demand ∧
      p1.ravg.sum_history = c19_task.ravg.sum_history ∧
      p1.erase_ravg = c19_task.erase_ravg ∧
      (exiting_task c19_task = true ∨ c19_task.pid = c19_idle_rq.curr ∨
          TaskEvent.TASK_UPDATE = TaskEvent.PICK_NEXT_TASK →
        p1.ravg.curr_window = c19_task.ravg.curr_window ∧
        p1.ravg.prev_window = c19_task.ravg.prev_window)) :=
  ⟨Or.inl rfl, by decide!,
    update_task_ravg_idle_exiting c19_globals fixup_none c19_task c19_idle_rq
      TaskEvent.TASK_UPDATE 23 0 (Or.inl rfl)⟩

/-! ## Affinity -/

theorem same_affinity_refl (w : World) : w.same_affinity w := fun _ => ⟨rfl, rfl⟩

theorem same_affinity_trans {a b c : World} (h1 : a.same_affinity b) (h2 : b.same_affinity c) :
    a.same_affinity c :=
  fun q => ⟨((h2 q).1).trans (h1 q).1, ((h2 q).2).trans (h1 q).2⟩

theorem same_affinity_of_tasks {w w1 : World} (h : w1.tasks = w.tasks) : w.same_affinity w1 :=
  fun q => by rw [h]; exact ⟨rfl, rfl⟩

theorem same_affinity_map_task (w : World) (q : Nat) (f : Task → Task)
    (hf : ∀ p, (f p).cpus_allowed = p.cpus_allowed ∧ (f p).nr_cpus_allowed = p.nr_cpus_allowed) :
    w.same_affinity (w.map_task q f) := by
  intro r
  by_cases hr : r = q
  · subst hr
    rw [map_task_same]
    exact hf _
  · rw [map_task_other _ _ _ _ hr]
    exact ⟨rfl, rfl⟩

theorem same_affinity_of_frames {w w1 : World}
    (ht : ∀ q, (w1.tasks q).erase_ravg = (w.tasks q).erase_ravg) : w.same_affinity w1 :=
  fun q => ⟨congrArg (fun t => t.cpus_allowed) (ht q),
    congrArg (fun t => t.nr_cpus_allowed) (ht q)⟩

theorem fixup_busy_time_move_tasks (g : Globals) (w : World) (pid new_cpu : Nat) :
    (fixup_busy_time_move g w pid new_cpu).tasks = w.tasks := by
  unfold fixup_busy_time_move
  simp only []
  split_ifs <;> rfl

theorem clear_ed_task_tasks (w : World) (pid cpu : Nat) :
    (clear_ed_task w pid cpu).tasks = w.tasks := by
  unfold clear_ed_task
  split <;> rfl

theorem fixup_busy_time_same_affinity (g : Globals) (fixup : FixupHook) (w w1 : World)
    (pid new_cpu wallclock : Nat)
    (h : fixup_busy_time g fixup w pid new_cpu wallclock = some w1) : w.same_affinity w1 := by
  unfold fixup_busy_time at h
  simp only [] at h
  split at h
  · simp only [Option.some.injEq] at h
    rw [← h]
    exact same_affinity_refl w
  · split at h
    · simp only [Option.some.injEq] at h
      rw [← h]
      exact same_affinity_of_tasks (clear_ed_task_tasks w pid _)
    · split at h
      · simp only [Option.some.injEq] at h
        rw [← h]
        exact same_affinity_refl w
      · split at h
        · exact absurd h (by simp)
        · rename_i w3 e3
          obtain ⟨a, _, _⟩ := fixup_busy_time_updates_frame g fixup w w3 pid new_cpu wallclock e3
          split at h
          · exact absurd h (by simp)
          · simp only [Option.some.injEq] at h
            rw [← h]
            exact same_affinity_trans (same_affinity_of_frames a)
              (same_affinity_of_tasks (fixup_busy_time_move_tasks g w3 pid new_cpu))

theorem set_task_cpu_same_affinity (env : Env) (w w1 : World) (pid new_cpu wallclock : Nat)
    (h : set_task_cpu env w pid new_cpu wallclock = some w1) : w.same_affinity w1 := by
  unfold set_task_cpu at h
  simp only [] at h
  split at h
  · exact absurd h (by simp)
  · rename_i w0 e0
    simp only [Option.some.injEq] at h
    rw [← h]
    unfold __set_task_cpu
    refine same_affinity_trans ?_ (same_affinity_map_task _ _ _ (fun _ => ⟨rfl, rfl⟩))
    split at e0
    · have k0 := fixup_busy_time_same_affinity _ _ _ _ _ _ _ e0
      refine same_affinity_trans ?_ k0
      exact same_affinity_map_task _ _ _ (fun _ => ⟨rfl, rfl⟩)
    · simp only [Option.some.injEq] at e0
      rw [← e0]
      exact same_affinity_refl w

theorem ttwu_do_activate_same_affinity (env : Env) (w : World) (cpu pid : Nat) :
    w.same_affinity (ttwu_do_activate env w cpu pid) := by
  unfold ttwu_do_activate ttwu_do_wakeup ttwu_activate activate_task enqueue_task
  dsimp only
  refine same_affinity_trans ?_ (same_affinity_map_task _ _ _ (fun _ => ⟨rfl, rfl⟩))
  refine same_affinity_trans ?_ (same_affinity_map_task _ _ _ (fun _ => ⟨rfl, rfl⟩))
  apply same_affinity_of_tasks
  split_ifs <;> rfl

theorem sched_ttwu_pending_loop_same_affinity (env : Env) (cpu : Nat) :
    ∀ (l : List Nat) (w : World), w.same_affinity (sched_ttwu_pending_loop env cpu l w)
  | [], w => same_affinity_refl w
  | pid :: l, w => by
    unfold sched_ttwu_pending_loop
    exact same_affinity_trans (ttwu_do_activate_same_affinity env w cpu pid)
      (sched_ttwu_pending_loop_same_affinity env cpu l _)

theorem sched_ttwu_pending_same_affinity (env : Env) (w : World) (cpu : Nat) :
    w.same_affinity (sched_ttwu_pending env w cpu) := by
  unfold sched_ttwu_pending
  dsimp only
  split
  · exact same_affinity_of_tasks rfl
  · exact same_affinity_trans (same_affinity_of_tasks rfl)
      (sched_ttwu_pending_loop_same_affinity env cpu _ _)

theorem move_queued_task_same_affinity (env : Env) (w w1 : World) (pid new_cpu wallclock : Nat)
    (h : move_queued_task env w pid new_cpu wallclock = some w1) : w.same_affinity w1 := by
  unfold move_queued_task at h
  dsimp only at h
  split at h
  · exact absurd h (by simp)
  · rename_i w3 e3
    split at h
    · exact absurd h (by simp)
    · simp only [Option.some.injEq] at h
      rw [← h]
      have k3 := set_task_cpu_same_affinity env _ w3 pid new_cpu wallclock e3
      unfold enqueue_task
      refine same_affinity_trans ?_ (same_affinity_of_tasks (map_rq_tasks _ _ _))
      refine same_affinity_trans ?_ (same_affinity_map_task _ _ _ (fun _ => ⟨rfl, rfl⟩))
      refine same_affinity_trans ?_ k3
      refine same_affinity_trans ?_ (same_affinity_map_task _ _ _ (fun _ => ⟨rfl, rfl⟩))
      unfold dequeue_task
      exact same_affinity_of_tasks (map_rq_tasks _ _ _)

theorem __migrate_task_same_affinity (env : Env) (w w1 : World)
    (pid src_cpu dest_cpu wallclock : Nat) (r : Int)
    (h : __migrate_task env w pid src_cpu dest_cpu wallclock = some (w1, r)) :
    w.same_affinity w1 := by
  unfold __migrate_task at h
  split at h
  · simp only [Option.some.injEq, Prod.mk.injEq] at h
    rw [← h.1]
    exact same_affinity_refl w
  · split at h
    · simp only [Option.some.injEq, Prod.mk.injEq] at h
      rw [← h.1]
      exact same_affinity_refl w
    · split at h
      · simp only [Option.some.injEq, Prod.mk.injEq] at h
        rw [← h.1]
        exact same_affinity_refl w
      · split at h
        · split at h
          · exact absurd h (by simp)
          · rename_i w2 e2
            have k2 := move_queued_task_same_affinity env w w2 pid dest_cpu wallclock e2
            split at h
            · simp only [Option.some.injEq, Prod.mk.injEq] at h
              rw [← h.1]
              exact same_affinity_trans k2 (same_affinity_of_tasks rfl)
            · simp only [Option.some.injEq, Prod.mk.injEq] at h
              rw [← h.1]
              exact k2
        · simp only [Option.some.injEq, Prod.mk.injEq] at h
          rw [← h.1]
          exact same_affinity_refl w

theorem migration_cpu_stop_same_affinity (env : Env) (w w1 : World)
    (this_cpu pid dest_cpu wallclock : Nat)
    (h : migration_cpu_stop env w this_cpu pid dest_cpu wallclock = some w1) :
    w.same_affinity w1 := by
  unfold migration_cpu_stop at h
  split at h
  · exact absurd h (by simp)
  · rename_i r e
    simp only [Option.some.injEq] at h
    rw [← h]
    exact same_affinity_trans (sched_ttwu_pending_same_affinity env w this_cpu)
      (__migrate_task_same_affinity env _ r.1 pid this_cpu dest_cpu wallclock r.2 e)


theorem cpumask_equal_weight (n : Nat) (a b : List Nat) (h : cpumask_equal n a b = true) :
    cpumask_weight n a = cpumask_weight n b := by
  unfold cpumask_equal at h
  unfold cpumask_weight
  rw [beq_iff_eq.mp h]

theorem cpumask_equal_self (n : Nat) (a : List Nat) : cpumask_equal n a a = true := by
  unfold cpumask_equal
  exact beq_self_eq_true _

theorem do_set_cpus_allowed_task (env : Env) (w w1 : World) (pid : Nat) (new_mask : List Nat)
    (h : (w.map_task pid (fun p => do_set_cpus_allowed env.toCpuEnv p new_mask)).same_affinity
      w1) :
    (w1.tasks pid).cpus_allowed = new_mask ∧
    (w1.tasks pid).nr_cpus_allowed = cpumask_weight env.nr_cpu_ids new_mask := by
  obtain ⟨h1, h2⟩ := h pid
  rw [map_task_same] at h1 h2
  exact ⟨h1, h2⟩

/-- After a call of `set_cpus_allowed_ptr` that got past the two early exits
the task has the new mask and its weight. -/
theorem set_cpus_allowed_ptr_changed (env : Env) (w w1 : World) (pid : Nat)
    (new_mask : List Nat) (wallclock : Nat) (r : Int)
    (hne : cpumask_equal env.nr_cpu_ids (w.tasks pid).cpus_allowed new_mask = false)
    (hi : cpumask_intersects env.nr_cpu_ids new_mask env.cpu_active_mask = true)
    (h : set_cpus_allowed_ptr env w pid new_mask wallclock = some (r, w1)) :
    r = 0 ∧ (w1.tasks pid).cpus_allowed = new_mask ∧
    (w1.tasks pid).nr_cpus_allowed = cpumask_weight env.nr_cpu_ids new_mask := by
  unfold set_cpus_allowed_ptr at h
  dsimp only at h
  split at h
  · exact absurd h (by simp)
  · rw [hne, hi] at h
    simp only [Bool.false_eq_true, if_false, Bool.not_true] at h
    split at h
    · simp only [Option.some.injEq, Prod.mk.injEq] at h
      rw [← h.2]
      exact ⟨h.1.symm, do_set_cpus_allowed_task env w _ pid new_mask (same_affinity_refl _)⟩
    · split at h
      · split at h
        · exact absurd h (by simp)
        · rename_i w2 e2
          simp only [Option.some.injEq, Prod.mk.injEq] at h
          rw [← h.2]
          exact ⟨h.1.symm, do_set_cpus_allowed_task env w _ pid new_mask
            (migration_cpu_stop_same_affinity env _ w2 _ pid _ wallclock e2)⟩
      · split at h
        · split at h
          · exact absurd h (by simp)
          · rename_i w2 e2
            simp only [Option.some.injEq, Prod.mk.injEq] at h
            rw [← h.2]
            exact ⟨h.1.symm, do_set_cpus_allowed_task env w _ pid new_mask
              (move_queued_task_same_affinity env _ w2 pid _ wallclock e2)⟩
        · simp only [Option.some.injEq, Prod.mk.injEq] at h
          rw [← h.2]
          exact ⟨h.1.symm, do_set_cpus_allowed_task env w _ pid new_mask (same_affinity_refl _)⟩

theorem set_cpus_allowed_ptr_equal (env : Env) (w : World) (pid : Nat)
    (new_mask : List Nat) (wallclock : Nat)
    (hm : (w.tasks pid).on_rq ≠ TASK_ON_RQ_MIGRATING)
    (he : cpumask_equal env.nr_cpu_ids (w.tasks pid).cpus_allowed new_mask = true) :
    set_cpus_allowed_ptr env w pid new_mask wallclock = some (0, w) := by
  unfold set_cpus_allowed_ptr
  dsimp only
  rw [if_neg (by simpa using hm), if_pos he]

/-- C13: `set_cpus_allowed_ptr(p, new_mask)` on a task that is not in the
middle of a migration.  With a `new_mask` that differs from the task's mask
and holds no active processor it returns `-EINVAL` and leaves the whole world
(so `cpus_allowed` and `nr_cpus_allowed`) as it was.  Whenever it returns 0
the task's mask equals `new_mask`, and `nr_cpus_allowed` is the number of
processors in `new_mask` provided `new_mask` differed from the task's mask or
the count matched that mask at entry. -/
theorem set_cpus_allowed_ptr_result (env : Env) (w : World) (pid : Nat)
    (new_mask : List Nat) (wallclock : Nat)
    (hm : (w.tasks pid).on_rq ≠ TASK_ON_RQ_MIGRATING) :
    (cpumask_equal env.nr_cpu_ids (w.tasks pid).cpus_allowed new_mask = false →
      cpumask_intersects env.nr_cpu_ids new_mask env.cpu_active_mask = false →
      set_cpus_allowed_ptr env w pid new_mask wallclock = some (-EINVAL, w)) ∧
    (∀ w1, set_cpus_allowed_ptr env w pid new_mask wallclock = some (0, w1) →
      cpumask_equal env.nr_cpu_ids (w1.tasks pid).cpus_allowed new_mask = true ∧
      (cpumask_equal env.nr_cpu_ids (w.tasks pid).cpus_allowed new_mask = false →
        (w1.tasks pid).cpus_allowed = new_mask) ∧
      (cpumask_equal env.nr_cpu_ids (w.tasks pid).cpus_allowed new_mask = false ∨
          (w.tasks pid).nr_cpus_allowed
            = cpumask_weight env.nr_cpu_ids (w.tasks pid).cpus_allowed →
        (w1.tasks pid).nr_cpus_allowed = cpumask_weight env.nr_cpu_ids new_mask)) := by
  constructor
  · intro hne hi
    unfold set_cpus_allowed_ptr
    dsimp only
    rw [if_neg (by simpa using hm), hne, hi]
    rfl
  · intro w1 h
    cases he : cpumask_equal env.nr_cpu_ids (w.tasks pid).cpus_allowed new_mask with
    | true =>
      rw [set_cpus_allowed_ptr_equal env w pid new_mask wallclock hm he] at h
      simp only [Option.some.injEq, Prod.mk.injEq, true_and] at h
      rw [← h]
      refine ⟨he, fun hc => absurd hc (by simp), fun hc => ?_⟩
      rcases hc with hc | hc
      · exact absurd hc (by simp)
      · rw [hc]
        exact cpumask_equal_weight _ _ _ he
    | false =>
      cases hi : cpumask_intersects env.nr_cpu_ids new_mask env.cpu_active_mask with
      | false =>
        unfold set_cpus_allowed_ptr at h
        dsimp only at h
        rw [if_neg (by simpa using hm), he, hi] at h
        simp only [Bool.false_eq_true, if_false, Bool.not_false, if_true, Option.some.injEq,
          Prod.mk.injEq] at h
        exact absurd h.1 (by decide)
      | true =>
        obtain ⟨_, h1, h2⟩ := set_cpus_allowed_ptr_changed env w w1 pid new_mask wallclock 0
          he hi h
        refine ⟨?_, fun _ => h1, fun _ => h2⟩
        rw [h1]
        exact cpumask_equal_self _ _

/-- On `c13_world` a mask without an active processor is refused with
`-EINVAL`, the world staying as it was. -/
theorem set_cpus_allowed_ptr_result_witness :
    (c13_world.tasks 1).on_rq ≠ TASK_ON_RQ_MIGRATING ∧
    cpumask_equal c13_env.nr_cpu_ids (c13_world.tasks 1).cpus_allowed [3] = false ∧
    cpumask_intersects c13_env.nr_cpu_ids [3] c13_env.cpu_active_mask = false ∧
    set_cpus_allowed_ptr c13_env c13_world 1 [3] 0 = some (-EINVAL, c13_world) :=
  ⟨by decide, by decide, by decide,
    (set_cpus_allowed_ptr_result c13_env c13_world 1 [3] 0 (by decide)).1 (by decide)
      (by decide)⟩

/-- Task 1 of `c13_world` asks for the mask it has: the call returns 0 and
`nr_cpus_allowed` stays 4, while the mask holds two processors. -/
theorem set_cpus_allowed_ptr_equal_mask_keeps_count :
    (set_cpus_allowed_ptr c13_env c13_world 1 [0, 1] 0).map
      (fun r => (r.1, (r.2.tasks 1).cpus_allowed, (r.2.tasks 1).nr_cpus_allowed))
      = some (0, [0, 1], 4) ∧
    cpumask_weight c13_env.nr_cpu_ids [0, 1] = 2 := by
  decide!


/-! ## One pass of `__schedule` -/

theorem class_scan_switch_part (pick : PickHook)
    (hp : ∀ c rq prev, (pick c rq prev).2.1.switch_part = rq.switch_part ∧
      (pick c rq prev).2.2.switch_part = prev.switch_part) :
    ∀ (cs : List SchedClass) (rq : Rq) (prev : Task),
      (∀ pid rq1 prev1, class_scan pick cs rq prev = ScanResult.found pid rq1 prev1 →
        rq1.switch_part = rq.switch_part ∧ prev1.switch_part = prev.switch_part) ∧
      (∀ rq1 prev1, class_scan pick cs rq prev = ScanResult.again rq1 prev1 →
        rq1.switch_part = rq.switch_part ∧ prev1.switch_part = prev.switch_part)
  | [], rq, prev => by
    constructor <;> intros <;> rename_i h <;> simp [class_scan] at h
  | c :: cs, rq, prev => by
    have h0 := hp c rq prev
    unfold class_scan
    rcases hpk : pick c rq prev with ⟨r, rq0, prev0⟩
    rw [hpk] at h0
    cases r with
    | null =>
      dsimp only
      have ih := class_scan_switch_part pick hp cs rq0 prev0
      exact ⟨fun pid rq1 prev1 h => ⟨((ih.1 pid rq1 prev1 h).1).trans h0.1,
          ((ih.1 pid rq1 prev1 h).2).trans h0.2⟩,
        fun rq1 prev1 h => ⟨((ih.2 rq1 prev1 h).1).trans h0.1,
          ((ih.2 rq1 prev1 h).2).trans h0.2⟩⟩
    | retry =>
      dsimp only
      constructor
      · intro pid rq1 prev1 h
        exact ScanResult.noConfusion h
      · intro rq1 prev1 h
        injection h with h1 h2
        rw [← h1, ← h2]
        exact h0
    | task pid0 =>
      dsimp only
      constructor
      · intro pid rq1 prev1 h
        injection h with h1 h2 h3
        rw [← h2, ← h3]
        exact h0
      · intro rq1 prev1 h
        exact ScanResult.noConfusion h

theorem pick_again_switch_part (pick : PickHook)
    (hp : ∀ c rq prev, (pick c rq prev).2.1.switch_part = rq.switch_part ∧
      (pick c rq prev).2.2.switch_part = prev.switch_part) :
    ∀ (n : Nat) (rq : Rq) (prev : Task) (r : Picked) (rq1 : Rq) (prev1 : Task),
      pick_again pick n rq prev = PickOutcome.returned r rq1 prev1 →
      rq1.switch_part = rq.switch_part ∧ prev1.switch_part = prev.switch_part
  | 0, rq, prev, r, rq1, prev1, h => by simp [pick_again] at h
  | n + 1, rq, prev, r, rq1, prev1, h => by
    unfold pick_again at h
    have hs := class_scan_switch_part pick hp for_each_class rq prev
    split at h
    · rename_i pid rqa preva e
      injection h with h1 h2 h3
      rw [← h2, ← h3]
      exact hs.1 pid rqa preva e
    · rename_i rqa preva e
      have ih := pick_again_switch_part pick hp n rqa preva r rq1 prev1 h
      have h0 := hs.2 rqa preva e
      exact ⟨ih.1.trans h0.1, ih.2.trans h0.2⟩
    · exact PickOutcome.noConfusion h

theorem pick_next_task_switch_part (pick : PickHook)
    (hp : ∀ c rq prev, (pick c rq prev).2.1.switch_part = rq.switch_part ∧
      (pick c rq prev).2.2.switch_part = prev.switch_part)
    (n : Nat) (rq : Rq) (prev : Task) (r : Picked) (rq1 : Rq) (prev1 : Task)
    (h : pick_next_task pick n rq prev = PickOutcome.returned r rq1 prev1) :
    rq1.switch_part = rq.switch_part ∧ prev1.switch_part = prev.switch_part := by
  unfold pick_next_task at h
  split at h
  · have h0 := hp SchedClass.fair rq prev
    rcases hpk : pick SchedClass.fair rq prev with ⟨r0, rq0, prev0⟩
    rw [hpk] at h h0
    cases r0 with
    | null =>
      dsimp only at h
      have h1 := hp SchedClass.idle rq0 prev0
      rcases hpi : pick SchedClass.idle rq0 prev0 with ⟨ri, rqi, previ⟩
      rw [hpi] at h h1
      dsimp only at h
      injection h with e1 e2 e3
      rw [← e2, ← e3]
      exact ⟨h1.1.trans h0.1, h1.2.trans h0.2⟩
    | retry =>
      dsimp only at h
      have ih := pick_again_switch_part pick hp n rq0 prev0 r rq1 prev1 h
      exact ⟨ih.1.trans h0.1, ih.2.trans h0.2⟩
    | task pid0 =>
      dsimp only at h
      injection h with e1 e2 e3
      rw [← e2, ← e3]
      exact h0
  · exact pick_again_switch_part pick hp n rq prev r rq1 prev1 h


theorem switch_frame_refl (prev : Nat) (w : World) : w.switch_frame prev w :=
  ⟨rfl, fun _ => rfl⟩

theorem switch_frame_trans {prev : Nat} {a b c : World} (h1 : a.switch_frame prev b)
    (h2 : b.switch_frame prev c) : a.switch_frame prev c :=
  ⟨h2.1.trans h1.1, fun d => (h2.2 d).trans (h1.2 d)⟩

theorem switch_frame_map_rq (prev : Nat) (w : World) (c : Nat) (f : Rq → Rq)
    (hf : ∀ r, (f r).switch_part = r.switch_part) : w.switch_frame prev (w.map_rq c f) := by
  refine ⟨rfl, fun d => ?_⟩
  by_cases hd : d = c
  · subst hd
    rw [map_rq_same]
    exact hf _
  · rw [map_rq_other _ _ _ _ hd]

theorem switch_frame_map_task (prev : Nat) (w : World) (q : Nat) (f : Task → Task)
    (hf : q ≠ prev ∨ ∀ p, (f p).switch_part = p.switch_part) :
    w.switch_frame prev (w.map_task q f) := by
  refine ⟨?_, fun _ => rfl⟩
  by_cases hq : prev = q
  · subst hq
    rw [map_task_same]
    rcases hf with hf | hf
    · exact absurd rfl hf
    · exact hf _
  · rw [map_task_other _ _ _ _ hq]

theorem world_update_task_ravg_switch_frame (g : Globals) (fixup : FixupHook) (w w1 : World)
    (pid cpu : Nat) (event : TaskEvent) (wallclock irqtime : Nat) (prev : Nat)
    (h : world_update_task_ravg g fixup w pid cpu event wallclock irqtime = some w1) :
    w.switch_frame prev w1 := by
  obtain ⟨a, b, _⟩ := world_update_task_ravg_frame g fixup w w1 pid cpu event wallclock irqtime h
  have ht : (w1.tasks prev).erase_ravg.switch_part = (w.tasks prev).erase_ravg.switch_part :=
    congrArg Task.switch_part (a prev)
  have hr : ∀ c, (w1.rqs c).erase_stats.switch_part = (w.rqs c).erase_stats.switch_part :=
    fun c => congrArg Rq.switch_part (b c)
  exact ⟨ht, hr⟩

theorem clear_ed_task_switch_frame (prev : Nat) (w : World) (pid cpu : Nat) :
    w.switch_frame prev (clear_ed_task w pid cpu) := by
  unfold clear_ed_task
  split
  · exact switch_frame_map_rq prev w _ _ (fun _ => rfl)
  · exact switch_frame_refl prev w

theorem deactivate_task_switch_frame (env : Env) (w : World) (cpu pid flags prev : Nat)
    (hdeq : ∀ rq p f, (env.class_dequeue_task rq p f).switch_part = rq.switch_part) :
    w.switch_frame prev (deactivate_task env w cpu pid flags) := by
  unfold deactivate_task dequeue_task
  dsimp only
  refine switch_frame_trans ?_ (switch_frame_map_rq prev _ _ _ (fun _ => hdeq _ _ _))
  have h1 : w.switch_frame prev
      (if env.task_contributes_to_load (w.tasks pid) = true then
        w.map_rq cpu (fun rq => { rq with nr_uninterruptible := rq.nr_uninterruptible + 1 })
      else w) := by
    split
    · exact switch_frame_map_rq prev w _ _ (fun _ => rfl)
    · exact switch_frame_refl prev w
  split
  · exact switch_frame_trans h1 (clear_ed_task_switch_frame prev _ pid cpu)
  · exact h1

theorem try_to_wake_up_local_switch_frame (env : Env) (w w1 : World)
    (pid this_cpu current wallclock : Nat)
    (henq : ∀ rq p f, (env.class_enqueue_task rq p f).switch_part = rq.switch_part)
    (h : try_to_wake_up_local env w pid this_cpu current wallclock = some w1) :
    w.switch_frame current w1 := by
  unfold try_to_wake_up_local at h
  dsimp only at h
  split at h
  · simp only [Option.some.injEq] at h
    rw [← h]
    exact switch_frame_refl _ w
  · rename_i c1
    have hne : pid ≠ current := by
      intro e
      apply c1
      simp [e]
    split at h
    · simp only [Option.some.injEq] at h
      rw [← h]
      exact switch_frame_refl _ w
    · split at h
      · split at h
        · exact absurd h (by simp)
        · rename_i wa ea
          split at h
          · exact absurd h (by simp)
          · rename_i wb eb
            simp only [Option.some.injEq] at h
            rw [← h]
            have ka := world_update_task_ravg_switch_frame _ _ _ _ _ _ _ _ _ current ea
            have kb := world_update_task_ravg_switch_frame _ _ _ _ _ _ _ _ _ current eb
            refine switch_frame_trans (switch_frame_trans ka kb) ?_
            unfold ttwu_do_wakeup ttwu_activate activate_task enqueue_task
            dsimp only
            refine switch_frame_trans ?_ (switch_frame_map_task _ _ _ _ (Or.inl hne))
            refine switch_frame_trans ?_ (switch_frame_map_task _ _ _ _ (Or.inl hne))
            refine switch_frame_trans ?_ (switch_frame_map_task _ _ _ _ (Or.inl hne))
            refine switch_frame_trans ?_ (switch_frame_map_rq _ _ _ _ (fun _ => henq _ _ _))
            split
            · exact switch_frame_map_rq _ _ _ _ (fun _ => rfl)
            · exact switch_frame_refl _ _
      · simp only [Option.some.injEq] at h
        rw [← h]
        unfold ttwu_do_wakeup
        exact switch_frame_map_task _ _ _ _ (Or.inl hne)


/-- What the deactivation block of `__schedule` leaves of `prev` and of the
queues. -/
theorem __schedule_deactivate_effect (env : ScheduleEnv) (w w1 : World)
    (cpu prev wake_clock : Nat)
    (hdeq : ∀ rq p f, (env.class_dequeue_task rq p f).switch_part = rq.switch_part)
    (henq : ∀ rq p f, (env.class_enqueue_task rq p f).switch_part = rq.switch_part)
    (h : __schedule_deactivate env w cpu prev wake_clock = some w1) :
    (∀ c, (w1.rqs c).switch_part = (w.rqs c).switch_part) ∧
    (w1.tasks prev).nvcsw = (w.tasks prev).nvcsw ∧
    (w1.tasks prev).nivcsw = (w.tasks prev).nivcsw ∧
    (((w.tasks prev).state != 0 && !env.preempt_active) = false →
      (w1.tasks prev).state = (w.tasks prev).state ∧
      (w1.tasks prev).on_rq = (w.tasks prev).on_rq) ∧
    (((w.tasks prev).state != 0 && !env.preempt_active) = true →
      env.signal_pending_state (w.tasks prev).state (w.tasks prev) = true →
      (w1.tasks prev).state = TASK_RUNNING ∧
      (w1.tasks prev).on_rq = (w.tasks prev).on_rq) ∧
    (((w.tasks prev).state != 0 && !env.preempt_active) = true →
      env.signal_pending_state (w.tasks prev).state (w.tasks prev) = false →
      (w1.tasks prev).state = (w.tasks prev).state ∧ (w1.tasks prev).on_rq = 0) := by
  unfold __schedule_deactivate at h
  dsimp only at h
  split at h
  · rename_i c1
    split at h
    · rename_i c2
      simp only [Option.some.injEq] at h
      rw [← h]
      refine ⟨fun _ => rfl, ?_, ?_, fun hc => ?_, fun _ _ => ?_, fun _ hc => ?_⟩
      · rw [map_task_same]
      · rw [map_task_same]
      · rw [c1] at hc
        exact absurd hc (by simp)
      · rw [map_task_same]
        exact ⟨rfl, rfl⟩
      · rw [c2] at hc
        exact absurd hc (by simp)
    · rename_i c2
      have k1 : w.switch_frame prev (deactivate_task env.toEnv w cpu prev DEQUEUE_SLEEP) :=
        deactivate_task_switch_frame env.toEnv w cpu prev DEQUEUE_SLEEP prev hdeq
      have hfin : ∀ w0 : World,
          ((deactivate_task env.toEnv w cpu prev DEQUEUE_SLEEP).map_task prev
            (fun p => { p with on_rq := 0 })).switch_frame prev w0 →
          (∀ c, (w0.rqs c).switch_part = (w.rqs c).switch_part) ∧
          (w0.tasks prev).nvcsw = (w.tasks prev).nvcsw ∧
          (w0.tasks prev).nivcsw = (w.tasks prev).nivcsw ∧
          (w0.tasks prev).state = (w.tasks prev).state ∧ (w0.tasks prev).on_rq = 0 := by
        intro w0 k0
        have e1 := k0.1
        rw [map_task_same] at e1
        have e2 := k1.1
        unfold Task.switch_part at e1 e2
        simp only [Prod.mk.injEq] at e1 e2
        refine ⟨fun c => (k0.2 c).trans (k1.2 c), e1.2.2.1.trans e2.2.2.1,
          e1.2.2.2.trans e2.2.2.2, e1.1.trans e2.1, e1.2.1⟩
      have hres : (∀ c, (w1.rqs c).switch_part = (w.rqs c).switch_part) ∧
          (w1.tasks prev).nvcsw = (w.tasks prev).nvcsw ∧
          (w1.tasks prev).nivcsw = (w.tasks prev).nivcsw ∧
          (w1.tasks prev).state = (w.tasks prev).state ∧ (w1.tasks prev).on_rq = 0 := by
        split at h
        · simp only [Option.some.injEq] at h
          rw [← h]
          exact hfin _ (switch_frame_refl prev _)
        · exact hfin w1 (try_to_wake_up_local_switch_frame env.toEnv _ w1 _ cpu prev
            wake_clock henq h)
      refine ⟨hres.1, hres.2.1, hres.2.2.1, fun hc => ?_, fun _ hc => ?_,
        fun _ _ => ⟨hres.2.2.2.1, hres.2.2.2.2⟩⟩
      · rw [c1] at hc
        exact absurd hc (by simp)
      · exact absurd hc c2
  · rename_i c1
    simp only [Option.some.injEq] at h
    rw [← h]
    refine ⟨fun _ => rfl, rfl, rfl, fun _ => ⟨rfl, rfl⟩, fun hc => ?_, fun hc => ?_⟩
    · exact absurd hc c1
    · exact absurd hc c1


theorem __schedule_switch_effect (env : ScheduleEnv) (w : World) (cpu prev next : Nat)
    (voluntary : Bool) (wallclock : Nat) (hne : prev ≠ next) :
    ((__schedule_switch env w cpu prev next voluntary wallclock).rqs cpu).nr_switches
      = wrap64 ((w.rqs cpu).nr_switches + 1) ∧
    ((__schedule_switch env w cpu prev next voluntary wallclock).rqs cpu).curr = next ∧
    ((__schedule_switch env w cpu prev next voluntary wallclock).tasks prev).state
      = (w.tasks prev).state ∧
    ((__schedule_switch env w cpu prev next voluntary wallclock).tasks prev).on_rq
      = (w.tasks prev).on_rq ∧
    ((__schedule_switch env w cpu prev next voluntary wallclock).tasks prev).nvcsw
      = (if voluntary then ((w.tasks prev).nvcsw + 1) % 2 ^ env.BITS_PER_LONG
         else (w.tasks prev).nvcsw) ∧
    ((__schedule_switch env w cpu prev next voluntary wallclock).tasks prev).nivcsw
      = (if voluntary then (w.tasks prev).nivcsw
         else ((w.tasks prev).nivcsw + 1) % 2 ^ env.BITS_PER_LONG) := by
  unfold __schedule_switch context_switch
  dsimp only
  refine ⟨?_, ?_, ?_, ?_, ?_, ?_⟩
  · simp only [map_task_rqs, map_rq_same]
  · simp only [map_task_rqs, map_rq_same]
  all_goals
    rw [map_task_same, map_task_other _ _ _ _ hne, map_task_same, map_task_same]
    cases voluntary <;> rfl

/-- The part of a pass of `__schedule` after the deactivation block, on the
followed fields. -/
theorem __schedule_pass_cases (env : ScheduleEnv) (n : Nat) (w w1 : World)
    (cpu wake_clock wallclock next : Nat)
    (hpick : ∀ c rq prev, (env.pick c rq prev).2.1.switch_part = rq.switch_part ∧
      (env.pick c rq prev).2.2.switch_part = prev.switch_part)
    (h : __schedule_pass env n w cpu wake_clock wallclock = some (w1, next)) :
    ∃ wd w4, __schedule_deactivate env w cpu (w.rqs cpu).curr wake_clock = some wd ∧
      (w4.tasks (w.rqs cpu).curr).switch_part = (wd.tasks (w.rqs cpu).curr).switch_part ∧
      (w4.rqs cpu).switch_part = (wd.rqs cpu).switch_part ∧
      (((w.rqs cpu).curr ≠ next ∧
        w1 = __schedule_switch env w4 cpu (w.rqs cpu).curr next
          ((w.tasks (w.rqs cpu).curr).state != 0 && !env.preempt_active) wallclock) ∨
       ((w.rqs cpu).curr = next ∧ w1 = w4)) := by
  unfold __schedule_pass at h
  dsimp only at h
  split at h
  · exact absurd h (by simp)
  · rename_i wd ed
    split at h
    · rename_i nx rq1 prev1 ep
      have kp := pick_next_task_switch_part env.pick hpick n _ _ _ rq1 prev1 ep
      split at h
      · exact absurd h (by simp)
      · rename_i w3 e3
        split at h
        · exact absurd h (by simp)
        · rename_i w4 e4
          have k3 := world_update_task_ravg_switch_frame _ _ _ _ _ _ _ _ _ (w.rqs cpu).curr e3
          have k4 := world_update_task_ravg_switch_frame _ _ _ _ _ _ _ _ _ (w.rqs cpu).curr e4
          have k34 := switch_frame_trans k3 k4
          have t1 := k34.1
          have t2 := k34.2 cpu
          simp only [Function.update_same] at t1 t2
          refine ⟨wd, w4, ed, t1.trans kp.2, t2.trans kp.1, ?_⟩
          split at h
          · exact absurd h (by simp)
          · split at h
            · rename_i hne
              simp only [Option.some.injEq, Prod.mk.injEq] at h
              left
              rw [← h.2]
              exact ⟨by simpa using hne, h.1.symm⟩
            · rename_i heq
              simp only [Option.some.injEq, Prod.mk.injEq] at h
              right
              rw [← h.2]
              exact ⟨by simpa using heq, h.1.symm⟩
    · exact absurd h (by simp)


/-- C20: one pass of `__schedule` that returns, with class hooks that leave
`rq->curr`, `rq->nr_switches` and `prev`'s `state`, `on_rq`, `nvcsw` and
`nivcsw` alone, and counters that do not wrap.  With `next != prev`,
`rq->nr_switches` goes up by one, `rq->curr` becomes `next`, and exactly one
of `prev`'s counters goes up by one: `nvcsw` when `prev->state` was non-zero
and the pass is not a preemption, else `nivcsw`.  With `next == prev` none of
the four changes.  `prev->on_rq` becomes 0 when `prev->state` was non-zero,
the pass is not a preemption and no signal is pending, and is left as it was
otherwise; with a pending signal `prev->state` becomes `TASK_RUNNING`. -/
theorem __schedule_pass_effect (env : ScheduleEnv) (n : Nat) (w w1 : World)
    (cpu wake_clock wallclock next : Nat)
    (hpick : ∀ c rq prev, (env.pick c rq prev).2.1.switch_part = rq.switch_part ∧
      (env.pick c rq prev).2.2.switch_part = prev.switch_part)
    (hdeq : ∀ rq p f, (env.class_dequeue_task rq p f).switch_part = rq.switch_part)
    (henq : ∀ rq p f, (env.class_enqueue_task rq p f).switch_part = rq.switch_part)
    (hns : (w.rqs cpu).nr_switches + 1 < 18446744073709551616)
    (hnv : (w.tasks (w.rqs cpu).curr).nvcsw + 1 < 2 ^ env.BITS_PER_LONG)
    (hni : (w.tasks (w.rqs cpu).curr).nivcsw + 1 < 2 ^ env.BITS_PER_LONG)
    (h : __schedule_pass env n w cpu wake_clock wallclock = some (w1, next)) :
    (next ≠ (w.rqs cpu).curr →
      (w1.rqs cpu).nr_switches = (w.rqs cpu).nr_switches + 1 ∧
      (w1.rqs cpu).curr = next ∧
      (((w.tasks (w.rqs cpu).curr).state != 0 && !env.preempt_active) = true →
        (w1.tasks (w.rqs cpu).curr).nvcsw = (w.tasks (w.rqs cpu).curr).nvcsw + 1 ∧
        (w1.tasks (w.rqs cpu).curr).nivcsw = (w.tasks (w.rqs cpu).curr).nivcsw) ∧
      (((w.tasks (w.rqs cpu).curr).state != 0 && !env.preempt_active) = false →
        (w1.tasks (w.rqs cpu).curr).nivcsw = (w.tasks (w.rqs cpu).curr).nivcsw + 1 ∧
        (w1.tasks (w.rqs cpu).curr).nvcsw = (w.tasks (w.rqs cpu).curr).nvcsw)) ∧
    (next = (w.rqs cpu).curr →
      (w1.rqs cpu).nr_switches = (w.rqs cpu).nr_switches ∧
      (w1.rqs cpu).curr = (w.rqs cpu).curr ∧
      (w1.tasks (w.rqs cpu).curr).nvcsw = (w.tasks (w.rqs cpu).curr).nvcsw ∧
      (w1.tasks (w.rqs cpu).curr).nivcsw = (w.tasks (w.rqs cpu).curr).nivcsw) ∧
    ((((w.tasks (w.rqs cpu).curr).state != 0 && !env.preempt_active) = true ∧
        env.signal_pending_state (w.tasks (w.rqs cpu).curr).state (w.tasks (w.rqs cpu).curr)
          = false) →
      (w1.tasks (w.rqs cpu).curr).on_rq = 0) ∧
    (¬ (((w.tasks (w.rqs cpu).curr).state != 0 && !env.preempt_active) = true ∧
        env.signal_pending_state (w.tasks (w.rqs cpu).curr).state (w.tasks (w.rqs cpu).curr)
          = false) →
      (w1.tasks (w.rqs cpu).curr).on_rq = (w.tasks (w.rqs cpu).curr).on_rq) ∧
    ((((w.tasks (w.rqs cpu).curr).state != 0 && !env.preempt_active) = true ∧
        env.signal_pending_state (w.tasks (w.rqs cpu).curr).state (w.tasks (w.rqs cpu).curr)
          = true) →
      (w1.tasks (w.rqs cpu).curr).state = TASK_RUNNING ∧
      (w1.tasks (w.rqs cpu).curr).on_rq = (w.tasks (w.rqs cpu).curr).on_rq) := by
  obtain ⟨wd, w4, ed, t4, r4, hcase⟩ :=
    __schedule_pass_cases env n w w1 cpu wake_clock wallclock next hpick h
  obtain ⟨d1, d2, d3, d4, d5, d6⟩ :=
    __schedule_deactivate_effect env w wd cpu (w.rqs cpu).curr wake_clock hdeq henq ed
  have dr := d1 cpu
  unfold Task.switch_part at t4
  unfold Rq.switch_part at r4 dr
  simp only [Prod.mk.injEq] at t4 r4 dr
  obtain ⟨ts, to_, tv, ti⟩ := t4
  -- the followed fields of `prev` and of the queue in the final world
  have hfin : (w1.tasks (w.rqs cpu).curr).state = (wd.tasks (w.rqs cpu).curr).state ∧
      (w1.tasks (w.rqs cpu).curr).on_rq = (wd.tasks (w.rqs cpu).curr).on_rq := by
    rcases hcase with ⟨hne, e⟩ | ⟨_, e⟩
    · obtain ⟨_, _, s3, s4, _, _⟩ := __schedule_switch_effect env w4 cpu (w.rqs cpu).curr next
        ((w.tasks (w.rqs cpu).curr).state != 0 && !env.preempt_active) wallclock hne
      rw [e]
      exact ⟨s3.trans ts, s4.trans to_⟩
    · rw [e]
      exact ⟨ts, to_⟩
  refine ⟨fun hn => ?_, fun hn => ?_, fun hc => ?_, fun hc => ?_, fun hc => ?_⟩
  · rcases hcase with ⟨hne, e⟩ | ⟨heq, _⟩
    · obtain ⟨s1, s2, _, _, s5, s6⟩ := __schedule_switch_effect env w4 cpu (w.rqs cpu).curr
        next ((w.tasks (w.rqs cpu).curr).state != 0 && !env.preempt_active) wallclock hne
      rw [e]
      refine ⟨?_, s2, fun hv => ?_, fun hv => ?_⟩
      · rw [s1, r4.2, dr.2, wrap64_of_lt hns]
      · rw [s5, s6, hv, if_pos rfl, if_pos rfl, tv, ti, d2, d3, Nat.mod_eq_of_lt hnv]
        exact ⟨rfl, rfl⟩
      · rw [s5, s6, hv]
        simp only [Bool.false_eq_true, if_false]
        rw [tv, ti, d2, d3, Nat.mod_eq_of_lt hni]
        exact ⟨rfl, rfl⟩
    · exact absurd heq.symm hn
  · rcases hcase with ⟨hne, _⟩ | ⟨_, e⟩
    · exact absurd hn.symm hne
    · rw [e]
      exact ⟨r4.2.trans dr.2, r4.1.trans dr.1, tv.trans d2, ti.trans d3⟩
  · rw [hfin.2]
    exact (d6 hc.1 hc.2).2
  · rw [hfin.2]
    cases hv : ((w.tasks (w.rqs cpu).curr).state != 0 && !env.preempt_active) with
    | false => exact (d4 hv).2
    | true =>
      cases hs : env.signal_pending_state (w.tasks (w.rqs cpu).curr).state
          (w.tasks (w.rqs cpu).curr) with
      | false => exact absurd ⟨hv, hs⟩ hc
      | true => exact (d5 hv hs).2
  · rw [hfin.1, hfin.2]
    exact d5 hc.1 hc.2

/-- On `c20_world` the pass returns: task 3 sleeps voluntarily, the stop task
7 takes the processor, `nr_switches` and `nvcsw` go from 0 to 1 and task 3
leaves the queue. -/
theorem __schedule_pass_effect_witness :
    __schedule_pass c20_env 1 c20_world 0 100 100 = some c20_after ∧
    c20_after.2 = 7 ∧ (c20_world.rqs 0).curr = 3 ∧
    (c20_after.1.rqs 0).curr = 7 ∧ (c20_after.1.rqs 0).nr_switches = 1 ∧
    (c20_after.1.tasks 3).nvcsw = 1 ∧ (c20_after.1.tasks 3).nivcsw = 0 ∧
    (c20_after.1.tasks 3).on_rq = 0 ∧
    (c20_after.2 ≠ (c20_world.rqs 0).curr →
      (c20_after.1.rqs 0).nr_switches = (c20_world.rqs 0).nr_switches + 1 ∧
      (c20_after.1.rqs 0).curr = c20_after.2 ∧
      ((((c20_world.tasks (c20_world.rqs 0).curr).state != 0 && !c20_env.preempt_active)
          = true →
        (c20_after.1.tasks (c20_world.rqs 0).curr).nvcsw
          = (c20_world.tasks (c20_world.rqs 0).curr).nvcsw + 1 ∧
        (c20_after.1.tasks (c20_world.rqs 0).curr).nivcsw
          = (c20_world.tasks (c20_world.rqs 0).curr).nivcsw)) ∧
      ((((c20_world.tasks (c20_world.rqs 0).curr).state != 0 && !c20_env.preempt_active)
          = false →
        (c20_after.1.tasks (c20_world.rqs 0).curr).nivcsw
          = (c20_world.tasks (c20_world.rqs 0).curr).nivcsw + 1 ∧
        (c20_after.1.tasks (c20_world.rqs 0).curr).nvcsw
          = (c20_world.tasks (c20_world.rqs 0).curr).nvcsw))) :=
  have hret : __schedule_pass c20_env 1 c20_world 0 100 100 = some c20_after :=
    option_eq_some_getD _ (c20_world, 0) (by decide!)
  ⟨hret, by decide!, by decide!, by decide!, by decide!, by decide!, by decide!, by decide!,
    (__schedule_pass_effect c20_env 1 c20_world c20_after.1 0 100 100 c20_after.2
      (fun c rq prev => by cases c <;> exact ⟨rfl, rfl⟩)
      (fun _ _ _ => rfl) (fun _ _ _ => rfl) (by decide) (by decide) (by decide) hret).1⟩


/-! ## The log record of `select_fallback_rq` -/

/-- C27: whenever `select_fallback_rq` returns, either no relaxation took
place (the task is the one given, `state` is still `cpuset`) and no "no longer
affine" record is printed, or the affinity was relaxed (through the
cpuset-allowed step, or through it and the all-possible-processors step) and
the record is printed exactly when the task has an address space (`p->mm`) and
`printk_ratelimit()` allows it. -/
theorem select_fallback_rq_logged (e : CpuEnv) (cpu : Nat) (p : Task) (r : FallbackResult)
    (h : select_fallback_rq e cpu p = some r) :
    (r.state = FallbackState.cpuset ∧ r.task = p ∧ r.logged = false) ∨
    (r.state = FallbackState.possible ∧ r.task = e.cpuset_cpus_allowed_fallback p ∧
      r.logged = (r.task.mm && e.printk_ratelimit)) ∨
    (r.state = FallbackState.fail ∧
      r.task = do_set_cpus_allowed e (e.cpuset_cpus_allowed_fallback p) e.cpu_possible_mask ∧
      r.logged = (r.task.mm && e.printk_ratelimit)) := by
  unfold select_fallback_rq at h
  simp only [] at h
  split at h
  · simp only [Option.some.injEq] at h
    rw [← h]
    exact Or.inl ⟨rfl, rfl, rfl⟩
  · unfold fallback_from_cpuset at h
    split at h
    · simp only [Option.some.injEq] at h
      rw [← h]
      exact Or.inl ⟨rfl, rfl, rfl⟩
    · unfold fallback_from_possible at h
      split at h
      · simp only [Option.some.injEq] at h
        rw [← h]
        exact Or.inr (Or.inl ⟨rfl, rfl, rfl⟩)
      · unfold fallback_from_fail at h
        split at h
        · simp only [Option.some.injEq] at h
          rw [← h]
          exact Or.inr (Or.inr ⟨rfl, rfl, rfl⟩)
        · exact absurd h (by simp)

/-- The user task `c7_task` is moved off its offline processor through both
relaxation steps, and the record is printed. -/
theorem select_fallback_rq_logged_witness :
    select_fallback_rq c7_env 0 c7_task
      = some { dest_cpu := 1,
               task := do_set_cpus_allowed c7_env c7_task c7_env.cpu_possible_mask,
               state := FallbackState.fail, logged := true } ∧
    ((FallbackState.fail = FallbackState.cpuset ∧
        do_set_cpus_allowed c7_env c7_task c7_env.cpu_possible_mask = c7_task ∧
        true = false) ∨
     (FallbackState.fail = FallbackState.possible ∧
        do_set_cpus_allowed c7_env c7_task c7_env.cpu_possible_mask
          = c7_env.cpuset_cpus_allowed_fallback c7_task ∧
        true = ((do_set_cpus_allowed c7_env c7_task c7_env.cpu_possible_mask).mm &&
          c7_env.printk_ratelimit)) ∨
     (FallbackState.fail = FallbackState.fail ∧
        do_set_cpus_allowed c7_env c7_task c7_env.cpu_possible_mask
          = do_set_cpus_allowed c7_env (c7_env.cpuset_cpus_allowed_fallback c7_task)
              c7_env.cpu_possible_mask ∧
        true = ((do_set_cpus_allowed c7_env c7_task c7_env.cpu_possible_mask).mm &&
          c7_env.printk_ratelimit))) :=
  have hr : select_fallback_rq c7_env 0 c7_task
      = some { dest_cpu := 1,
               task := do_set_cpus_allowed c7_env c7_task c7_env.cpu_possible_mask,
               state := FallbackState.fail, logged := true } := by decide
  ⟨hr, select_fallback_rq_logged c7_env 0 c7_task _ hr⟩

/-- The kernel thread `c27_kthread` goes through both relaxation steps and no
record is printed. -/
theorem select_fallback_rq_kthread_silent :
    (select_fallback_rq c7_env 0 c27_kthread).map (fun r => (r.dest_cpu, r.state, r.logged))
      = some (1, FallbackState.fail, false) ∧
    (select_fallback_rq c7_env 0 c27_kthread).map (fun r => r.task.cpus_allowed)
      = some [0, 1, 2, 3] ∧
    c27_kthread.cpus_allowed = [0] := by
  decide


/-! ## Aligned window boundaries -/

theorem update_window_start_aligned (g : Globals) (rq : Rq) (wallclock : Nat)
    (hW : 0 < g.sched_ravg_window) (hge : rq.window_start ≤ wallclock)
    (h63 : wallclock < 9223372036854775808)
    (h31 : (wallclock - rq.window_start) / g.sched_ravg_window < 2147483648) :
    ∃ k, update_window_start g rq wallclock
        = some { rq with window_start := rq.window_start + k * g.sched_ravg_window } ∧
      rq.window_start + k * g.sched_ravg_window ≤ wallclock ∧
      wallclock < rq.window_start + k * g.sched_ravg_window + g.sched_ravg_window := by
  have hdm := Nat.div_add_mod (wallclock - rq.window_start) g.sched_ravg_window
  have hmod := Nat.mod_lt (wallclock - rq.window_start) hW
  refine ⟨(wallclock - rq.window_start) / g.sched_ravg_window, ?_, ?_, ?_⟩
  · rcases Nat.eq_zero_or_pos ((wallclock - rq.window_start) / g.sched_ravg_window) with hz | hp
    · rw [hz, Nat.zero_mul, Nat.add_zero]
      rw [hz, Nat.mul_zero, Nat.zero_add] at hdm
      unfold update_window_start
      dsimp only
      rw [sub64_of_le hge (by omega), if_neg (by omega), if_pos (by omega)]
    · have e := update_window_start_advance g rq
        ((wallclock - rq.window_start) / g.sched_ravg_window)
        ((wallclock - rq.window_start) % g.sched_ravg_window) hW hp h31 hmod
        (by rw [Nat.mul_comm] ; omega)
      have ew : rq.window_start
          + (wallclock - rq.window_start) / g.sched_ravg_window * g.sched_ravg_window
          + (wallclock - rq.window_start) % g.sched_ravg_window = wallclock := by
        rw [Nat.mul_comm]
        omega
      rw [ew] at e
      exact e
  · rw [Nat.mul_comm]
    omega
  · rw [Nat.mul_comm]
    omega


theorem set_window_start_from_sync (g : Globals) (sync_cpu now : Nat) (w : World) (cpu : Nat)
    (hz : (w.rqs cpu).window_start = 0) (hmp : g.sched_enable_hmp = true)
    (hs : (w.rqs cpu).cpu ≠ sync_cpu) :
    ((set_window_start g sync_cpu now w cpu).rqs cpu).window_start
      = (w.rqs sync_cpu).window_start ∧
    (cpu ≠ sync_cpu →
      ((set_window_start g sync_cpu now w cpu).rqs sync_cpu).window_start
        = (w.rqs sync_cpu).window_start) := by
  unfold set_window_start
  dsimp only
  rw [if_neg (by simp [hz, hmp]), if_neg (by simpa using hs)]
  constructor
  · rw [map_task_rqs, map_rq_same]
  · intro hne
    rw [map_task_rqs, map_rq_other _ _ _ _ (Ne.symm hne)]

/-- C26: window boundaries stay aligned.  For a window length that is not
zero, a `wallclock` not before `rq->window_start` and below `2^63`, and fewer
than `2^31` elapsed windows, `update_window_start` returns and moves
`window_start` forward by a whole number `k` of windows, after which
`window_start <= wallclock < window_start + sched_ravg_window`; so the window
starts of two queues that were congruent modulo the window length are
congruent afterwards; and a queue without a window start that
`set_window_start` initialises from the sync processor gets the window start
of that processor, which is left as it is. -/
theorem update_window_start_keeps_alignment (g : Globals) (rq rq2 : Rq)
    (wallclock wallclock2 : Nat)
    (hW : 0 < g.sched_ravg_window)
    (hge : rq.window_start ≤ wallclock) (h63 : wallclock < 9223372036854775808)
    (h31 : (wallclock - rq.window_start) / g.sched_ravg_window < 2147483648)
    (hge2 : rq2.window_start ≤ wallclock2) (h632 : wallclock2 < 9223372036854775808)
    (h312 : (wallclock2 - rq2.window_start) / g.sched_ravg_window < 2147483648) :
    (∃ k k2,
      update_window_start g rq wallclock
        = some { rq with window_start := rq.window_start + k * g.sched_ravg_window } ∧
      rq.window_start + k * g.sched_ravg_window ≤ wallclock ∧
      wallclock < rq.window_start + k * g.sched_ravg_window + g.sched_ravg_window ∧
      update_window_start g rq2 wallclock2
        = some { rq2 with window_start := rq2.window_start + k2 * g.sched_ravg_window } ∧
      (rq.window_start % g.sched_ravg_window = rq2.window_start % g.sched_ravg_window →
        (rq.window_start + k * g.sched_ravg_window) % g.sched_ravg_window
          = (rq2.window_start + k2 * g.sched_ravg_window) % g.sched_ravg_window)) ∧
    (∀ (sync_cpu now : Nat) (w : World) (cpu : Nat),
      (w.rqs cpu).window_start = 0 → g.sched_enable_hmp = true →
      (w.rqs cpu).cpu ≠ sync_cpu →
      ((set_window_start g sync_cpu now w cpu).rqs cpu).window_start
        = (w.rqs sync_cpu).window_start ∧
      (cpu ≠ sync_cpu →
        ((set_window_start g sync_cpu now w cpu).rqs sync_cpu).window_start
          = (w.rqs sync_cpu).window_start)) := by
  obtain ⟨k, e1, a1, b1⟩ := update_window_start_aligned g rq wallclock hW hge h63 h31
  obtain ⟨k2, e2, _, _⟩ := update_window_start_aligned g rq2 wallclock2 hW hge2 h632 h312
  refine ⟨⟨k, k2, e1, a1, b1, e2, fun hc => ?_⟩,
    fun sync_cpu now w cpu hz hmp hs => set_window_start_from_sync g sync_cpu now w cpu hz hmp hs⟩
  rw [Nat.add_mul_mod_self_right, Nat.add_mul_mod_self_right]
  exact hc

/-- With a window of 10, a queue whose window started at 1000 and is updated
at 1037 moves to 1030, a queue at 2000 updated at 2051 moves to 2050, and the
queue of processor 1 of `c26_world` takes 1000 from the sync processor 0. -/
theorem update_window_start_keeps_alignment_witness :
    update_window_start c26_globals { window_start := 1000 } 1037
      = some { window_start := 1030 } ∧
    update_window_start c26_globals { window_start := 2000 } 2051
      = some { window_start := 2050 } ∧
    ((set_window_start c26_globals 0 1234 c26_world 1).rqs 1).window_start = 1000 ∧
    ((∃ k k2,
      update_window_start c26_globals { window_start := 1000 } 1037
        = some { ({ window_start := 1000 } : Rq) with
            window_start := ({ window_start := 1000 } : Rq).window_start
              + k * c26_globals.sched_ravg_window } ∧
      ({ window_start := 1000 } : Rq).window_start + k * c26_globals.sched_ravg_window
        ≤ 1037 ∧
      1037 < ({ window_start := 1000 } : Rq).window_start
        + k * c26_globals.sched_ravg_window + c26_globals.sched_ravg_window ∧
      update_window_start c26_globals { window_start := 2000 } 2051
        = some { ({ window_start := 2000 } : Rq) with
            window_start := ({ window_start := 2000 } : Rq).window_start
              + k2 * c26_globals.sched_ravg_window } ∧
      (({ window_start := 1000 } : Rq).window_start % c26_globals.sched_ravg_window
          = ({ window_start := 2000 } : Rq).window_start % c26_globals.sched_ravg_window →
        (({ window_start := 1000 } : Rq).window_start
            + k * c26_globals.sched_ravg_window) % c26_globals.sched_ravg_window
          = (({ window_start := 2000 } : Rq).window_start
            + k2 * c26_globals.sched_ravg_window) % c26_globals.sched_ravg_window)) ∧
    (∀ (sync_cpu now : Nat) (w : World) (cpu : Nat),
      (w.rqs cpu).window_start = 0 → c26_globals.sched_enable_hmp = true →
      (w.rqs cpu).cpu ≠ sync_cpu →
      ((set_window_start c26_globals sync_cpu now w cpu).rqs cpu).window_start
        = (w.rqs sync_cpu).window_start ∧
      (cpu ≠ sync_cpu →
        ((set_window_start c26_globals sync_cpu now w cpu).rqs sync_cpu).window_start
          = (w.rqs sync_cpu).window_start))) :=
  ⟨by decide!, by decide!, by decide!,
    update_window_start_keeps_alignment c26_globals { window_start := 1000 }
      { window_start := 2000 } 1037 2051 (by decide) (by decide) (by decide) (by decide)
      (by decide) (by decide) (by decide)⟩


/-! ## The history fold, exactly -/

theorem foldr_max_append (l1 l2 : List Nat) :
    (l1 ++ l2).foldr max 0 = max (l1.foldr max 0) (l2.foldr max 0) := by
  induction l1 with
  | nil => simp
  | cons a l ih =>
    simp only [List.cons_append, List.foldr_cons, ih]
    omega

theorem foldr_max_replicate (n r : Nat) (hn : 1 ≤ n) :
    (List.replicate n r).foldr max 0 = r := by
  induction n with
  | zero => omega
  | succ n ih =>
    rcases Nat.eq_zero_or_pos n with h0 | hp
    · subst h0
      simp
    · simp only [List.replicate_succ, List.foldr_cons, ih hp]
      omega

theorem take_succ_sum_max (l : List Nat) (n v : Nat) (h : l[n]? = some v) :
    (l.take (n + 1)).sum = (l.take n).sum + v ∧
    (l.take (n + 1)).foldr max 0 = max ((l.take n).foldr max 0) v := by
  rw [List.take_succ, h]
  constructor
  · simp
  · rw [foldr_max_append]
    simp

theorem take_set_of_le (l : List Nat) (n k v : Nat) (h : n ≤ k) :
    (l.set k v).take n = l.take n := by
  apply List.ext_getElem?
  intro i
  by_cases hi : i < n
  · rw [List.getElem?_take_of_lt hi, List.getElem?_take_of_lt hi]
    exact List.getElem?_set_ne (by omega)
  · rw [List.getElem?_eq_none (by simp; omega), List.getElem?_eq_none (by simp; omega)]

/-- The shift loop, exactly: with `s ≥ 1` samples the `n` oldest-but-kept
entries move up by `s` places, everything else stays, and `sum` and `max`
take in the entries moved. -/
theorem hist_shift_loop_exact (s : Nat) (hs : 1 ≤ s) :
    ∀ (n : Nat) (widx : Int) (acc : HistAcc),
      widx + 1 = (n : Int) + s → n + s ≤ acc.hist.length →
      ∃ acc', hist_shift_loop n widx acc = some acc' ∧
        acc'.hist.length = acc.hist.length ∧
        (∀ j, j < n → acc'.hist[j + s]? = acc.hist[j]?) ∧
        (∀ i, (i < s ∨ n + s ≤ i) → acc'.hist[i]? = acc.hist[i]?) ∧
        acc'.sum = acc.sum + (acc.hist.take n).sum ∧
        acc'.max = max acc.max ((acc.hist.take n).foldr max 0) := by
  intro n
  induction n with
  | zero =>
    intro widx acc _ _
    exact ⟨acc, rfl, rfl, fun j hj => by omega, fun _ _ => rfl, by simp, by simp⟩
  | succ n ih =>
    intro widx acc hw hlen
    have hn : n < acc.hist.length := by omega
    have hv : acc.hist[n]? = some (acc.hist[n]) := List.getElem?_eq_getElem hn
    have hwn : widx.toNat = n + s := by omega
    have hw0 : 0 ≤ widx ∧ widx.toNat < acc.hist.length := by omega
    obtain ⟨acc', e, hl, hmove, hkeep, hsum, hmax⟩ := ih (widx - 1)
      { hist := acc.hist.set widx.toNat (acc.hist[n])
        sum := acc.sum + acc.hist[n]
        max := if acc.hist[n] > acc.max then acc.hist[n] else acc.max }
      (by omega) (by simp; omega)
    have htake : (acc.hist.set widx.toNat (acc.hist[n])).take n = acc.hist.take n := by
      exact take_set_of_le _ _ _ _ (by omega)
    simp only [htake] at hsum hmax
    obtain ⟨ts, tm⟩ := take_succ_sum_max acc.hist n _ hv
    refine ⟨acc', ?_, ?_, ?_, ?_, ?_, ?_⟩
    · rw [hist_shift_loop, hv]
      simp only []
      rw [if_pos hw0]
      exact e
    · simpa using hl
    · intro j hj
      by_cases hjn : j = n
      · subst hjn
        rw [hkeep (j + s) (Or.inr (by omega)), hwn]
        rw [List.getElem?_set_self (by omega), hv]
      · rw [hmove j (by omega)]
        exact List.getElem?_set_ne (by omega)
    · intro i hi
      rw [hkeep i (by omega)]
      exact List.getElem?_set_ne (by omega)
    · rw [hsum, ts]
      omega
    · rw [hmax, tm]
      split <;> omega

/-- The fill loop, exactly. -/
theorem hist_fill_loop_exact (runtime : Nat) :
    ∀ (n widx : Nat) (acc : HistAcc), widx + n ≤ acc.hist.length →
      ∃ acc', hist_fill_loop runtime n widx acc = some acc' ∧
        acc'.hist.length = acc.hist.length ∧
        (∀ i, widx ≤ i → i < widx + n → acc'.hist[i]? = some runtime) ∧
        (∀ i, (i < widx ∨ widx + n ≤ i) → acc'.hist[i]? = acc.hist[i]?) ∧
        acc'.sum = acc.sum + n * runtime ∧
        acc'.max = (if n = 0 then acc.max else max acc.max runtime) := by
  intro n
  induction n with
  | zero =>
    intro widx acc _
    exact ⟨acc, rfl, rfl, fun i h1 h2 => by omega, fun _ _ => rfl, by simp, by simp⟩
  | succ n ih =>
    intro widx acc hlen
    have hwi : widx < acc.hist.length := by omega
    obtain ⟨acc', e, hl, hset, hkeep, hsum, hmax⟩ := ih (widx + 1)
      { hist := acc.hist.set widx runtime
        sum := acc.sum + runtime
        max := if runtime > acc.max then runtime else acc.max }
      (by simp; omega)
    dsimp only at hsum hmax
    refine ⟨acc', ?_, ?_, ?_, ?_, ?_, ?_⟩
    · rw [hist_fill_loop, if_pos hwi]
      exact e
    · simpa using hl
    · intro i h1 h2
      by_cases hi : i = widx
      · subst hi
        rw [hkeep i (Or.inl (by omega))]
        exact List.getElem?_set_self hwi
      · exact hset i (by omega) (by omega)
    · intro i hi
      rw [hkeep i (by omega)]
      exact List.getElem?_set_ne (by omega)
    · rw [hsum, Nat.succ_mul]
      omega
    · rw [hmax, if_neg (show ¬ n + 1 = 0 by omega)]
      split <;> split <;> omega


theorem spec_history_fold_getElem (H : Nat) (hist : List Nat) (runtime s : Nat)
    (hlen : H ≤ hist.length) (i : Nat) :
    (i < min s H → (spec_history_fold H hist runtime s)[i]? = some runtime) ∧
    (min s H ≤ i → i < H →
      (spec_history_fold H hist runtime s)[i]? = hist[i - min s H]?) ∧
    (H ≤ i → (spec_history_fold H hist runtime s)[i]? = hist[i]?) := by
  unfold spec_history_fold
  have hm : min s H ≤ H := Nat.min_le_right _ _
  have l1 : (List.replicate (min s H) runtime).length = min s H := List.length_replicate _ _
  have l2 : (hist.take (H - min s H)).length = H - min s H := by
    rw [List.length_take]
    omega
  refine ⟨fun h => ?_, fun h1 h2 => ?_, fun h => ?_⟩
  · rw [List.append_assoc, List.getElem?_append_left (by rw [l1]; exact h)]
    rw [List.getElem?_replicate]
    simp [h]
  · rw [List.getElem?_append_left (by rw [List.length_append, l1, l2]; omega)]
    rw [List.getElem?_append_right (by rw [l1]; exact h1), l1]
    exact List.getElem?_take_of_lt (by omega)
  · rw [List.getElem?_append_right (by rw [List.length_append, l1, l2]; omega)]
    rw [List.length_append, l1, l2, List.getElem?_drop]
    congr 1
    omega

theorem spec_history_fold_take (H : Nat) (hist : List Nat) (runtime s : Nat)
    (hlen : H ≤ hist.length) :
    (spec_history_fold H hist runtime s).take H
      = List.replicate (min s H) runtime ++ hist.take (H - min s H) := by
  unfold spec_history_fold
  have hm : min s H ≤ H := Nat.min_le_right _ _
  have l : (List.replicate (min s H) runtime ++ hist.take (H - min s H)).length = H := by
    rw [List.length_append, List.length_replicate, List.length_take]
    omega
  rw [List.take_append_of_le_length (by omega), List.take_of_length_le (by omega)]

/-- The two loops of `update_history` give the ring of `spec_history_fold`,
the sum of its first `H` entries and their maximum. -/
theorem hist_fold_exact (H runtime : Nat) (hist : List Nat) (s : Nat)
    (h1 : 1 ≤ H) (h5 : H ≤ 5) (hlen : hist.length = 5) (hs : 1 ≤ s) :
    hist_fold H hist runtime (s : Int) =
      some { hist := spec_history_fold H hist runtime s,
             sum := ((spec_history_fold H hist runtime s).take H).sum,
             max := ((spec_history_fold H hist runtime s).take H).foldr max 0 } := by
  unfold hist_fold
  simp only []
  rw [hist_widx H h1 h5]
  have hn : (((H : Int) - 1 - (s : Int)) + 1).toNat = H - s := by omega
  rw [hn]
  have hsh : ∃ acc1, hist_shift_loop (H - s) ((H : Int) - 1)
        { hist := hist, sum := 0, max := 0 } = some acc1 ∧
      acc1.hist.length = hist.length ∧
      (∀ j, j < H - s → acc1.hist[j + s]? = hist[j]?) ∧
      (∀ i, (i < s ∨ H ≤ i) → acc1.hist[i]? = hist[i]?) ∧
      acc1.sum = (hist.take (H - s)).sum ∧
      acc1.max = (hist.take (H - s)).foldr max 0 := by
    by_cases hsH : s < H
    · obtain ⟨acc1, e1, l1, mv1, kp1, s1, m1⟩ :=
        hist_shift_loop_exact s hs (H - s) ((H : Int) - 1)
          { hist := hist, sum := 0, max := 0 } (by omega) (by simp only []; omega)
      dsimp only at l1 mv1 kp1 s1 m1
      refine ⟨acc1, e1, l1, mv1, fun i hi => kp1 i (by omega), ?_, ?_⟩
      · rw [s1]
        omega
      · rw [m1]
        omega
    · have h0 : H - s = 0 := by omega
      rw [h0]
      exact ⟨_, rfl, rfl, fun j hj => by omega, fun _ _ => rfl, by simp, by simp⟩
  obtain ⟨acc1, e1, l1, mv1, kp1, s1, m1⟩ := hsh
  rw [e1]
  simp only []
  have hneg : ¬ ((s : Int) < 0) := by omega
  rw [if_neg hneg, Int.toNat_natCast]
  obtain ⟨acc2, e2, l2, st2, kp2, s2, m2⟩ :=
    hist_fill_loop_exact runtime (min s H) 0 acc1 (by omega)
  rw [e2]
  have hmin : H - s = H - min s H := by omega
  have hm1 : 1 ≤ min s H := by omega
  have hhist : acc2.hist = spec_history_fold H hist runtime s := by
    apply List.ext_getElem?
    intro i
    obtain ⟨g1, g2, g3⟩ := spec_history_fold_getElem H hist runtime s (by omega) i
    by_cases c1 : i < min s H
    · rw [g1 c1, st2 i (Nat.zero_le _) (by omega)]
    · by_cases c2 : i < H
      · rw [g2 (by omega) c2, kp2 i (Or.inr (by omega))]
        have hsH : s < H := by omega
        have e := mv1 (i - s) (by omega)
        have ei : i - s + s = i := by omega
        rw [ei] at e
        rw [e]
        congr 1
        omega
      · rw [g3 (by omega), kp2 i (Or.inr (by omega)), kp1 i (by omega)]
  have htk := spec_history_fold_take H hist runtime s (by omega)
  have hsum : acc2.sum = ((spec_history_fold H hist runtime s).take H).sum := by
    rw [htk, s2, s1, List.sum_append, List.sum_replicate, hmin]
    simp
    omega
  have hmax : acc2.max = ((spec_history_fold H hist runtime s).take H).foldr max 0 := by
    rw [htk, m2, if_neg (by omega), m1, foldr_max_append, foldr_max_replicate _ _ hm1, hmin]
    omega
  cases acc2
  simp only [] at hhist hsum hmax
  rw [hhist, hsum, hmax]


theorem sum_le_length_mul (B : Nat) : ∀ l : List Nat, (∀ x ∈ l, x ≤ B) → l.sum ≤ l.length * B
  | [], _ => by simp
  | a :: l, h => by
    have ha := h a (List.mem_cons_self _ _)
    have ih := sum_le_length_mul B l (fun x hx => h x (List.mem_cons_of_mem _ hx))
    rw [List.sum_cons, List.length_cons, Nat.succ_mul]
    omega

theorem spec_history_fold_take_bound (H : Nat) (hist : List Nat) (runtime s B : Nat)
    (hlen : H ≤ hist.length) (hB : ∀ x ∈ hist, x ≤ B) (hr : runtime ≤ B) :
    ((spec_history_fold H hist runtime s).take H).sum ≤ H * B := by
  have hl : ((spec_history_fold H hist runtime s).take H).length ≤ H := by
    rw [List.length_take]
    exact Nat.min_le_left _ _
  have hall : ∀ x ∈ (spec_history_fold H hist runtime s).take H, x ≤ B := by
    intro x hx
    rw [spec_history_fold_take H hist runtime s hlen] at hx
    rcases List.mem_append.mp hx with h | h
    · rw [(List.mem_replicate.mp h).2]
      exact hr
    · exact hB x (List.mem_of_mem_take h)
  exact le_trans (sum_le_length_mul B _ hall) (Nat.mul_le_mul_right B hl)

/-- C23: the history fold of `update_history` for a task that is neither idle
nor exiting, a history size `H` from 1 to 5 and `u32` entries.  With `runtime`
not zero and `samples >= 1` the call returns; the ring is the one of
`spec_history_fold`: `hist[i] = runtime` for `i < min(samples, H)` and
`hist[i]` the old `hist[i - samples]` for `samples <= i < H`; the live sum is
0; and the demand is `runtime` (RECENT), the maximum of the new `H` entries
(MAX), the sum of the new `H` entries divided by `H` (AVG), or the larger of
that average and `runtime` (MAX_RECENT_AVG).  With `runtime == 0` or
`samples == 0` the task and the queue are left as they were. -/
theorem update_history_fold (g : Globals) (fixup : FixupHook) (rq : Rq) (p : Task)
    (runtime : Nat) (samples : Int)
    (hidle : is_idle_task p = false) (hexit : exiting_task p = false)
    (h1 : 1 ≤ g.sched_ravg_hist_size) (h5 : g.sched_ravg_hist_size ≤ 5)
    (hlen : p.ravg.sum_history.length = 5)
    (h32 : ∀ x ∈ p.ravg.sum_history, x < 4294967296) (hr32 : runtime < 4294967296) :
    (runtime ≠ 0 → 1 ≤ samples →
      ∃ p1 rq1, update_history g fixup rq p runtime samples = some (p1, rq1) ∧
        p1.ravg.sum_history
          = spec_history_fold g.sched_ravg_hist_size p.ravg.sum_history runtime
              samples.toNat ∧
        (∀ i, i < min samples.toNat g.sched_ravg_hist_size →
          p1.ravg.sum_history[i]? = some runtime) ∧
        (∀ i, samples.toNat ≤ i → i < g.sched_ravg_hist_size →
          p1.ravg.sum_history[i]? = p.ravg.sum_history[i - samples.toNat]?) ∧
        p1.ravg.sum = 0 ∧
        p1.ravg.demand =
          (match g.sched_window_stats_policy with
           | WindowStatsPolicy.WINDOW_STATS_RECENT => runtime
           | WindowStatsPolicy.WINDOW_STATS_MAX =>
               (p1.ravg.sum_history.take g.sched_ravg_hist_size).foldr max 0
           | WindowStatsPolicy.WINDOW_STATS_AVG =>
               (p1.ravg.sum_history.take g.sched_ravg_hist_size).sum / g.sched_ravg_hist_size
           | WindowStatsPolicy.WINDOW_STATS_MAX_RECENT_AVG =>
               max ((p1.ravg.sum_history.take g.sched_ravg_hist_size).sum
                 / g.sched_ravg_hist_size) runtime)) ∧
    ((runtime = 0 ∨ samples = 0) →
      update_history g fixup rq p runtime samples = some (p, rq)) := by
  constructor
  · intro hr hs
    obtain ⟨s, es⟩ : ∃ s : Nat, samples = (s : Int) := ⟨samples.toNat, by omega⟩
    subst es
    rw [Int.toNat_natCast]
    have hs1 : 1 ≤ s := by omega
    have hfold := hist_fold_exact g.sched_ravg_hist_size runtime p.ravg.sum_history s h1 h5
      hlen hs1
    have hb := spec_history_fold_take_bound g.sched_ravg_hist_size p.ravg.sum_history runtime
      s 4294967295 (by omega) (fun x hx => by have := h32 x hx; omega) (by omega)
    have havg : ((spec_history_fold g.sched_ravg_hist_size p.ravg.sum_history runtime
        s).take g.sched_ravg_hist_size).sum / g.sched_ravg_hist_size < 4294967296 := by
      apply Nat.div_lt_of_lt_mul
      have : g.sched_ravg_hist_size * 4294967295 < g.sched_ravg_hist_size * 4294967296 :=
        Nat.mul_lt_mul_of_pos_left (by omega) (by omega)
      omega
    unfold update_history
    rw [if_neg (by simp [hidle, hexit, hr]; omega), hfold]
    dsimp only
    unfold update_history_commit
    dsimp only
    refine ⟨_, _, rfl, rfl, fun i hi => ?_, fun i hi1 hi2 => ?_, rfl, ?_⟩
    · exact (spec_history_fold_getElem _ _ runtime s (by omega) i).1 hi
    · have hm : min s g.sched_ravg_hist_size = s := by omega
      have := (spec_history_fold_getElem g.sched_ravg_hist_size p.ravg.sum_history runtime s
        (by omega) i).2.1 (by omega) hi2
      rw [hm] at this
      exact this
    · show (match g.sched_window_stats_policy with
        | WindowStatsPolicy.WINDOW_STATS_RECENT => runtime
        | WindowStatsPolicy.WINDOW_STATS_MAX => _
        | WindowStatsPolicy.WINDOW_STATS_AVG => _
        | WindowStatsPolicy.WINDOW_STATS_MAX_RECENT_AVG => _) = _
      cases g.sched_window_stats_policy
      · rfl
      · rfl
      · dsimp only
        rw [wrap32_of_lt havg]
      · dsimp only
        rw [wrap32_of_lt havg]
  · intro h
    unfold update_history
    rw [if_pos]
    rcases h with h | h
    · simp [h]
    · simp [h]

/-- With three history entries in use and the policy AVG, two samples of 9
folded into the history 5, 4, 3, 2, 1 leave 9, 9, 5, 2, 1, the live sum 0 and
the demand (9 + 9 + 5) / 3 = 7; a fold of a zero runtime changes nothing. -/
theorem update_history_fold_witness :
    update_history c23_globals fixup_none {} c23_task 9 2
      = some ({ c23_task with ravg := { sum := 0, demand := 7,
                                        sum_history := [9, 9, 5, 2, 1] } }, {}) ∧
    (∃ p1 rq1, update_history c23_globals fixup_none {} c23_task 9 2 = some (p1, rq1) ∧
        p1.ravg.sum_history
          = spec_history_fold c23_globals.sched_ravg_hist_size c23_task.ravg.sum_history 9
              (2 : Int).toNat ∧
        (∀ i, i < min (2 : Int).toNat c23_globals.sched_ravg_hist_size →
          p1.ravg.sum_history[i]? = some 9) ∧
        (∀ i, (2 : Int).toNat ≤ i → i < c23_globals.sched_ravg_hist_size →
          p1.ravg.sum_history[i]? = c23_task.ravg.sum_history[i - (2 : Int).toNat]?) ∧
        p1.ravg.sum = 0 ∧
        p1.ravg.demand =
          (match c23_globals.sched_window_stats_policy with
           | WindowStatsPolicy.WINDOW_STATS_RECENT => 9
           | WindowStatsPolicy.WINDOW_STATS_MAX =>
               (p1.ravg.sum_history.take c23_globals.sched_ravg_hist_size).foldr max 0
           | WindowStatsPolicy.WINDOW_STATS_AVG =>
               (p1.ravg.sum_history.take c23_globals.sched_ravg_hist_size).sum
                 / c23_globals.sched_ravg_hist_size
           | WindowStatsPolicy.WINDOW_STATS_MAX_RECENT_AVG =>
               max ((p1.ravg.sum_history.take c23_globals.sched_ravg_hist_size).sum
                 / c23_globals.sched_ravg_hist_size) 9)) ∧
    update_history c23_globals fixup_none {} c23_task 0 2 = some (c23_task, {}) :=
  ⟨by decide!,
    (update_history_fold c23_globals fixup_none {} c23_task 9 2 rfl (by decide) (by decide)
      (by decide) (by decide) (by decide) (by decide)).1 (by decide) (by decide),
    (update_history_fold c23_globals fixup_none {} c23_task 0 2 rfl (by decide) (by decide)
      (by decide) (by decide) (by decide) (by decide)).2 (Or.inl rfl)⟩


/-! ## The split of an interval at the window boundaries -/

theorem scale_exec_time_cpu (g : Globals) (delta : Nat) (rq rq1 : Rq) (h : rq1.cpu = rq.cpu) :
    scale_exec_time g delta rq1 = scale_exec_time g delta rq := by
  unfold scale_exec_time
  rw [h]

theorem spec_history_fold_length (H : Nat) (hist : List Nat) (runtime s : Nat)
    (hlen : H ≤ hist.length) :
    (spec_history_fold H hist runtime s).length = hist.length := by
  unfold spec_history_fold
  have hm : min s H ≤ H := Nat.min_le_right _ _
  rw [List.length_append, List.length_append, List.length_replicate, List.length_take,
    List.length_drop]
  omega

theorem spec_history_fold_head (H : Nat) (hist : List Nat) (runtime s : Nat)
    (h1 : 1 ≤ H) (hs : 1 ≤ s) :
    (spec_history_fold H hist runtime s).head? = some runtime := by
  unfold spec_history_fold
  obtain ⟨m, hm⟩ : ∃ m, min s H = m + 1 := ⟨min s H - 1, by omega⟩
  rw [hm, List.replicate_succ]
  rfl

/-- What one call of `update_history` with `s ≥ 1` samples does to a task that
is neither idle nor exiting: nothing for a zero `runtime`, else the fold. -/
theorem update_history_result (g : Globals) (fixup : FixupHook) (rq : Rq) (p : Task)
    (runtime s : Nat)
    (hidle : is_idle_task p = false) (hexit : exiting_task p = false)
    (h1 : 1 ≤ g.sched_ravg_hist_size) (h5 : g.sched_ravg_hist_size ≤ 5)
    (hlen : p.ravg.sum_history.length = 5) (hs : 1 ≤ s) :
    ∃ p1 rq1, update_history g fixup rq p runtime (s : Int) = some (p1, rq1) ∧
      rq1.cpu = rq.cpu ∧ is_idle_task p1 = false ∧
      p1.ravg.sum_history =
        (if runtime = 0 then p.ravg.sum_history
         else spec_history_fold g.sched_ravg_hist_size p.ravg.sum_history runtime s) ∧
      p1.ravg.sum = (if runtime = 0 then p.ravg.sum else 0) := by
  by_cases hr : runtime = 0
  · refine ⟨p, rq, ?_, rfl, hidle, by rw [if_pos hr], by rw [if_pos hr]⟩
    unfold update_history
    rw [if_pos (by simp [hr])]
  · have hfold := hist_fold_exact g.sched_ravg_hist_size runtime p.ravg.sum_history s h1 h5
      hlen hs
    unfold update_history
    rw [if_neg (by simp [hidle, hexit, hr]; omega), hfold]
    dsimp only
    refine ⟨_, _, rfl, ?_, hidle, by rw [if_neg hr], by rw [if_neg hr]⟩
    split <;> rfl


theorem add_to_task_demand_sum (g : Globals) (rq : Rq) (p : Task) (delta : Nat)
    (h32 : p.ravg.sum + scale_exec_time g delta rq < 4294967296) :
    (add_to_task_demand g rq p delta).ravg.sum
      = min (p.ravg.sum + scale_exec_time g delta rq) g.sched_ravg_window := by
  unfold add_to_task_demand
  dsimp only
  rw [wrap32_of_lt h32]
  split <;> omega

/-- C22: the split of an interval at the window boundaries in
`update_task_demand`, for an accounted event (so the task is neither idle nor
exiting) with `mark_start < window_start`, a window length within its
permitted range, a live sum within the window, scaling that does not enlarge,
and `wallclock` in the window that starts at `window_start`.  With `k` the
number of full windows crossed, `b0 = window_start - k * W` the first boundary
crossed, `s1` the live sum plus the scaled time from `mark_start` to `b0`
capped at `W`, and `sW = scale_exec_time(W)`: the call returns; `s1` is folded
into the history as one sample unless it is zero; then `k` samples equal to
`sW` are folded unless `k` or `sW` is zero; and the live sum ends as
`scale_exec_time(wallclock - window_start)`. -/
theorem update_task_demand_window_split (g : Globals) (fixup : FixupHook) (p : Task) (rq : Rq)
    (event : TaskEvent) (wallclock k b0 s1 sW : Nat)
    (hev : account_busy_for_task_demand g p event = true)
    (hW : 0 < g.sched_ravg_window) (hWmax : g.sched_ravg_window ≤ MAX_SCHED_RAVG_WINDOW)
    (h1 : 1 ≤ g.sched_ravg_hist_size) (h5 : g.sched_ravg_hist_size ≤ 5)
    (hlen : p.ravg.sum_history.length = 5)
    (hf : 0 < g.max_possible_freq) (he : 0 < g.max_possible_efficiency)
    (heff : g.cpu_efficiency rq.cpu ≤ g.max_possible_efficiency)
    (hsum : p.ravg.sum ≤ g.sched_ravg_window)
    (hnw : p.ravg.mark_start < rq.window_start)
    (hwc : rq.window_start ≤ wallclock) (hwc64 : wallclock < 18446744073709551616)
    (hrem : wallclock - rq.window_start ≤ g.sched_ravg_window)
    (hk : k = (rq.window_start - p.ravg.mark_start) / g.sched_ravg_window)
    (hk31 : k < 2147483648)
    (hb0 : b0 = rq.window_start - k * g.sched_ravg_window)
    (hs1 : s1 = min (p.ravg.sum + scale_exec_time g (b0 - p.ravg.mark_start) rq)
      g.sched_ravg_window)
    (hsW : sW = scale_exec_time g g.sched_ravg_window rq) :
    ∃ p1 rq1, update_task_demand g fixup p rq event wallclock = some (p1, rq1) ∧
      p1.ravg.sum_history =
        (if k = 0 ∨ sW = 0 then
          (if s1 = 0 then p.ravg.sum_history
           else spec_history_fold g.sched_ravg_hist_size p.ravg.sum_history s1 1)
         else spec_history_fold g.sched_ravg_hist_size
          (if s1 = 0 then p.ravg.sum_history
           else spec_history_fold g.sched_ravg_hist_size p.ravg.sum_history s1 1) sW k) ∧
      p1.ravg.sum = scale_exec_time g (wallclock - rq.window_start) rq := by
  obtain ⟨hidle, hexit⟩ := account_busy_for_task_demand_true g p event hev
  have hWm : g.sched_ravg_window ≤ 1000000000 := hWmax
  have hdm := Nat.div_add_mod (rq.window_start - p.ravg.mark_start) g.sched_ravg_window
  have hmod := Nat.mod_lt (rq.window_start - p.ravg.mark_start) hW
  rw [← hk, Nat.mul_comm] at hdm
  have hnwd : decide (p.ravg.mark_start < rq.window_start) = true := by simpa using hnw
  have hdelta : sub64 rq.window_start p.ravg.mark_start
      = rq.window_start - p.ravg.mark_start := sub64_of_le (by omega) (by omega)
  have hnr : toInt32 ((rq.window_start - p.ravg.mark_start) / g.sched_ravg_window)
      = (k : Int) := by
    rw [← hk, toInt32_of_lt hk31]
  have hadv : wrap64 (intToU64 (k : Int) * g.sched_ravg_window) = k * g.sched_ravg_window := by
    rw [intToU64_natCast (by omega), wrap64_of_lt (by omega)]
  have hws1 : sub64 rq.window_start (k * g.sched_ravg_window) = b0 := by
    rw [sub64_of_le (by omega) (by omega), hb0]
  have hfirst : sub64 b0 p.ravg.mark_start = b0 - p.ravg.mark_start :=
    sub64_of_le (by omega) (by omega)
  have hws2 : wrap64 (b0 + k * g.sched_ravg_window) = rq.window_start := by
    rw [wrap64_of_lt (by omega)]
    omega
  have hremd : sub64 wallclock rq.window_start = wallclock - rq.window_start :=
    sub64_of_le hwc hwc64
  -- the first portion
  have hsc0 := scale_exec_time_le g (b0 - p.ravg.mark_start) rq hf he heff
  have hpa := add_to_task_demand_sum g rq p (b0 - p.ravg.mark_start) (by omega)
  rw [← hs1] at hpa
  have hs1W : s1 ≤ g.sched_ravg_window := by
    rw [hs1]
    exact Nat.min_le_right _ _
  obtain ⟨p2, rq2, e2, c2, i2, hh2, hsm2⟩ := update_history_result g fixup rq
    (add_to_task_demand g rq p (b0 - p.ravg.mark_start))
    (add_to_task_demand g rq p (b0 - p.ravg.mark_start)).ravg.sum 1 hidle hexit h1 h5 hlen
    (le_refl 1)
  rw [hpa] at e2 hh2 hsm2
  simp only [Nat.cast_one] at e2
  have hhist_pa : (add_to_task_demand g rq p (b0 - p.ravg.mark_start)).ravg.sum_history
      = p.ravg.sum_history := rfl
  rw [hhist_pa] at hh2
  have hsum2 : p2.ravg.sum = 0 := by
    rw [hsm2]
    split
    · rename_i hz
      exact hz
    · rfl
  have hlen2 : p2.ravg.sum_history.length = 5 := by
    rw [hh2]
    split
    · exact hlen
    · rw [spec_history_fold_length _ _ _ _ (by omega)]
      exact hlen
  have hexit2 : exiting_task p2 = false := by
    unfold exiting_task
    rw [hh2]
    split
    · exact hexit
    · rw [spec_history_fold_head _ _ _ _ h1 (le_refl 1)]
      have : s1 ≠ EXITING_TASK_MARKER := by
        unfold EXITING_TASK_MARKER
        omega
      simpa using this
  -- the full windows
  have hsWle : sW ≤ g.sched_ravg_window := by
    rw [hsW]
    exact scale_exec_time_le g _ rq hf he heff
  have hsc2 : wrap32 (scale_exec_time g g.sched_ravg_window rq2) = sW := by
    rw [scale_exec_time_cpu g _ rq rq2 c2, ← hsW, wrap32_of_lt (by omega)]
  have hfin : ∀ (p3 : Task) (rq3 : Rq), rq3.cpu = rq.cpu → p3.ravg.sum = 0 →
      (add_to_task_demand g rq3 p3 (wallclock - rq.window_start)).ravg.sum
        = scale_exec_time g (wallclock - rq.window_start) rq := by
    intro p3 rq3 hc hz
    have hle := scale_exec_time_le g (wallclock - rq.window_start) rq hf he heff
    rw [add_to_task_demand_sum g rq3 p3 _
      (by rw [hz, scale_exec_time_cpu g _ rq rq3 hc]; omega), hz,
      scale_exec_time_cpu g _ rq rq3 hc]
    omega
  unfold update_task_demand
  simp only [hev, hnwd, hdelta, hnr, hadv, hws1, hfirst, hws2, hremd, hpa, e2, hsc2,
    Bool.not_true, Bool.false_eq_true, if_false, if_true]
  rcases Nat.eq_zero_or_pos k with hk0 | hkp
  · have hki : ((k : Int) != 0) = false := by simp [hk0]
    simp only [hki, Bool.false_eq_true, if_false]
    refine ⟨_, _, rfl, ?_, hfin p2 rq2 c2 hsum2⟩
    rw [if_pos (Or.inl hk0)]
    exact hh2
  · have hki : ((k : Int) != 0) = true := by simp; omega
    simp only [hki, if_true]
    obtain ⟨p3, rq3, e3, c3, _, hh3, hsm3⟩ := update_history_result g fixup rq2 p2 sW k i2
      hexit2 h1 h5 hlen2 hkp
    rw [e3]
    dsimp only
    have hsum3 : p3.ravg.sum = 0 := by
      rw [hsm3]
      split
      · exact hsum2
      · rfl
    refine ⟨_, _, rfl, ?_, hfin p3 rq3 (c3.trans c2) hsum3⟩
    show p3.ravg.sum_history = _
    rw [hh3, hh2]
    by_cases hz : sW = 0
    · rw [if_pos hz, if_pos (Or.inr hz)]
    · rw [if_neg hz, if_neg (show ¬ (k = 0 ∨ sW = 0) by omega)]

/-- With a window of 10 at unity scaling, a task marked at 13 with a live sum
of 2 is updated at 46 on a queue whose window started at 40: two full windows
were crossed, the first boundary is 20, the first sample is 2 + 7 = 9, two
samples of 10 follow and the live sum ends as 6. -/
theorem update_task_demand_window_split_witness :
    (update_task_demand demo_globals fixup_none c22_task c22_rq TaskEvent.TASK_UPDATE 46).map
        (fun r => (r.1.ravg.sum_history, r.1.ravg.sum)) = some ([10, 10, 9, 4, 3], 6) ∧
    ∃ p1 rq1, update_task_demand demo_globals fixup_none c22_task c22_rq
        TaskEvent.TASK_UPDATE 46 = some (p1, rq1) ∧
      p1.ravg.sum_history =
        (if 2 = 0 ∨ 10 = 0 then
          (if 9 = 0 then c22_task.ravg.sum_history
           else spec_history_fold demo_globals.sched_ravg_hist_size
            c22_task.ravg.sum_history 9 1)
         else spec_history_fold demo_globals.sched_ravg_hist_size
          (if 9 = 0 then c22_task.ravg.sum_history
           else spec_history_fold demo_globals.sched_ravg_hist_size
            c22_task.ravg.sum_history 9 1) 10 2) ∧
      p1.ravg.sum = scale_exec_time demo_globals (46 - c22_rq.window_start) c22_rq :=
  ⟨by decide!,
    update_task_demand_window_split demo_globals fixup_none c22_task c22_rq
      TaskEvent.TASK_UPDATE 46 2 20 9 10 (by decide) (by decide) (by decide) (by decide)
      (by decide) (by decide) (by decide) (by decide) (by decide) (by decide) (by decide)
      (by decide) (by decide) (by decide) (by decide) (by decide) (by decide) (by decide!)
      (by decide!)⟩

/-- A task marked at the boundary 10 with an empty live sum, updated at 23 on
a queue whose window started at 20: the empty first sample is not folded, the
history 4, 3, 2, 1, 1 becomes 10, 4, 3, 2, 1, while a fold of the sample 0
followed by a fold of one sample 10 would give 10, 0, 4, 3, 2. -/
theorem update_task_demand_skips_empty_sample :
    account_busy_for_task_demand demo_globals c22_boundary_task TaskEvent.TASK_UPDATE = true ∧
    c22_boundary_task.ravg.mark_start < c22_boundary_rq.window_start ∧
    (update_task_demand demo_globals fixup_none c22_boundary_task c22_boundary_rq
        TaskEvent.TASK_UPDATE 23).map (fun r => (r.1.ravg.sum_history, r.1.ravg.sum))
      = some ([10, 4, 3, 2, 1], 3) ∧
    spec_history_fold 5 (spec_history_fold 5 c22_boundary_task.ravg.sum_history 0 1) 10 1
      = [10, 0, 4, 3, 2] := by
  decide!


/-! ## Queue sums and the running task -/

theorem roll_count_tracked (p : Task) (nw : Bool) (k : Int)
    (hidle : is_idle_task p = false) (hexit : exiting_task p = false) :
    (roll_task_windows (count_active_window p nw) nw k).pid = p.pid ∧
    is_idle_task (roll_task_windows (count_active_window p nw) nw k) = false ∧
    exiting_task (roll_task_windows (count_active_window p nw) nw k) = false ∧
    (nw = true →
      (roll_task_windows (count_active_window p nw) nw k).ravg.curr_window = 0 ∧
      (roll_task_windows (count_active_window p nw) nw k).ravg.prev_window
        = (if k == 0 then p.ravg.curr_window else 0)) ∧
    (nw = false →
      (roll_task_windows (count_active_window p nw) nw k).ravg.curr_window
        = p.ravg.curr_window ∧
      (roll_task_windows (count_active_window p nw) nw k).ravg.prev_window
        = p.ravg.prev_window) := by
  have hc : (count_active_window p nw).pid = p.pid ∧
      is_idle_task (count_active_window p nw) = false ∧
      exiting_task (count_active_window p nw) = false ∧
      (count_active_window p nw).ravg.curr_window = p.ravg.curr_window ∧
      (count_active_window p nw).ravg.prev_window = p.ravg.prev_window := by
    unfold count_active_window
    split
    · exact ⟨rfl, hidle, hexit, rfl, rfl⟩
    · exact ⟨rfl, hidle, hexit, rfl, rfl⟩
  obtain ⟨c1, c2, c3, c4, c5⟩ := hc
  generalize count_active_window p nw = q at c1 c2 c3 c4 c5
  unfold roll_task_windows
  cases nw with
  | false =>
    rw [if_neg (by simp)]
    exact ⟨c1, c2, c3, fun h => absurd h (by simp), fun _ => ⟨c4, c5⟩⟩
  | true =>
    rw [if_pos (by simp [c2, c3])]
    refine ⟨c1, c2, c3, fun _ => ⟨rfl, ?_⟩, fun h => absurd h (by simp)⟩
    show (if k == 0 then q.ravg.curr_window else 0) = _
    rw [c4]

theorem scale_exec_time_lt (g : Globals) (delta : Nat) (rq : Rq) :
    scale_exec_time g delta rq < 18014398509481984 := by
  unfold scale_exec_time
  simp only []
  generalize (sub64 (wrap64 (delta * (if g.cpu_cur_freq rq.cpu > g.max_possible_freq
      then g.max_possible_freq else g.cpu_cur_freq rq.cpu) + g.max_possible_freq)) 1
        / g.max_possible_freq) * _ = x
  have h : wrap64 x < 18446744073709551616 := by
    unfold wrap64; exact Nat.mod_lt _ (by norm_num)
  omega

theorem account_busy_for_cpu_time_tracked (g : Globals) (rq : Rq) (p q : Task) (irqtime : Nat)
    (event : TaskEvent) (hp : is_idle_task p = false) (hq : is_idle_task q = false) :
    account_busy_for_cpu_time g rq q irqtime event
      = account_busy_for_cpu_time g rq p irqtime event := by
  unfold account_busy_for_cpu_time
  rw [hp, hq]

theorem busy_time_not_accounted_curr (g : Globals) (q : Task) (rq : Rq) (event : TaskEvent)
    (nw nt : Bool) (k : Int) :
    (busy_time_not_accounted g q rq event nw true nt k).1 = q ∧
    (nw = false → (busy_time_not_accounted g q rq event nw true nt k).2 = rq) ∧
    (nw = true →
      (busy_time_not_accounted g q rq event nw true nt k).2.curr_runnable_sum = 0 ∧
      (busy_time_not_accounted g q rq event nw true nt k).2.prev_runnable_sum
        = (if k == 0 then rq.curr_runnable_sum else 0)) := by
  unfold busy_time_not_accounted
  cases nw with
  | false => exact ⟨rfl, fun _ => rfl, fun h => absurd h (by simp)⟩
  | true => exact ⟨rfl, fun h => absurd h (by simp), fun _ => ⟨rfl, rfl⟩⟩

theorem busy_time_same_window_tracked (g : Globals) (q : Task) (rq : Rq)
    (wallclock irqtime ms : Nat) (nt : Bool)
    (hidle : is_idle_task q = false) (hexit : exiting_task q = false) :
    (busy_time_same_window g q rq wallclock irqtime ms nt).1.ravg.curr_window
      = wrap32 (q.ravg.curr_window + scale_exec_time g (sub64 wallclock ms) rq) ∧
    (busy_time_same_window g q rq wallclock irqtime ms nt).1.ravg.prev_window
      = q.ravg.prev_window ∧
    (busy_time_same_window g q rq wallclock irqtime ms nt).2.curr_runnable_sum
      = wrap64 (rq.curr_runnable_sum + scale_exec_time g (sub64 wallclock ms) rq) ∧
    (busy_time_same_window g q rq wallclock irqtime ms nt).2.prev_runnable_sum
      = rq.prev_runnable_sum := by
  unfold busy_time_same_window
  simp only [hidle, hexit, Bool.not_false, Bool.or_true, Bool.true_or, Bool.and_self,
    if_true, and_self]

theorem busy_time_curr_tracked (g : Globals) (q : Task) (rq : Rq)
    (wallclock ms ws : Nat) (nt : Bool) (k : Int)
    (hidle : is_idle_task q = false) (hexit : exiting_task q = false) :
    (busy_time_curr g q rq wallclock ms ws nt k).1.ravg.curr_window
      = wrap32 (scale_exec_time g (sub64 wallclock ws) rq) ∧
    (busy_time_curr g q rq wallclock ms ws nt k).2.curr_runnable_sum
      = scale_exec_time g (sub64 wallclock ws) rq ∧
    (busy_time_curr g q rq wallclock ms ws nt k).1.ravg.prev_window
      = (if k == 0 then wrap32 (q.ravg.prev_window + scale_exec_time g (sub64 ws ms) rq)
         else wrap32 (scale_exec_time g g.sched_ravg_window rq)) ∧
    (busy_time_curr g q rq wallclock ms ws nt k).2.prev_runnable_sum
      = (if k == 0 then wrap64 (scale_exec_time g (sub64 ws ms) rq + rq.curr_runnable_sum)
         else scale_exec_time g g.sched_ravg_window rq) := by
  unfold busy_time_curr
  by_cases hk : k = 0
  · simp [hk, hidle, hexit]
  · simp [hk, hidle, hexit]

/-- C25: for the queue's current task, neither idle nor exiting, on a queue
whose `curr_runnable_sum` is non-negative as a signed 64-bit value, for every
event, wallclock and irqtime: `update_cpu_busy_time` returns, and if the
queue's `curr_runnable_sum` and `prev_runnable_sum` are at least the task's
`curr_window` and `prev_window` before the call, they are after it, whichever
branch runs.  When no window is crossed and the event is accounted, the
queue's `curr_runnable_sum` grows by the scaled delta and the task's
`curr_window` grows by the same delta in its 32 bits. -/
theorem update_cpu_busy_time_dominates (g : Globals) (p : Task) (rq : Rq) (event : TaskEvent)
    (wallclock irqtime : Nat)
    (hcurr : p.pid = rq.curr)
    (hidle : is_idle_task p = false) (hexit : exiting_task p = false)
    (hsum : rq.curr_runnable_sum < 9223372036854775808)
    (hc : p.ravg.curr_window ≤ rq.curr_runnable_sum)
    (hp : p.ravg.prev_window ≤ rq.prev_runnable_sum) :
    ∃ p1 rq1, update_cpu_busy_time g p rq event wallclock irqtime = some (p1, rq1) ∧
      p1.ravg.curr_window ≤ rq1.curr_runnable_sum ∧
      p1.ravg.prev_window ≤ rq1.prev_runnable_sum ∧
      (account_busy_for_cpu_time g rq p irqtime event = true →
        rq.window_start ≤ p.ravg.mark_start →
        rq1.curr_runnable_sum = rq.curr_runnable_sum
          + scale_exec_time g (sub64 wallclock p.ravg.mark_start) rq ∧
        p1.ravg.curr_window = wrap32 (p.ravg.curr_window
          + scale_exec_time g (sub64 wallclock p.ravg.mark_start) rq) ∧
        (p.ravg.curr_window + scale_exec_time g (sub64 wallclock p.ravg.mark_start) rq
            < 4294967296 →
          p1.ravg.curr_window = p.ravg.curr_window
            + scale_exec_time g (sub64 wallclock p.ravg.mark_start) rq)) := by
  unfold update_cpu_busy_time
  simp only []
  obtain ⟨q1, q2, q3, q4, q5⟩ := roll_count_tracked p (decide (p.ravg.mark_start < rq.window_start))
    (if decide (p.ravg.mark_start < rq.window_start) = true then
      toInt32 (sub64 rq.window_start p.ravg.mark_start / g.sched_ravg_window) else 0) hidle hexit
  generalize roll_task_windows (count_active_window p (decide (p.ravg.mark_start < rq.window_start)))
    (decide (p.ravg.mark_start < rq.window_start))
    (if decide (p.ravg.mark_start < rq.window_start) = true then
      toInt32 (sub64 rq.window_start p.ravg.mark_start / g.sched_ravg_window) else 0) = q
    at q1 q2 q3 q4 q5
  generalize (if decide (p.ravg.mark_start < rq.window_start) = true then
      toInt32 (sub64 rq.window_start p.ravg.mark_start / g.sched_ravg_window) else 0) = k
    at q4
  generalize is_new_task g (count_active_window p (decide (p.ravg.mark_start < rq.window_start)))
    = nt
  rw [account_busy_for_cpu_time_tracked g rq p q irqtime event hidle q2]
  have hcd : decide (p.pid = rq.curr) = true := by simp [hcurr]
  rw [hcd]
  have hd1 := scale_exec_time_lt g (sub64 wallclock p.ravg.mark_start) rq
  have hd2 := scale_exec_time_lt g (sub64 rq.window_start p.ravg.mark_start) rq
  by_cases hnw : p.ravg.mark_start < rq.window_start
  · have hnwd : decide (p.ravg.mark_start < rq.window_start) = true := by simp [hnw]
    rw [hnwd] at q4 ⊢
    obtain ⟨qc, qp⟩ := q4 rfl
    by_cases hacc : account_busy_for_cpu_time g rq p irqtime event = true
    · rw [hacc]
      rw [if_neg (by simp), if_neg (by simp), if_neg (by simp), if_pos (by simp [q2])]
      obtain ⟨b1, b2, b3, b4⟩ := busy_time_curr_tracked g q rq wallclock p.ravg.mark_start
        rq.window_start nt k q2 q3
      generalize busy_time_curr g q rq wallclock p.ravg.mark_start rq.window_start nt k = r
        at b1 b2 b3 b4
      refine ⟨r.1, r.2, rfl, ?_, ?_, fun _ h => absurd h (by omega)⟩
      · rw [b1, b2]; exact wrap32_le _
      · rw [b3, b4, qp]
        by_cases hk : k = 0
        · simp only [hk, beq_self_eq_true, if_true]
          rw [wrap64_of_lt (by omega)]
          exact le_trans (wrap32_le _) (by omega)
        · have hkb : (k == 0) = false := by simp [hk]
          simp only [hkb]
          exact wrap32_le _
    · have hacc2 : account_busy_for_cpu_time g rq p irqtime event = false := by
        simpa using hacc
      rw [hacc2, if_pos (by simp)]
      obtain ⟨b1, -, b3⟩ := busy_time_not_accounted_curr g q rq event true nt k
      obtain ⟨b4, b5⟩ := b3 rfl
      generalize busy_time_not_accounted g q rq event true true nt k = r at b1 b4 b5
      refine ⟨r.1, r.2, rfl, ?_, ?_, fun h => absurd h (by simp)⟩
      · rw [b1, b4, qc]
      · rw [b1, b5, qp]
        split
        · exact hc
        · exact le_refl _
  · have hnwd : decide (p.ravg.mark_start < rq.window_start) = false := by simp [hnw]
    rw [hnwd] at q5 ⊢
    obtain ⟨qc, qp⟩ := q5 rfl
    by_cases hacc : account_busy_for_cpu_time g rq p irqtime event = true
    · rw [hacc]
      rw [if_neg (by simp), if_pos (by simp)]
      obtain ⟨b1, b2, b3, b4⟩ := busy_time_same_window_tracked g q rq wallclock irqtime
        p.ravg.mark_start nt q2 q3
      rw [qc] at b1
      rw [wrap64_of_lt (by omega)] at b3
      generalize busy_time_same_window g q rq wallclock irqtime p.ravg.mark_start nt = r
        at b1 b2 b3 b4
      refine ⟨r.1, r.2, rfl, ?_, ?_, fun _ _ => ⟨b3, b1, fun h => ?_⟩⟩
      · rw [b1, b3]
        exact le_trans (wrap32_le _) (by omega)
      · rw [b2, b4, qp]; exact hp
      · rw [b1, wrap32_of_lt h]
    · have hacc2 : account_busy_for_cpu_time g rq p irqtime event = false := by
        simpa using hacc
      rw [hacc2, if_pos (by simp)]
      obtain ⟨b1, b2, -⟩ := busy_time_not_accounted_curr g q rq event false nt k
      have b3 := b2 rfl
      generalize busy_time_not_accounted g q rq event false true nt k = r at b1 b3
      refine ⟨r.1, r.2, rfl, ?_, ?_, fun h => absurd h (by simp)⟩
      · rw [b1, qc, b3]; exact hc
      · rw [b1, qp, b3]; exact hp

theorem update_cpu_busy_time_dominates_witness :
    (update_cpu_busy_time demo_globals c25_task c25_rq TaskEvent.TASK_UPDATE 46 0).map
        (fun r => (r.1.ravg.curr_window, r.2.curr_runnable_sum,
                   r.1.ravg.prev_window, r.2.prev_runnable_sum)) = some (6, 6, 14, 16) ∧
    ∃ p1 rq1, update_cpu_busy_time demo_globals c25_task c25_rq TaskEvent.TASK_UPDATE 46 0
        = some (p1, rq1) ∧
      p1.ravg.curr_window ≤ rq1.curr_runnable_sum ∧
      p1.ravg.prev_window ≤ rq1.prev_runnable_sum ∧
      (account_busy_for_cpu_time demo_globals c25_rq c25_task 0 TaskEvent.TASK_UPDATE = true →
        c25_rq.window_start ≤ c25_task.ravg.mark_start →
        rq1.curr_runnable_sum = c25_rq.curr_runnable_sum
          + scale_exec_time demo_globals (sub64 46 c25_task.ravg.mark_start) c25_rq ∧
        p1.ravg.curr_window = wrap32 (c25_task.ravg.curr_window
          + scale_exec_time demo_globals (sub64 46 c25_task.ravg.mark_start) c25_rq) ∧
        (c25_task.ravg.curr_window
            + scale_exec_time demo_globals (sub64 46 c25_task.ravg.mark_start) c25_rq
            < 4294967296 →
          p1.ravg.curr_window = c25_task.ravg.curr_window
            + scale_exec_time demo_globals (sub64 46 c25_task.ravg.mark_start) c25_rq)) :=
  ⟨by decide!,
    update_cpu_busy_time_dominates demo_globals c25_task c25_rq TaskEvent.TASK_UPDATE 46 0
      (by decide) (by decide) (by decide) (by decide) (by decide) (by decide)⟩


/-! ## Sign of the source sums after the transfer -/

theorem sub64_wraps_negative {a b : Nat} (hab : a < b) (hb : b < 4294967296) :
    9223372036854775808 ≤ sub64 a b := by
  unfold sub64 wrap64
  split <;> omega

/-- The four sums of the source queue after the transfer: the windows of the
task leave the new-task sums only when the task is new. -/
theorem fixup_busy_time_move_src_sums (g : Globals) (w : World) (pid new_cpu : Nat)
    (hne : new_cpu ≠ (w.tasks pid).cpu)
    (hc : (w.rqs (w.tasks pid).cpu).curr_runnable_sum < 18446744073709551616)
    (hp : (w.rqs (w.tasks pid).cpu).prev_runnable_sum < 18446744073709551616)
    (hsc : (w.rqs (w.tasks pid).cpu).nt_curr_runnable_sum < 18446744073709551616)
    (hsp : (w.rqs (w.tasks pid).cpu).nt_prev_runnable_sum < 18446744073709551616) :
    ((fixup_busy_time_move g w pid new_cpu).rqs (w.tasks pid).cpu).curr_runnable_sum =
      sub64 (w.rqs (w.tasks pid).cpu).curr_runnable_sum (w.tasks pid).ravg.curr_window ∧
    ((fixup_busy_time_move g w pid new_cpu).rqs (w.tasks pid).cpu).prev_runnable_sum =
      sub64 (w.rqs (w.tasks pid).cpu).prev_runnable_sum (w.tasks pid).ravg.prev_window ∧
    ((fixup_busy_time_move g w pid new_cpu).rqs (w.tasks pid).cpu).nt_curr_runnable_sum =
      (if is_new_task g (w.tasks pid) then
        sub64 (w.rqs (w.tasks pid).cpu).nt_curr_runnable_sum (w.tasks pid).ravg.curr_window
       else (w.rqs (w.tasks pid).cpu).nt_curr_runnable_sum) ∧
    ((fixup_busy_time_move g w pid new_cpu).rqs (w.tasks pid).cpu).nt_prev_runnable_sum =
      (if is_new_task g (w.tasks pid) then
        sub64 (w.rqs (w.tasks pid).cpu).nt_prev_runnable_sum (w.tasks pid).ravg.prev_window
       else (w.rqs (w.tasks pid).cpu).nt_prev_runnable_sum) := by
  have hne' : (w.tasks pid).cpu ≠ new_cpu := fun h => hne h.symm
  unfold fixup_busy_time_move
  simp only []
  by_cases hcw : (w.tasks pid).ravg.curr_window = 0 <;>
  by_cases hpw : (w.tasks pid).ravg.prev_window = 0 <;>
  by_cases hnt : is_new_task g (w.tasks pid) = true <;>
  by_cases hed : ((w.rqs (w.tasks pid).cpu).ed_task == some pid) = true <;>
  by_cases hde : ((w.rqs new_cpu).ed_task == none) = true <;>
  simp [hcw, hpw, hnt, hed, hde, map_rq_same, map_rq_other, map_rq_tasks, hne, hne',
    sub64_zero, hc, hp, hsc, hsp]

theorem fixup_busy_time_bug_false (r : Rq)
    (h1 : r.prev_runnable_sum < 9223372036854775808)
    (h2 : r.curr_runnable_sum < 9223372036854775808)
    (h3 : r.nt_prev_runnable_sum < 9223372036854775808)
    (h4 : r.nt_curr_runnable_sum < 9223372036854775808) :
    fixup_busy_time_bug r = false := by
  unfold fixup_busy_time_bug
  simp only [Bool.or_eq_false_iff, decide_eq_false_iff_not, not_le]
  exact ⟨⟨⟨h1, h2⟩, h3⟩, h4⟩

theorem fixup_busy_time_bug_true (r : Rq)
    (h : 9223372036854775808 ≤ r.prev_runnable_sum ∨
         9223372036854775808 ≤ r.curr_runnable_sum ∨
         9223372036854775808 ≤ r.nt_prev_runnable_sum ∨
         9223372036854775808 ≤ r.nt_curr_runnable_sum) :
    fixup_busy_time_bug r = true := by
  unfold fixup_busy_time_bug
  simp only [Bool.or_eq_true, decide_eq_true_eq]
  tauto

/-- C24: in `fixup_busy_time` with HMP, the migration fixup and window
statistics enabled, for a task that is queued or waking and not exiting and a
destination queue other than its own, measured from the world `w3` left by the
demand updates the function performs first, with the four sums of the source
queue non-negative as signed 64-bit values and the task's windows in 32 bits.
If `curr_runnable_sum` and `prev_runnable_sum` of the source are at least the
task's `curr_window` and `prev_window`, and, when the task is new (only then
does it count in them), `nt_curr_runnable_sum` and `nt_prev_runnable_sum`
likewise, then no `BUG_ON` fires, the call returns, and the four source sums
are non-negative as signed 64-bit values afterwards.  Conversely, if one of
these sums is smaller than the task's part in it, the assertion fires. -/
theorem fixup_busy_time_sums_nonneg (g : Globals) (fixup : FixupHook) (w w3 : World)
    (pid new_cpu wallclock : Nat)
    (hhmp : g.sched_enable_hmp = true) (hfix : g.sched_migration_fixup = true)
    (hstats : g.sched_disable_window_stats = false)
    (hq : (w.tasks pid).on_rq ≠ 0 ∨ (w.tasks pid).state = TASK_WAKING)
    (hexit : exiting_task (w.tasks pid) = false)
    (hne : new_cpu ≠ (w.tasks pid).cpu)
    (hupd : fixup_busy_time_updates g fixup w pid new_cpu wallclock = some w3)
    (hsc : (w3.rqs (w.tasks pid).cpu).curr_runnable_sum < 9223372036854775808)
    (hsp : (w3.rqs (w.tasks pid).cpu).prev_runnable_sum < 9223372036854775808)
    (hnc : (w3.rqs (w.tasks pid).cpu).nt_curr_runnable_sum < 9223372036854775808)
    (hnp : (w3.rqs (w.tasks pid).cpu).nt_prev_runnable_sum < 9223372036854775808)
    (hcw : (w3.tasks pid).ravg.curr_window < 4294967296)
    (hpw : (w3.tasks pid).ravg.prev_window < 4294967296) :
    (((w3.tasks pid).ravg.curr_window ≤ (w3.rqs (w.tasks pid).cpu).curr_runnable_sum ∧
      (w3.tasks pid).ravg.prev_window ≤ (w3.rqs (w.tasks pid).cpu).prev_runnable_sum ∧
      (is_new_task g (w3.tasks pid) = true →
        (w3.tasks pid).ravg.curr_window ≤ (w3.rqs (w.tasks pid).cpu).nt_curr_runnable_sum ∧
        (w3.tasks pid).ravg.prev_window ≤ (w3.rqs (w.tasks pid).cpu).nt_prev_runnable_sum)) →
      fixup_busy_time_bug ((fixup_busy_time_move g w3 pid new_cpu).rqs (w.tasks pid).cpu)
        = false ∧
      fixup_busy_time g fixup w pid new_cpu wallclock
        = some (fixup_busy_time_move g w3 pid new_cpu) ∧
      ((fixup_busy_time_move g w3 pid new_cpu).rqs (w.tasks pid).cpu).curr_runnable_sum
        < 9223372036854775808 ∧
      ((fixup_busy_time_move g w3 pid new_cpu).rqs (w.tasks pid).cpu).prev_runnable_sum
        < 9223372036854775808 ∧
      ((fixup_busy_time_move g w3 pid new_cpu).rqs (w.tasks pid).cpu).nt_curr_runnable_sum
        < 9223372036854775808 ∧
      ((fixup_busy_time_move g w3 pid new_cpu).rqs (w.tasks pid).cpu).nt_prev_runnable_sum
        < 9223372036854775808) ∧
    (((w3.rqs (w.tasks pid).cpu).curr_runnable_sum < (w3.tasks pid).ravg.curr_window ∨
      (w3.rqs (w.tasks pid).cpu).prev_runnable_sum < (w3.tasks pid).ravg.prev_window ∨
      (is_new_task g (w3.tasks pid) = true ∧
        ((w3.rqs (w.tasks pid).cpu).nt_curr_runnable_sum < (w3.tasks pid).ravg.curr_window ∨
         (w3.rqs (w.tasks pid).cpu).nt_prev_runnable_sum < (w3.tasks pid).ravg.prev_window))) →
      fixup_busy_time_bug ((fixup_busy_time_move g w3 pid new_cpu).rqs (w.tasks pid).cpu)
        = true ∧
      fixup_busy_time g fixup w pid new_cpu wallclock = none) := by
  obtain ⟨ft, _, _⟩ := fixup_busy_time_updates_frame g fixup w w3 pid new_cpu wallclock hupd
  have hcpu : (w3.tasks pid).cpu = (w.tasks pid).cpu :=
    congrArg (fun t => t.cpu) (ft pid)
  have hne3 : new_cpu ≠ (w3.tasks pid).cpu := by rw [hcpu]; exact hne
  have hfx : fixup_busy_time g fixup w pid new_cpu wallclock =
      (if fixup_busy_time_bug ((fixup_busy_time_move g w3 pid new_cpu).rqs (w.tasks pid).cpu)
        then none else some (fixup_busy_time_move g w3 pid new_cpu)) := by
    unfold fixup_busy_time
    simp only []
    have hguard : (!g.sched_enable_hmp || !g.sched_migration_fixup ||
        ((w.tasks pid).on_rq == 0 && (w.tasks pid).state != TASK_WAKING)) = false := by
      rcases hq with h | h
      · simp [hhmp, hfix, h]
      · simp [hhmp, hfix, h]
    rw [if_neg (by rw [hguard]; simp), if_neg (by rw [hexit]; simp),
      if_neg (by rw [hstats]; simp), hupd]
    simp only [hcpu]
  obtain ⟨m1, m2, m3, m4⟩ := fixup_busy_time_move_src_sums g w3 pid new_cpu hne3
    (by rw [hcpu]; omega) (by rw [hcpu]; omega) (by rw [hcpu]; omega) (by rw [hcpu]; omega)
  rw [hcpu] at m1 m2 m3 m4
  generalize (fixup_busy_time_move g w3 pid new_cpu).rqs (w.tasks pid).cpu = r
    at hfx m1 m2 m3 m4 ⊢
  constructor
  · rintro ⟨h1, h2, h3⟩
    have e1 : r.curr_runnable_sum < 9223372036854775808 := by
      rw [m1, sub64_of_le h1 (by omega)]; omega
    have e2 : r.prev_runnable_sum < 9223372036854775808 := by
      rw [m2, sub64_of_le h2 (by omega)]; omega
    have e3 : r.nt_curr_runnable_sum < 9223372036854775808 := by
      rw [m3]
      split
      · rename_i hn
        rw [sub64_of_le (h3 hn).1 (by omega)]; omega
      · exact hnc
    have e4 : r.nt_prev_runnable_sum < 9223372036854775808 := by
      rw [m4]
      split
      · rename_i hn
        rw [sub64_of_le (h3 hn).2 (by omega)]; omega
      · exact hnp
    have hb := fixup_busy_time_bug_false r e2 e1 e4 e3
    refine ⟨hb, ?_, e1, e2, e3, e4⟩
    rw [hfx, hb]
    rfl
  · intro h
    have hb : fixup_busy_time_bug r = true := by
      apply fixup_busy_time_bug_true
      rcases h with h | h | ⟨hn, h | h⟩
      · right; left
        rw [m1]; exact sub64_wraps_negative h hcw
      · left
        rw [m2]; exact sub64_wraps_negative h hpw
      · right; right; right
        rw [m3, if_pos hn]; exact sub64_wraps_negative h hcw
      · right; right; left
        rw [m4, if_pos hn]; exact sub64_wraps_negative h hpw
    refine ⟨hb, ?_⟩
    rw [hfx, hb]
    rfl

theorem fixup_busy_time_sums_nonneg_witness :
    (fixup_busy_time c4_globals fixup_none c4_world 1 1 126
        = some (fixup_busy_time_move c4_globals c4_after_updates 1 1) ∧
      ((fixup_busy_time_move c4_globals c4_after_updates 1 1).rqs 0).curr_runnable_sum = 5 ∧
      ((fixup_busy_time_move c4_globals c4_after_updates 1 1).rqs 0).prev_runnable_sum = 7) ∧
    ((c24_after_updates.rqs 0).curr_runnable_sum = 2 ∧
      (c24_after_updates.tasks 1).ravg.curr_window = 4 ∧
      fixup_busy_time c4_globals fixup_none c24_world 1 1 126 = none) :=
  ⟨⟨((fixup_busy_time_sums_nonneg c4_globals fixup_none c4_world c4_after_updates 1 1 126
        (by decide) (by decide) (by decide) (Or.inl (by decide)) (by decide!) (by decide)
        (option_eq_some_getD _ _ (by decide!)) (by decide!) (by decide!) (by decide!)
        (by decide!) (by decide!) (by decide!)).1
        ⟨by decide!, by decide!, fun h => absurd h (by decide!)⟩).2.1,
      by decide!, by decide!⟩,
    ⟨by decide!, by decide!,
      ((fixup_busy_time_sums_nonneg c4_globals fixup_none c24_world c24_after_updates 1 1 126
        (by decide) (by decide) (by decide) (Or.inl (by decide)) (by decide!) (by decide)
        (option_eq_some_getD _ _ (by decide!)) (by decide!) (by decide!) (by decide!)
        (by decide!) (by decide!) (by decide!)).2
        (Or.inl (by decide!))).2⟩⟩


/-! ## Single ownership across migration -/

theorem same_queues_refl (w : World) : w.same_queues w := ⟨fun _ => rfl, fun _ => rfl⟩

theorem same_queues_trans {a b c : World} (h1 : a.same_queues b) (h2 : b.same_queues c) :
    a.same_queues c :=
  ⟨fun d => (h2.1 d).trans (h1.1 d), fun q => (h2.2 q).trans (h1.2 q)⟩

theorem same_queues_map_rq (w : World) (c : Nat) (f : Rq → Rq)
    (hf : ∀ r, (f r).queue = r.queue) : w.same_queues (w.map_rq c f) := by
  refine ⟨fun d => ?_, fun _ => rfl⟩
  by_cases hd : d = c
  · subst hd
    rw [map_rq_same]
    exact hf _
  · rw [map_rq_other _ _ _ _ hd]

theorem same_queues_map_task (w : World) (q : Nat) (f : Task → Task)
    (hf : ∀ p, (f p).pid = p.pid) : w.same_queues (w.map_task q f) := by
  refine ⟨fun _ => rfl, fun r => ?_⟩
  by_cases hr : r = q
  · subst hr
    rw [map_task_same]
    exact hf _
  · rw [map_task_other _ _ _ _ hr]

theorem same_queues_of_frames {w w1 : World}
    (a : ∀ q, (w1.tasks q).erase_ravg = (w.tasks q).erase_ravg)
    (b : ∀ c, (w1.rqs c).erase_stats = (w.rqs c).erase_stats) : w.same_queues w1 :=
  ⟨fun c => congrArg (fun r => r.queue) (b c), fun q => congrArg (fun t => t.pid) (a q)⟩

theorem clear_ed_task_same_queues (w : World) (pid cpu : Nat) :
    w.same_queues (clear_ed_task w pid cpu) := by
  unfold clear_ed_task
  split
  · exact same_queues_map_rq _ _ _ (fun _ => rfl)
  · exact same_queues_refl w

theorem fixup_busy_time_move_same_queues (g : Globals) (w : World) (pid new_cpu : Nat) :
    w.same_queues (fixup_busy_time_move g w pid new_cpu) := by
  unfold fixup_busy_time_move
  simp only []
  split_ifs <;>
    repeat (first
      | exact same_queues_refl w
      | refine same_queues_trans ?_ (same_queues_map_rq _ _ _ (fun _ => rfl)))

theorem fixup_busy_time_same_queues (g : Globals) (fixup : FixupHook) (w w1 : World)
    (pid new_cpu wallclock : Nat)
    (h : fixup_busy_time g fixup w pid new_cpu wallclock = some w1) : w.same_queues w1 := by
  unfold fixup_busy_time at h
  simp only [] at h
  split at h
  · simp only [Option.some.injEq] at h
    rw [← h]
    exact same_queues_refl w
  · split at h
    · simp only [Option.some.injEq] at h
      rw [← h]
      exact clear_ed_task_same_queues w pid _
    · split at h
      · simp only [Option.some.injEq] at h
        rw [← h]
        exact same_queues_refl w
      · split at h
        · exact absurd h (by simp)
        · rename_i w3 e3
          obtain ⟨a, b, _⟩ := fixup_busy_time_updates_frame g fixup w w3 pid new_cpu wallclock e3
          split at h
          · exact absurd h (by simp)
          · simp only [Option.some.injEq] at h
            rw [← h]
            exact same_queues_trans (same_queues_of_frames a b)
              (fixup_busy_time_move_same_queues g w3 pid new_cpu)

/-- `set_task_cpu` leaves every queue's list of tasks alone and puts the task
on the new processor. -/
theorem set_task_cpu_same_queues (env : Env) (w w1 : World) (pid new_cpu wallclock : Nat)
    (h : set_task_cpu env w pid new_cpu wallclock = some w1) :
    w.same_queues w1 ∧ (w1.tasks pid).cpu = new_cpu := by
  unfold set_task_cpu at h
  simp only [] at h
  split at h
  · exact absurd h (by simp)
  · rename_i w0 e0
    simp only [Option.some.injEq] at h
    rw [← h]
    unfold __set_task_cpu
    refine ⟨same_queues_trans ?_ (same_queues_map_task _ _ _ (fun _ => rfl)), ?_⟩
    · split at e0
      · have k0 := fixup_busy_time_same_queues _ _ _ _ _ _ _ e0
        refine same_queues_trans ?_ k0
        exact same_queues_map_task _ _ _ (fun _ => rfl)
      · simp only [Option.some.injEq] at e0
        rw [← e0]
        exact same_queues_refl w
    · rw [map_task_same]

theorem dequeue_task_count (env : Env) (w : World) (cpu pid flags : Nat)
    (hdeq : ∀ rq p f q, (env.class_dequeue_task rq p f).queue.count q
      = rq.queue.count q - (if q = p.pid then 1 else 0)) (q c : Nat) :
    ((dequeue_task env w cpu pid flags).rqs c).queue.count q =
      (if c = cpu then (w.rqs cpu).queue.count q - (if q = (w.tasks pid).pid then 1 else 0)
       else (w.rqs c).queue.count q) := by
  unfold dequeue_task
  by_cases hc : c = cpu
  · subst hc
    rw [map_rq_same, if_pos rfl, hdeq]
  · rw [map_rq_other _ _ _ _ hc, if_neg hc]

theorem enqueue_task_count (env : Env) (w : World) (cpu pid flags : Nat)
    (henq : ∀ rq p f q, (env.class_enqueue_task rq p f).queue.count q
      = rq.queue.count q + (if q = p.pid then 1 else 0)) (q c : Nat) :
    ((enqueue_task env w cpu pid flags).rqs c).queue.count q =
      (if c = cpu then (w.rqs cpu).queue.count q + (if q = (w.tasks pid).pid then 1 else 0)
       else (w.rqs c).queue.count q) := by
  unfold enqueue_task
  by_cases hc : c = cpu
  · subst hc
    rw [map_rq_same, if_pos rfl, henq]
  · rw [map_rq_other _ _ _ _ hc, if_neg hc]

theorem deactivate_task_count (env : Env) (w : World) (cpu pid : Nat)
    (hdeq : ∀ rq p f q, (env.class_dequeue_task rq p f).queue.count q
      = rq.queue.count q - (if q = p.pid then 1 else 0)) (q c : Nat) :
    ((deactivate_task env w cpu pid 0).rqs c).queue.count q =
      (if c = cpu then (w.rqs cpu).queue.count q - (if q = (w.tasks pid).pid then 1 else 0)
       else (w.rqs c).queue.count q) ∧
    (deactivate_task env w cpu pid 0).tasks = w.tasks := by
  unfold deactivate_task
  simp only []
  have hz : ((0 : Nat) &&& DEQUEUE_SLEEP != 0) = false := by decide
  rw [hz]
  simp only [Bool.false_eq_true, if_false]
  constructor
  · rw [dequeue_task_count env _ cpu pid 0 hdeq]
    by_cases h2 : env.task_contributes_to_load (w.tasks pid) = true
    · rw [if_pos h2]
      by_cases h1 : c = cpu
      · rw [if_pos h1, if_pos h1, map_rq_same]
        rfl
      · rw [if_neg h1, if_neg h1, map_rq_other _ _ _ _ h1]
    · rw [if_neg h2]
  · unfold dequeue_task
    split_ifs <;> rfl

theorem activate_task_count (env : Env) (w : World) (cpu pid : Nat)
    (henq : ∀ rq p f q, (env.class_enqueue_task rq p f).queue.count q
      = rq.queue.count q + (if q = p.pid then 1 else 0)) (q c : Nat) :
    ((activate_task env w cpu pid 0).rqs c).queue.count q =
      (if c = cpu then (w.rqs cpu).queue.count q + (if q = (w.tasks pid).pid then 1 else 0)
       else (w.rqs c).queue.count q) ∧
    (activate_task env w cpu pid 0).tasks = w.tasks := by
  unfold activate_task
  simp only []
  constructor
  · rw [enqueue_task_count env _ cpu pid 0 henq]
    by_cases h2 : env.task_contributes_to_load (w.tasks pid) = true
    · rw [if_pos h2]
      by_cases h1 : c = cpu
      · rw [if_pos h1, if_pos h1, map_rq_same]
        rfl
      · rw [if_neg h1, if_neg h1, map_rq_other _ _ _ _ h1]
    · rw [if_neg h2]
  · unfold enqueue_task
    split_ifs <;> rfl

/-- The task that `set_task_cpu` has put on its new processor while on no
queue is, once marked queued and handed to the enqueue hook of that
processor, on that queue and no other. -/
theorem requeue_after_set_task_cpu (env : Env) (w2 w3 : World) (pid new_cpu wallclock : Nat)
    (hset : set_task_cpu env w2 pid new_cpu wallclock = some w3)
    (hpid : (w2.tasks pid).pid = pid)
    (hnone : ∀ c, (w2.rqs c).queue.count pid = 0) :
    ((w3.map_task pid (fun p => { p with on_rq := TASK_ON_RQ_QUEUED })).tasks pid).pid = pid ∧
    ((w3.map_task pid (fun p => { p with on_rq := TASK_ON_RQ_QUEUED })).tasks pid).cpu
      = new_cpu ∧
    ((w3.map_task pid (fun p => { p with on_rq := TASK_ON_RQ_QUEUED })).tasks pid).on_rq
      = TASK_ON_RQ_QUEUED ∧
    (∀ c, ((w3.map_task pid (fun p => { p with on_rq := TASK_ON_RQ_QUEUED })).rqs c).queue.count
      pid = 0) := by
  obtain ⟨⟨sq, sp⟩, hcpu⟩ := set_task_cpu_same_queues env w2 w3 pid new_cpu wallclock hset
  rw [map_task_same]
  refine ⟨(sp pid).trans hpid, hcpu, rfl, fun c => ?_⟩
  rw [map_task_rqs, sq c]
  exact hnone c

/-- C21: with class hooks that take exactly the task off a queue's list and
put exactly the task on it, for a queued task that is on the list of the
queue of its processor once and on no other list: after the dequeue of
`move_queued_task` and the mark `TASK_ON_RQ_MIGRATING` the task is on no list;
when `set_task_cpu` returns, `move_queued_task` returns a world in which the
task's processor is the destination, its `on_rq` is `TASK_ON_RQ_QUEUED`, and
it is on the destination's list once and on no other.  The same holds of
`__migrate_swap_task` for a queued task. -/
theorem migration_single_owner (env : Env) (w : World) (pid new_cpu wallclock : Nat)
    (hdeq : ∀ rq p f q, (env.class_dequeue_task rq p f).queue.count q
      = rq.queue.count q - (if q = p.pid then 1 else 0))
    (henq : ∀ rq p f q, (env.class_enqueue_task rq p f).queue.count q
      = rq.queue.count q + (if q = p.pid then 1 else 0))
    (hpid : (w.tasks pid).pid = pid)
    (hq : task_on_rq_queued (w.tasks pid) = true)
    (hown : ∀ c, (w.rqs c).queue.count pid = if c = (w.tasks pid).cpu then 1 else 0) :
    ((∀ c, (((dequeue_task env w (w.tasks pid).cpu pid DEQUEUE_MIGRATING).map_task pid
          (fun p => { p with on_rq := TASK_ON_RQ_MIGRATING })).rqs c).queue.count pid = 0) ∧
      (((dequeue_task env w (w.tasks pid).cpu pid DEQUEUE_MIGRATING).map_task pid
          (fun p => { p with on_rq := TASK_ON_RQ_MIGRATING })).tasks pid).on_rq
        = TASK_ON_RQ_MIGRATING ∧
      ∀ w3, set_task_cpu env ((dequeue_task env w (w.tasks pid).cpu pid DEQUEUE_MIGRATING).map_task
          pid (fun p => { p with on_rq := TASK_ON_RQ_MIGRATING })) pid new_cpu wallclock
          = some w3 →
        ∃ w5, move_queued_task env w pid new_cpu wallclock = some w5 ∧
          (w5.tasks pid).cpu = new_cpu ∧ (w5.tasks pid).on_rq = TASK_ON_RQ_QUEUED ∧
          ∀ c, (w5.rqs c).queue.count pid = if c = new_cpu then 1 else 0) ∧
    ((∀ c, (((deactivate_task env w (w.tasks pid).cpu pid 0).map_task pid
          (fun p => { p with on_rq := TASK_ON_RQ_MIGRATING })).rqs c).queue.count pid = 0) ∧
      (((deactivate_task env w (w.tasks pid).cpu pid 0).map_task pid
          (fun p => { p with on_rq := TASK_ON_RQ_MIGRATING })).tasks pid).on_rq
        = TASK_ON_RQ_MIGRATING ∧
      ∀ w3, set_task_cpu env ((deactivate_task env w (w.tasks pid).cpu pid 0).map_task
          pid (fun p => { p with on_rq := TASK_ON_RQ_MIGRATING })) pid new_cpu wallclock
          = some w3 →
        ∃ w5, __migrate_swap_task env w pid new_cpu wallclock = some w5 ∧
          (w5.tasks pid).cpu = new_cpu ∧ (w5.tasks pid).on_rq = TASK_ON_RQ_QUEUED ∧
          ∀ c, (w5.rqs c).queue.count pid = if c = new_cpu then 1 else 0) := by
  have hd : ∀ c, ((dequeue_task env w (w.tasks pid).cpu pid DEQUEUE_MIGRATING).rqs c).queue.count
      pid = 0 := by
    intro c
    rw [dequeue_task_count env w _ pid _ hdeq, hpid, hown c, hown (w.tasks pid).cpu]
    split <;> simp
  have ha : ∀ c, ((deactivate_task env w (w.tasks pid).cpu pid 0).rqs c).queue.count pid = 0 := by
    intro c
    rw [(deactivate_task_count env w _ pid hdeq pid c).1, hpid, hown c, hown (w.tasks pid).cpu]
    split <;> simp
  have hat := (deactivate_task_count env w (w.tasks pid).cpu pid hdeq pid 0).2
  refine ⟨⟨fun c => hd c, by rw [map_task_same], fun w3 hset => ?_⟩,
    ⟨fun c => ha c, by rw [map_task_same], fun w3 hset => ?_⟩⟩
  · obtain ⟨r1, r2, r3, r4⟩ := requeue_after_set_task_cpu env _ w3 pid new_cpu wallclock
      hset (by rw [map_task_same]; exact hpid) (fun c => hd c)
    have hcpu3 : (w3.tasks pid).cpu = new_cpu := by
      rw [map_task_same] at r2; exact r2
    unfold move_queued_task
    simp only []
    rw [hset]
    simp only []
    rw [if_neg (by simp [hcpu3])]
    refine ⟨_, rfl, r2, r3, fun c => ?_⟩
    rw [enqueue_task_count env _ new_cpu pid _ henq, r1, r4 c, r4 new_cpu]
    split <;> simp
  · obtain ⟨r1, r2, r3, r4⟩ := requeue_after_set_task_cpu env _ w3 pid new_cpu wallclock
      hset (by rw [map_task_same, hat]; exact hpid) (fun c => ha c)
    obtain ⟨s1, s2⟩ := activate_task_count env
      (w3.map_task pid (fun p => { p with on_rq := TASK_ON_RQ_QUEUED })) new_cpu pid henq pid 0
    unfold __migrate_swap_task
    rw [if_pos hq]
    simp only []
    rw [hset]
    simp only []
    refine ⟨_, rfl, ?_, ?_, fun c => ?_⟩
    · rw [s2]; exact r2
    · rw [s2]; exact r3
    · rw [(activate_task_count env _ new_cpu pid henq pid c).1, r1, r4 c, r4 new_cpu]
      split <;> simp

theorem migration_single_owner_witness :
    (∃ w5, move_queued_task c21_env c4_world 1 1 126 = some w5 ∧
      (w5.tasks 1).cpu = 1 ∧ (w5.tasks 1).on_rq = TASK_ON_RQ_QUEUED ∧
      ∀ c, (w5.rqs c).queue.count 1 = if c = 1 then 1 else 0) ∧
    (∃ w5, __migrate_swap_task c21_env c4_world 1 1 126 = some w5 ∧
      (w5.tasks 1).cpu = 1 ∧ (w5.tasks 1).on_rq = TASK_ON_RQ_QUEUED ∧
      ∀ c, (w5.rqs c).queue.count 1 = if c = 1 then 1 else 0) :=
  have h := migration_single_owner c21_env c4_world 1 1 126
    (fun rq p f q => by
      show List.count q (rq.queue.erase p.pid) = _
      rw [List.count_erase]
      by_cases hq : q = p.pid
      · subst hq; simp
      · have hq2 : ¬ p.pid = q := fun e => hq e.symm
        simp [hq, hq2])
    (fun rq p f q => by
      show List.count q (rq.queue ++ [p.pid]) = _
      rw [List.count_append, List.count_singleton]
      by_cases hq : q = p.pid
      · subst hq; simp
      · have hq2 : ¬ p.pid = q := fun e => hq e.symm
        simp [hq, hq2])
    rfl (by decide)
    (fun c => by
      by_cases hc : c = 0
      · subst hc; decide
      · have e : (c4_world.rqs c).queue = [6] := by
          show (if c = 0 then _ else _ : Rq).queue = [6]
          rw [if_neg hc]
        rw [e]
        have e2 : (c4_world.tasks 1).cpu = 0 := by decide
        rw [e2, if_neg hc]
        decide)
  ⟨h.1.2.2 _ (option_eq_some_getD _ c4_world (by decide!)),
   h.2.2.2 _ (option_eq_some_getD _ c4_world (by decide!))⟩


/-! ## Early detection in the tick -/

/-- Two ticks in a row, at 126 and 130, on the queue of processor 0, where
task 7 stays queued and has waited more than the early-detection duration of
50 since its wake at 60: the notifier chain is called for early detection in
both ticks. -/
theorem early_detection_every_tick :
    7 ∈ (c28_world.rqs 0).cfs_tasks ∧ task_on_rq_queued (c28_world.tasks 7) = true ∧
    sub64 126 (c28_world.tasks 7).last_wake_ts ≥ c28_env.sysctl_early_detection_duration ∧
    (scheduler_tick c28_env c28_world 0 126 126).map
        (fun r => ((r.1.rqs 0).cfs_tasks, task_on_rq_queued (r.1.tasks 7),
                   (r.1.tasks 7).last_wake_ts, (r.1.rqs 0).ed_task, r.2))
      = some ([5, 7], true, 60, some 7, true) ∧
    sub64 130 60 ≥ c28_env.sysctl_early_detection_duration ∧
    (scheduler_tick_run c28_env 0 c28_world [(126, 126), (130, 130)]).map
        (fun r => (r.2, r.1.freq_alerts)) = some (2, [0, 0]) ∧
    ¬ (2 ≤ 1) := by
  refine ⟨by decide, by decide, by decide!, by decide!, by decide!, by decide!, by decide⟩

/-! ## The group registry -/

/-- C30: task 1, the only member of group 1, asks for group 2, which does not
exist, and the allocation of the new group fails: `sched_set_group_id` returns
`-ENOMEM` after it has taken the task out of group 1 and, the group being
empty, the group off the list. -/
theorem sched_set_group_id_failure_drops_group :
    (c30_world.tasks 1).grp = some 100 ∧ sched_get_group_id c30_world 1 = 1 ∧
    c30_world.related_thread_groups = [100] ∧ c30_world.nr_related_thread_groups = 1 ∧
    (sched_set_group_id {} c30_world 1 1 2 0 none).map
        (fun r => (r.2, (r.1.tasks 1).grp, sched_get_group_id r.1 1,
                   r.1.related_thread_groups, r.1.nr_related_thread_groups))
      = some (-ENOMEM, none, 0, [], 0) := by
  refine ⟨by decide, by decide, by decide, by decide, by decide!⟩


theorem _set_preferred_cluster_keeps (env : GroupEnv) (tasks : Nat → Task) (clock : Nat)
    (grp : RelatedThreadGroup) :
    (_set_preferred_cluster env tasks clock grp).id = grp.id ∧
    (_set_preferred_cluster env tasks clock grp).tasks = grp.tasks := by
  unfold _set_preferred_cluster
  split
  · exact ⟨rfl, rfl⟩
  · split
    · exact ⟨rfl, rfl⟩
    · exact ⟨rfl, rfl⟩

theorem lookup_group_in_some (groups : Nat → RelatedThreadGroup) (gid : Nat) (l : List Nat)
    (a : Nat) (h : lookup_group_in groups gid l = some a) :
    a ∈ l ∧ (groups a).id = gid := by
  induction l with
  | nil => simp [lookup_group_in] at h
  | cons b rest ih =>
    unfold lookup_group_in at h
    split at h
    · rename_i hb
      simp only [Option.some.injEq] at h
      subst h
      exact ⟨List.mem_cons_self _ _, by simpa using hb⟩
    · exact ⟨List.mem_cons_of_mem _ (ih h).1, (ih h).2⟩

theorem lookup_group_in_none (groups : Nat → RelatedThreadGroup) (gid : Nat) (l : List Nat)
    (h : lookup_group_in groups gid l = none) :
    ∀ a ∈ l, (groups a).id ≠ gid := by
  induction l with
  | nil => intro a ha; simp at ha
  | cons b rest ih =>
    unfold lookup_group_in at h
    split at h
    · exact absurd h (by simp)
    · rename_i hb
      intro a ha
      rcases List.mem_cons.mp ha with e | e
      · subst e
        simpa using hb
      · exact ih h a e

theorem sched_get_group_id_congr (w w1 : GroupWorld) (q : Nat)
    (ht : (w1.tasks q).grp = (w.tasks q).grp)
    (hg : ∀ b, (w1.groups b).id = (w.groups b).id) :
    sched_get_group_id w1 q = sched_get_group_id w q := by
  unfold sched_get_group_id
  rw [ht]
  split
  · exact hg _
  · rfl

/-- The registry invariant after a task has left its group: with the group
still on the list when tasks remain in it, and off the list when none does. -/
theorem registry_ok_remove (w : GroupWorld) (pid a : Nat) (X : RelatedThreadGroup)
    (hok : w.registry_ok none) (hg : (w.tasks pid).grp = some a)
    (hid : X.id = (w.groups a).id) (htasks : X.tasks = (w.groups a).tasks.erase pid) :
    (X.tasks ≠ [] →
      GroupWorld.registry_ok
        { w with tasks := Function.update w.tasks pid { w.tasks pid with grp := none },
                 groups := Function.update w.groups a X } none) ∧
    (X.tasks = [] →
      GroupWorld.registry_ok
        { w with tasks := Function.update w.tasks pid { w.tasks pid with grp := none },
                 groups := Function.update w.groups a X,
                 related_thread_groups := w.related_thread_groups.erase a,
                 nr_related_thread_groups := w.nr_related_thread_groups - 1 } none) := by
  obtain ⟨n1, n2, n3, n4, n5, n6, n7, n8⟩ := hok
  have haL : a ∈ w.related_thread_groups := (n5 pid a hg).1
  have hTp : (Function.update w.tasks pid { w.tasks pid with grp := none } pid).grp = none := by
    rw [Function.update_same]
  have hT : ∀ q, q ≠ pid →
      Function.update w.tasks pid { w.tasks pid with grp := none } q = w.tasks q :=
    fun q hq => Function.update_noteq hq _ _
  have hGa : Function.update w.groups a X a = X := Function.update_same _ _ _
  have hGb : ∀ b, b ≠ a → Function.update w.groups a X b = w.groups b :=
    fun b hb => Function.update_noteq hb _ _
  have hGid : ∀ b, (Function.update w.groups a X b).id = (w.groups b).id := by
    intro b
    by_cases hb : b = a
    · subst hb; rw [hGa, hid]
    · rw [hGb b hb]
  have hnp : ∀ q b, (Function.update w.tasks pid { w.tasks pid with grp := none } q).grp
      = some b → q ≠ pid ∧ (w.tasks q).grp = some b := by
    intro q b h
    have hq : q ≠ pid := by
      intro e
      subst e
      rw [hTp] at h
      exact absurd h (by simp)
    rw [hT q hq] at h
    exact ⟨hq, h⟩
  have hmem : ∀ q, q ∈ X.tasks → q ∈ (w.groups a).tasks ∧ q ≠ pid := by
    intro q hq
    rw [htasks] at hq
    exact ⟨List.mem_of_mem_erase hq, fun e => by
      subst e
      exact absurd hq ((n7 a haL).not_mem_erase)⟩
  constructor
  · intro hne
    refine ⟨n1, ?_, ?_, n4, ?_, ?_, ?_, ?_⟩
    · intro b hb c hc h
      show b = c
      have h2 : (Function.update w.groups a X b).id = (Function.update w.groups a X c).id := h
      rw [hGid, hGid] at h2
      exact n2 b hb c hc h2
    · intro b hb _
      show (Function.update w.groups a X b).tasks ≠ []
      by_cases hba : b = a
      · subst hba; rw [hGa]; exact hne
      · rw [hGb b hba]; exact n3 b hb (by simp)
    · intro q b h
      obtain ⟨hq, h1⟩ := hnp q b h
      obtain ⟨m1, m2⟩ := n5 q b h1
      refine ⟨m1, ?_⟩
      show q ∈ (Function.update w.groups a X b).tasks
      by_cases hba : b = a
      · subst hba
        rw [hGa, htasks]
        exact (List.mem_erase_of_ne hq).mpr m2
      · rw [hGb b hba]; exact m2
    · intro b hb q hq
      show (Function.update w.tasks pid { w.tasks pid with grp := none } q).grp = some b
      have hq2 : q ∈ (Function.update w.groups a X b).tasks := hq
      by_cases hba : b = a
      · subst hba
        rw [hGa] at hq2
        obtain ⟨m1, m2⟩ := hmem q hq2
        rw [hT q m2]
        exact n6 b hb q m1
      · rw [hGb b hba] at hq2
        have h1 := n6 b hb q hq2
        have hqp : q ≠ pid := by
          intro e
          subst e
          rw [hg] at h1
          exact hba (Option.some.inj h1).symm
        rw [hT q hqp]
        exact h1
    · intro b hb
      show (Function.update w.groups a X b).tasks.Nodup
      by_cases hba : b = a
      · subst hba
        rw [hGa, htasks]
        exact (n7 b hb).erase _
      · rw [hGb b hba]; exact n7 b hb
    · intro b hb
      show (Function.update w.groups a X b).id ≠ 0
      rw [hGid]
      exact n8 b hb
  · intro hempty
    have hsub : ∀ b, b ∈ w.related_thread_groups.erase a → b ∈ w.related_thread_groups ∧ b ≠ a :=
      fun b hb => ⟨List.mem_of_mem_erase hb, fun e => by
        subst e
        exact absurd hb n1.not_mem_erase⟩
    refine ⟨n1.erase _, ?_, ?_, ?_, ?_, ?_, ?_, ?_⟩
    · intro b hb c hc h
      show b = c
      have h2 : (Function.update w.groups a X b).id = (Function.update w.groups a X c).id := h
      rw [hGid, hGid] at h2
      exact n2 b (hsub b hb).1 c (hsub c hc).1 h2
    · intro b hb _
      show (Function.update w.groups a X b).tasks ≠ []
      rw [hGb b (hsub b hb).2]
      exact n3 b (hsub b hb).1 (by simp)
    · show w.nr_related_thread_groups - 1 = ((w.related_thread_groups.erase a).length : Int)
      have hl := List.length_erase_of_mem haL
      have hpos : 0 < w.related_thread_groups.length := List.length_pos_of_mem haL
      omega
    · intro q b h
      obtain ⟨hq, h1⟩ := hnp q b h
      obtain ⟨m1, m2⟩ := n5 q b h1
      have hba : b ≠ a := by
        intro e
        subst e
        have : q ∈ X.tasks := by
          rw [htasks]
          exact (List.mem_erase_of_ne hq).mpr m2
        rw [hempty] at this
        exact absurd this (by simp)
      refine ⟨(List.mem_erase_of_ne hba).mpr m1, ?_⟩
      show q ∈ (Function.update w.groups a X b).tasks
      rw [hGb b hba]; exact m2
    · intro b hb q hq
      show (Function.update w.tasks pid { w.tasks pid with grp := none } q).grp = some b
      have hq2 : q ∈ (Function.update w.groups a X b).tasks := hq
      obtain ⟨hbL, hba⟩ := hsub b hb
      rw [hGb b hba] at hq2
      have h1 := n6 b hbL q hq2
      have hqp : q ≠ pid := by
        intro e
        subst e
        rw [hg] at h1
        exact hba (Option.some.inj h1).symm
      rw [hT q hqp]
      exact h1
    · intro b hb
      show (Function.update w.groups a X b).tasks.Nodup
      rw [hGb b (hsub b hb).2]; exact n7 b (hsub b hb).1
    · intro b hb
      show (Function.update w.groups a X b).id ≠ 0
      rw [hGid]
      exact n8 b (hsub b hb).1

/-- The registry invariant after a task without a group has joined a group on
the list. -/
theorem registry_ok_add (w : GroupWorld) (pid a : Nat) (X : RelatedThreadGroup)
    (hole : Option Nat) (hok : w.registry_ok hole) (hhole : hole = none ∨ hole = some a)
    (haL : a ∈ w.related_thread_groups) (hg : (w.tasks pid).grp = none)
    (hid : X.id = (w.groups a).id) (htasks : X.tasks = pid :: (w.groups a).tasks) :
    GroupWorld.registry_ok
      { w with tasks := Function.update w.tasks pid { w.tasks pid with grp := some a },
               groups := Function.update w.groups a X } none := by
  obtain ⟨n1, n2, n3, n4, n5, n6, n7, n8⟩ := hok
  have hTp : (Function.update w.tasks pid { w.tasks pid with grp := some a } pid).grp
      = some a := by
    rw [Function.update_same]
  have hT : ∀ q, q ≠ pid →
      Function.update w.tasks pid { w.tasks pid with grp := some a } q = w.tasks q :=
    fun q hq => Function.update_noteq hq _ _
  have hGa : Function.update w.groups a X a = X := Function.update_same _ _ _
  have hGb : ∀ b, b ≠ a → Function.update w.groups a X b = w.groups b :=
    fun b hb => Function.update_noteq hb _ _
  have hGid : ∀ b, (Function.update w.groups a X b).id = (w.groups b).id := by
    intro b
    by_cases hb : b = a
    · subst hb; rw [hGa, hid]
    · rw [hGb b hb]
  have hqp : ∀ q b, (w.tasks q).grp = some b → q ≠ pid := by
    intro q b h e
    subst e
    rw [hg] at h
    exact absurd h (by simp)
  refine ⟨n1, ?_, ?_, n4, ?_, ?_, ?_, ?_⟩
  · intro b hb c hc h
    show b = c
    have h2 : (Function.update w.groups a X b).id = (Function.update w.groups a X c).id := h
    rw [hGid, hGid] at h2
    exact n2 b hb c hc h2
  · intro b hb _
    show (Function.update w.groups a X b).tasks ≠ []
    by_cases hba : b = a
    · subst hba; rw [hGa, htasks]; simp
    · rw [hGb b hba]
      apply n3 b hb
      rcases hhole with e | e
      · rw [e]; simp
      · rw [e]; simpa using hba
  · intro q b h
    have h' : (Function.update w.tasks pid { w.tasks pid with grp := some a } q).grp
        = some b := h
    show b ∈ w.related_thread_groups ∧ q ∈ (Function.update w.groups a X b).tasks
    by_cases hq : q = pid
    · subst hq
      rw [hTp] at h'
      have e : a = b := Option.some.inj h'
      subst e
      rw [hGa, htasks]
      exact ⟨haL, List.mem_cons_self _ _⟩
    · rw [hT q hq] at h'
      obtain ⟨m1, m2⟩ := n5 q b h'
      refine ⟨m1, ?_⟩
      by_cases hba : b = a
      · subst hba
        rw [hGa, htasks]
        exact List.mem_cons_of_mem _ m2
      · rw [hGb b hba]; exact m2
  · intro b hb q hq
    show (Function.update w.tasks pid { w.tasks pid with grp := some a } q).grp = some b
    have hq2 : q ∈ (Function.update w.groups a X b).tasks := hq
    by_cases hba : b = a
    · subst hba
      rw [hGa, htasks] at hq2
      rcases List.mem_cons.mp hq2 with e | e
      · subst e; exact hTp
      · have h1 := n6 b hb q e
        rw [hT q (hqp q b h1)]
        exact h1
    · rw [hGb b hba] at hq2
      have h1 := n6 b hb q hq2
      rw [hT q (hqp q b h1)]
      exact h1
  · intro b hb
    show (Function.update w.groups a X b).tasks.Nodup
    by_cases hba : b = a
    · subst hba
      rw [hGa, htasks]
      refine List.nodup_cons.mpr ⟨fun hm => ?_, n7 b hb⟩
      exact hqp pid b (n6 b hb pid hm) rfl
    · rw [hGb b hba]; exact n7 b hb
  · intro b hb
    show (Function.update w.groups a X b).id ≠ 0
    rw [hGid]
    exact n8 b hb

/-- The registry invariant, but for the empty task list of the new group,
after a new group has been put at the head of the list. -/
theorem registry_ok_insert (w : GroupWorld) (a gid : Nat)
    (hok : w.registry_ok none) (ha : a ∉ w.related_thread_groups)
    (hid : (w.groups a).id = gid) (hgid : gid ≠ 0)
    (hnone : ∀ b ∈ w.related_thread_groups, (w.groups b).id ≠ gid)
    (htasks : (w.groups a).tasks = []) :
    GroupWorld.registry_ok
      { w with nr_related_thread_groups := w.nr_related_thread_groups + 1,
               related_thread_groups := a :: w.related_thread_groups } (some a) := by
  obtain ⟨n1, n2, n3, n4, n5, n6, n7, n8⟩ := hok
  refine ⟨List.nodup_cons.mpr ⟨ha, n1⟩, ?_, ?_, ?_, ?_, ?_, ?_, ?_⟩
  · intro b hb c hc h
    have h' : (w.groups b).id = (w.groups c).id := h
    rcases List.mem_cons.mp hb with e1 | e1 <;> rcases List.mem_cons.mp hc with e2 | e2
    · rw [e1, e2]
    · subst e1
      rw [hid] at h'
      exact absurd h'.symm (hnone c e2)
    · subst e2
      rw [hid] at h'
      exact absurd h' (hnone b e1)
    · exact n2 b e1 c e2 h'
  · intro b hb hne
    show (w.groups b).tasks ≠ []
    rcases List.mem_cons.mp hb with e | e
    · subst e; exact absurd rfl hne
    · exact n3 b e (by simp)
  · show w.nr_related_thread_groups + 1 = ((a :: w.related_thread_groups).length : Int)
    rw [List.length_cons]
    push_cast
    omega
  · intro q b h
    obtain ⟨m1, m2⟩ := n5 q b h
    exact ⟨List.mem_cons_of_mem _ m1, m2⟩
  · intro b hb q hq
    have hq' : q ∈ (w.groups b).tasks := hq
    rcases List.mem_cons.mp hb with e | e
    · subst e
      rw [htasks] at hq'
      exact absurd hq' (by simp)
    · exact n6 b e q hq'
  · intro b hb
    show (w.groups b).tasks.Nodup
    rcases List.mem_cons.mp hb with e | e
    · subst e; rw [htasks]; exact List.nodup_nil
    · exact n7 b e
  · intro b hb
    show (w.groups b).id ≠ 0
    rcases List.mem_cons.mp hb with e | e
    · subst e; rw [hid]; exact hgid
    · exact n8 b e

/-- The registry invariant does not read the group objects off the list. -/
theorem registry_ok_fresh (w : GroupWorld) (a : Nat) (X : RelatedThreadGroup)
    (hok : w.registry_ok none) (ha : a ∉ w.related_thread_groups) :
    GroupWorld.registry_ok { w with groups := Function.update w.groups a X } none := by
  obtain ⟨n1, n2, n3, n4, n5, n6, n7, n8⟩ := hok
  have hG : ∀ b, b ∈ w.related_thread_groups → Function.update w.groups a X b = w.groups b :=
    fun b hb => Function.update_noteq (fun e : b = a => ha (by rw [← e]; exact hb)) _ _
  refine ⟨n1, ?_, ?_, n4, ?_, ?_, ?_, ?_⟩
  · intro b hb c hc h
    have h' : (Function.update w.groups a X b).id = (Function.update w.groups a X c).id := h
    rw [hG b hb, hG c hc] at h'
    exact n2 b hb c hc h'
  · intro b hb hne
    show (Function.update w.groups a X b).tasks ≠ []
    rw [hG b hb]; exact n3 b hb hne
  · intro q b h
    obtain ⟨m1, m2⟩ := n5 q b h
    refine ⟨m1, ?_⟩
    show q ∈ (Function.update w.groups a X b).tasks
    rw [hG b m1]; exact m2
  · intro b hb q hq
    have hq' : q ∈ (Function.update w.groups a X b).tasks := hq
    rw [hG b hb] at hq'
    exact n6 b hb q hq'
  · intro b hb
    show (Function.update w.groups a X b).tasks.Nodup
    rw [hG b hb]; exact n7 b hb
  · intro b hb
    show (Function.update w.groups a X b).id ≠ 0
    rw [hG b hb]; exact n8 b hb

theorem remove_task_from_group_ok (env : GroupEnv) (w : GroupWorld) (pid clock a : Nat)
    (hok : w.registry_ok none) (hg : (w.tasks pid).grp = some a) :
    ∃ w1, remove_task_from_group env w pid clock = some w1 ∧ w1.registry_ok none ∧
      (w1.tasks pid).grp = none ∧
      (∀ q, q ≠ pid → w1.tasks q = w.tasks q) ∧
      (∀ b, (w1.groups b).id = (w.groups b).id) ∧
      (∀ q, (w1.tasks q).pf_exiting = (w.tasks q).pf_exiting) ∧
      (∀ b, b ∈ w1.related_thread_groups → b ∈ w.related_thread_groups) ∧
      (∀ b, b ∉ w.related_thread_groups → w1.groups b = w.groups b) := by
  have haL : a ∈ w.related_thread_groups := (hok.2.2.2.2.1 pid a hg).1
  have hpf : ∀ q, (Function.update w.tasks pid { w.tasks pid with grp := none } q).pf_exiting
      = (w.tasks q).pf_exiting := by
    intro q
    by_cases hq : q = pid
    · subst hq; rw [Function.update_same]
    · rw [Function.update_noteq hq]
  have hgp : (Function.update w.tasks pid { w.tasks pid with grp := none } pid).grp = none := by
    rw [Function.update_same]
  have hfr : ∀ (X : RelatedThreadGroup) b, b ∉ w.related_thread_groups →
      Function.update w.groups a X b = w.groups b :=
    fun X b hb => Function.update_noteq (fun e : b = a => hb (by rw [e]; exact haL)) _ _
  have hidX : ∀ (X : RelatedThreadGroup), X.id = (w.groups a).id →
      ∀ b, (Function.update w.groups a X b).id = (w.groups b).id := by
    intro X hX b
    by_cases hb : b = a
    · subst hb; rw [Function.update_same, hX]
    · rw [Function.update_noteq hb]
  unfold remove_task_from_group
  rw [hg]
  dsimp only
  by_cases hempty : ((w.groups a).tasks.erase pid).isEmpty = true
  · rw [if_neg (by simp [hempty])]
    have he : (w.groups a).tasks.erase pid = [] := List.isEmpty_iff.mp hempty
    refine ⟨_, rfl, ?_, hgp, fun q hq => Function.update_noteq hq _ _, hidX _ rfl, hpf,
      fun b hb => List.mem_of_mem_erase hb, hfr _⟩
    exact (registry_ok_remove w pid a
      { w.groups a with tasks := (w.groups a).tasks.erase pid } hok hg rfl rfl).2 he
  · rw [if_pos (by simp [hempty])]
    have he : (w.groups a).tasks.erase pid ≠ [] := fun e => hempty (List.isEmpty_iff.mpr e)
    obtain ⟨k1, k2⟩ := _set_preferred_cluster_keeps env
      (Function.update w.tasks pid { w.tasks pid with grp := none }) clock
      { w.groups a with tasks := (w.groups a).tasks.erase pid }
    refine ⟨_, rfl, ?_, hgp, fun q hq => Function.update_noteq hq _ _, hidX _ k1, hpf,
      fun b hb => hb, hfr _⟩
    exact (registry_ok_remove w pid a _ hok hg k1 k2).1 (by rw [k2]; exact he)

theorem add_task_to_group_ok (env : GroupEnv) (w : GroupWorld) (pid a clock : Nat)
    (hole : Option Nat) (hok : w.registry_ok hole) (hhole : hole = none ∨ hole = some a)
    (haL : a ∈ w.related_thread_groups) (hg : (w.tasks pid).grp = none) :
    (add_task_to_group env w pid a clock).registry_ok none ∧
    sched_get_group_id (add_task_to_group env w pid a clock) pid = (w.groups a).id ∧
    (∀ q, q ≠ pid → (add_task_to_group env w pid a clock).tasks q = w.tasks q) ∧
    (∀ b, ((add_task_to_group env w pid a clock).groups b).id = (w.groups b).id) ∧
    (∀ q, ((add_task_to_group env w pid a clock).tasks q).pf_exiting
      = (w.tasks q).pf_exiting) ∧
    (add_task_to_group env w pid a clock).related_thread_groups = w.related_thread_groups := by
  obtain ⟨k1, k2⟩ := _set_preferred_cluster_keeps env
    (Function.update w.tasks pid { w.tasks pid with grp := some a }) clock
    { w.groups a with tasks := pid :: (w.groups a).tasks }
  have hid : ∀ b, ((add_task_to_group env w pid a clock).groups b).id = (w.groups b).id := by
    intro b
    unfold add_task_to_group
    dsimp only
    by_cases hb : b = a
    · subst hb; rw [Function.update_same, k1]
    · rw [Function.update_noteq hb]
  refine ⟨?_, ?_, ?_, hid, ?_, rfl⟩
  · unfold add_task_to_group
    exact registry_ok_add w pid a _ hole hok hhole haL hg k1 k2
  · unfold sched_get_group_id
    have e : ((add_task_to_group env w pid a clock).tasks pid).grp = some a := by
      unfold add_task_to_group
      dsimp only
      rw [Function.update_same]
    rw [e]
    exact hid a
  · intro q hq
    unfold add_task_to_group
    exact Function.update_noteq hq _ _
  · intro q
    unfold add_task_to_group
    dsimp only
    by_cases hq : q = pid
    · subst hq; rw [Function.update_same]
    · rw [Function.update_noteq hq]

/-- One pass of `sched_set_group_id` on a registry that satisfies the
invariant, `new` being off the list, empty and of the id asked for. -/
theorem sched_set_group_id_pass_ok (env : GroupEnv) (w w1 : GroupWorld)
    (current pid gid clock : Nat) (new : Option Nat) (r : Option Int)
    (hok : w.registry_ok none)
    (hnew : ∀ a, new = some a →
      a ∉ w.related_thread_groups ∧ (w.groups a).id = gid ∧ (w.groups a).tasks = [])
    (h : sched_set_group_id_pass env w current pid gid clock new = some (w1, r)) :
    w1.registry_ok none ∧
    (∀ q, (w1.tasks q).pf_exiting = (w.tasks q).pf_exiting) ∧
    (∀ q, q ≠ pid → sched_get_group_id w1 q = sched_get_group_id w q) ∧
    (∀ rc, r = some rc → rc = 0 ∧
      ((current != pid && (w.tasks pid).pf_exiting) = true → w1 = w) ∧
      ((current != pid && (w.tasks pid).pf_exiting) = false →
        sched_get_group_id w1 pid = gid)) ∧
    (r = none → new = none ∧ (current != pid && (w.tasks pid).pf_exiting) = false ∧
      (w1.tasks pid).grp = none ∧
      (∀ b ∈ w1.related_thread_groups, (w1.groups b).id ≠ gid) ∧
      (∀ b, b ∈ w1.related_thread_groups → b ∈ w.related_thread_groups) ∧
      (∀ q, sched_get_group_id w1 q = sched_get_group_id w q ∨ q = pid)) := by
  by_cases hskip : (current != pid && (w.tasks pid).pf_exiting) = true
  · unfold sched_set_group_id_pass at h
    dsimp only at h
    rw [hskip] at h
    simp only [Bool.true_or, if_true, Option.some.injEq, Prod.mk.injEq] at h
    obtain ⟨e1, e2⟩ := h
    subst e1
    subst e2
    refine ⟨hok, fun _ => rfl, fun _ _ => rfl, ?_, fun e => absurd e (by simp)⟩
    intro rc hrc
    simp only [Option.some.injEq] at hrc
    exact ⟨hrc.symm, fun _ => rfl, fun e => absurd hskip (by rw [e]; simp)⟩
  · have hskip2 : (current != pid && (w.tasks pid).pf_exiting) = false := by
      simpa using hskip
    -- the state after the task has left a group with another id
    have hrem : ∀ wr, (wr = w ∧ (w.tasks pid).grp = none) ∨
        (∃ a, (w.tasks pid).grp = some a ∧
          remove_task_from_group env w pid clock = some wr) →
        wr.registry_ok none ∧ (wr.tasks pid).grp = none ∧
        (∀ q, q ≠ pid → wr.tasks q = w.tasks q) ∧
        (∀ b, (wr.groups b).id = (w.groups b).id) ∧
        (∀ q, (wr.tasks q).pf_exiting = (w.tasks q).pf_exiting) ∧
        (∀ b, b ∈ wr.related_thread_groups → b ∈ w.related_thread_groups) ∧
        (∀ b, b ∉ w.related_thread_groups → wr.groups b = w.groups b) := by
      intro wr hwr
      rcases hwr with ⟨e, hn⟩ | ⟨a, ha, e⟩
      · subst e
        exact ⟨hok, hn, fun _ _ => rfl, fun _ => rfl, fun _ => rfl, fun _ hb => hb,
          fun _ _ => rfl⟩
      · obtain ⟨w2, e2, k⟩ := remove_task_from_group_ok env w pid clock a hok ha
        rw [e2] at e
        simp only [Option.some.injEq] at e
        subst e
        exact k
    have hget : ∀ wr : GroupWorld, (∀ q, q ≠ pid → wr.tasks q = w.tasks q) →
        (∀ b, (wr.groups b).id = (w.groups b).id) →
        ∀ q, q ≠ pid → sched_get_group_id wr q = sched_get_group_id w q :=
      fun wr h1 h2 q hq => sched_get_group_id_congr w wr q (by rw [h1 q hq]) h2
    -- the tail of the pass from the lookup on
    have htail : ∀ wr, wr.registry_ok none → (wr.tasks pid).grp = none →
        (∀ q, q ≠ pid → wr.tasks q = w.tasks q) →
        (∀ b, (wr.groups b).id = (w.groups b).id) →
        (∀ q, (wr.tasks q).pf_exiting = (w.tasks q).pf_exiting) →
        (∀ b, b ∈ wr.related_thread_groups → b ∈ w.related_thread_groups) →
        (∀ b, b ∉ w.related_thread_groups → wr.groups b = w.groups b) →
        gid ≠ 0 →
        sched_set_group_id_attach env wr pid gid clock new = (w1, r) →
        w1.registry_ok none ∧
        (∀ q, (w1.tasks q).pf_exiting = (w.tasks q).pf_exiting) ∧
        (∀ q, q ≠ pid → sched_get_group_id w1 q = sched_get_group_id w q) ∧
        (∀ rc, r = some rc → rc = 0 ∧
          ((current != pid && (w.tasks pid).pf_exiting) = true → w1 = w) ∧
          ((current != pid && (w.tasks pid).pf_exiting) = false →
            sched_get_group_id w1 pid = gid)) ∧
        (r = none → new = none ∧ (current != pid && (w.tasks pid).pf_exiting) = false ∧
          (w1.tasks pid).grp = none ∧
          (∀ b ∈ w1.related_thread_groups, (w1.groups b).id ≠ gid) ∧
          (∀ b, b ∈ w1.related_thread_groups → b ∈ w.related_thread_groups) ∧
          (∀ q, sched_get_group_id w1 q = sched_get_group_id w q ∨ q = pid)) := by
      intro wr r1 r2 r3 r4 r5 r6 r7 hgid ht
      cases hl : lookup_related_thread_group wr gid with
      | none =>
        cases hn : new with
        | none =>
          unfold sched_set_group_id_attach at ht
          rw [hl, hn] at ht
          simp only [Prod.mk.injEq] at ht
          obtain ⟨e1, e2⟩ := ht
          subst e1
          subst e2
          refine ⟨r1, r5, hget wr r3 r4, fun rc hrc => absurd hrc (by simp), fun _ => ?_⟩
          refine ⟨rfl, hskip2, r2, lookup_group_in_none _ _ _ hl, r6, fun q => ?_⟩
          by_cases hq : q = pid
          · exact Or.inr hq
          · exact Or.inl (hget wr r3 r4 q hq)
        | some a =>
          unfold sched_set_group_id_attach at ht
          rw [hl, hn] at ht
          simp only [Prod.mk.injEq] at ht
          obtain ⟨e1, e2⟩ := ht
          obtain ⟨f1, f2, f3⟩ := hnew a hn
          have haw : a ∉ wr.related_thread_groups := fun hm => f1 (r6 a hm)
          have hga : wr.groups a = w.groups a := r7 a f1
          have hins := registry_ok_insert wr a gid r1 haw (by rw [hga]; exact f2) hgid
            (lookup_group_in_none _ _ _ hl) (by rw [hga]; exact f3)
          obtain ⟨a1, a2, a3, a4, a5, a6⟩ := add_task_to_group_ok env
            { wr with nr_related_thread_groups := wr.nr_related_thread_groups + 1,
                      related_thread_groups := a :: wr.related_thread_groups }
            pid a clock (some a) hins (Or.inr rfl) (List.mem_cons_self _ _) r2
          rw [e1] at a1 a2 a3 a4 a5
          refine ⟨a1, fun q => (a5 q).trans (r5 q), ?_, ?_,
            fun e => absurd e (by rw [← e2]; simp)⟩
          · intro q hq
            exact (sched_get_group_id_congr _ w1 q (by rw [a3 q hq]) a4).trans
              (hget wr r3 r4 q hq)
          · intro rc hrc
            rw [← e2] at hrc
            simp only [Option.some.injEq] at hrc
            refine ⟨hrc.symm, fun e => absurd e hskip, fun _ => ?_⟩
            rw [a2]
            show (wr.groups a).id = gid
            rw [hga]; exact f2
      | some a =>
        unfold sched_set_group_id_attach at ht
        rw [hl] at ht
        simp only [Prod.mk.injEq] at ht
        obtain ⟨e1, e2⟩ := ht
        obtain ⟨l1, l2⟩ := lookup_group_in_some _ _ _ _ hl
        obtain ⟨a1, a2, a3, a4, a5, a6⟩ := add_task_to_group_ok env wr pid a clock none r1
          (Or.inl rfl) l1 r2
        rw [e1] at a1 a2 a3 a4 a5
        refine ⟨a1, fun q => (a5 q).trans (r5 q), ?_, ?_,
          fun e => absurd e (by rw [← e2]; simp)⟩
        · intro q hq
          exact (sched_get_group_id_congr _ w1 q (by rw [a3 q hq]) a4).trans
            (hget wr r3 r4 q hq)
        · intro rc hrc
          rw [← e2] at hrc
          simp only [Option.some.injEq] at hrc
          refine ⟨hrc.symm, fun e => absurd e hskip, fun _ => ?_⟩
          rw [a2]
          exact l2
    have hdone : w1 = w → r = some 0 → sched_get_group_id w pid = gid →
        w1.registry_ok none ∧
        (∀ q, (w1.tasks q).pf_exiting = (w.tasks q).pf_exiting) ∧
        (∀ q, q ≠ pid → sched_get_group_id w1 q = sched_get_group_id w q) ∧
        (∀ rc, r = some rc → rc = 0 ∧
          ((current != pid && (w.tasks pid).pf_exiting) = true → w1 = w) ∧
          ((current != pid && (w.tasks pid).pf_exiting) = false →
            sched_get_group_id w1 pid = gid)) ∧
        (r = none → new = none ∧ (current != pid && (w.tasks pid).pf_exiting) = false ∧
          (w1.tasks pid).grp = none ∧
          (∀ b ∈ w1.related_thread_groups, (w1.groups b).id ≠ gid) ∧
          (∀ b, b ∈ w1.related_thread_groups → b ∈ w.related_thread_groups) ∧
          (∀ q, sched_get_group_id w1 q = sched_get_group_id w q ∨ q = pid)) := by
      intro e1 e2 hgp
      subst e1
      subst e2
      refine ⟨hok, fun _ => rfl, fun _ _ => rfl, ?_, fun e => absurd e (by simp)⟩
      intro rc hrc
      simp only [Option.some.injEq] at hrc
      exact ⟨hrc.symm, fun _ => rfl, fun _ => hgp⟩
    unfold sched_set_group_id_pass at h
    dsimp only at h
    rw [hskip2] at h
    cases hgrp : (w.tasks pid).grp with
    | none =>
      rw [hgrp] at h
      by_cases hz : gid = 0
      · subst hz
        simp only [Option.isNone_none, beq_self_eq_true, Bool.and_self, Bool.or_true,
          Bool.false_or, Bool.or_false, Bool.true_or, if_true, Option.some.injEq,
          Prod.mk.injEq] at h
        refine hdone h.1.symm h.2.symm ?_
        unfold sched_get_group_id
        rw [hgrp]
      · have hzb : (gid == 0) = false := by simpa using hz
        simp only [hzb, Option.isNone_none, Bool.and_false, Bool.or_false, Bool.false_eq_true,
          if_false, Option.some.injEq] at h
        obtain ⟨r1, r2, r3, r4, r5, r6, r7⟩ := hrem w (Or.inl ⟨rfl, hgrp⟩)
        exact htail w r1 r2 r3 r4 r5 r6 r7 hz h
    | some a =>
      rw [hgrp] at h
      by_cases hid : (w.groups a).id = gid
      · have hidb : ((w.groups a).id == gid) = true := by simpa using hid
        simp only [hidb, Bool.or_true, if_true, Option.some.injEq, Prod.mk.injEq] at h
        refine hdone h.1.symm h.2.symm ?_
        unfold sched_get_group_id
        rw [hgrp]
        exact hid
      · have hidb : ((w.groups a).id == gid) = false := by simpa using hid
        have hidn : ((w.groups a).id != gid) = true := by simpa using hid
        simp only [hidb, hidn, Option.isNone_some, Bool.false_and, Bool.or_false,
          Bool.false_eq_true, if_false, if_true] at h
        obtain ⟨wr, er, r1, r2, r3, r4, r5, r6, r7⟩ :=
          remove_task_from_group_ok env w pid clock a hok hgrp
        rw [er] at h
        by_cases hz : gid = 0
        · have hzb : (gid == 0) = true := by simpa using hz
          simp only [hzb, if_true, Option.some.injEq, Prod.mk.injEq] at h
          obtain ⟨e1, e2⟩ := h
          subst e1
          subst e2
          refine ⟨r1, r5, hget wr r3 r4, ?_, fun e => absurd e (by simp)⟩
          intro rc hrc
          simp only [Option.some.injEq] at hrc
          refine ⟨hrc.symm, fun e => absurd e hskip, fun _ => ?_⟩
          unfold sched_get_group_id
          rw [r2, hz]
        · have hzb : (gid == 0) = false := by simpa using hz
          simp only [hzb, Bool.false_eq_true, if_false, Option.some.injEq] at h
          exact htail wr r1 r2 r3 r4 r5 r6 r7 hz h

/-- A call of `sched_set_group_id` that returns 0 keeps the registry
invariant, leaves the group ids of the other tasks alone, and gives the task
the id asked for unless the call is skipped. -/
theorem sched_set_group_id_ok (env : GroupEnv) (w w1 : GroupWorld)
    (current pid gid clock : Nat) (alloc : Option Nat)
    (hok : w.registry_ok none)
    (hfresh : ∀ a, alloc = some a → a ∉ w.related_thread_groups)
    (h : sched_set_group_id env w current pid gid clock alloc = some (w1, 0)) :
    w1.registry_ok none ∧
    (∀ q, (w1.tasks q).pf_exiting = (w.tasks q).pf_exiting) ∧
    (∀ q, q ≠ pid → sched_get_group_id w1 q = sched_get_group_id w q) ∧
    ((current != pid && (w.tasks pid).pf_exiting) = true →
      ∀ q, sched_get_group_id w1 q = sched_get_group_id w q) ∧
    ((current != pid && (w.tasks pid).pf_exiting) = false →
      sched_get_group_id w1 pid = gid) := by
  unfold sched_set_group_id at h
  cases hp : sched_set_group_id_pass env w current pid gid clock none with
  | none =>
    rw [hp] at h
    exact absurd h (by simp)
  | some x =>
    obtain ⟨wa, ra⟩ := x
    rw [hp] at h
    obtain ⟨p1, p2, p3, p4, p5⟩ := sched_set_group_id_pass_ok env w wa current pid gid clock
      none ra hok (fun a e => absurd e (by simp)) hp
    cases ra with
    | some rc =>
      simp only [Option.some.injEq, Prod.mk.injEq] at h
      obtain ⟨e1, e2⟩ := h
      subst e1
      obtain ⟨_, s1, s2⟩ := p4 rc rfl
      exact ⟨p1, p2, p3, fun hs q => by rw [s1 hs], s2⟩
    | none =>
      obtain ⟨_, t1, t2, t3, t4, t5⟩ := p5 rfl
      cases halloc : alloc with
      | none =>
        rw [halloc] at h
        simp only [Option.some.injEq, Prod.mk.injEq] at h
        exact absurd h.2 (by unfold ENOMEM; decide)
      | some a =>
        rw [halloc] at h
        dsimp only at h
        have haw : a ∉ wa.related_thread_groups := fun hm => hfresh a halloc (t4 a hm)
        have hok2 := registry_ok_fresh wa a { id := gid } p1 haw
        have hget2 : ∀ q, sched_get_group_id
            { wa with groups := Function.update wa.groups a { id := gid } } q
            = sched_get_group_id wa q := by
          intro q
          unfold sched_get_group_id
          dsimp only
          cases hq : (wa.tasks q).grp with
          | none => rfl
          | some b =>
            dsimp only
            have hb : b ≠ a := fun e =>
              haw (by rw [← e]; exact (p1.2.2.2.2.1 q b hq).1)
            rw [Function.update_noteq hb]
        cases hp2 : sched_set_group_id_pass env
            { wa with groups := Function.update wa.groups a { id := gid } }
            current pid gid clock (some a) with
        | none =>
          rw [hp2] at h
          exact absurd h (by simp)
        | some y =>
          obtain ⟨wb, rb⟩ := y
          rw [hp2] at h
          obtain ⟨u1, u2, u3, u4, u5⟩ := sched_set_group_id_pass_ok env _ wb current pid gid
            clock (some a) rb hok2
            (fun c e => by
              simp only [Option.some.injEq] at e
              subst e
              exact ⟨haw, by show (Function.update wa.groups a _ a).id = gid
                             rw [Function.update_same],
                by show (Function.update wa.groups a _ a).tasks = []
                   rw [Function.update_same]⟩) hp2
          cases rb with
          | none =>
            exact absurd h (by simp)
          | some rc =>
            simp only [Option.some.injEq, Prod.mk.injEq] at h
            obtain ⟨e1, e2⟩ := h
            subst e1
            obtain ⟨_, _, s2⟩ := u4 rc rfl
            have hpf : ∀ q, (wb.tasks q).pf_exiting = (w.tasks q).pf_exiting :=
              fun q => (u2 q).trans (p2 q)
            refine ⟨u1, hpf, fun q hq => ?_, fun hs => ?_, fun hs => ?_⟩
            · exact ((u3 q hq).trans (hget2 q)).trans (p3 q hq)
            · rw [t1] at hs
              exact absurd hs (by simp)
            · apply s2
              show (current != pid && (wa.tasks pid).pf_exiting) = false
              rw [p2 pid]
              exact hs

theorem spec_last_assigned_cons (exiting : Nat → Bool) (p start : Nat) (c : GroupCall)
    (rest : List GroupCall) :
    spec_last_assigned exiting p start (c :: rest) =
      spec_last_assigned exiting p
        (if c.pid = p ∧ c.skipped exiting = false then c.group_id else start) rest := by
  unfold spec_last_assigned
  rfl

/-- A run of calls that all return 0 keeps the registry invariant, and leaves
every task with the id last assigned to it by a call that was not skipped. -/
theorem sched_set_group_id_run_ok (env : GroupEnv) (calls : List GroupCall) (w w1 : GroupWorld)
    (hok : w.registry_ok none) (hfresh : allocs_fresh env w calls = true)
    (h : sched_set_group_id_run env w calls = some w1) :
    w1.registry_ok none ∧
    ∀ p, sched_get_group_id w1 p
      = spec_last_assigned (fun q => (w.tasks q).pf_exiting) p (sched_get_group_id w p) calls := by
  induction calls generalizing w with
  | nil =>
    unfold sched_set_group_id_run at h
    simp only [Option.some.injEq] at h
    subst h
    exact ⟨hok, fun _ => rfl⟩
  | cons c rest ih =>
    unfold sched_set_group_id_run at h
    unfold allocs_fresh at hfresh
    cases hs : sched_set_group_id env w c.current c.pid c.group_id c.clock c.alloc with
    | none =>
      rw [hs] at h
      exact absurd h (by simp)
    | some x =>
      obtain ⟨wa, rc⟩ := x
      rw [hs] at h hfresh
      dsimp only at h hfresh
      by_cases hrc : rc = 0
      · subst hrc
        simp only [beq_self_eq_true, if_true] at h
        simp only [Bool.and_eq_true] at hfresh
        obtain ⟨f1, f2⟩ := hfresh
        have hfr : ∀ a, c.alloc = some a → a ∉ w.related_thread_groups := by
          intro a ha
          rw [ha] at f1
          simpa using f1
        obtain ⟨k1, k2, k3, k4, k5⟩ := sched_set_group_id_ok env w wa c.current c.pid
          c.group_id c.clock c.alloc hok hfr hs
        obtain ⟨i1, i2⟩ := ih wa k1 f2 h
        refine ⟨i1, fun p => ?_⟩
        have hfun : (fun q => (wa.tasks q).pf_exiting) = (fun q => (w.tasks q).pf_exiting) :=
          funext k2
        rw [i2 p, hfun, spec_last_assigned_cons]
        congr 1
        unfold GroupCall.skipped
        by_cases hp : c.pid = p
        · subst hp
          cases hsk : (c.current != c.pid && (w.tasks c.pid).pf_exiting) with
          | true =>
            rw [if_neg (by simp)]
            exact k4 hsk c.pid
          | false =>
            rw [if_pos ⟨rfl, rfl⟩]
            exact k5 hsk
        · rw [if_neg (fun e => hp e.1)]
          exact k3 p (fun e => hp e.symm)
      · have : (rc == 0) = false := by simpa using hrc
        rw [this] at h
        exact absurd h (by simp)

/-- Starting from no groups, task 2 calls `sched_set_group_id` with id 5 for
task 1, which is exiting: the call returns 0, no group is made, and
`sched_get_group_id` gives 0 for task 1, not the 5 last assigned. -/
theorem sched_set_group_id_skips_exiting :
    c29_world.related_thread_groups = [] ∧ c29_world.nr_related_thread_groups = 0 ∧
    sched_get_group_id c29_world 1 = 0 ∧
    (sched_set_group_id {} c29_world 2 1 5 0 (some 100)).map
        (fun r => (r.2, sched_get_group_id r.1 1, r.1.related_thread_groups))
      = some (0, 0, []) ∧
    (sched_set_group_id_run {} c29_world
        [{ current := 2, pid := 1, group_id := 5, alloc := some 100 }]).map
        (fun w => sched_get_group_id w 1) = some 0 ∧
    (0 : Nat) ≠ 5 := by
  refine ⟨by decide, by decide, by decide, by decide!, by decide!, by decide⟩

/-- C29: after any sequence of `sched_set_group_id` calls that return 0,
starting from no groups, where `kzalloc` never returns the address of a group
on the list: a non-zero id is held by some task exactly when a group on the
list has it, the ids of the groups on the list are distinct, no group has an
empty task list, `nr_related_thread_groups` is the length of the list, a task
is on the task list of at most one group, and `sched_get_group_id(p)` returns
the id last assigned to `p` by a call that was not made by another task while
`p` was exiting (0 when there is none, or after assigning 0). -/
theorem sched_set_group_id_registry (env : GroupEnv) (calls : List GroupCall)
    (w w1 : GroupWorld)
    (hlist : w.related_thread_groups = []) (hnr : w.nr_related_thread_groups = 0)
    (hgrp : ∀ p, (w.tasks p).grp = none)
    (hfresh : allocs_fresh env w calls = true)
    (hrun : sched_set_group_id_run env w calls = some w1) :
    (∀ id, id ≠ 0 →
      ((∃ p, sched_get_group_id w1 p = id) ↔
        ∃ a ∈ w1.related_thread_groups, (w1.groups a).id = id)) ∧
    w1.related_thread_groups.Nodup ∧
    (∀ a ∈ w1.related_thread_groups, ∀ b ∈ w1.related_thread_groups,
      (w1.groups a).id = (w1.groups b).id → a = b) ∧
    (∀ a ∈ w1.related_thread_groups, (w1.groups a).tasks ≠ []) ∧
    w1.nr_related_thread_groups = (w1.related_thread_groups.length : Int) ∧
    (∀ p, ∀ a ∈ w1.related_thread_groups, ∀ b ∈ w1.related_thread_groups,
      p ∈ (w1.groups a).tasks → p ∈ (w1.groups b).tasks → a = b) ∧
    (∀ p, sched_get_group_id w1 p
      = spec_last_assigned (fun q => (w.tasks q).pf_exiting) p 0 calls) := by
  have hok : w.registry_ok none := by
    refine ⟨?_, ?_, ?_, ?_, ?_, ?_, ?_, ?_⟩
    · rw [hlist]; exact List.nodup_nil
    · intro a ha; rw [hlist] at ha; exact absurd ha (by simp)
    · intro a ha; rw [hlist] at ha; exact absurd ha (by simp)
    · rw [hnr, hlist]; rfl
    · intro p a h; rw [hgrp p] at h; exact absurd h (by simp)
    · intro a ha; rw [hlist] at ha; exact absurd ha (by simp)
    · intro a ha; rw [hlist] at ha; exact absurd ha (by simp)
    · intro a ha; rw [hlist] at ha; exact absurd ha (by simp)
  obtain ⟨⟨n1, n2, n3, n4, n5, n6, n7, n8⟩, hlast⟩ :=
    sched_set_group_id_run_ok env calls w w1 hok hfresh hrun
  have h0 : ∀ p, sched_get_group_id w p = 0 := by
    intro p
    unfold sched_get_group_id
    rw [hgrp p]
  refine ⟨?_, n1, n2, fun a ha => n3 a ha (by simp), n4, ?_, ?_⟩
  · intro id hid
    constructor
    · rintro ⟨p, hp⟩
      unfold sched_get_group_id at hp
      cases hg : (w1.tasks p).grp with
      | none =>
        rw [hg] at hp
        exact absurd hp.symm hid
      | some a =>
        rw [hg] at hp
        exact ⟨a, (n5 p a hg).1, hp⟩
    · rintro ⟨a, ha, hida⟩
      obtain ⟨p, hp⟩ := List.exists_mem_of_ne_nil _ (n3 a ha (by simp))
      refine ⟨p, ?_⟩
      unfold sched_get_group_id
      rw [n6 a ha p hp]
      exact hida
  · intro p a ha b hb h1 h2
    have e1 := n6 a ha p h1
    have e2 := n6 b hb p h2
    rw [e1] at e2
    exact Option.some.inj e2
  · intro p
    rw [hlast p, h0 p]

theorem sched_set_group_id_registry_witness :
    sched_set_group_id_run {} c29_world c29_calls = some c29_after ∧
    c29_after.related_thread_groups = [102] ∧
    (∀ id, id ≠ 0 →
      ((∃ p, sched_get_group_id c29_after p = id) ↔
        ∃ a ∈ c29_after.related_thread_groups, (c29_after.groups a).id = id)) ∧
    c29_after.nr_related_thread_groups = (c29_after.related_thread_groups.length : Int) ∧
    (∀ p, sched_get_group_id c29_after p
      = spec_last_assigned (fun q => (c29_world.tasks q).pf_exiting) p 0 c29_calls) ∧
    sched_get_group_id c29_after 3 = 7 ∧ sched_get_group_id c29_after 4 = 0 ∧
    sched_get_group_id c29_after 1 = 0 :=
  have hrun : sched_set_group_id_run {} c29_world c29_calls = some c29_after :=
    option_eq_some_getD _ _ (by decide!)
  have h := sched_set_group_id_registry {} c29_calls c29_world c29_after rfl rfl
    (fun p => by
      show (if p = 1 then _ else _ : Task).grp = none
      split <;> rfl)
    (by decide!) hrun
  ⟨hrun, by decide!, h.1, h.2.2.2.2.1, h.2.2.2.2.2.2, by decide!, by decide!, by decide!⟩


/-! ## Returning from the window update -/

/-- `update_history` returns for every non-negative number of samples, with
the five entries of the array. -/
theorem update_history_returns (g : Globals) (fixup : FixupHook) (rq : Rq) (p : Task)
    (runtime : Nat) (samples : Int) (hs : 0 ≤ samples)
    (h1 : 1 ≤ g.sched_ravg_hist_size) (h5 : g.sched_ravg_hist_size ≤ 5)
    (hlen : p.ravg.sum_history.length = 5) :
    ∃ p1 rq1, update_history g fixup rq p runtime samples = some (p1, rq1) ∧
      p1.ravg.sum_history.length = 5 := by
  obtain ⟨p1, rq1, e, _, _, _, l, _⟩ := update_history_within_int g fixup rq p
    (runtime + p.ravg.demand + p.ravg.sum + p.ravg.sum_history.sum) runtime samples hs h1 h5
    hlen (by omega) (by omega) (by omega)
    (fun x hx => by
      have := List.single_le_sum (fun _ _ => Nat.zero_le _) x hx
      omega)
  exact ⟨p1, rq1, e, l⟩

/-- `update_task_demand` returns when fewer than `2^31` windows lie between
`mark_start` and `window_start`. -/
theorem update_task_demand_returns (g : Globals) (fixup : FixupHook) (p : Task) (rq : Rq)
    (event : TaskEvent) (wallclock : Nat)
    (h1 : 1 ≤ g.sched_ravg_hist_size) (h5 : g.sched_ravg_hist_size ≤ 5)
    (hlen : p.ravg.sum_history.length = 5)
    (h64 : rq.window_start < 18446744073709551616)
    (hnr : (rq.window_start - p.ravg.mark_start) / g.sched_ravg_window < 2147483648) :
    ∃ p1 rq1, update_task_demand g fixup p rq event wallclock = some (p1, rq1) := by
  unfold update_task_demand
  simp only []
  split
  · split
    · obtain ⟨p1, rq1, e, _⟩ := update_history_returns g fixup rq p p.ravg.sum 1 (by omega)
        h1 h5 hlen
      exact ⟨p1, rq1, e⟩
    · exact ⟨p, rq, rfl⟩
  · split
    · exact ⟨_, _, rfl⟩
    · rename_i hnw
      have hlt : p.ravg.mark_start < rq.window_start := by simpa using hnw
      have hnr2 : sub64 rq.window_start p.ravg.mark_start / g.sched_ravg_window
          < 2147483648 := by
        rw [sub64_of_le (by omega) h64]
        exact hnr
      rw [toInt32_of_lt hnr2]
      set nr : Int := ((sub64 rq.window_start p.ravg.mark_start / g.sched_ravg_window : Nat) : Int)
        with hnr_def
      set p1 := add_to_task_demand g rq p
        (sub64 (sub64 rq.window_start (wrap64 (intToU64 nr * g.sched_ravg_window)))
          p.ravg.mark_start) with hp1
      obtain ⟨p2, rq2, e2, l2⟩ := update_history_returns g fixup rq p1 p1.ravg.sum 1
        (by omega) h1 h5 hlen
      rw [e2]
      simp only []
      obtain ⟨p3, rq3, e3, _⟩ := update_history_returns g fixup rq2 p2
        (wrap32 (scale_exec_time g g.sched_ravg_window rq2)) nr (Int.natCast_nonneg _)
        h1 h5 l2
      by_cases hz : nr = 0
      · simp only [hz, bne_self_eq_false, Bool.false_eq_true, if_false]
        exact ⟨_, _, rfl⟩
      · have hb : (nr != 0) = true := by simpa using hz
        rw [if_pos hb, e3]
        exact ⟨_, _, rfl⟩

/-- `update_task_ravg` returns when the clock is not before the queue's
`window_start` and fewer than `2^31` windows have passed on it. -/
theorem update_task_ravg_returns (g : Globals) (fixup : FixupHook) (p : Task) (rq : Rq)
    (event : TaskEvent) (wallclock irqtime : Nat)
    (hW : 0 < g.sched_ravg_window)
    (hge : rq.window_start ≤ wallclock) (h63 : wallclock < 9223372036854775808)
    (h31 : wallclock / g.sched_ravg_window < 2147483648)
    (h1 : 1 ≤ g.sched_ravg_hist_size) (h5 : g.sched_ravg_hist_size ≤ 5)
    (hlen : p.ravg.sum_history.length = 5) :
    ∃ p1 rq1, update_task_ravg g fixup p rq event wallclock irqtime = some (p1, rq1) := by
  have hd : (wallclock - rq.window_start) / g.sched_ravg_window < 2147483648 :=
    lt_of_le_of_lt (Nat.div_le_div_right (Nat.sub_le _ _)) h31
  obtain ⟨k, ek, k1, _⟩ := update_window_start_aligned g rq wallclock hW hge h63 hd
  unfold update_task_ravg
  split
  · exact ⟨_, _, rfl⟩
  · rw [ek]
    dsimp only
    split
    · exact ⟨_, _, rfl⟩
    · have hnr : (rq.window_start + k * g.sched_ravg_window - p.ravg.mark_start)
          / g.sched_ravg_window < 2147483648 :=
        lt_of_le_of_lt (Nat.div_le_div_right (by omega)) h31
      obtain ⟨p2, rq2, e2⟩ := update_task_demand_returns g fixup p
        { rq with window_start := rq.window_start + k * g.sched_ravg_window } event wallclock
        h1 h5 hlen (by show rq.window_start + k * g.sched_ravg_window < 18446744073709551616
                       omega) hnr
      rw [e2]
      dsimp only
      obtain ⟨p3, rq3, e3, _⟩ := update_cpu_busy_time_frame g p2 rq2 event wallclock irqtime
      rw [e3]
      exact ⟨_, _, rfl⟩

/-! ## Edge-triggered notification -/

/-- C9: with HMP enabled, a run of `check_for_freq_change` calls with no query
in between emits no notification at a call where the required frequency is
within the band around the reported one, none while it stays there, at most
one notification in total, none while one is pending, and, when none is pending
at the start, exactly one, at the first call outside the band, which sets
`notifier_sent`; the query `sched_get_cpus_busy` returns when the clock is not
before the queue's `window_start` (fewer than `2^31` windows on the clock, a
history of 1..5 entries in use), and clears `notifier_sent`, after which the
next call outside the band emits again.  The band is the test of
`nearly_same_freq`, which on frequencies below `2^31` is "rise below the
increase threshold or fall below the decrease threshold". -/
theorem freq_change_edge_triggered (e : Globals) (rq : Rq) (hmp : e.sched_enable_hmp = true) :
    (within_band e rq rq.prev_runnable_sum = true →
      check_for_freq_change e rq = (rq, false)) ∧
    (∀ vs : List Nat, (∀ v ∈ vs, within_band e rq v = true) →
      (freq_change_run e rq vs).1 = 0) ∧
    (∀ vs : List Nat, (freq_change_run e rq vs).1 ≤ 1) ∧
    (∀ vs : List Nat, rq.notifier_sent ≠ 0 → (freq_change_run e rq vs).1 = 0) ∧
    (∀ (pre post : List Nat) (v : Nat), rq.notifier_sent = 0 →
      (∀ x ∈ pre, within_band e rq x = true) → within_band e rq v = false →
      (freq_change_run e rq pre).1 = 0 ∧
      (freq_change_run e rq (pre ++ [v])).1 = 1 ∧
      (freq_change_run e rq (pre ++ [v])).2.notifier_sent = 1 ∧
      (freq_change_run e rq (pre ++ v :: post)).1 = 1) ∧
    (∀ (fixup : FixupHook) (curr : Task) (wallclock : Nat),
      0 < e.sched_ravg_window → rq.window_start ≤ wallclock →
      wallclock < 9223372036854775808 → wallclock / e.sched_ravg_window < 2147483648 →
      1 ≤ e.sched_ravg_hist_size → e.sched_ravg_hist_size ≤ 5 →
      curr.ravg.sum_history.length = 5 →
      ∃ curr1 rq1, sched_get_cpus_busy_rq e fixup curr rq wallclock = some (curr1, rq1) ∧
        rq1.notifier_sent = 0 ∧ rq1.old_busy_time = rq1.prev_runnable_sum ∧
        ∀ v, within_band e rq1 v = false → (freq_change_run e rq1 [v]).1 = 1) ∧
    (∀ (fixup : FixupHook) (curr curr1 : Task) (rq1 : Rq) (wallclock : Nat),
      sched_get_cpus_busy_rq e fixup curr rq wallclock = some (curr1, rq1) →
      rq1.notifier_sent = 0 ∧ rq1.old_busy_time = rq1.prev_runnable_sum ∧
      ∀ v, within_band e rq1 v = false → (freq_change_run e rq1 [v]).1 = 1) ∧
    (∀ cur req : Nat, cur < 2147483648 → req < 2147483648 →
      (nearly_same_freq e cur req = true ↔
        (cur < req ∧ (req : Int) - cur < e.sysctl_sched_freq_inc_notify) ∨
        (req ≤ cur ∧ (cur : Int) - req < e.sysctl_sched_freq_dec_notify))) := by
  have one : ∀ (r : Rq) (v : Nat), r.notifier_sent = 0 → within_band e r v = false →
      (freq_change_run e r [v]).1 = 1 ∧ (freq_change_run e r [v]).2.notifier_sent = 1 := by
    intro r v hs hv
    have hv' : within_band e { r with prev_runnable_sum := v }
        ({ r with prev_runnable_sum := v } : Rq).prev_runnable_sum = false := by
      rw [within_band_congr e { r with prev_runnable_sum := v } r v rfl rfl]
      exact hv
    have hc := check_for_freq_change_emits e { r with prev_runnable_sum := v } hmp hv' hs
    simp [freq_change_run, hc]
  refine ⟨fun h => check_for_freq_change_quiet e rq (Or.inl h),
    fun vs h => (freq_change_run_in_band e vs rq h).1, fun vs => freq_change_run_le_one e vs rq,
    fun vs h => (freq_change_run_pending e vs rq h).1, ?_, ?_, ?_, nearly_same_freq_band e⟩
  · intro pre post v hs hpre hv
    obtain ⟨p1, p2, p3, p4⟩ := freq_change_run_in_band e pre rq hpre
    have hv' : within_band e (freq_change_run e rq pre).2 v = false := by
      rw [within_band_congr e _ rq v p3 p4]
      exact hv
    obtain ⟨o1, o2⟩ := one (freq_change_run e rq pre).2 v (by rw [p2]; exact hs) hv'
    have hpv : (freq_change_run e rq (pre ++ [v])).1 = 1 := by
      rw [freq_change_run_append]
      simp only []
      rw [p1, o1]
    have hpvs : (freq_change_run e rq (pre ++ [v])).2.notifier_sent = 1 := by
      rw [freq_change_run_append]
      exact o2
    refine ⟨p1, hpv, hpvs, ?_⟩
    have happ : pre ++ v :: post = (pre ++ [v]) ++ post := by simp
    rw [happ, freq_change_run_append]
    simp only []
    rw [hpv, (freq_change_run_pending e post _ (by rw [hpvs]; decide)).1]
  · intro fixup curr wallclock hW hge h63 h31 h1 h5 hlen
    obtain ⟨c, r, heq⟩ := update_task_ravg_returns e fixup curr rq TaskEvent.TASK_UPDATE
      wallclock 0 hW hge h63 h31 h1 h5 hlen
    refine ⟨c, { r with old_busy_time := r.prev_runnable_sum, notifier_sent := 0 }, ?_,
      rfl, rfl, fun v hv => (one _ v rfl hv).1⟩
    unfold sched_get_cpus_busy_rq
    rw [heq]
  · intro fixup curr curr1 rq1 wallclock h
    unfold sched_get_cpus_busy_rq at h
    split at h
    · exact absurd h (by simp)
    · rename_i c r heq
      simp only [Option.some.injEq, Prod.mk.injEq] at h
      obtain ⟨_, hr⟩ := h
      subst hr
      refine ⟨rfl, rfl, ?_⟩
      intro v hv
      exact (one _ v rfl hv).1

/-- C9, witness of `freq_change_edge_triggered`: on `freq_demo_rq` a run that
stays near idle, jumps to a full window and stays there emits one
notification, at the jump; on `c9_pending_rq`, where a notification is
pending, a call outside the band emits nothing, the query at time 150 returns
and clears `notifier_sent`, and the next call outside the band emits. -/
theorem freq_change_edge_triggered_witness :
    freq_demo_globals.sched_enable_hmp = true ∧
    freq_demo_rq.notifier_sent = 0 ∧
    (∀ x ∈ [0, 100000], within_band freq_demo_globals freq_demo_rq x = true) ∧
    within_band freq_demo_globals freq_demo_rq 10000000 = false ∧
    ((freq_change_run freq_demo_globals freq_demo_rq [0, 100000]).1 = 0 ∧
      (freq_change_run freq_demo_globals freq_demo_rq ([0, 100000] ++ [10000000])).1 = 1 ∧
      (freq_change_run freq_demo_globals freq_demo_rq
        ([0, 100000] ++ [10000000])).2.notifier_sent = 1 ∧
      (freq_change_run freq_demo_globals freq_demo_rq
        ([0, 100000] ++ 10000000 :: [10000000, 0, 10000000])).1 = 1) ∧
    c9_pending_rq.notifier_sent = 1 ∧
    (freq_change_run freq_demo_globals c9_pending_rq [0]).1 = 0 ∧
    (sched_get_cpus_busy_rq freq_demo_globals fixup_none c9_curr c9_pending_rq 150).map
        (fun r => (r.2.notifier_sent, r.2.old_busy_time, (freq_change_run freq_demo_globals r.2 [0]).1))
      = some (0, 10000000, 1) ∧
    ∃ curr1 rq1, sched_get_cpus_busy_rq freq_demo_globals fixup_none c9_curr c9_pending_rq 150
        = some (curr1, rq1) ∧
      rq1.notifier_sent = 0 ∧ rq1.old_busy_time = rq1.prev_runnable_sum ∧
      ∀ v, within_band freq_demo_globals rq1 v = false →
        (freq_change_run freq_demo_globals rq1 [v]).1 = 1 :=
  ⟨rfl, rfl, by decide!, by decide!,
    (freq_change_edge_triggered freq_demo_globals freq_demo_rq rfl).2.2.2.2.1
      [0, 100000] [10000000, 0, 10000000] 10000000 rfl (by decide!) (by decide!),
    rfl, by decide!, by decide!,
    (freq_change_edge_triggered freq_demo_globals c9_pending_rq rfl).2.2.2.2.2.1
      fixup_none c9_curr 150 (by decide) (by decide) (by decide) (by decide) (by decide)
      (by decide) (by decide)⟩

/-! ## Early detection over a run of ticks -/

theorem early_detection_scan_find (g : Globals) (tasks : Nat → Task) (wallclock : Nat)
    (l : List Nat) (n : Nat) :
    early_detection_scan g tasks wallclock l n =
      (l.take n).find? (fun q =>
        decide (g.sysctl_early_detection_duration ≤ sub64 wallclock (tasks q).last_wake_ts)) := by
  induction l generalizing n with
  | nil => simp [early_detection_scan]
  | cons pid rest ih =>
    unfold early_detection_scan
    cases n with
    | zero => simp
    | succ m =>
      by_cases hw : g.sysctl_early_detection_duration ≤ sub64 wallclock (tasks pid).last_wake_ts
      · simp [hw, List.find?]
      · simp [hw, List.find?, ih]

theorem same_waiters_refl (w : World) : w.same_waiters w :=
  ⟨fun _ => ⟨rfl, rfl⟩, fun _ => rfl, rfl⟩

theorem same_waiters_trans {a b c : World} (h1 : a.same_waiters b) (h2 : b.same_waiters c) :
    a.same_waiters c :=
  ⟨fun x => ⟨((h2.1 x).1).trans (h1.1 x).1, ((h2.1 x).2).trans (h1.1 x).2⟩,
   fun q => (h2.2.1 q).trans (h1.2.1 q), h2.2.2.trans h1.2.2⟩

theorem same_waiters_of_frames {w w1 : World}
    (a : ∀ q, (w1.tasks q).erase_ravg = (w.tasks q).erase_ravg)
    (b : ∀ c, (w1.rqs c).erase_stats = (w.rqs c).erase_stats)
    (f : w1.freq_alerts = w.freq_alerts) : w.same_waiters w1 :=
  ⟨fun c => ⟨congrArg (fun r => r.cfs_tasks) (b c), congrArg (fun r => r.cfs_h_nr_running) (b c)⟩,
   fun q => congrArg (fun t => t.last_wake_ts) (a q), f⟩

theorem same_waiters_map_rq (w : World) (c : Nat) (f : Rq → Rq)
    (hf : ∀ r, (f r).cfs_tasks = r.cfs_tasks ∧ (f r).cfs_h_nr_running = r.cfs_h_nr_running) :
    w.same_waiters (w.map_rq c f) := by
  refine ⟨fun d => ?_, fun _ => rfl, rfl⟩
  by_cases hd : d = c
  · subst hd
    rw [map_rq_same]
    exact hf _
  · rw [map_rq_other _ _ _ _ hd]
    exact ⟨rfl, rfl⟩

theorem same_waiters_map_task (w : World) (q : Nat) (f : Task → Task)
    (hf : ∀ p, (f p).last_wake_ts = p.last_wake_ts) : w.same_waiters (w.map_task q f) := by
  refine ⟨fun _ => ⟨rfl, rfl⟩, fun r => ?_, rfl⟩
  by_cases hr : r = q
  · subst hr
    rw [map_task_same]
    exact hf _
  · rw [map_task_other _ _ _ _ hr]

theorem set_window_start_same_waiters (g : Globals) (sync_cpu now : Nat) (w : World) (cpu : Nat) :
    w.same_waiters (set_window_start g sync_cpu now w cpu) := by
  unfold set_window_start
  simp only
  split
  · exact same_waiters_refl w
  · refine same_waiters_trans ?_ (same_waiters_map_task _ _ _ (fun _ => rfl))
    split
    · exact same_waiters_map_rq _ _ _ (fun _ => ⟨rfl, rfl⟩)
    · exact same_waiters_map_rq _ _ _ (fun _ => ⟨rfl, rfl⟩)

theorem early_detection_notify_first (g : Globals) (tasks : Nat → Task) (rq : Rq)
    (wallclock : Nat) :
    (early_detection_notify g tasks rq wallclock).1.cfs_tasks = rq.cfs_tasks ∧
    (early_detection_notify g tasks rq wallclock).1.cfs_h_nr_running = rq.cfs_h_nr_running ∧
    (g.sched_boost = true → rq.cfs_h_nr_running ≠ 0 →
      (early_detection_notify g tasks rq wallclock).1.ed_task
        = (rq.cfs_tasks.take 10).find? (fun q =>
            decide (g.sysctl_early_detection_duration ≤ sub64 wallclock (tasks q).last_wake_ts)) ∧
      (early_detection_notify g tasks rq wallclock).2
        = ((rq.cfs_tasks.take 10).find? (fun q =>
            decide (g.sysctl_early_detection_duration
              ≤ sub64 wallclock (tasks q).last_wake_ts))).isSome) := by
  unfold early_detection_notify
  rw [early_detection_scan_find]
  split
  · rename_i e
    refine ⟨rfl, rfl, fun hb hn => ?_⟩
    rw [hb] at e
    simp at e
    exact absurd e hn
  · split
    · rename_i pid e
      rw [e]
      exact ⟨rfl, rfl, fun _ _ => ⟨rfl, rfl⟩⟩
    · rename_i e
      rw [e]
      exact ⟨rfl, rfl, fun _ _ => ⟨rfl, rfl⟩⟩

theorem find_waiter_congr (g : Globals) (tasks tasks1 : Nat → Task) (wallclock : Nat)
    (l : List Nat) (h : ∀ q, (tasks1 q).last_wake_ts = (tasks q).last_wake_ts) :
    l.find? (fun q =>
        decide (g.sysctl_early_detection_duration ≤ sub64 wallclock (tasks1 q).last_wake_ts))
      = l.find? (fun q =>
        decide (g.sysctl_early_detection_duration ≤ sub64 wallclock (tasks q).last_wake_ts)) := by
  have e : (fun q =>
        decide (g.sysctl_early_detection_duration ≤ sub64 wallclock (tasks1 q).last_wake_ts))
      = (fun q =>
        decide (g.sysctl_early_detection_duration ≤ sub64 wallclock (tasks q).last_wake_ts)) := by
    funext q
    rw [h q]
  rw [e]

/-- One tick under hooks that leave the waiters alone: what the tick leaves
alone, what it adds to the record of the chain, and, with the boost on and a
fair task counted, the task it leaves in `ed_task` and whether it calls the
chain. -/
theorem scheduler_tick_notifies (env : TickEnv) (w w1 : World) (cpu now wallclock : Nat)
    (b : Bool)
    (htick : ∀ (w : World) (c p : Nat), w.same_waiters (env.class_task_tick w c p))
    (hmig : ∀ (w : World) (c p : Nat), w.same_waiters (env.check_for_migration w c p) ∧
      ∀ d, ((env.check_for_migration w c p).rqs d).ed_task = (w.rqs d).ed_task)
    (h : scheduler_tick env w cpu now wallclock = some (w1, b)) :
    (∀ c, (w1.rqs c).cfs_tasks = (w.rqs c).cfs_tasks ∧
          (w1.rqs c).cfs_h_nr_running = (w.rqs c).cfs_h_nr_running) ∧
    (∀ q, (w1.tasks q).last_wake_ts = (w.tasks q).last_wake_ts) ∧
    w1.freq_alerts = (if b then cpu :: w.freq_alerts else w.freq_alerts) ∧
    (env.sched_boost = true → (w.rqs cpu).cfs_h_nr_running ≠ 0 →
      (w1.rqs cpu).ed_task
        = ((w.rqs cpu).cfs_tasks.take 10).find? (fun q =>
            decide (env.sysctl_early_detection_duration
              ≤ sub64 wallclock (w.tasks q).last_wake_ts)) ∧
      b = (((w.rqs cpu).cfs_tasks.take 10).find? (fun q =>
            decide (env.sysctl_early_detection_duration
              ≤ sub64 wallclock (w.tasks q).last_wake_ts))).isSome) := by
  unfold scheduler_tick at h
  simp only at h
  split at h
  · exact absurd h (by simp)
  · rename_i w3 e
    obtain ⟨a1, a2, a3⟩ := world_update_task_ravg_frame _ _ _ _ _ _ _ _ _ e
    have f3 : w.same_waiters w3 :=
      same_waiters_trans
        (same_waiters_trans (set_window_start_same_waiters env.toGlobals env.sync_cpu now w cpu)
          (htick _ cpu (w.rqs cpu).curr))
        (same_waiters_of_frames a1 a2 a3)
    obtain ⟨n1, n2, n3⟩ :=
      early_detection_notify_first env.toGlobals w3.tasks (w3.rqs cpu) wallclock
    rw [find_waiter_congr env.toGlobals w.tasks w3.tasks wallclock _ f3.2.1, (f3.1 cpu).1,
      (f3.1 cpu).2] at n3
    generalize early_detection_notify env.toGlobals w3.tasks (w3.rqs cpu) wallclock = r
      at h n1 n2 n3
    simp only [Option.some.injEq, Prod.mk.injEq] at h
    obtain ⟨h1, h2⟩ := h
    have f4 : w.same_waiters
        { w3 with rqs := Function.update w3.rqs cpu r.1,
                  freq_alerts := w3.freq_alerts } := by
      refine same_waiters_trans f3 ⟨fun c => ?_, fun _ => rfl, rfl⟩
      by_cases hc : c = cpu
      · subst hc
        simp only [Function.update_same]
        exact ⟨n1, n2⟩
      · simp [Function.update_noteq hc]
    have g4 : ∀ al : List Nat,
        (({ w3 with rqs := Function.update w3.rqs cpu r.1, freq_alerts := al } : World).rqs
          cpu).ed_task = r.1.ed_task := fun al => by
      simp only [Function.update_same]
    rw [← h2]
    split at h1
    · obtain ⟨m1, m2⟩ := hmig
        ({ w3 with rqs := Function.update w3.rqs cpu r.1,
                   freq_alerts := if r.2 then cpu :: w3.freq_alerts else w3.freq_alerts })
        cpu (w.rqs cpu).curr
      rw [← h1]
      refine ⟨fun c => ⟨((m1.1 c).1).trans (f4.1 c).1, ((m1.1 c).2).trans (f4.1 c).2⟩,
        fun q => (m1.2.1 q).trans (f4.2.1 q), ?_, fun hb hn => ?_⟩
      · rw [m1.2.2]
        simp only
        rw [f3.2.2]
      · rw [m2 cpu, g4]
        exact n3 hb hn
    · rw [← h1]
      refine ⟨f4.1, f4.2.1, ?_, fun hb hn => ?_⟩
      · simp only
        rw [f3.2.2]
      · rw [g4]
        exact n3 hb hn

/-- Any run of ticks under hooks that leave the record of the chain alone:
the record grows by one entry for each call that was counted, at most one for
each tick. -/
theorem scheduler_tick_run_alerts (env : TickEnv) (cpu : Nat) (ticks : List (Nat × Nat))
    (w w1 : World) (k : Nat)
    (htick : ∀ (w : World) (c p : Nat), w.same_waiters (env.class_task_tick w c p))
    (hmig : ∀ (w : World) (c p : Nat), w.same_waiters (env.check_for_migration w c p) ∧
      ∀ d, ((env.check_for_migration w c p).rqs d).ed_task = (w.rqs d).ed_task)
    (h : scheduler_tick_run env cpu w ticks = some (w1, k)) :
    k ≤ ticks.length ∧ w1.freq_alerts = List.replicate k cpu ++ w.freq_alerts := by
  induction ticks generalizing w w1 k with
  | nil =>
    unfold scheduler_tick_run at h
    simp only [Option.some.injEq, Prod.mk.injEq] at h
    rw [← h.1, ← h.2]
    exact ⟨le_refl _, rfl⟩
  | cons t rest ih =>
    unfold scheduler_tick_run at h
    split at h
    · exact absurd h (by simp)
    · rename_i r e
      split at h
      · exact absurd h (by simp)
      · rename_i r2 e2
        simp only [Option.some.injEq, Prod.mk.injEq] at h
        obtain ⟨s1, s2, s3, _⟩ := scheduler_tick_notifies env w r.1 cpu t.1 t.2 r.2 htick hmig e
        obtain ⟨i1, i2⟩ := ih r.1 r2.1 r2.2 e2
        rw [← h.1, ← h.2, i2, s3, List.length_cons]
        cases hb : r.2
        · refine ⟨?_, ?_⟩
          · simp only [Bool.false_eq_true, if_false, Nat.zero_add]
            omega
          · simp only [Bool.false_eq_true, if_false, Nat.zero_add]
        · refine ⟨?_, ?_⟩
          · simp only [if_true]
            omega
          · simp only [if_true]
            rw [Nat.add_comm, List.replicate_succ', List.append_assoc]
            rfl

/-- A run of ticks with the boost on and a fair task counted, in which a task
among the first ten of `cfs_tasks` has waited the early-detection duration at
every tick: each tick calls the chain. -/
theorem scheduler_tick_run_waiting (env : TickEnv) (cpu pid : Nat) (ticks : List (Nat × Nat))
    (w w1 : World) (k : Nat)
    (htick : ∀ (w : World) (c p : Nat), w.same_waiters (env.class_task_tick w c p))
    (hmig : ∀ (w : World) (c p : Nat), w.same_waiters (env.check_for_migration w c p) ∧
      ∀ d, ((env.check_for_migration w c p).rqs d).ed_task = (w.rqs d).ed_task)
    (hboost : env.sched_boost = true)
    (hnr : (w.rqs cpu).cfs_h_nr_running ≠ 0)
    (hq : pid ∈ (w.rqs cpu).cfs_tasks.take 10)
    (hwait : ∀ t ∈ ticks,
      env.sysctl_early_detection_duration ≤ sub64 t.2 (w.tasks pid).last_wake_ts)
    (h : scheduler_tick_run env cpu w ticks = some (w1, k)) :
    k = ticks.length ∧
    (∀ c, (w1.rqs c).cfs_tasks = (w.rqs c).cfs_tasks ∧
          (w1.rqs c).cfs_h_nr_running = (w.rqs c).cfs_h_nr_running) ∧
    (∀ q, (w1.tasks q).last_wake_ts = (w.tasks q).last_wake_ts) ∧
    (∀ t, ticks.getLast? = some t →
      (w1.rqs cpu).ed_task
        = ((w.rqs cpu).cfs_tasks.take 10).find? (fun q =>
            decide (env.sysctl_early_detection_duration
              ≤ sub64 t.2 (w.tasks q).last_wake_ts))) := by
  induction ticks generalizing w w1 k with
  | nil =>
    unfold scheduler_tick_run at h
    simp only [Option.some.injEq, Prod.mk.injEq] at h
    rw [← h.1, ← h.2]
    exact ⟨rfl, fun _ => ⟨rfl, rfl⟩, fun _ => rfl, fun t ht => absurd ht (by simp)⟩
  | cons t rest ih =>
    unfold scheduler_tick_run at h
    split at h
    · exact absurd h (by simp)
    · rename_i r e
      split at h
      · exact absurd h (by simp)
      · rename_i r2 e2
        simp only [Option.some.injEq, Prod.mk.injEq] at h
        obtain ⟨s1, s2, _, s4⟩ := scheduler_tick_notifies env w r.1 cpu t.1 t.2 r.2 htick hmig e
        obtain ⟨s5, s6⟩ := s4 hboost hnr
        have hsome : (((w.rqs cpu).cfs_tasks.take 10).find? (fun q =>
            decide (env.sysctl_early_detection_duration
              ≤ sub64 t.2 (w.tasks q).last_wake_ts))).isSome = true := by
          rw [List.find?_isSome]
          exact ⟨pid, hq, by simpa using hwait t (List.mem_cons_self _ _)⟩
        rw [hsome] at s6
        have hnr1 : (r.1.rqs cpu).cfs_h_nr_running ≠ 0 := by rw [(s1 cpu).2]; exact hnr
        have hq1 : pid ∈ (r.1.rqs cpu).cfs_tasks.take 10 := by rw [(s1 cpu).1]; exact hq
        have hwait1 : ∀ u ∈ rest,
            env.sysctl_early_detection_duration ≤ sub64 u.2 (r.1.tasks pid).last_wake_ts := by
          intro u hu
          rw [s2 pid]
          exact hwait u (List.mem_cons_of_mem _ hu)
        obtain ⟨i1, i2, i3, i4⟩ := ih r.1 r2.1 r2.2 hnr1 hq1 hwait1 e2
        rw [← h.1, ← h.2, s6, i1, List.length_cons]
        refine ⟨by simp only [if_true]; omega,
          fun c => ⟨((i2 c).1).trans (s1 c).1, ((i2 c).2).trans (s1 c).2⟩,
          fun q => (i3 q).trans (s2 q), fun u hu => ?_⟩
        cases rest with
        | nil =>
          unfold scheduler_tick_run at e2
          simp only [Option.some.injEq] at e2
          rw [← e2]
          simp only [List.getLast?_singleton, Option.some.injEq] at hu
          rw [← hu]
          exact s5
        | cons t2 rest2 =>
          rw [List.getLast?_cons_cons] at hu
          rw [i4 u hu, (s1 cpu).1, find_waiter_congr env.toGlobals w.tasks r.1.tasks u.2 _ s2]

/-! ## Returning from the wakeup block -/

theorem update_history_window_start (g : Globals) (fixup : FixupHook) (rq : Rq) (p : Task)
    (runtime : Nat) (samples : Int) (p1 : Task) (rq1 : Rq)
    (h : update_history g fixup rq p runtime samples = some (p1, rq1)) :
    rq1.window_start = rq.window_start := by
  unfold update_history at h
  split at h
  · simp only [Option.some.injEq, Prod.mk.injEq] at h
    rw [← h.2]
  · split at h
    · exact absurd h (by simp)
    · simp only [Option.some.injEq] at h
      have h2 := congrArg Prod.snd h
      simp only [] at h2
      rw [← h2]
      unfold update_history_commit
      simp only []
      split <;> rfl

/-- `update_task_demand` returns, with the five entries of the array and the
queue's `window_start` as it was. -/
theorem update_task_demand_returns_post (g : Globals) (fixup : FixupHook) (p : Task) (rq : Rq)
    (event : TaskEvent) (wallclock : Nat)
    (h1 : 1 ≤ g.sched_ravg_hist_size) (h5 : g.sched_ravg_hist_size ≤ 5)
    (hlen : p.ravg.sum_history.length = 5)
    (h64 : rq.window_start < 18446744073709551616)
    (hnr : (rq.window_start - p.ravg.mark_start) / g.sched_ravg_window < 2147483648) :
    ∃ p1 rq1, update_task_demand g fixup p rq event wallclock = some (p1, rq1) ∧
      p1.ravg.sum_history.length = 5 ∧ rq1.window_start = rq.window_start := by
  unfold update_task_demand
  simp only []
  split
  · split
    · obtain ⟨p1, rq1, e, l⟩ := update_history_returns g fixup rq p p.ravg.sum 1 (by omega)
        h1 h5 hlen
      exact ⟨p1, rq1, e, l, update_history_window_start g fixup rq p _ _ p1 rq1 e⟩
    · exact ⟨p, rq, rfl, hlen, rfl⟩
  · split
    · exact ⟨_, _, rfl, hlen, rfl⟩
    · rename_i hnw
      have hlt : p.ravg.mark_start < rq.window_start := by simpa using hnw
      have hnr2 : sub64 rq.window_start p.ravg.mark_start / g.sched_ravg_window
          < 2147483648 := by
        rw [sub64_of_le (by omega) h64]
        exact hnr
      rw [toInt32_of_lt hnr2]
      set nr : Int := ((sub64 rq.window_start p.ravg.mark_start / g.sched_ravg_window : Nat) : Int)
        with hnr_def
      set p1 := add_to_task_demand g rq p
        (sub64 (sub64 rq.window_start (wrap64 (intToU64 nr * g.sched_ravg_window)))
          p.ravg.mark_start) with hp1
      obtain ⟨p2, rq2, e2, l2⟩ := update_history_returns g fixup rq p1 p1.ravg.sum 1
        (by omega) h1 h5 hlen
      have ws2 := update_history_window_start g fixup rq p1 _ _ p2 rq2 e2
      rw [e2]
      simp only []
      obtain ⟨p3, rq3, e3, l3⟩ := update_history_returns g fixup rq2 p2
        (wrap32 (scale_exec_time g g.sched_ravg_window rq2)) nr (Int.natCast_nonneg _)
        h1 h5 l2
      have ws3 := update_history_window_start g fixup rq2 p2 _ _ p3 rq3 e3
      by_cases hz : nr = 0
      · simp only [hz, bne_self_eq_false, Bool.false_eq_true, if_false]
        exact ⟨_, _, rfl, l2, ws2⟩
      · have hb : (nr != 0) = true := by simpa using hz
        rw [if_pos hb, e3]
        exact ⟨_, _, rfl, l3, ws3.trans ws2⟩

/-- `update_task_ravg` returns when the clock is not before the queue's
`window_start` and fewer than `2^31` windows have passed on it; the queue's
`window_start` is then still not after the clock, and the array has its five
entries. -/
theorem update_task_ravg_returns_post (g : Globals) (fixup : FixupHook) (p : Task) (rq : Rq)
    (event : TaskEvent) (wallclock irqtime : Nat)
    (hW : 0 < g.sched_ravg_window)
    (hge : rq.window_start ≤ wallclock) (h63 : wallclock < 9223372036854775808)
    (h31 : wallclock / g.sched_ravg_window < 2147483648)
    (h1 : 1 ≤ g.sched_ravg_hist_size) (h5 : g.sched_ravg_hist_size ≤ 5)
    (hlen : p.ravg.sum_history.length = 5) :
    ∃ p1 rq1, update_task_ravg g fixup p rq event wallclock irqtime = some (p1, rq1) ∧
      rq1.window_start ≤ wallclock ∧ p1.ravg.sum_history.length = 5 ∧
      rq.window_start ≤ rq1.window_start := by
  have hd : (wallclock - rq.window_start) / g.sched_ravg_window < 2147483648 :=
    lt_of_le_of_lt (Nat.div_le_div_right (Nat.sub_le _ _)) h31
  obtain ⟨k, ek, k1, _⟩ := update_window_start_aligned g rq wallclock hW hge h63 hd
  unfold update_task_ravg
  split
  · exact ⟨_, _, rfl, hge, hlen, le_refl _⟩
  · rw [ek]
    dsimp only
    split
    · exact ⟨_, _, rfl, k1, hlen, Nat.le_add_right _ _⟩
    · have hnr : (rq.window_start + k * g.sched_ravg_window - p.ravg.mark_start)
          / g.sched_ravg_window < 2147483648 :=
        lt_of_le_of_lt (Nat.div_le_div_right (by omega)) h31
      obtain ⟨p2, rq2, e2, l2, ws2⟩ := update_task_demand_returns_post g fixup p
        { rq with window_start := rq.window_start + k * g.sched_ravg_window } event wallclock
        h1 h5 hlen (by show rq.window_start + k * g.sched_ravg_window < 18446744073709551616
                       omega) hnr
      rw [e2]
      dsimp only
      obtain ⟨p3, rq3, e3, f3, g3⟩ := update_cpu_busy_time_frame g p2 rq2 event wallclock irqtime
      rw [e3]
      have hws : rq3.window_start = rq.window_start + k * g.sched_ravg_window := by
        have := congrArg (fun r => r.window_start) g3
        simp only [Rq.erase_sums] at this
        rw [this, ws2]
      refine ⟨_, _, rfl, ?_, ?_, ?_⟩
      · rw [hws]
        exact k1
      · have := congrArg (fun t => t.ravg.sum_history.length) f3
        simp only [Task.erase_windows] at this
        show p3.ravg.sum_history.length = 5
        rw [this]
        exact l2
      · rw [hws]
        exact Nat.le_add_right _ _

/-- `update_task_ravg` on a world returns under the conditions of
`update_task_ravg_returns_post`, and keeps them for every task and the
queue. -/
theorem world_update_task_ravg_returns (g : Globals) (fixup : FixupHook) (w : World)
    (pid cpu : Nat) (event : TaskEvent) (wallclock irqtime : Nat)
    (hW : 0 < g.sched_ravg_window)
    (hge : (w.rqs cpu).window_start ≤ wallclock) (h63 : wallclock < 9223372036854775808)
    (h31 : wallclock / g.sched_ravg_window < 2147483648)
    (h1 : 1 ≤ g.sched_ravg_hist_size) (h5 : g.sched_ravg_hist_size ≤ 5)
    (hlen : ∀ q, (w.tasks q).ravg.sum_history.length = 5) :
    ∃ w1, world_update_task_ravg g fixup w pid cpu event wallclock irqtime = some w1 ∧
      (w1.rqs cpu).window_start ≤ wallclock ∧
      (∀ q, (w1.tasks q).ravg.sum_history.length = 5) ∧
      (w.rqs cpu).window_start ≤ (w1.rqs cpu).window_start := by
  obtain ⟨p1, rq1, e, a, b, c⟩ := update_task_ravg_returns_post g fixup (w.tasks pid)
    (w.rqs cpu) event wallclock irqtime hW hge h63 h31 h1 h5 (hlen pid)
  unfold world_update_task_ravg
  rw [e]
  refine ⟨_, rfl, ?_, fun q => ?_, ?_⟩
  · simp only [Function.update_same]
    exact a
  · by_cases hq : q = pid
    · subst hq
      simp only [Function.update_same]
      exact b
    · simp only [Function.update_noteq hq]
      exact hlen q
  · simp only [Function.update_same]
    exact c

/-- The `CONFIG_SMP` block of `try_to_wake_up` returns, meeting no `BUG()`,
when the class hook `select_task_rq` leaves the task on its processor, which
is allowed and online: the two window updates return (clock not before the
queue's `window_start`, fewer than `2^31` windows on the clock) and
`set_task_cpu` is not called. -/
theorem try_to_wake_up_smp_returns (env : Env) (w : World)
    (pid wake_flags wallclock migrate_clock : Nat)
    (hW : 0 < env.sched_ravg_window)
    (hge : (w.rqs (w.tasks pid).cpu).window_start ≤ wallclock)
    (h63 : wallclock < 9223372036854775808)
    (h31 : wallclock / env.sched_ravg_window < 2147483648)
    (h1 : 1 ≤ env.sched_ravg_hist_size) (h5 : env.sched_ravg_hist_size ≤ 5)
    (hlen : ∀ q, (w.tasks q).ravg.sum_history.length = 5)
    (hsel : ∀ (w1 : World) (f1 f2 : Nat),
      env.class_select_task_rq w1 pid (w.tasks pid).wake_cpu f1 f2 = (w.tasks pid).cpu)
    (hallowed : cpumask_test_cpu (w.tasks pid).cpu (w.tasks pid).cpus_allowed = true)
    (honline : cpu_online env.toCpuEnv (w.tasks pid).cpu = true) :
    ∃ w5 heavy, try_to_wake_up_smp env w pid wake_flags wallclock migrate_clock
      = some (w5, (w.tasks pid).cpu, (w.tasks pid).cpu, heavy) := by
  have hw0 : ∀ w0 : World,
      w0 = (if ((w.tasks pid).on_cpu != 0) = true
              then w.map_task pid (fun p => { p with on_cpu := 0 }) else w) →
      (w0.tasks pid).cpu = (w.tasks pid).cpu ∧
      ((w0.tasks pid).cpus_allowed = (w.tasks pid).cpus_allowed ∧
        (w0.tasks pid).wake_cpu = (w.tasks pid).wake_cpu) ∧
      w0.rqs = w.rqs ∧ ∀ q, (w0.tasks q).ravg.sum_history.length = 5 := by
    intro w0 e
    rw [e]
    split
    · refine ⟨by rw [map_task_same], by rw [map_task_same]; exact ⟨rfl, rfl⟩, rfl, fun q => ?_⟩
      by_cases hq : q = pid
      · subst hq
        rw [map_task_same]
        exact hlen q
      · rw [map_task_other _ _ _ _ hq]
        exact hlen q
    · exact ⟨rfl, ⟨rfl, rfl⟩, rfl, hlen⟩
  unfold try_to_wake_up_smp
  dsimp only
  generalize hw0e : (if ((w.tasks pid).on_cpu != 0) = true
      then w.map_task pid (fun p => { p with on_cpu := 0 }) else w) = w0
  obtain ⟨c0, ⟨a0, k0⟩, r0, l0⟩ := hw0 w0 hw0e.symm
  rw [c0]
  obtain ⟨w1, e1, g1, l1, _⟩ := world_update_task_ravg_returns env.toGlobals env.fixup w0
    (w0.rqs (w.tasks pid).cpu).curr (w.tasks pid).cpu TaskEvent.TASK_UPDATE wallclock 0
    hW (by rw [r0]; exact hge) h63 h31 h1 h5 l0
  obtain ⟨t1, _, _⟩ := world_update_task_ravg_frame _ _ _ _ _ _ _ _ _ e1
  rw [e1]
  dsimp only
  obtain ⟨w2, e2, _, _, _⟩ := world_update_task_ravg_returns env.toGlobals env.fixup w1
    pid (w.tasks pid).cpu TaskEvent.TASK_WAKE wallclock 0 hW g1 h63 h31 h1 h5 l1
  obtain ⟨t2, _, _⟩ := world_update_task_ravg_frame _ _ _ _ _ _ _ _ _ e2
  rw [e2]
  dsimp only
  have hcpu2 : (w2.tasks pid).cpu = (w.tasks pid).cpu := by
    have a := congrArg (fun t => t.cpu) (t2 pid)
    have b := congrArg (fun t => t.cpu) (t1 pid)
    simp only [Task.erase_ravg] at a b
    rw [a, b, c0]
  have hall2 : (w2.tasks pid).cpus_allowed = (w.tasks pid).cpus_allowed := by
    have a := congrArg (fun t => t.cpus_allowed) (t2 pid)
    have b := congrArg (fun t => t.cpus_allowed) (t1 pid)
    simp only [Task.erase_ravg] at a b
    rw [a, b, a0]
  have hwk2 : (w2.tasks pid).wake_cpu = (w.tasks pid).wake_cpu := by
    have a := congrArg (fun t => t.wake_cpu) (t2 pid)
    have b := congrArg (fun t => t.wake_cpu) (t1 pid)
    simp only [Task.erase_ravg] at a b
    rw [a, b, k0]
  have hsr : select_task_rq env
      (w2.map_task pid (fun p =>
        { p with sched_contributes_to_load := env.task_contributes_to_load p,
                 state := TASK_WAKING }))
      pid
      ((w2.map_task pid (fun p =>
        { p with sched_contributes_to_load := env.task_contributes_to_load p,
                 state := TASK_WAKING })).tasks pid).wake_cpu SD_BALANCE_WAKE wake_flags
      = some (w2.map_task pid (fun p =>
        { p with sched_contributes_to_load := env.task_contributes_to_load p,
                 state := TASK_WAKING }), (w.tasks pid).cpu) := by
    unfold select_task_rq
    dsimp only
    rw [map_task_same]
    dsimp only
    rw [hwk2, hsel, hall2, hallowed, honline]
    rfl
  rw [hsr]
  dsimp only
  rw [map_task_same]
  dsimp only
  rw [hcpu2]
  simp only [bne_self_eq_false, Bool.false_eq_true, if_false]
  exact ⟨_, _, rfl⟩

/-- C3: with `same_freq_domain` reflexive, `try_to_wake_up(p, state, flags)`
on a task whose state has no bit of `state` returns 0 and leaves the whole
world (every task, every run-queue, the notifications) as it was; whenever the
call returns, it returns 1 exactly when `p->state & state` was non-zero at
entry; and with a non-zero `p->state & state` it does return 1: for a queued
task, for a task that is being moved between queues (once the processor moving
it has queued it again), and for a task off the queues, also one that its
processor is still switching out, unless a `BUG()` stops the `CONFIG_SMP`
block.  The block meets no `BUG()`, and the call returns 1 outright, when the
class hook `select_task_rq` leaves the task on its processor, which is allowed
and online, the clock is not before the `window_start` of that processor's
queue, and fewer than `2^31` windows have passed on the clock. -/
theorem try_to_wake_up_success_iff (env : Env) (w : World)
    (pid state wake_flags this_cpu wallclock migrate_clock : Nat)
    (hrefl : ∀ c, env.same_freq_domain c c = true) :
    ((w.tasks pid).state &&& state = 0 →
      try_to_wake_up env w pid state wake_flags this_cpu wallclock migrate_clock
        = some (w, 0)) ∧
    (∀ w1 r, try_to_wake_up env w pid state wake_flags this_cpu wallclock migrate_clock
        = some (w1, r) → (r = 1 ↔ (w.tasks pid).state &&& state ≠ 0)) ∧
    ((w.tasks pid).state &&& state ≠ 0 → (w.tasks pid).on_rq = TASK_ON_RQ_QUEUED →
      try_to_wake_up env w pid state wake_flags this_cpu wallclock migrate_clock
        = some (ttwu_do_wakeup w pid, 1)) ∧
    ((w.tasks pid).state &&& state ≠ 0 → (w.tasks pid).on_rq = TASK_ON_RQ_MIGRATING →
      task_on_rq_queued ((env.migration_done w pid).tasks pid) = true →
      try_to_wake_up env w pid state wake_flags this_cpu wallclock migrate_clock
        = some (ttwu_do_wakeup (env.migration_done w pid) pid, 1)) ∧
    ((w.tasks pid).state &&& state ≠ 0 → (w.tasks pid).on_rq = 0 →
      ∀ w5 src_cpu dest_cpu heavy,
        try_to_wake_up_smp env w pid wake_flags wallclock migrate_clock
          = some (w5, src_cpu, dest_cpu, heavy) →
        try_to_wake_up env w pid state wake_flags this_cpu wallclock migrate_clock
          = some (try_to_wake_up_out env (ttwu_queue env w5 pid dest_cpu this_cpu)
              src_cpu dest_cpu heavy, 1)) ∧
    ((w.tasks pid).state &&& state ≠ 0 → (w.tasks pid).on_rq = 0 →
      0 < env.sched_ravg_window →
      (w.rqs (w.tasks pid).cpu).window_start ≤ wallclock →
      wallclock < 9223372036854775808 →
      wallclock / env.sched_ravg_window < 2147483648 →
      1 ≤ env.sched_ravg_hist_size → env.sched_ravg_hist_size ≤ 5 →
      (∀ q, (w.tasks q).ravg.sum_history.length = 5) →
      (∀ (w1 : World) (f1 f2 : Nat),
        env.class_select_task_rq w1 pid (w.tasks pid).wake_cpu f1 f2 = (w.tasks pid).cpu) →
      cpumask_test_cpu (w.tasks pid).cpu (w.tasks pid).cpus_allowed = true →
      cpu_online env.toCpuEnv (w.tasks pid).cpu = true →
      ∃ w1, try_to_wake_up env w pid state wake_flags this_cpu wallclock migrate_clock
        = some (w1, 1)) :=
  ⟨fun h => try_to_wake_up_no_match env w pid state wake_flags this_cpu wallclock
      migrate_clock hrefl h,
   fun w1 r h => try_to_wake_up_result env w w1 pid state wake_flags this_cpu wallclock
      migrate_clock r h,
   fun hm hq => try_to_wake_up_queued env w pid state wake_flags this_cpu wallclock
      migrate_clock hrefl hm hq,
   fun hm hq hdone => try_to_wake_up_migrating env w pid state wake_flags this_cpu wallclock
      migrate_clock hrefl hm hq hdone,
   fun hm hoff w5 src_cpu dest_cpu heavy hsmp =>
     try_to_wake_up_off_rq env w w5 pid state wake_flags this_cpu wallclock migrate_clock
       src_cpu dest_cpu heavy hm hoff hsmp,
   fun hm hoff hW hge h63 h31 h1 h5 hlen hsel hallowed honline =>
     (try_to_wake_up_smp_returns env w pid wake_flags wallclock migrate_clock hW hge h63 h31
       h1 h5 hlen hsel hallowed honline).elim fun w5 hw5 => hw5.elim fun heavy hsmp =>
         ⟨_, try_to_wake_up_off_rq env w w5 pid state wake_flags this_cpu wallclock
           migrate_clock _ _ heavy hm hoff hsmp⟩⟩

theorem try_to_wake_up_success_iff_witness :
    (∀ c, wake_env.same_freq_domain c c = true) ∧
    (wake_world.tasks 1).state &&& 1 = 0 ∧
    try_to_wake_up wake_env wake_world 1 1 0 0 130 130 = some (wake_world, 0) ∧
    (wake_world.tasks 1).state &&& 3 ≠ 0 ∧
    try_to_wake_up wake_env wake_world 1 3 0 0 130 130
      = some (try_to_wake_up_out wake_env (ttwu_queue wake_env wake_smp.1 1 0 0) 0 0 false, 1) ∧
    ((wake_switching_world.tasks 1).on_cpu = 1 ∧
      try_to_wake_up wake_env wake_switching_world 1 3 0 0 130 130
        = some (try_to_wake_up_out wake_env
            (ttwu_queue wake_env wake_switching_smp.1 1 0 0) 0 0 false, 1) ∧
      (wake_switching_smp.1.tasks 1).on_cpu = 0 ∧
      ∃ w1, try_to_wake_up wake_env wake_switching_world 1 3 0 1 130 130 = some (w1, 1)) ∧
    ((wake_migrating_world.tasks 1).on_rq = TASK_ON_RQ_MIGRATING ∧
      try_to_wake_up wake_env wake_migrating_world 1 3 0 0 130 130
        = some (ttwu_do_wakeup (wake_env.migration_done wake_migrating_world 1) 1, 1) ∧
      ((ttwu_do_wakeup (wake_env.migration_done wake_migrating_world 1) 1).tasks 1).state
        = TASK_RUNNING) :=
  have hrefl : ∀ c, wake_env.same_freq_domain c c = true := fun c => beq_self_eq_true c
  have hsmp : try_to_wake_up_smp wake_env wake_world 1 0 130 130
      = some (wake_smp.1, 0, 0, false) :=
    (option_eq_some_getD _ (wake_world, 0, 0, false) (by decide!)).trans
      (congrArg some (Prod.ext rfl (by decide!)))
  have hsmp2 : try_to_wake_up_smp wake_env wake_switching_world 1 0 130 130
      = some (wake_switching_smp.1, 0, 0, false) :=
    (option_eq_some_getD _ (wake_switching_world, 0, 0, false) (by decide!)).trans
      (congrArg some (Prod.ext rfl (by decide!)))
  have hlen : ∀ q, (wake_switching_world.tasks q).ravg.sum_history.length = 5 := by
    intro q
    unfold wake_switching_world wake_world
    dsimp only
    split_ifs <;> rfl
  ⟨hrefl, by decide,
   (try_to_wake_up_success_iff wake_env wake_world 1 1 0 0 130 130 hrefl).1 (by decide),
   by decide,
   (try_to_wake_up_success_iff wake_env wake_world 1 3 0 0 130 130 hrefl).2.2.2.2.1 (by decide)
     (by decide) wake_smp.1 0 0 false hsmp,
   ⟨by decide,
    (try_to_wake_up_success_iff wake_env wake_switching_world 1 3 0 0 130 130 hrefl).2.2.2.2.1
      (by decide) (by decide) wake_switching_smp.1 0 0 false hsmp2,
    by decide!,
    (try_to_wake_up_success_iff wake_env wake_switching_world 1 3 0 1 130 130 hrefl).2.2.2.2.2
      (by decide) (by decide) (by decide) (by decide) (by decide) (by decide) (by decide)
      (by decide) hlen (fun _ _ _ => rfl) (by decide) (by decide)⟩,
   ⟨by decide,
    (try_to_wake_up_success_iff wake_env wake_migrating_world 1 3 0 0 130 130 hrefl).2.2.2.1
      (by decide) (by decide) (by decide),
    by decide⟩⟩

/-- C2: for a task off every run-queue, also one that its processor is still
switching out, whose state matches a mask without the `TASK_WAKING` bit (with
`same_freq_domain` reflexive, a class hook `enqueue_task` that counts one more
task in `nr_running`, and a `cpuset_cpus_allowed_fallback` that leaves `state`
and `on_rq` alone): unless a `BUG()` stops the `CONFIG_SMP` block of the first
`try_to_wake_up`, the first call returns 1 and any second call with that mask
returns 0 and leaves the world as it is.  On the local path the first call
leaves the task `TASK_RUNNING` with `on_rq = TASK_ON_RQ_QUEUED`, the
destination queue with one task more and every other queue with as many as
before.  On the remote path it leaves the task `TASK_WAKING` off the queues,
no queue with more tasks, and the task at the head of the destination's wake
list; `sched_ttwu_pending` on the destination then queues it, the destination
gaining one task for it and one for each entry that was pending before, and a
later call with the mask still returns 0 and changes nothing.  And the block
meets no `BUG()`, so that all of this holds outright, when the class hook
`select_task_rq` leaves the task on its processor, which is allowed and
online, the clock is not before the `window_start` of that processor's queue,
and fewer than `2^31` windows have passed on the clock. -/
theorem try_to_wake_up_at_most_once (env : Env) (w : World)
    (pid mask wake_flags this_cpu wallclock migrate_clock : Nat)
    (hrefl : ∀ c, env.same_freq_domain c c = true)
    (henq : ∀ rq p f, (env.class_enqueue_task rq p f).nr_running = rq.nr_running + 1)
    (hcs : ∀ t, (env.cpuset_cpus_allowed_fallback t).state = t.state ∧
      (env.cpuset_cpus_allowed_fallback t).on_rq = t.on_rq)
    (hmatch : (w.tasks pid).state &&& mask ≠ 0)
    (hmask : TASK_WAKING &&& mask = 0)
    (hoff : (w.tasks pid).on_rq = 0) :
    (∀ (w5 : World) (src_cpu dest_cpu : Nat) (heavy : Bool),
      try_to_wake_up_smp env w pid wake_flags wallclock migrate_clock
        = some (w5, src_cpu, dest_cpu, heavy) →
      ∃ w1 : World,
        try_to_wake_up env w pid mask wake_flags this_cpu wallclock migrate_clock
          = some (w1, 1) ∧
        (∀ f2 c2 t2 m2, try_to_wake_up env w1 pid mask f2 c2 t2 m2 = some (w1, 0)) ∧
        ((env.sched_feat_TTWU_QUEUE && !cpus_share_cache env this_cpu dest_cpu) = false →
          (w1.tasks pid).on_rq = TASK_ON_RQ_QUEUED ∧ (w1.tasks pid).state = TASK_RUNNING ∧
          (w1.rqs dest_cpu).nr_running = (w.rqs dest_cpu).nr_running + 1 ∧
          (∀ c, c ≠ dest_cpu → (w1.rqs c).nr_running = (w.rqs c).nr_running)) ∧
        ((env.sched_feat_TTWU_QUEUE && !cpus_share_cache env this_cpu dest_cpu) = true →
          (w1.tasks pid).on_rq = 0 ∧ (w1.tasks pid).state = TASK_WAKING ∧
          (∀ c, (w1.rqs c).nr_running = (w.rqs c).nr_running) ∧
          (w1.rqs dest_cpu).wake_list = pid :: (w.rqs dest_cpu).wake_list ∧
          (∀ c, c ≠ dest_cpu → (w1.rqs c).wake_list = (w.rqs c).wake_list) ∧
          ((sched_ttwu_pending env w1 dest_cpu).tasks pid).on_rq = TASK_ON_RQ_QUEUED ∧
          ((sched_ttwu_pending env w1 dest_cpu).tasks pid).state = TASK_RUNNING ∧
          ((sched_ttwu_pending env w1 dest_cpu).rqs dest_cpu).nr_running
            = (w.rqs dest_cpu).nr_running + 1 + (w.rqs dest_cpu).wake_list.length ∧
          (∀ c, c ≠ dest_cpu →
            ((sched_ttwu_pending env w1 dest_cpu).rqs c).nr_running = (w.rqs c).nr_running) ∧
          (∀ f2 c2 t2 m2, try_to_wake_up env (sched_ttwu_pending env w1 dest_cpu) pid mask
            f2 c2 t2 m2 = some (sched_ttwu_pending env w1 dest_cpu, 0)))) ∧
    (0 < env.sched_ravg_window →
      (w.rqs (w.tasks pid).cpu).window_start ≤ wallclock →
      wallclock < 9223372036854775808 →
      wallclock / env.sched_ravg_window < 2147483648 →
      1 ≤ env.sched_ravg_hist_size → env.sched_ravg_hist_size ≤ 5 →
      (∀ q, (w.tasks q).ravg.sum_history.length = 5) →
      (∀ (w1 : World) (f1 f2 : Nat),
        env.class_select_task_rq w1 pid (w.tasks pid).wake_cpu f1 f2 = (w.tasks pid).cpu) →
      cpumask_test_cpu (w.tasks pid).cpu (w.tasks pid).cpus_allowed = true →
      cpu_online env.toCpuEnv (w.tasks pid).cpu = true →
      ∃ w5 heavy, try_to_wake_up_smp env w pid wake_flags wallclock migrate_clock
        = some (w5, (w.tasks pid).cpu, (w.tasks pid).cpu, heavy)) := by
  refine ⟨fun w5 src_cpu dest_cpu heavy hsmp => ?_,
    fun hW hge h63 h31 h1 h5 hlen hsel hallowed honline =>
      try_to_wake_up_smp_returns env w pid wake_flags wallclock migrate_clock hW hge h63 h31
        h1 h5 hlen hsel hallowed honline⟩
  · obtain ⟨s5, o5, r5⟩ := try_to_wake_up_smp_keeps env w w5 pid wake_flags wallclock
      migrate_clock src_cpu dest_cpu heavy hcs hsmp
    have hrun : TASK_RUNNING &&& mask = 0 := by
      unfold TASK_RUNNING
      exact Nat.zero_and mask
    obtain ⟨ko, tk⟩ := try_to_wake_up_out_keeps env (ttwu_queue env w5 pid dest_cpu this_cpu)
      src_cpu dest_cpu heavy
    refine ⟨_, try_to_wake_up_off_rq env w w5 pid mask wake_flags this_cpu wallclock
      migrate_clock src_cpu dest_cpu heavy hmatch hoff hsmp, ?_, ?_, ?_⟩
    · intro f2 c2 t2 m2
      apply try_to_wake_up_no_match env _ pid mask f2 c2 t2 m2 hrefl
      rw [tk]
      unfold ttwu_queue
      split
      · unfold ttwu_queue_remote
        rw [map_rq_tasks, s5]
        exact hmask
      · rw [(ttwu_do_activate_task env w5 dest_cpu pid).2.1]
        exact hrun
    · intro hl
      have hq : ttwu_queue env w5 pid dest_cpu this_cpu = ttwu_do_activate env w5 dest_cpu pid := by
        unfold ttwu_queue
        rw [hl]
        rfl
      rw [hq] at ko tk ⊢
      obtain ⟨t1, t2, _⟩ := ttwu_do_activate_task env w5 dest_cpu pid
      obtain ⟨q1, q2⟩ := ttwu_do_activate_rq env w5 dest_cpu pid henq
      refine ⟨?_, ?_, ?_, fun c hc => ?_⟩
      · rw [tk]; exact t1
      · rw [tk]; exact t2
      · rw [(ko.2 dest_cpu).1, q1, (r5 dest_cpu).1]
      · rw [(ko.2 c).1, q2 c hc, (r5 c).1]
    · intro hr
      have hq : ttwu_queue env w5 pid dest_cpu this_cpu = ttwu_queue_remote w5 pid dest_cpu := by
        unfold ttwu_queue
        rw [hr]
        rfl
      rw [hq] at ko tk ⊢
      have hwl : ((try_to_wake_up_out env (ttwu_queue_remote w5 pid dest_cpu) src_cpu dest_cpu
          heavy).rqs dest_cpu).wake_list = pid :: (w.rqs dest_cpu).wake_list := by
        rw [(ko.2 dest_cpu).2]
        unfold ttwu_queue_remote
        rw [map_rq_same, (r5 dest_cpu).2]
      have hnr : ∀ c, ((try_to_wake_up_out env (ttwu_queue_remote w5 pid dest_cpu) src_cpu
          dest_cpu heavy).rqs c).nr_running = (w.rqs c).nr_running := by
        intro c
        rw [(ko.2 c).1]
        unfold ttwu_queue_remote
        by_cases hc : c = dest_cpu
        · subst hc
          rw [map_rq_same]
          exact (r5 c).1
        · rw [map_rq_other _ _ _ _ hc]
          exact (r5 c).1
      have hp := sched_ttwu_pending_cons env _ dest_cpu pid _ hwl
      obtain ⟨l1, _⟩ := sched_ttwu_pending_loop_task env dest_cpu (pid :: (w.rqs dest_cpu).wake_list)
        ((try_to_wake_up_out env (ttwu_queue_remote w5 pid dest_cpu) src_cpu dest_cpu
          heavy).map_rq dest_cpu (fun rq => { rq with wake_list := [] }))
      obtain ⟨n1, n2⟩ := sched_ttwu_pending_loop_rq env dest_cpu henq
        (pid :: (w.rqs dest_cpu).wake_list)
        ((try_to_wake_up_out env (ttwu_queue_remote w5 pid dest_cpu) src_cpu dest_cpu
          heavy).map_rq dest_cpu (fun rq => { rq with wake_list := [] }))
      obtain ⟨p1, p2⟩ := l1 pid (List.mem_cons_self _ _)
      refine ⟨?_, ?_, hnr, hwl, fun c hc => ?_, ?_, ?_, ?_, fun c hc => ?_, ?_⟩
      · rw [tk]
        unfold ttwu_queue_remote
        rw [map_rq_tasks, o5]
        exact hoff
      · rw [tk]
        unfold ttwu_queue_remote
        rw [map_rq_tasks]
        exact s5
      · rw [(ko.2 c).2]
        unfold ttwu_queue_remote
        rw [map_rq_other _ _ _ _ hc]
        exact (r5 c).2
      · rw [hp]; exact p1
      · rw [hp]; exact p2
      · rw [hp, n1, map_rq_same, List.length_cons]
        show ((try_to_wake_up_out env (ttwu_queue_remote w5 pid dest_cpu) src_cpu dest_cpu
          heavy).rqs dest_cpu).nr_running + _ = _
        rw [hnr dest_cpu]
        omega
      · rw [hp, n2 c hc, map_rq_other _ _ _ _ hc]
        exact hnr c
      · intro f2 c2 t2 m2
        apply try_to_wake_up_no_match env _ pid mask f2 c2 t2 m2 hrefl
        rw [hp, p2]
        exact hrun

theorem try_to_wake_up_at_most_once_witness :
    (wake_switching_world.tasks 1).on_cpu = 1 ∧
    (∃ w1 : World,
      try_to_wake_up wake_env wake_switching_world 1 3 0 0 130 130 = some (w1, 1) ∧
      try_to_wake_up wake_env w1 1 3 0 0 131 131 = some (w1, 0) ∧
      (w1.tasks 1).on_rq = TASK_ON_RQ_QUEUED ∧ (w1.tasks 1).state = TASK_RUNNING ∧
      (w1.rqs 0).nr_running = 2 ∧ (w1.rqs 1).nr_running = 1) ∧
    (∃ w1 : World,
      try_to_wake_up wake_env wake_switching_world 1 3 0 1 130 130 = some (w1, 1) ∧
      try_to_wake_up wake_env w1 1 3 0 1 131 131 = some (w1, 0) ∧
      (w1.tasks 1).on_rq = 0 ∧ (w1.tasks 1).state = TASK_WAKING ∧
      (w1.rqs 0).nr_running = 1 ∧ (w1.rqs 0).wake_list = [1] ∧
      ((sched_ttwu_pending wake_env w1 0).tasks 1).on_rq = TASK_ON_RQ_QUEUED ∧
      ((sched_ttwu_pending wake_env w1 0).rqs 0).nr_running = 2 ∧
      try_to_wake_up wake_env (sched_ttwu_pending wake_env w1 0) 1 3 0 1 131 131
        = some (sched_ttwu_pending wake_env w1 0, 0)) := by
  have hrefl : ∀ c, wake_env.same_freq_domain c c = true := fun c => beq_self_eq_true c
  have henq : ∀ rq p f, (wake_env.class_enqueue_task rq p f).nr_running = rq.nr_running + 1 :=
    fun _ _ _ => rfl
  have hcs : ∀ t, (wake_env.cpuset_cpus_allowed_fallback t).state = t.state ∧
      (wake_env.cpuset_cpus_allowed_fallback t).on_rq = t.on_rq := fun _ => ⟨rfl, rfl⟩
  have hlen : ∀ q, (wake_switching_world.tasks q).ravg.sum_history.length = 5 := by
    intro q
    unfold wake_switching_world wake_world
    dsimp only
    split_ifs <;> rfl
  refine ⟨by decide, ?_, ?_⟩
  · obtain ⟨t1, t2⟩ := try_to_wake_up_at_most_once wake_env wake_switching_world
      1 3 0 0 130 130 hrefl henq hcs (by decide) (by decide) (by decide)
    obtain ⟨w5, heavy, hsmp⟩ := t2 (by decide) (by decide) (by decide) (by decide) (by decide)
      (by decide) hlen (fun _ _ _ => rfl) (by decide) (by decide)
    obtain ⟨w1, a, b, c, _⟩ := t1 w5 _ _ heavy hsmp
    obtain ⟨c1, c2, c3, c4⟩ := c (by decide)
    exact ⟨w1, a, b 0 0 131 131, c1, c2, c3.trans (by decide),
      (c4 1 (by decide)).trans (by decide)⟩
  · obtain ⟨t1, t2⟩ := try_to_wake_up_at_most_once wake_env wake_switching_world
      1 3 0 1 130 130 hrefl henq hcs (by decide) (by decide) (by decide)
    obtain ⟨w5, heavy, hsmp⟩ := t2 (by decide) (by decide) (by decide) (by decide) (by decide)
      (by decide) hlen (fun _ _ _ => rfl) (by decide) (by decide)
    obtain ⟨w1, a, b, _, d⟩ := t1 w5 _ _ heavy hsmp
    obtain ⟨d1, d2, d3, d4, _, d6, _, d8, _, d10⟩ := d (by decide)
    exact ⟨w1, a, b 0 1 131 131, d1, d2, (d3 0).trans (by decide), d4.trans (by decide),
      d6, d8.trans (by decide), d10 0 1 131 131⟩

/-! ## Returning from the tick -/

theorem set_window_start_started (g : Globals) (sync_cpu now : Nat) (w : World) (cpu : Nat)
    (h : (w.rqs cpu).window_start ≠ 0) : set_window_start g sync_cpu now w cpu = w := by
  unfold set_window_start
  simp [h]

theorem early_detection_notify_window_start (g : Globals) (tasks : Nat → Task) (rq : Rq)
    (wallclock : Nat) :
    (early_detection_notify g tasks rq wallclock).1.window_start = rq.window_start := by
  unfold early_detection_notify
  split
  · rfl
  · split <;> rfl

/-- One tick returns, meeting no `BUG()`, on a queue whose window has started
not after the clock, under hooks that leave `window_start` and the length of
the histories alone; and it leaves the queue and the tasks so. -/
theorem scheduler_tick_returns (env : TickEnv) (w : World) (cpu now wallclock : Nat)
    (hW : 0 < env.sched_ravg_window)
    (h1 : 1 ≤ env.sched_ravg_hist_size) (h5 : env.sched_ravg_hist_size ≤ 5)
    (hws : (w.rqs cpu).window_start ≠ 0)
    (hlen : ∀ q, (w.tasks q).ravg.sum_history.length = 5)
    (hge : (w.rqs cpu).window_start ≤ wallclock)
    (h63 : wallclock < 9223372036854775808)
    (h31 : wallclock / env.sched_ravg_window < 2147483648)
    (htick : ∀ (w : World) (c p : Nat), w.same_windows (env.class_task_tick w c p))
    (hmig : ∀ (w : World) (c p : Nat), w.same_windows (env.check_for_migration w c p)) :
    ∃ w1 b, scheduler_tick env w cpu now wallclock = some (w1, b) ∧
      (w1.rqs cpu).window_start ≠ 0 ∧ (w1.rqs cpu).window_start ≤ wallclock ∧
      ∀ q, (w1.tasks q).ravg.sum_history.length = 5 := by
  unfold scheduler_tick
  dsimp only
  rw [set_window_start_started env.toGlobals env.sync_cpu now w cpu hws]
  obtain ⟨k1, k2⟩ := htick w cpu (w.rqs cpu).curr
  obtain ⟨w3, e3, g3, l3, m3⟩ := world_update_task_ravg_returns env.toGlobals env.fixup
    (env.class_task_tick w cpu (w.rqs cpu).curr)
    ((env.class_task_tick w cpu (w.rqs cpu).curr).rqs cpu).curr cpu TaskEvent.TASK_UPDATE
    wallclock 0 hW (by rw [k1 cpu]; exact hge) h63 h31 h1 h5
    (fun q => by rw [k2 q]; exact hlen q)
  rw [k1 cpu] at m3
  rw [e3]
  dsimp only
  have n3 := early_detection_notify_window_start env.toGlobals w3.tasks (w3.rqs cpu) wallclock
  generalize early_detection_notify env.toGlobals w3.tasks (w3.rqs cpu) wallclock = r at n3
  have hw4 : ∀ al : List Nat,
      (({ w3 with rqs := Function.update w3.rqs cpu r.1, freq_alerts := al } : World).rqs
        cpu).window_start = (w3.rqs cpu).window_start := fun al => by
    simp only [Function.update_same]
    exact n3
  split
  · obtain ⟨j1, j2⟩ := hmig
      ({ w3 with rqs := Function.update w3.rqs cpu r.1,
                 freq_alerts := if r.2 then cpu :: w3.freq_alerts else w3.freq_alerts })
      cpu (w.rqs cpu).curr
    refine ⟨_, _, rfl, ?_, ?_, fun q => ?_⟩
    · rw [j1 cpu, hw4]
      omega
    · rw [j1 cpu, hw4]
      exact g3
    · rw [j2 q]
      exact l3 q
  · refine ⟨_, _, rfl, ?_, ?_, fun q => l3 q⟩
    · rw [hw4]
      omega
    · rw [hw4]
      exact g3

/-- A run of ticks returns, none meeting a `BUG()`, on a queue whose window
has started, when the clock values of the ticks are not before it and do not
run backwards. -/
theorem scheduler_tick_run_returns (env : TickEnv) (cpu : Nat) (ticks : List (Nat × Nat))
    (w : World)
    (hW : 0 < env.sched_ravg_window)
    (h1 : 1 ≤ env.sched_ravg_hist_size) (h5 : env.sched_ravg_hist_size ≤ 5)
    (hws : (w.rqs cpu).window_start ≠ 0)
    (hlen : ∀ q, (w.tasks q).ravg.sum_history.length = 5)
    (hclock : ∀ t ∈ ticks, (w.rqs cpu).window_start ≤ t.2 ∧ t.2 < 9223372036854775808 ∧
      t.2 / env.sched_ravg_window < 2147483648)
    (hmono : ticks.Pairwise (fun a b => a.2 ≤ b.2))
    (htick : ∀ (w : World) (c p : Nat), w.same_windows (env.class_task_tick w c p))
    (hmig : ∀ (w : World) (c p : Nat), w.same_windows (env.check_for_migration w c p)) :
    ∃ w1 k, scheduler_tick_run env cpu w ticks = some (w1, k) := by
  induction ticks generalizing w with
  | nil => exact ⟨w, 0, rfl⟩
  | cons t rest ih =>
    obtain ⟨c1, c2, c3⟩ := hclock t (List.mem_cons_self _ _)
    obtain ⟨wa, b, e, a1, a2, a3⟩ := scheduler_tick_returns env w cpu t.1 t.2 hW h1 h5 hws hlen
      c1 c2 c3 htick hmig
    have hp := List.pairwise_cons.mp hmono
    obtain ⟨w1, k, e1⟩ := ih wa a1 a3
      (fun u hu => ⟨le_trans a2 (hp.1 u hu), (hclock u (List.mem_cons_of_mem _ hu)).2⟩) hp.2
    unfold scheduler_tick_run
    rw [e]
    dsimp only
    rw [e1]
    exact ⟨_, _, rfl⟩

/-- C28: a run of consecutive `scheduler_tick` calls on one queue, with a
class hook `task_tick` and a `check_for_migration` that leave `cfs_tasks`,
`cfs.h_nr_running`, every `last_wake_ts` and the record of the notifier chain
alone (and `check_for_migration` also `ed_task`).  Unless a `BUG()` stops a
tick, the chain is called for early detection at most once in each call, and
the record of the chain grows by one entry of the processor for each such
call.  When the boost is on, the queue counts a fair task, and one task among
the first ten of `cfs_tasks` has waited `sysctl_early_detection_duration`
since its last wake at every tick of the run, the chain is called in every
tick, so as many times as there are ticks; the task stays among the first ten
with its wake stamp, and the last tick leaves in `ed_task` the first of the
first ten tasks that has waited the duration at that tick.  And no tick meets
a `BUG()`, so that the run returns, when the window of the queue has started,
the clock values of the ticks are not before it and do not run backwards
(fewer than `2^31` windows on the clock), and the two hooks leave
`window_start` and the length of the histories alone. -/
theorem scheduler_tick_run_early_detection (env : TickEnv) (cpu : Nat)
    (ticks : List (Nat × Nat)) (w : World)
    (htick : ∀ (w : World) (c p : Nat), w.same_waiters (env.class_task_tick w c p))
    (hmig : ∀ (w : World) (c p : Nat), w.same_waiters (env.check_for_migration w c p) ∧
      ∀ d, ((env.check_for_migration w c p).rqs d).ed_task = (w.rqs d).ed_task) :
    (∀ (w1 : World) (k : Nat), scheduler_tick_run env cpu w ticks = some (w1, k) →
      k ≤ ticks.length ∧
      w1.freq_alerts = List.replicate k cpu ++ w.freq_alerts ∧
      ∀ pid, env.sched_boost = true → (w.rqs cpu).cfs_h_nr_running ≠ 0 →
        pid ∈ (w.rqs cpu).cfs_tasks.take 10 →
        (∀ t ∈ ticks,
          env.sysctl_early_detection_duration ≤ sub64 t.2 (w.tasks pid).last_wake_ts) →
        k = ticks.length ∧
        pid ∈ (w1.rqs cpu).cfs_tasks.take 10 ∧
        (w1.tasks pid).last_wake_ts = (w.tasks pid).last_wake_ts ∧
        ∀ t, ticks.getLast? = some t →
          (w1.rqs cpu).ed_task
            = ((w.rqs cpu).cfs_tasks.take 10).find? (fun q =>
                decide (env.sysctl_early_detection_duration
                  ≤ sub64 t.2 (w.tasks q).last_wake_ts)) ∧
          ∃ q, (w1.rqs cpu).ed_task = some q ∧ q ∈ (w.rqs cpu).cfs_tasks.take 10 ∧
            env.sysctl_early_detection_duration ≤ sub64 t.2 (w.tasks q).last_wake_ts) ∧
    (0 < env.sched_ravg_window →
      1 ≤ env.sched_ravg_hist_size → env.sched_ravg_hist_size ≤ 5 →
      (w.rqs cpu).window_start ≠ 0 →
      (∀ q, (w.tasks q).ravg.sum_history.length = 5) →
      (∀ t ∈ ticks, (w.rqs cpu).window_start ≤ t.2 ∧ t.2 < 9223372036854775808 ∧
        t.2 / env.sched_ravg_window < 2147483648) →
      ticks.Pairwise (fun a b => a.2 ≤ b.2) →
      (∀ (w : World) (c p : Nat), w.same_windows (env.class_task_tick w c p)) →
      (∀ (w : World) (c p : Nat), w.same_windows (env.check_for_migration w c p)) →
      ∃ w1 k, scheduler_tick_run env cpu w ticks = some (w1, k)) := by
  refine ⟨fun w1 k h => ?_,
    fun hW h1 h5 hws hlen hclock hmono htick2 hmig2 =>
      scheduler_tick_run_returns env cpu ticks w hW h1 h5 hws hlen hclock hmono htick2 hmig2⟩
  · obtain ⟨a1, a2⟩ := scheduler_tick_run_alerts env cpu ticks w w1 k htick hmig h
    refine ⟨a1, a2, fun pid hboost hnr hq hwait => ?_⟩
    obtain ⟨b1, b2, b3, b4⟩ :=
      scheduler_tick_run_waiting env cpu pid ticks w w1 k htick hmig hboost hnr hq hwait h
    refine ⟨b1, by rw [(b2 cpu).1]; exact hq, b3 pid, fun t ht => ⟨b4 t ht, ?_⟩⟩
    have hsome : (((w.rqs cpu).cfs_tasks.take 10).find? (fun q =>
        decide (env.sysctl_early_detection_duration
          ≤ sub64 t.2 (w.tasks q).last_wake_ts))).isSome = true := by
      rw [List.find?_isSome]
      exact ⟨pid, hq, by simpa using hwait t (List.mem_of_mem_getLast? ht)⟩
    obtain ⟨q, eq⟩ := Option.isSome_iff_exists.mp hsome
    refine ⟨q, (b4 t ht).trans eq, List.mem_of_find?_eq_some eq, ?_⟩
    simpa using List.find?_some eq

theorem scheduler_tick_run_early_detection_witness :
    c28_env.sched_boost = true ∧ (c28_world.rqs 0).cfs_h_nr_running ≠ 0 ∧
    7 ∈ (c28_world.rqs 0).cfs_tasks.take 10 ∧
    (∀ t ∈ [(126, 126), (130, 130)],
      c28_env.sysctl_early_detection_duration ≤ sub64 t.2 (c28_world.tasks 7).last_wake_ts) ∧
    ∃ w1 k, scheduler_tick_run c28_env 0 c28_world [(126, 126), (130, 130)] = some (w1, k) ∧
      k = 2 ∧ w1.freq_alerts = [0, 0] ∧ (w1.rqs 0).ed_task = some 7 ∧
      7 ∈ (w1.rqs 0).cfs_tasks.take 10 := by
  have hw : ∀ t ∈ [(126, 126), (130, 130)],
      c28_env.sysctl_early_detection_duration ≤ sub64 t.2 (c28_world.tasks 7).last_wake_ts := by
    decide!
  have hlen : ∀ q, (c28_world.tasks q).ravg.sum_history.length = 5 := by
    intro q
    unfold c28_world
    dsimp only
    split_ifs <;> rfl
  obtain ⟨t1, t2⟩ := scheduler_tick_run_early_detection c28_env 0 [(126, 126), (130, 130)]
    c28_world (fun w _ _ => same_waiters_refl w)
    (fun w _ _ => ⟨same_waiters_refl w, fun _ => rfl⟩)
  obtain ⟨w1, k, hrun⟩ := t2 (by decide) (by decide) (by decide) (by decide) hlen (by decide)
    (by decide) (fun _ _ _ => ⟨fun _ => rfl, fun _ => rfl⟩)
    (fun _ _ _ => ⟨fun _ => rfl, fun _ => rfl⟩)
  obtain ⟨_, a2, a3⟩ := t1 w1 k hrun
  obtain ⟨u1, u2, _, u4⟩ := a3 7 (by decide) (by decide) (by decide) hw
  obtain ⟨v1, _⟩ := u4 (130, 130) (by decide)
  refine ⟨by decide, by decide, by decide, hw, w1, k, hrun, u1, ?_, v1.trans (by decide!), u2⟩
  rw [a2, u1]
  decide

end Sched
